import Mathlib

/-!
# MC68000 microcoded division (DIVU / DIVS)

A shallow embedding of `src/68000.h`, `src/68000_Common.cpp`, `src/68000_Divu.cpp`
and `src/68000_Divs.cpp`, together with the reference timing functions of the
test-suite (`test/68000_Divu_Test.cpp`, `test/68000_Divs_Test.cpp`).

Machine integers are natural numbers; every assignment to a `uint16_t` field is
reduced modulo `65536` and every assignment to a `uint32_t` field modulo
`4294967296` wherever the C++ expression can leave the range.
-/

namespace M68k

/-! ## Microword labels (`68000.h`) -/

abbrev DVUR1 : Nat := 1

abbrev DVUM2 : Nat := 2

abbrev DVUM3 : Nat := 3

abbrev DVUM4 : Nat := 4

abbrev DVUM5 : Nat := 5

abbrev DVUM6 : Nat := 6

abbrev DVUM7 : Nat := 7

abbrev DVUM8 : Nat := 8

abbrev DVUM9 : Nat := 9

abbrev DVUMA : Nat := 10

abbrev DVUMB : Nat := 11

abbrev DVUMC : Nat := 12

abbrev DVUMD : Nat := 13

abbrev DVUME : Nat := 14

abbrev DVUMF : Nat := 15

abbrev DVUM0 : Nat := 16

abbrev DVUMZ : Nat := 20

abbrev DVS01 : Nat := 101

abbrev DVS03 : Nat := 103

abbrev DVS04 : Nat := 104

abbrev DVS05 : Nat := 105

abbrev DVS06 : Nat := 106

abbrev DVS07 : Nat := 107

abbrev DVS08 : Nat := 108

abbrev DVS09 : Nat := 109

abbrev DVS0A : Nat := 110

abbrev DVS0C : Nat := 112

abbrev DVS0D : Nat := 113

abbrev DVS0E : Nat := 114

abbrev DVS0F : Nat := 115

abbrev DVS10 : Nat := 116

abbrev DVS11 : Nat := 117

abbrev DVS12 : Nat := 118

abbrev DVS13 : Nat := 119

abbrev DVS14 : Nat := 120

abbrev DVS15 : Nat := 121

abbrev DVS16 : Nat := 122

abbrev DVS17 : Nat := 123

abbrev DVS1A : Nat := 126

abbrev DVS1B : Nat := 127

abbrev DVS1C : Nat := 128

abbrev DVS1D : Nat := 129

abbrev DVS1E : Nat := 130

abbrev DVS1F : Nat := 131

abbrev DVS20 : Nat := 132

abbrev LEAA2 : Nat := 200

abbrev TRAP0 : Nat := 300

abbrev A1 : Nat := 400

/-! ## Processor flags (`68000.h`) -/

def FLAG_X : Nat := 0x10

def FLAG_N : Nat := 0x08

def FLAG_Z : Nat := 0x04

def FLAG_V : Nat := 0x02

def FLAG_C : Nat := 0x01

/-- The register file `struct MC68000` of `68000.h`.  The fields `pc`, `au` and
`cycles` are `uint32_t`, all the others `uint16_t`. -/
structure MC68000 where
  microword : Nat
  rxdh : Nat
  rxdl : Nat
  rydl : Nat
  pc : Nat
  alue : Nat
  alub : Nat
  alu : Nat
  flags : Nat
  au : Nat
  ath : Nat
  atl : Nat
  cycles : Nat
  deriving DecidableEq, Repr

/-- Every field holds a value of its C++ type. -/
def MC68000.WF (m : MC68000) : Prop :=
  m.microword < 65536 ∧ m.rxdh < 65536 ∧ m.rxdl < 65536 ∧ m.rydl < 65536 ∧
  m.pc < 4294967296 ∧ m.alue < 65536 ∧ m.alub < 65536 ∧ m.alu < 65536 ∧
  m.flags < 65536 ∧ m.au < 4294967296 ∧ m.ath < 65536 ∧ m.atl < 65536 ∧
  m.cycles < 4294967296

instance (m : MC68000) : Decidable m.WF := by
  unfold MC68000.WF
  infer_instance

/-! ## ALU primitives (`68000_Common.cpp`)

Each primitive returns the updated register file together with the `uint16_t`
value the C++ member function returns. -/

/-- The C++ member `MC68000::AluOp_AND`. -/
def AluOp_AND (m : MC68000) (dst src : Nat) : MC68000 × Nat :=
  let oldFlags := m.flags
  let alu := dst &&& src
  let flags := m.flags &&& FLAG_X
  let flags := flags ||| (if alu &&& 0x8000 ≠ 0 then FLAG_N else 0)
  let flags := flags ||| (if alu = 0 then FLAG_Z else 0)
  ({ m with alu := alu, flags := flags }, oldFlags)

/-- The C++ member `MC68000::AluOp_SUB`. -/
def AluOp_SUB (m : MC68000) (dst src : Nat) : MC68000 × Nat :=
  let oldFlags := m.flags
  let alu := (dst + 65536 - src) % 65536
  let overflow := (dst ^^^ src) &&& (dst ^^^ alu)
  let carry := ((dst ^^^ src) ^^^ alu) ^^^ overflow
  let flags := 0
  let flags := flags ||| (if carry &&& 0x8000 ≠ 0 then FLAG_X else 0)
  let flags := flags ||| (if alu &&& 0x8000 ≠ 0 then FLAG_N else 0)
  let flags := flags ||| (if alu = 0 then FLAG_Z else 0)
  let flags := flags ||| (if overflow &&& 0x8000 ≠ 0 then FLAG_V else 0)
  let flags := flags ||| (if carry &&& 0x8000 ≠ 0 then FLAG_C else 0)
  ({ m with alu := alu, flags := flags }, oldFlags)

/-- The C++ member `MC68000::AluOp_SUBX`. -/
def AluOp_SUBX (m : MC68000) (dst src : Nat) : MC68000 × Nat :=
  let alu := (dst + 131072 - src - ((m.flags &&& FLAG_X) >>> 4)) % 65536
  ({ m with alu := alu }, m.flags)

/-- The C++ member `MC68000::AluOp_SLAAx`. -/
def AluOp_SLAAx (m : MC68000) (leastSignificantBit : Nat) : MC68000 × Nat :=
  let alu := (m.alu <<< 1) % 65536
  let alu := (alu + ((m.alue >>> 15) &&& 1)) % 65536
  let alue := (m.alue <<< 1) % 65536
  let alue := (alue + leastSignificantBit) % 65536
  ({ m with alu := alu, alue := alue }, m.flags)

/-! ## The micro-sequencers -/

/-- Outcome of one pass through the body of `while (true) { ... }`:
`next` stands for `break` out of the `switch` (the loop goes round again),
`ret` for `return`. -/
inductive Control where
  | next (m : MC68000)
  | ret (m : MC68000)
  deriving DecidableEq, Repr

/-- The loop `while (true) body`, run for at most `fuel` passes. -/
def whileTrue (body : MC68000 → Control) : Nat → MC68000 → Option MC68000
  | 0, _ => none
  | fuel + 1, m =>
    match body m with
    | Control.next m1 => whileTrue body fuel m1
    | Control.ret m1 => some m1

/-- The register file after `n` passes through the loop body none of which
returned (`none` when one of them returned). -/
def passes (body : MC68000 → Control) : Nat → MC68000 → Option MC68000
  | 0, m => some m
  | n + 1, m =>
    match body m with
    | Control.next m1 => passes body n m1
    | Control.ret _ => none

/-- One pass through the loop body of `MC68000::ExecuteDivu`
(`cycles += 2u; switch (microword) ...`). -/
def ExecuteDivu_body (m0 : MC68000) : Control :=
  let m := { m0 with cycles := (m0.cycles + 2) % 4294967296 }
  if m.microword = DVUR1 then
    let m := { m with pc := m.au }
    let m := { m with alue := m.rxdl }
    let m := { m with alub := m.rydl }
    let m := { m with ath := m.rydl }
    let r := AluOp_AND m m.rydl 0xFFFF
    Control.next { r.1 with microword := DVUM2 }
  else if m.microword = DVUM2 then
    let r := AluOp_SUB m m.rxdh m.alub
    let oldFlags := r.2
    Control.next { r.1 with microword := if oldFlags &&& FLAG_Z ≠ 0 then TRAP0 else DVUM3 }
  else if m.microword = DVUM3 then
    let m := { m with au := 15 + 1 }
    let m := { m with atl := m.rxdh }
    let r := AluOp_AND m m.rxdh 0xFFFF
    let oldFlags := r.2
    Control.next { r.1 with microword := if oldFlags &&& FLAG_C ≠ 0 then DVUM5 else DVUM4 }
  else if m.microword = DVUM5 then
    let m := { m with au := (m.au + 4294967296 - 1) % 4294967296 }
    let r := AluOp_SLAAx m 0
    let oldFlags := r.2
    Control.next { r.1 with microword := if oldFlags &&& FLAG_N ≠ 0 then DVUM7 else DVUM8 }
  else if m.microword = DVUM6 then
    let m := { m with au := (m.au + 4294967296 - 1) % 4294967296 }
    let r := AluOp_SLAAx m 1
    let oldFlags := r.2
    Control.next { r.1 with microword := if oldFlags &&& FLAG_N ≠ 0 then DVUM7 else DVUM8 }
  else if m.microword = DVUM7 then
    let m := { m with atl := m.alu }
    let r := AluOp_SUB m m.alu m.alub
    Control.next { r.1 with microword := if r.1.au ≠ 0 then DVUM6 else DVUM9 }
  else if m.microword = DVUM8 then
    let m := { m with atl := m.alu }
    let r := AluOp_SUB m m.alu m.alub
    Control.next { r.1 with microword := if r.1.au ≠ 0 then DVUMB else DVUMC }
  else if m.microword = DVUM9 then
    let m := { m with rxdh := m.alu }
    let r := AluOp_AND m m.alu 0
    Control.next { r.1 with microword := DVUMD }
  else if m.microword = DVUMB then
    let oldFlags := m.flags
    Control.next { m with microword := if oldFlags &&& FLAG_C ≠ 0 then DVUME else DVUM6 }
  else if m.microword = DVUMC then
    let m := { m with rxdh := m.alu }
    let r := AluOp_AND m m.alu 0
    let oldFlags := r.2
    Control.next { r.1 with microword := if oldFlags &&& FLAG_C ≠ 0 then DVUMF else DVUMD }
  else if m.microword = DVUMD then
    let m := { m with au := (m.pc + 2) % 4294967296 }
    let m := { m with alub := m.alu }
    let r := AluOp_SLAAx m 1
    Control.next { r.1 with microword := DVUM0 }
  else if m.microword = DVUME then
    let r := AluOp_AND m m.atl 0xFFFF
    Control.next { r.1 with microword := DVUM5 }
  else if m.microword = DVUMF then
    let m := { m with au := (m.pc + 2) % 4294967296 }
    let m := { m with alub := m.alu }
    let m := { m with rxdh := m.atl }
    let r := AluOp_SLAAx m 0
    Control.next { r.1 with microword := DVUM0 }
  else if m.microword = DVUM0 then
    let m := { m with rxdl := m.alue }
    let r := AluOp_SUB m m.alue m.alub
    Control.next { r.1 with microword := A1 }
  else if m.microword = DVUM4 then
    Control.next { m with microword := DVUMA }
  else if m.microword = DVUMA then
    Control.next { m with microword := A1 }
  else
    -- case TRAP0, case A1, default
    Control.ret { m with cycles := (m.cycles + 4294967296 - 2) % 4294967296 }

/-- The labels that have an explicit `case` in the `switch` of
`MC68000::ExecuteDivu`. -/
def ExecuteDivu_cases : List Nat :=
  [DVUR1, DVUM2, DVUM3, DVUM5, DVUM6, DVUM7, DVUM8, DVUM9, DVUMB, DVUMC, DVUMD,
   DVUME, DVUMF, DVUM0, DVUM4, DVUMA, TRAP0, A1]

/-- The register file after the assignment `microword = DVUR1` that opens
`MC68000::ExecuteDivu`. -/
def divuStart (m : MC68000) : MC68000 := { m with microword := DVUR1 }

/-- The C++ member `MC68000::ExecuteDivu`: `microword = DVUR1; while (true) ...`.
`Print()` only writes to the console and is left out.  No run needs more than 69 of
the 128 passes allowed here; the result is `none` only if they were to run out. -/
def ExecuteDivu (m : MC68000) : Option MC68000 :=
  whileTrue ExecuteDivu_body 128 (divuStart m)

/-- One pass through the loop body of `MC68000::ExecuteDivs`
(`cycles += 2u; switch (microword) ...`). -/
def ExecuteDivs_body (m0 : MC68000) : Control :=
  let m := { m0 with cycles := (m0.cycles + 2) % 4294967296 }
  if m.microword = DVS01 then
    let m := { m with pc := m.au }
    let m := { m with alue := m.rxdl }
    let m := { m with alub := m.rydl }
    let m := { m with ath := m.rydl }
    let r := AluOp_AND m m.rydl 0xFFFF
    Control.next { r.1 with microword := DVS03 }
  else if m.microword = DVS03 then
    let r := AluOp_SUB m 0 m.alub
    let oldFlags := r.2
    Control.next { r.1 with microword :=
      if oldFlags &&& FLAG_Z ≠ 0 then TRAP0
      else if oldFlags &&& FLAG_N ≠ 0 then DVS05 else DVS04 }
  else if m.microword = DVS04 then
    let m := { m with au := 15 + 1 }
    let m := { m with atl := m.rxdh }
    let r := AluOp_AND m m.rxdh 0xFFFF
    Control.next { r.1 with microword := DVS06 }
  else if m.microword = DVS05 then
    let m := { m with au := 15 + 1 }
    let m := { m with atl := m.rxdh }
    let m := { m with alub := m.alu }
    let r := AluOp_AND m m.rxdh 0xFFFF
    Control.next { r.1 with microword := DVS06 }
  else if m.microword = DVS06 then
    let r := AluOp_SUB m 0 m.rxdl
    let oldFlags := r.2
    Control.next { r.1 with microword := if oldFlags &&& FLAG_N ≠ 0 then DVS10 else DVS07 }
  else if m.microword = DVS07 then
    let r := AluOp_SUB m m.atl m.alub
    Control.next { r.1 with microword := DVS08 }
  else if m.microword = DVS08 then
    let r := AluOp_AND m m.atl 0xFFFF
    let oldFlags := r.2
    Control.next { r.1 with microword := if oldFlags &&& FLAG_C ≠ 0 then DVS09 else DVUMZ }
  else if m.microword = DVS10 then
    let m := { m with alue := m.alu }
    let r := AluOp_SUBX m 0 m.rxdh
    Control.next { r.1 with microword := DVS11 }
  else if m.microword = DVS11 then
    let m := { m with atl := m.alu }
    let r := AluOp_SUB m m.atl m.alub
    Control.next { r.1 with microword := DVS08 }
  else if m.microword = DVS09 then
    let m := { m with au := (m.au + 4294967296 - 1) % 4294967296 }
    let r := AluOp_SLAAx m 0
    Control.next { r.1 with microword := DVS0C }
  else if m.microword = DVS0A then
    let m := { m with au := (m.au + 4294967296 - 1) % 4294967296 }
    let r := AluOp_SLAAx m 1
    Control.next { r.1 with microword := DVS0C }
  else if m.microword = DVS0C then
    let m := { m with atl := m.alu }
    let r := AluOp_SUB m m.alu m.alub
    Control.next { r.1 with microword := if r.1.au ≠ 0 then DVS0D else DVS0E }
  else if m.microword = DVS0D then
    let oldFlags := m.flags
    Control.next { m with microword := if oldFlags &&& FLAG_C ≠ 0 then DVS0F else DVS0A }
  else if m.microword = DVS0F then
    let r := AluOp_AND m m.atl 0xFFFF
    Control.next { r.1 with microword := DVS09 }
  else if m.microword = DVS0E then
    let oldFlags := m.flags
    Control.next { m with microword := if oldFlags &&& FLAG_C ≠ 0 then DVS12 else DVS13 }
  else if m.microword = DVS12 then
    let r := AluOp_SLAAx m 0
    Control.next { r.1 with microword := DVS14 }
  else if m.microword = DVS13 then
    let m := { m with atl := m.alu }
    let r := AluOp_SLAAx m 1
    Control.next { r.1 with microword := DVS14 }
  else if m.microword = DVS14 then
    let r := AluOp_AND m m.ath 0xFFFF
    Control.next { r.1 with microword := DVS15 }
  else if m.microword = DVS15 then
    let m := { m with alub := m.alue }
    let r := AluOp_AND m m.rxdh 0xFFFF
    let oldFlags := r.2
    Control.next { r.1 with microword := if oldFlags &&& FLAG_N ≠ 0 then DVS1D else DVS16 }
  else if m.microword = DVS16 then
    let m := { m with ath := m.atl }
    let r := AluOp_AND m m.alub 0xFFFF
    let oldFlags := r.2
    Control.next { r.1 with microword := if oldFlags &&& FLAG_N ≠ 0 then DVS1A else DVS17 }
  else if m.microword = DVS1D then
    let m := { m with ath := m.atl }
    let r := AluOp_AND m m.alub 0xFFFF
    let oldFlags := r.2
    Control.next { r.1 with microword := if oldFlags &&& FLAG_N ≠ 0 then DVS1E else DVS1F }
  else if m.microword = DVS17 then
    let m := { m with atl := m.alu }
    let r := AluOp_AND m m.alub 0xFFFF
    let oldFlags := r.2
    Control.next { r.1 with microword := if oldFlags &&& FLAG_N ≠ 0 then DVUMA else LEAA2 }
  else if m.microword = DVS1A then
    let r := AluOp_SUB m 0 m.alub
    Control.next { r.1 with microword := DVS1B }
  else if m.microword = DVS1B then
    let m := { m with alub := m.alu }
    let m := { m with atl := m.alu }
    let r := AluOp_SUB m 0 m.ath
    let oldFlags := r.2
    Control.next { r.1 with microword :=
      if oldFlags &&& (FLAG_N ||| FLAG_Z) = 0 then DVUM4 else DVS1C }
  else if m.microword = DVS1C then
    let m := { m with ath := m.alu }
    let r := AluOp_AND m m.alub 0xFFFF
    Control.next { r.1 with microword := LEAA2 }
  else if m.microword = DVS1F then
    let r := AluOp_SUB m 0 m.alub
    Control.next { r.1 with microword := DVS20 }
  else if m.microword = DVS20 then
    let m := { m with atl := m.alu }
    let m := { m with alub := m.alu }
    let r := AluOp_AND m m.alub 0xFFFF
    let oldFlags := r.2
    Control.next { r.1 with microword :=
      if oldFlags &&& (FLAG_N ||| FLAG_Z) = 0 then DVUMA else LEAA2 }
  else if m.microword = DVS1E then
    let m := { m with alub := m.alu }
    let m := { m with atl := m.alu }
    let r := AluOp_SUB m 0 m.ath
    let oldFlags := r.2
    Control.next { r.1 with microword := if oldFlags &&& FLAG_N ≠ 0 then DVUM4 else DVS1C }
  else if m.microword = LEAA2 then
    let m := { m with rxdh := m.ath }
    let m := { m with rxdl := m.atl }
    Control.next { m with microword := A1 }
  else if m.microword = DVUM4 ∨ m.microword = DVUMZ then
    Control.next { m with microword := DVUMA }
  else if m.microword = DVUMA then
    Control.next { m with microword := A1 }
  else
    -- case TRAP0, case A1, default
    Control.ret { m with cycles := (m.cycles + 4294967296 - 2) % 4294967296 }

/-- The labels that have an explicit `case` in the `switch` of
`MC68000::ExecuteDivs`. -/
def ExecuteDivs_cases : List Nat :=
  [DVS01, DVS03, DVS04, DVS05, DVS06, DVS07, DVS08, DVS10, DVS11, DVS09, DVS0A,
   DVS0C, DVS0D, DVS0F, DVS0E, DVS12, DVS13, DVS14, DVS15, DVS16, DVS1D, DVS17,
   DVS1A, DVS1B, DVS1C, DVS1F, DVS20, DVS1E, LEAA2, DVUM4, DVUMZ, DVUMA, TRAP0, A1]

/-- The register file after the assignment `microword = DVS01` that opens
`MC68000::ExecuteDivs`. -/
def divsStart (m : MC68000) : MC68000 := { m with microword := DVS01 }

/-- The C++ member `MC68000::ExecuteDivs`: `microword = DVS01; while (true) ...`.
`Print()` only writes to the console and is left out.  No run needs more than 79 of
the 128 passes allowed here; the result is `none` only if they were to run out. -/
def ExecuteDivs (m : MC68000) : Option MC68000 :=
  whileTrue ExecuteDivs_body 128 (divsStart m)

/-! ## Reference timing functions of the test-suite -/

/-- The `for` loop of `DivideUnsignedCycles` (`test/68000_Divu_Test.cpp`), with
`n` iterations still to run; `dividend` and `cycles` are `uint32_t`. -/
def DivideUnsignedCycles_loop (alignedDivisor : Nat) : Nat → Nat → Nat → Nat
  | 0, _, cycles => cycles
  | n + 1, dividend, cycles =>
    let cycles := (cycles + 2 * 2) % 4294967296
    let previous := dividend
    let dividend := (dividend <<< 1) % 4294967296
    if previous &&& 0x80000000 ≠ 0 then
      DivideUnsignedCycles_loop alignedDivisor n
        ((dividend + 4294967296 - alignedDivisor) % 4294967296) cycles
    else if dividend ≥ alignedDivisor then
      DivideUnsignedCycles_loop alignedDivisor n
        ((dividend + 4294967296 - alignedDivisor) % 4294967296) ((cycles + 1 * 2) % 4294967296)
    else
      DivideUnsignedCycles_loop alignedDivisor n dividend ((cycles + 2 * 2) % 4294967296)

/-- The test helper `DivideUnsignedCycles(uint32_t dividend, uint16_t divisor)`.
The `int` value `divisor << 16u` is only ever used converted to `uint32_t`. -/
def DivideUnsignedCycles (dividend divisor : Nat) : Nat :=
  let cycles := 2 * 2
  if divisor = 0 then 0
  else
    let cycles := cycles + 1 * 2
    if dividend / divisor ≥ 0x10000 then cycles + 2 * 2
    else
      let alignedDivisor := (divisor <<< 16) % 4294967296
      let cycles := DivideUnsignedCycles_loop alignedDivisor 15 dividend cycles
      let cycles := (cycles + 4 * 2) % 4294967296
      (cycles + 1 * 2) % 4294967296

/-- The test helper `SignBit` at type `uint32_t`. -/
def SignBit32 (v : Nat) : Bool := v &&& (1 <<< 31) ≠ 0

/-- The test helper `SignBit` at type `uint16_t`. -/
def SignBit16 (v : Nat) : Bool := v &&& (1 <<< 15) ≠ 0

/-- The test helper `AbsoluteValue` at type `uint32_t`. -/
def AbsoluteValue32 (v : Nat) : Nat :=
  if SignBit32 v then (4294967296 - v) % 4294967296 else v

/-- The test helper `AbsoluteValue` at type `uint16_t` (the `int` value `-v` is
converted back to `uint16_t` on return). -/
def AbsoluteValue16 (v : Nat) : Nat :=
  if SignBit16 v then (65536 - v) % 65536 else v

/-- The `for` loop of `DivideSignedCycles` (`test/68000_Divs_Test.cpp`), with
`n` iterations still to run. -/
def DivideSignedCycles_loop (alignedDivisor : Nat) : Nat → Nat → Nat → Nat
  | 0, _, cycles => cycles
  | n + 1, absDividend, cycles =>
    let cycles := (cycles + 3 * 2) % 4294967296
    let absDividend := (absDividend <<< 1) % 4294967296
    if absDividend ≥ alignedDivisor then
      DivideSignedCycles_loop alignedDivisor n
        ((absDividend + 4294967296 - alignedDivisor) % 4294967296) cycles
    else
      DivideSignedCycles_loop alignedDivisor n absDividend ((cycles + 2) % 4294967296)

/-- The test helper `DivideSignedCycles(uint32_t dividend, uint16_t divisor)`.
The `int` value `absDivisor << 16u` is only ever used converted to `uint32_t`. -/
def DivideSignedCycles (dividend divisor : Nat) : Nat :=
  let cycles := 2 * 2
  if divisor = 0 then 0
  else
    let cycles := if SignBit32 dividend then cycles + 5 * 2 else cycles + 4 * 2
    let absDividend := AbsoluteValue32 dividend
    let absDivisor := AbsoluteValue16 divisor
    if absDividend / absDivisor ≥ 0x10000 then cycles + 2 * 2
    else
      let alignedDivisor := (absDivisor <<< 16) % 4294967296
      let cycles := DivideSignedCycles_loop alignedDivisor 15 absDividend cycles
      let cycles := (cycles + 5 * 2) % 4294967296
      let cycles :=
        if SignBit16 divisor then (cycles + 4 * 2) % 4294967296
        else if SignBit32 dividend then (cycles + 5 * 2) % 4294967296
        else (cycles + 3 * 2) % 4294967296
      (cycles + 1 * 2) % 4294967296

/-- A register file as the tests build it: all fields zero except the operands. -/
def testInput (dividend divisor : Nat) : MC68000 :=
  { microword := 0, rxdh := (dividend >>> 16) % 65536, rxdl := dividend % 65536,
    rydl := divisor, pc := 0, alue := 0, alub := 0, alu := 0, flags := 0, au := 0,
    ath := 0, atl := 0, cycles := 0 }

/-! ## Auxiliary definitions used in the proofs -/

/-- The flags register as `AluOp_AND` leaves it, from the old flags and the result. -/
def andFlags (f alu : Nat) : Nat :=
  ((f &&& FLAG_X) ||| (if alu &&& 0x8000 ≠ 0 then FLAG_N else 0)) |||
    (if alu = 0 then FLAG_Z else 0)

/-- The flags register as `AluOp_SUB dst src` leaves it. -/
def subFlags (dst src : Nat) : Nat :=
  let alu := (dst + 65536 - src) % 65536
  let overflow := (dst ^^^ src) &&& (dst ^^^ alu)
  let carry := ((dst ^^^ src) ^^^ alu) ^^^ overflow
  ((((0 ||| (if carry &&& 0x8000 ≠ 0 then FLAG_X else 0)) |||
    (if alu &&& 0x8000 ≠ 0 then FLAG_N else 0)) |||
    (if alu = 0 then FLAG_Z else 0)) |||
    (if overflow &&& 0x8000 ≠ 0 then FLAG_V else 0)) |||
    (if carry &&& 0x8000 ≠ 0 then FLAG_C else 0)

/-- The increase of the `uint32_t` cycle counter between two register files. -/
def cyclesSpent (before after : MC68000) : Nat :=
  (after.cycles + 4294967296 - before.cycles) % 4294967296

/-! ## Auxiliary definitions: the restoring-division loop on its working triple -/

/-- The part of the register file the restoring-division loop works on: the
`alu:alue` pair and the quotient bit the next shift state will inject. -/
structure Work where
  alu : Nat
  alue : Nat
  bit : Nat

/-- One shift state followed by one subtract state (and the restore, if any), on the
working triple; `d` is the content of `alub`. -/
def shiftSub (d : Nat) (w : Work) : Work :=
  let a := (2 * w.alu + w.alue / 32768) % 65536
  let e := (2 * w.alue + w.bit) % 65536
  if 32768 ≤ w.alu then ⟨(a + 65536 - d) % 65536, e, 1⟩
  else if d ≤ a then ⟨a - d, e, 1⟩
  else ⟨a, e, 0⟩

/-- The working triple after `n` iterations. -/
def shiftSubN (d : Nat) : Nat → Work → Work
  | 0, w => w
  | n + 1, w => shiftSubN d n (shiftSub d w)

/-- Passes through the loop body of `ExecuteDivu` spent on one iteration other than
the last: DVUM5/6, DVUM7 | DVUM5/6, DVUM8, DVUMB | DVUM5/6, DVUM8, DVUMB, DVUME. -/
def divuCost (d : Nat) (w : Work) : Nat :=
  if 32768 ≤ w.alu then 2
  else if d ≤ (2 * w.alu + w.alue / 32768) % 65536 then 3 else 4

/-- Passes spent on `n` iterations of the unsigned loop. -/
def divuPasses (d : Nat) : Nat → Work → Nat
  | 0, _ => 0
  | n + 1, w => divuCost d w + divuPasses d n (shiftSub d w)

/-- Passes through the loop body of `ExecuteDivs` spent on one iteration other than
the last: DVS09/A, DVS0C, DVS0D | DVS09/A, DVS0C, DVS0D, DVS0F. -/
def divsCost (d : Nat) (w : Work) : Nat :=
  if d ≤ (2 * w.alu + w.alue / 32768) % 65536 then 3 else 4

/-- Passes spent on `n` iterations of the signed loop. -/
def divsPasses (d : Nat) : Nat → Work → Nat
  | 0, _ => 0
  | n + 1, w => divsCost d w + divsPasses d n (shiftSub d w)

/-- Loop invariant of the restoring division on the working triple. -/
def Work.Ok (d : Nat) (w : Work) : Prop :=
  w.alu < d ∧ w.alue < 65536 ∧ w.bit ≤ 1

/-- The lower half `L` of the reference dividend agrees with `alue` above the `j`
quotient bits already shifted into `alue`. -/
def LowRel (j L e : Nat) : Prop :=
  L / 2 ^ j = e / 2 ^ j ∧ L % 2 ^ j = 0

/-- The reference dividend `D` of the timing loop matches the working triple after `j`
iterations. -/
def RefRel (j : Nat) (w : Work) (D : Nat) : Prop :=
  D < 4294967296 ∧ D / 65536 = w.alu ∧ LowRel j (D % 65536) w.alue

/-! ## Auxiliary definitions: register files at the loop heads -/

/-- The register file sits at a shift state of the unsigned loop (DVUM5 or DVUM6) with
working triple `w`, loop counter `k` and the divisor `d` in `alub` and `rydl`; the N flag
mirrors bit 15 of `alu`. -/
def DivuAt (d : Nat) (m : MC68000) (w : Work) (k : Nat) : Prop :=
  m.WF ∧ m.microword = (if w.bit = 1 then DVUM6 else DVUM5) ∧ m.alu = w.alu ∧
  m.alue = w.alue ∧ m.au = k ∧ m.alub = d ∧ m.rydl = d ∧
  (m.flags &&& FLAG_N = 0 ↔ m.alu < 32768)

/-- The register file sits at a shift state of the signed loop (DVS09 or DVS0A) with
working triple `w`, loop counter `k` and absolute divisor `d` in `alub`; the operand
registers and the copy of the divisor in `ath` are those of `m0`. -/
def DivsAt (m0 : MC68000) (d : Nat) (m : MC68000) (w : Work) (k : Nat) : Prop :=
  m.WF ∧ m.microword = (if w.bit = 1 then DVS0A else DVS09) ∧ m.alu = w.alu ∧
  m.alue = w.alue ∧ m.au = k ∧ m.alub = d ∧ m.ath = m0.rydl ∧ m.rxdh = m0.rxdh ∧
  m.rxdl = m0.rxdl ∧ m.rydl = m0.rydl

/-- Absolute value of the divisor as the signed engine computes it (DVS03, DVS05). -/
def absDivisor (rydl : Nat) : Nat :=
  if 32768 ≤ rydl then 65536 - rydl else rydl

/-- Lower half of the absolute dividend as the signed engine computes it (DVS06, DVS10). -/
def absLo (rxdh rxdl : Nat) : Nat :=
  if 32768 ≤ rxdh then (65536 - rxdl) % 65536 else rxdl

/-- Upper half of the absolute dividend as the signed engine computes it (DVS10). -/
def absHi (rxdh rxdl : Nat) : Nat :=
  if 32768 ≤ rxdh then (131072 - rxdh - (if 0 < rxdl then 1 else 0)) % 65536 else rxdh

/-- Passes through the loop body of `ExecuteDivs` from DVS14 to the pass that enters
`A1`: DVS14, the sign fix-up states, and LEAA2 or DVUMA. -/
def divsFixPasses (rxdh rydl : Nat) : Nat :=
  1 + (if 32768 ≤ rydl then 4 else if 32768 ≤ rxdh then 5 else 3) + 1

/-- The late overflow test of the signed engine on the absolute quotient `q`. -/
def divsOverflow (rxdh rydl q : Nat) : Prop :=
  if (32768 ≤ rxdh ↔ 32768 ≤ rydl) then 32768 ≤ q else 32768 < q

instance (rxdh rydl q : Nat) : Decidable (divsOverflow rxdh rydl q) := by
  unfold divsOverflow
  infer_instance

/-- The quotient pattern the signed engine writes back. -/
def divsQuot (rxdh rydl q : Nat) : Nat :=
  if (32768 ≤ rxdh ↔ 32768 ≤ rydl) then q else (65536 - q) % 65536

/-- The remainder pattern the signed engine writes back. -/
def divsRem (rxdh r : Nat) : Nat :=
  if 32768 ≤ rxdh then (65536 - r) % 65536 else r

/-! ## Auxiliary definitions: two's-complement reading of the operands -/

/-- A 16-bit pattern read as a two's-complement number. -/
def toInt16 (x : Nat) : Int := if 32768 ≤ x then (x : Int) - 65536 else x

/-- A 32-bit pattern read as a two's-complement number. -/
def toInt32 (x : Nat) : Int := if 2147483648 ≤ x then (x : Int) - 4294967296 else x

/-- The 16-bit two's-complement pattern of an integer. -/
def ofInt16 (z : Int) : Nat := (z % 65536).toNat

/-- The 32-bit dividend `rxdh:rxdl`, unsigned. -/
def dividend (m : MC68000) : Nat := m.rxdh * 65536 + m.rxdl

/-- The dividend `rxdh:rxdl` read as two's complement. -/
def signedDividend (m : MC68000) : Int := toInt32 (dividend m)

/-- The divisor `rydl` read as two's complement. -/
def signedDivisor (m : MC68000) : Int := toInt16 m.rydl

/-- The unsigned quotient `|D| / |d|`. -/
def absQuotient (m : MC68000) : Nat := (signedDividend m).natAbs / (signedDivisor m).natAbs

/-- The unsigned remainder `|D| mod |d|`. -/
def absRemainder (m : MC68000) : Nat := (signedDividend m).natAbs % (signedDivisor m).natAbs

/-- The dividend and the divisor have the same sign bit. -/
def sameSign (m : MC68000) : Prop := (signedDividend m < 0 ↔ signedDivisor m < 0)

instance (m : MC68000) : Decidable (sameSign m) := by
  unfold sameSign
  infer_instance

/-- The signed quotient: `q` when the operands have the same sign bit, `-q` otherwise. -/
def signedQuotient (m : MC68000) : Int :=
  if sameSign m then (absQuotient m : Int) else -(absQuotient m : Int)

/-- The signed remainder: `-r` when the dividend is negative, `r` otherwise. -/
def signedRemainder (m : MC68000) : Int :=
  if signedDividend m < 0 then -(absRemainder m : Int) else (absRemainder m : Int)

/-! ## Auxiliary definitions: control invariants -/

/-- A bound on the number of passes `ExecuteDivu` still makes from a register file
that satisfies `DivuCtl`. -/
def divuRank (m : MC68000) : Nat :=
  if m.microword = DVUR1 then 68
  else if m.microword = DVUM2 then 67
  else if m.microword = DVUM3 then 66
  else if m.microword = DVUM5 ∨ m.microword = DVUM6 then 4 * m.au + 1
  else if m.microword = DVUM7 ∨ m.microword = DVUM8 then 4 * m.au + 4
  else if m.microword = DVUMB then 4 * m.au + 3
  else if m.microword = DVUME then 4 * m.au + 2
  else if m.microword = DVUM9 ∨ m.microword = DVUMC then 3
  else if m.microword = DVUMD ∨ m.microword = DVUMF then 2
  else if m.microword = DVUM0 then 1
  else if m.microword = DVUM4 then 2
  else if m.microword = DVUMA then 1
  else 0

/-- Control invariant of `ExecuteDivu`: the label is one of the `case` labels and the
loop counter is in range for the label. -/
def DivuCtl (m : MC68000) : Prop :=
  m.microword ∈ ExecuteDivu_cases ∧
  (m.microword = DVUM5 ∨ m.microword = DVUM6 → 1 ≤ m.au ∧ m.au ≤ 16) ∧
  (m.microword = DVUM7 ∨ m.microword = DVUM8 → m.au ≤ 15) ∧
  (m.microword = DVUMB ∨ m.microword = DVUME → 1 ≤ m.au ∧ m.au ≤ 15)

/-- A bound on the number of passes `ExecuteDivs` still makes from a register file
that satisfies `DivsCtl`. -/
def divsRank (m : MC68000) : Nat :=
  if m.microword = DVS01 then 78
  else if m.microword = DVS03 then 77
  else if m.microword = DVS04 ∨ m.microword = DVS05 then 76
  else if m.microword = DVS06 then 75
  else if m.microword = DVS10 then 74
  else if m.microword = DVS07 ∨ m.microword = DVS11 then 73
  else if m.microword = DVS08 then 72
  else if m.microword = DVS09 ∨ m.microword = DVS0A then 4 * m.au + 7
  else if m.microword = DVS0C then 4 * m.au + 10
  else if m.microword = DVS0D then 4 * m.au + 9
  else if m.microword = DVS0F then 4 * m.au + 8
  else if m.microword = DVS0E then 9
  else if m.microword = DVS12 ∨ m.microword = DVS13 then 8
  else if m.microword = DVS14 then 7
  else if m.microword = DVS15 then 6
  else if m.microword = DVS16 then 5
  else if m.microword = DVS1D ∨ m.microword = DVS1A then 4
  else if m.microword = DVS1B ∨ m.microword = DVS1E ∨ m.microword = DVS1F then 3
  else if m.microword = DVS17 ∨ m.microword = DVS20 ∨ m.microword = DVS1C then 2
  else if m.microword = DVUM4 ∨ m.microword = DVUMZ then 2
  else if m.microword = LEAA2 ∨ m.microword = DVUMA then 1
  else 0

/-- Control invariant of `ExecuteDivs`. -/
def DivsCtl (m : MC68000) : Prop :=
  m.microword ∈ ExecuteDivs_cases ∧
  (m.microword = DVS09 ∨ m.microword = DVS0A → 1 ≤ m.au ∧ m.au ≤ 16) ∧
  (m.microword = DVS0C → m.au ≤ 15) ∧
  (m.microword = DVS0D ∨ m.microword = DVS0F → 1 ≤ m.au ∧ m.au ≤ 15) ∧
  (m.microword = DVS06 ∨ m.microword = DVS07 ∨ m.microword = DVS08 ∨ m.microword = DVS10 ∨
    m.microword = DVS11 → m.au = 16)

/-- How `ExecuteDivu` treats the loop counter `au` at a register file `s` it is about
to dispatch: DVUM3 sets it to 16 and enters the main loop or the overflow exit; a shift
state (DVUM5, DVUM6) finds it in `1..16` and decrements it; a subtract state (DVUM7,
DVUM8) keeps it, stays in the loop when it is not 0 and leaves the loop (DVUM9, DVUMC)
when it is 0; the idle and restore states (DVUMB, DVUME) keep it. -/
def DivuCounter (s : MC68000) : Prop :=
  (s.microword = DVUM3 →
    ∃ s1, ExecuteDivu_body s = Control.next s1 ∧ s1.au = 16 ∧
      (s1.microword = DVUM5 ∨ s1.microword = DVUM4)) ∧
  (s.microword = DVUM5 ∨ s.microword = DVUM6 →
    1 ≤ s.au ∧ s.au ≤ 16 ∧
    ∃ s1, ExecuteDivu_body s = Control.next s1 ∧ s1.au + 1 = s.au ∧
      (s1.microword = DVUM7 ∨ s1.microword = DVUM8)) ∧
  (s.microword = DVUM7 ∨ s.microword = DVUM8 →
    ∃ s1, ExecuteDivu_body s = Control.next s1 ∧ s1.au = s.au ∧
      (s.au ≠ 0 → s1.microword = DVUM6 ∨ s1.microword = DVUMB) ∧
      (s.au = 0 → s1.microword = DVUM9 ∨ s1.microword = DVUMC)) ∧
  (s.microword = DVUMB ∨ s.microword = DVUME →
    ∃ s1, ExecuteDivu_body s = Control.next s1 ∧ s1.au = s.au ∧
      (s1.microword = DVUM5 ∨ s1.microword = DVUM6 ∨ s1.microword = DVUME))

/-- How `ExecuteDivs` treats the loop counter `au` at a register file `s` it is about
to dispatch: DVS04 and DVS05 set it to 16; the states up to DVS08 keep it; a shift state
(DVS09, DVS0A) finds it in `1..16` and decrements it; the subtract state DVS0C keeps it,
stays in the loop (DVS0D) when it is not 0 and leaves the loop (DVS0E) when it is 0; the
idle and restore states (DVS0D, DVS0F) keep it. -/
def DivsCounter (s : MC68000) : Prop :=
  (s.microword = DVS04 ∨ s.microword = DVS05 →
    ∃ s1, ExecuteDivs_body s = Control.next s1 ∧ s1.au = 16 ∧ s1.microword = DVS06) ∧
  (s.microword = DVS06 ∨ s.microword = DVS07 ∨ s.microword = DVS08 ∨ s.microword = DVS10 ∨
      s.microword = DVS11 →
    s.au = 16 ∧ ∃ s1, ExecuteDivs_body s = Control.next s1 ∧ s1.au = 16) ∧
  (s.microword = DVS09 ∨ s.microword = DVS0A →
    1 ≤ s.au ∧ s.au ≤ 16 ∧
    ∃ s1, ExecuteDivs_body s = Control.next s1 ∧ s1.au + 1 = s.au ∧ s1.microword = DVS0C) ∧
  (s.microword = DVS0C →
    ∃ s1, ExecuteDivs_body s = Control.next s1 ∧ s1.au = s.au ∧
      (s.au ≠ 0 → s1.microword = DVS0D) ∧ (s.au = 0 → s1.microword = DVS0E)) ∧
  (s.microword = DVS0D ∨ s.microword = DVS0F →
    ∃ s1, ExecuteDivs_body s = Control.next s1 ∧ s1.au = s.au ∧
      (s1.microword = DVS09 ∨ s1.microword = DVS0A ∨ s1.microword = DVS0F))

/-- What the tests observe of a run started as the tests start it: `rxdh`, `rxdl`,
`rydl` and `cycles` on return. -/
def observe (run : MC68000 → Option MC68000) (dividend divisor : Nat) :
    Option (Nat × Nat × Nat × Nat) :=
  (run (testInput dividend divisor)).map fun r => (r.rxdh, r.rxdl, r.rydl, r.cycles)

/-! ## Auxiliary definitions: a sample register file, final flags -/

/-- A register file with the operands of `testInput dividend divisor` whose other fields
all hold non-zero values; `cycles` is two short of wrapping round. -/
def scratchInput (dividend divisor : Nat) : MC68000 :=
  { testInput dividend divisor with
      microword := DVS1C, pc := 0x12345678, alue := 0xFFFF, alub := 0x8001, alu := 0x7FFF,
      flags := 0x1F, au := 0xFFFFFFFF, ath := 0xA5A5, atl := 0x5A5A, cycles := 0xFFFFFFFE }

/-- The flags `flags` describe the 16-bit value `q` as the flags of a completed division
describe the quotient: N is bit 15 of `q`, Z is set iff `q = 0`, V and C are clear. -/
def finalFlags (flags q : Nat) : Prop :=
  (flags &&& FLAG_N ≠ 0 ↔ q.testBit 15 = true) ∧ (flags &&& FLAG_Z ≠ 0 ↔ q = 0) ∧
  flags &&& FLAG_V = 0 ∧ flags &&& FLAG_C = 0

instance (flags q : Nat) : Decidable (finalFlags flags q) := by
  unfold finalFlags
  infer_instance

/-- What the last sign fix-up states of `ExecuteDivs` know about the quotient: in DVS17
`alu` is the quotient in `alub`, in DVS1C `atl` is the quotient in `alub`, and in LEAA2 the
flags describe the quotient in `atl`. -/
def DivsFinal (s : MC68000) : Prop :=
  (s.microword = DVS17 → s.alu = s.alub) ∧ (s.microword = DVS1C → s.atl = s.alub) ∧
  (s.microword = LEAA2 → finalFlags s.flags s.atl)

instance (s : MC68000) : Decidable (DivsFinal s) := by
  unfold DivsFinal
  infer_instance

/-- What the states of `ExecuteDivu` from the main loop on know: the label is one of the
main loop or of the normal exit, `alu` is 0 in DVUMD and DVUMF, `alub` is 0 in DVUM0, and
in A1 the flags describe the quotient in `rxdl`. -/
def DivuTail (s : MC68000) : Prop :=
  s.microword ∈ [DVUM5, DVUM6, DVUM7, DVUM8, DVUM9, DVUMB, DVUMC, DVUMD, DVUME, DVUMF,
    DVUM0, A1] ∧
  (s.microword = DVUMD ∨ s.microword = DVUMF → s.alu = 0) ∧
  (s.microword = DVUM0 → s.alub = 0) ∧
  (s.microword = A1 → finalFlags s.flags s.rxdl)

instance (s : MC68000) : Decidable (DivuTail s) := by
  unfold DivuTail
  infer_instance

/-! ## Definitions in the words of the specification -/

/-- Section 4.2 of the specification, main loop: the extra cost of one iteration on the
32-bit working value `w`: 0 when the bit shifted out of the top is set (the subtraction is
forced), 2 when the shifted value is at least the aligned divisor (the subtraction is
taken), 4 when the subtraction is not taken. -/
def specDivuExtra (divisor w : Nat) : Nat :=
  if 2147483648 ≤ w then 0
  else if divisor * 65536 ≤ (2 * w) % 4294967296 then 2
  else 4

/-- Section 4.2 of the specification, main loop: the 32-bit working value after one
iteration: shifted left by one bit, and the aligned divisor subtracted when the
subtraction is forced or taken. -/
def specDivuShift (divisor w : Nat) : Nat :=
  if 2147483648 ≤ w ∨ divisor * 65536 ≤ (2 * w) % 4294967296 then
    ((2 * w) % 4294967296 + 4294967296 - divisor * 65536) % 4294967296
  else (2 * w) % 4294967296

/-- Section 4.2 of the specification: the sum over `n` main-loop iterations of
`4 + extra`, from the working value `w`. -/
def specDivuLoop (divisor : Nat) : Nat → Nat → Nat
  | 0, _ => 0
  | n + 1, w => (4 + specDivuExtra divisor w) + specDivuLoop divisor n (specDivuShift divisor w)

/-- Section 4.2 of the specification: "Total normal-path cost = 6 (setup+pretest) +
15×(4 + extra) + 8". -/
def specDivuTotal (dividend divisor : Nat) : Nat :=
  6 + specDivuLoop divisor 15 dividend + 8

/-- Section 4.3 of the specification, main loop: "baseline 3 states/iteration (6 cycles),
+1 state (2 cycles) on iterations that do not need a restore": the cycles of one
iteration, from whether the iteration needs a restore. -/
def specDivsIterCycles (needsRestore : Bool) : Nat :=
  6 + (if needsRestore then 0 else 2)

/-- Section 4.3, step 5 of the specification: "Cost of this phase depends on the sign
quadrant: 6 cycles (÷+,dividend+), 8 cycles (÷+,dividend−), 8 cycles (÷−,dividend−),
8 cycles (÷−,dividend+)". -/
def specDivsFixupCycles (divisorNegative dividendNegative : Bool) : Nat :=
  match divisorNegative, dividendNegative with
  | false, false => 6
  | false, true => 8
  | true, true => 8
  | true, false => 8

/-! ## Lemmas on the loop combinators -/

theorem whileTrue_of_passes (body : MC68000 → Control) :
    ∀ (n k : Nat) (m m1 : MC68000), passes body n m = some m1 →
      whileTrue body (n + k) m = whileTrue body k m1 := by
  intro n
  induction n with
  | zero =>
    intro k m m1 h
    simp only [passes, Option.some.injEq] at h
    simp [h]
  | succ n ih =>
    intro k m m1 h
    have e : n + 1 + k = (n + k) + 1 := by omega
    rw [e]
    simp only [passes] at h
    simp only [whileTrue]
    cases hb : body m with
    | next m2 =>
      rw [hb] at h
      exact ih k m2 m1 h
    | ret m2 =>
      rw [hb] at h
      cases h

theorem passes_trans (body : MC68000 → Control) :
    ∀ (a b : Nat) (m m1 m2 : MC68000), passes body a m = some m1 →
      passes body b m1 = some m2 → passes body (a + b) m = some m2 := by
  intro a
  induction a with
  | zero =>
    intro b m m1 m2 h1 h2
    simp only [passes, Option.some.injEq] at h1
    simpa [h1] using h2
  | succ a ih =>
    intro b m m1 m2 h1 h2
    have e : a + 1 + b = (a + b) + 1 := by omega
    rw [e]
    simp only [passes] at h1 ⊢
    cases hb : body m with
    | next m3 =>
      rw [hb] at h1
      exact ih b m3 m1 m2 h1 h2
    | ret m3 =>
      rw [hb] at h1
      cases h1

theorem passes_one (body : MC68000 → Control) (m m1 : MC68000)
    (h : body m = Control.next m1) : passes body 1 m = some m1 := by
  simp [passes, h]

theorem whileTrue_ret (body : MC68000 → Control) (k : Nat) (m r : MC68000)
    (h : body m = Control.ret r) : whileTrue body (k + 1) m = some r := by
  simp [whileTrue, h]

theorem whileTrue_mono (body : MC68000 → Control) :
    ∀ (n k : Nat) (m r : MC68000), whileTrue body n m = some r → n ≤ k →
      whileTrue body k m = some r := by
  intro n
  induction n with
  | zero =>
    intro k m r h
    simp [whileTrue] at h
  | succ n ih =>
    intro k m r h hk
    obtain ⟨k1, rfl⟩ : ∃ k1, k = k1 + 1 := ⟨k - 1, by omega⟩
    simp only [whileTrue] at h ⊢
    cases hb : body m with
    | next m2 =>
      rw [hb] at h
      exact ih k1 m2 r h (by omega)
    | ret m2 =>
      rw [hb] at h
      exact h

/-! ## Lemmas on the ALU primitives -/

theorem and_two_pow_ne_zero (x k : Nat) : x &&& 2 ^ k ≠ 0 ↔ x.testBit k = true := by
  constructor
  · intro h
    by_contra hb
    apply h
    apply Nat.eq_of_testBit_eq
    intro i
    simp only [Nat.testBit_and, Nat.zero_testBit, Nat.testBit_two_pow]
    by_cases hi : k = i
    · subst hi
      simp [hb]
    · simp [hi]
  · intro hb h
    have : (x &&& 2 ^ k).testBit k = true := by
      simp [Nat.testBit_and, hb, Nat.testBit_two_pow_self]
    rw [h] at this
    simp at this

theorem testBit15 (x : Nat) (hx : x < 65536) : x.testBit 15 = decide (32768 ≤ x) := by
  rw [Nat.testBit_to_div_mod]
  apply decide_eq_decide.mpr
  norm_num
  omega

theorem and_8000 (x : Nat) (hx : x < 65536) : x &&& 0x8000 ≠ 0 ↔ 32768 ≤ x := by
  have h := and_two_pow_ne_zero x 15
  rw [testBit15 x hx] at h
  simpa using h

theorem and_FFFF (x : Nat) (hx : x < 65536) : x &&& 0xFFFF = x := by
  have := Nat.and_pow_two_sub_one_of_lt_two_pow (x := x) (n := 16) (by simpa using hx)
  simpa using this

theorem AluOp_AND_eq (m : MC68000) (dst src : Nat) :
    AluOp_AND m dst src =
      ({ m with alu := dst &&& src, flags := andFlags m.flags (dst &&& src) }, m.flags) := rfl

theorem AluOp_SUB_eq (m : MC68000) (dst src : Nat) :
    AluOp_SUB m dst src =
      ({ m with alu := (dst + 65536 - src) % 65536, flags := subFlags dst src }, m.flags) := rfl

theorem and_two_pow_eq (x k : Nat) : x &&& 2 ^ k = if x.testBit k = true then 2 ^ k else 0 := by
  apply Nat.eq_of_testBit_eq
  intro i
  by_cases hb : x.testBit k = true
  · simp only [hb, if_true, Nat.testBit_and, Nat.testBit_two_pow]
    by_cases hi : k = i
    · subst hi
      simp [hb]
    · simp [hi]
  · simp only [hb, if_false, Nat.testBit_and, Nat.testBit_two_pow, Nat.zero_testBit]
    by_cases hi : k = i
    · subst hi
      simp [hb]
    · simp [hi]

theorem and_FLAG_X (f : Nat) : f &&& FLAG_X = 0 ∨ f &&& FLAG_X = 16 := by
  have h := and_two_pow_eq f 4
  have e : (2 : Nat) ^ 4 = FLAG_X := rfl
  rw [e] at h
  by_cases hb : f.testBit 4 = true
  · right
    rw [h, if_pos hb]
    rfl
  · left
    rw [h, if_neg hb]

theorem flags3 (x : Nat) (hx : x = 0 ∨ x = 16) (p q : Prop) [Decidable p] [Decidable q] :
    let f := (x ||| (if p then FLAG_N else 0)) ||| (if q then FLAG_Z else 0)
    (f &&& FLAG_N = 0 ↔ ¬ p) ∧ (f &&& FLAG_Z = 0 ↔ ¬ q) ∧ f &&& FLAG_C = 0 ∧
      f &&& FLAG_X = x ∧ f < 65536 ∧ (f &&& (FLAG_N ||| FLAG_Z) = 0 ↔ ¬ p ∧ ¬ q) := by
  rcases hx with hx | hx <;> subst hx <;> by_cases h1 : p <;> by_cases h2 : q <;>
    simp only [h1, h2, if_true, if_false, not_true_eq_false, not_false_eq_true,
      and_self, and_true, and_false] <;> decide

theorem andFlags_N0 (f a : Nat) (ha : a < 65536) :
    andFlags f a &&& FLAG_N = 0 ↔ a < 32768 := by
  unfold andFlags
  rw [(flags3 _ (and_FLAG_X f) _ _).1, not_not, ← not_le, ← and_8000 a ha, not_not]

theorem andFlags_Z0 (f a : Nat) : andFlags f a &&& FLAG_Z = 0 ↔ a ≠ 0 := by
  unfold andFlags
  exact (flags3 _ (and_FLAG_X f) _ _).2.1

theorem andFlags_C0 (f a : Nat) : andFlags f a &&& FLAG_C = 0 := by
  unfold andFlags
  exact (flags3 _ (and_FLAG_X f) _ _).2.2.1

theorem andFlags_X (f a : Nat) : andFlags f a &&& FLAG_X = f &&& FLAG_X := by
  unfold andFlags
  exact (flags3 _ (and_FLAG_X f) _ _).2.2.2.1

theorem andFlags_lt (f a : Nat) : andFlags f a < 65536 := by
  unfold andFlags
  exact (flags3 _ (and_FLAG_X f) _ _).2.2.2.2.1

theorem andFlags_NZ0 (f a : Nat) (ha : a < 65536) :
    andFlags f a &&& (FLAG_N ||| FLAG_Z) = 0 ↔ a < 32768 ∧ a ≠ 0 := by
  unfold andFlags
  rw [(flags3 _ (and_FLAG_X f) _ _).2.2.2.2.2, not_not, ← not_le, ← and_8000 a ha, not_not]

theorem flags5 (p1 p2 p3 p4 p5 : Prop) [Decidable p1] [Decidable p2] [Decidable p3]
    [Decidable p4] [Decidable p5] :
    let f := ((((0 ||| (if p1 then FLAG_X else 0)) ||| (if p2 then FLAG_N else 0)) |||
      (if p3 then FLAG_Z else 0)) ||| (if p4 then FLAG_V else 0)) |||
      (if p5 then FLAG_C else 0)
    (f &&& FLAG_X = 0 ↔ ¬ p1) ∧ (f &&& FLAG_N = 0 ↔ ¬ p2) ∧ (f &&& FLAG_Z = 0 ↔ ¬ p3) ∧
      (f &&& FLAG_V = 0 ↔ ¬ p4) ∧ (f &&& FLAG_C = 0 ↔ ¬ p5) ∧ f < 65536 ∧
      (f &&& FLAG_X) >>> 4 = (if p1 then 1 else 0) ∧
      (f &&& (FLAG_N ||| FLAG_Z) = 0 ↔ ¬ p2 ∧ ¬ p3) := by
  by_cases h1 : p1 <;> by_cases h2 : p2 <;> by_cases h3 : p3 <;> by_cases h4 : p4 <;>
    by_cases h5 : p5 <;>
    simp only [h1, h2, h3, h4, h5, if_true, if_false, not_true_eq_false, not_false_eq_true,
      and_self, and_true, and_false] <;> decide

theorem testBit15_sub (d s : Nat) (hd : d < 65536) (hs : s < 65536) :
    (((d ^^^ s) ^^^ ((d + 65536 - s) % 65536)) ^^^
      ((d ^^^ s) &&& (d ^^^ ((d + 65536 - s) % 65536)))) &&& 0x8000 ≠ 0 ↔ d < s := by
  have hr : (d + 65536 - s) % 65536 < 65536 := Nat.mod_lt _ (by norm_num)
  have h := and_two_pow_ne_zero
    (((d ^^^ s) ^^^ ((d + 65536 - s) % 65536)) ^^^
      ((d ^^^ s) &&& (d ^^^ ((d + 65536 - s) % 65536)))) 15
  have e : (2 : Nat) ^ 15 = 0x8000 := by norm_num
  rw [e] at h
  rw [h]
  simp only [Nat.testBit_xor, Nat.testBit_and, testBit15 d hd, testBit15 s hs,
    testBit15 _ hr]
  by_cases c1 : 32768 ≤ d <;> by_cases c2 : 32768 ≤ s <;>
    by_cases c3 : 32768 ≤ (d + 65536 - s) % 65536 <;> simp [c1, c2, c3] <;> omega

theorem subFlags_C0 (d s : Nat) (hd : d < 65536) (hs : s < 65536) :
    subFlags d s &&& FLAG_C = 0 ↔ s ≤ d := by
  unfold subFlags
  rw [(flags5 _ _ _ _ _).2.2.2.2.1, testBit15_sub d s hd hs, not_lt]

theorem subFlags_Xbit (d s : Nat) (hd : d < 65536) (hs : s < 65536) :
    (subFlags d s &&& FLAG_X) >>> 4 = if d < s then 1 else 0 := by
  unfold subFlags
  have h := (flags5
    ((((d ^^^ s) ^^^ ((d + 65536 - s) % 65536)) ^^^
      ((d ^^^ s) &&& (d ^^^ ((d + 65536 - s) % 65536)))) &&& 0x8000 ≠ 0)
    (((d + 65536 - s) % 65536) &&& 0x8000 ≠ 0) ((d + 65536 - s) % 65536 = 0)
    (((d ^^^ s) &&& (d ^^^ ((d + 65536 - s) % 65536))) &&& 0x8000 ≠ 0)
    ((((d ^^^ s) ^^^ ((d + 65536 - s) % 65536)) ^^^
      ((d ^^^ s) &&& (d ^^^ ((d + 65536 - s) % 65536)))) &&& 0x8000 ≠ 0)).2.2.2.2.2.2.1
  have h2 := testBit15_sub d s hd hs
  refine h.trans ?_
  by_cases c : d < s
  · rw [if_pos c, if_pos (h2.mpr c)]
  · rw [if_neg c, if_neg (fun hc => c (h2.mp hc))]

theorem subFlags_N0 (d s : Nat) :
    subFlags d s &&& FLAG_N = 0 ↔ (d + 65536 - s) % 65536 < 32768 := by
  unfold subFlags
  rw [(flags5 _ _ _ _ _).2.1, not_not, ← not_le,
    ← and_8000 _ (Nat.mod_lt _ (by norm_num)), not_not]

theorem subFlags_Z0 (d s : Nat) :
    subFlags d s &&& FLAG_Z = 0 ↔ (d + 65536 - s) % 65536 ≠ 0 := by
  unfold subFlags
  exact (flags5 _ _ _ _ _).2.2.1

theorem subFlags_NZ0 (d s : Nat) :
    subFlags d s &&& (FLAG_N ||| FLAG_Z) = 0 ↔
      (d + 65536 - s) % 65536 < 32768 ∧ (d + 65536 - s) % 65536 ≠ 0 := by
  unfold subFlags
  rw [(flags5 _ _ _ _ _).2.2.2.2.2.2.2, not_not, ← not_le,
    ← and_8000 _ (Nat.mod_lt _ (by norm_num)), not_not]

theorem subFlags_lt (d s : Nat) : subFlags d s < 65536 := by
  unfold subFlags
  exact (flags5 _ _ _ _ _).2.2.2.2.2.1

/-! ## One pass of each control state -/

theorem divu_DVUR1 (m : MC68000) (h : m.microword = DVUR1) :
    ExecuteDivu_body m = Control.next
      { m with
          cycles := (m.cycles + 2) % 4294967296,
          pc := m.au,
          alue := m.rxdl,
          alub := m.rydl,
          ath := m.rydl,
          alu := m.rydl &&& 0xFFFF,
          flags := andFlags m.flags (m.rydl &&& 0xFFFF),
          microword := DVUM2 } := by
  simp only [ExecuteDivu_body, h, AluOp_AND_eq, AluOp_SUB_eq, AluOp_SUBX, AluOp_SLAAx]
  rfl

theorem divu_DVUM2 (m : MC68000) (h : m.microword = DVUM2) :
    ExecuteDivu_body m = Control.next
      { m with
          cycles := (m.cycles + 2) % 4294967296,
          alu := (m.rxdh + 65536 - m.alub) % 65536,
          flags := subFlags (m.rxdh) (m.alub),
          microword := if m.flags &&& FLAG_Z ≠ 0 then TRAP0 else DVUM3 } := by
  simp only [ExecuteDivu_body, h, AluOp_AND_eq, AluOp_SUB_eq, AluOp_SUBX, AluOp_SLAAx]
  rfl

theorem divu_DVUM3 (m : MC68000) (h : m.microword = DVUM3) :
    ExecuteDivu_body m = Control.next
      { m with
          cycles := (m.cycles + 2) % 4294967296,
          au := 16,
          atl := m.rxdh,
          alu := m.rxdh &&& 0xFFFF,
          flags := andFlags m.flags (m.rxdh &&& 0xFFFF),
          microword := if m.flags &&& FLAG_C ≠ 0 then DVUM5 else DVUM4 } := by
  simp only [ExecuteDivu_body, h, AluOp_AND_eq, AluOp_SUB_eq, AluOp_SUBX, AluOp_SLAAx]
  rfl

theorem divu_DVUM5 (m : MC68000) (h : m.microword = DVUM5) :
    ExecuteDivu_body m = Control.next
      { m with
          cycles := (m.cycles + 2) % 4294967296,
          au := (m.au + 4294967296 - 1) % 4294967296,
          alu := ((m.alu <<< 1) % 65536 + ((m.alue >>> 15) &&& 1)) % 65536,
          alue := ((m.alue <<< 1) % 65536 + 0) % 65536,
          microword := if m.flags &&& FLAG_N ≠ 0 then DVUM7 else DVUM8 } := by
  simp only [ExecuteDivu_body, h, AluOp_AND_eq, AluOp_SUB_eq, AluOp_SUBX, AluOp_SLAAx]
  rfl

theorem divu_DVUM6 (m : MC68000) (h : m.microword = DVUM6) :
    ExecuteDivu_body m = Control.next
      { m with
          cycles := (m.cycles + 2) % 4294967296,
          au := (m.au + 4294967296 - 1) % 4294967296,
          alu := ((m.alu <<< 1) % 65536 + ((m.alue >>> 15) &&& 1)) % 65536,
          alue := ((m.alue <<< 1) % 65536 + 1) % 65536,
          microword := if m.flags &&& FLAG_N ≠ 0 then DVUM7 else DVUM8 } := by
  simp only [ExecuteDivu_body, h, AluOp_AND_eq, AluOp_SUB_eq, AluOp_SUBX, AluOp_SLAAx]
  rfl

theorem divu_DVUM7 (m : MC68000) (h : m.microword = DVUM7) :
    ExecuteDivu_body m = Control.next
      { m with
          cycles := (m.cycles + 2) % 4294967296,
          atl := m.alu,
          alu := (m.alu + 65536 - m.alub) % 65536,
          flags := subFlags (m.alu) (m.alub),
          microword := if m.au ≠ 0 then DVUM6 else DVUM9 } := by
  simp only [ExecuteDivu_body, h, AluOp_AND_eq, AluOp_SUB_eq, AluOp_SUBX, AluOp_SLAAx]
  rfl

theorem divu_DVUM8 (m : MC68000) (h : m.microword = DVUM8) :
    ExecuteDivu_body m = Control.next
      { m with
          cycles := (m.cycles + 2) % 4294967296,
          atl := m.alu,
          alu := (m.alu + 65536 - m.alub) % 65536,
          flags := subFlags (m.alu) (m.alub),
          microword := if m.au ≠ 0 then DVUMB else DVUMC } := by
  simp only [ExecuteDivu_body, h, AluOp_AND_eq, AluOp_SUB_eq, AluOp_SUBX, AluOp_SLAAx]
  rfl

theorem divu_DVUM9 (m : MC68000) (h : m.microword = DVUM9) :
    ExecuteDivu_body m = Control.next
      { m with
          cycles := (m.cycles + 2) % 4294967296,
          rxdh := m.alu,
          alu := m.alu &&& 0,
          flags := andFlags m.flags (m.alu &&& 0),
          microword := DVUMD } := by
  simp only [ExecuteDivu_body, h, AluOp_AND_eq, AluOp_SUB_eq, AluOp_SUBX, AluOp_SLAAx]
  rfl

theorem divu_DVUMB (m : MC68000) (h : m.microword = DVUMB) :
    ExecuteDivu_body m = Control.next
      { m with
          cycles := (m.cycles + 2) % 4294967296,
          microword := if m.flags &&& FLAG_C ≠ 0 then DVUME else DVUM6 } := by
  simp only [ExecuteDivu_body, h, AluOp_AND_eq, AluOp_SUB_eq, AluOp_SUBX, AluOp_SLAAx]
  rfl

theorem divu_DVUMC (m : MC68000) (h : m.microword = DVUMC) :
    ExecuteDivu_body m = Control.next
      { m with
          cycles := (m.cycles + 2) % 4294967296,
          rxdh := m.alu,
          alu := m.alu &&& 0,
          flags := andFlags m.flags (m.alu &&& 0),
          microword := if m.flags &&& FLAG_C ≠ 0 then DVUMF else DVUMD } := by
  simp only [ExecuteDivu_body, h, AluOp_AND_eq, AluOp_SUB_eq, AluOp_SUBX, AluOp_SLAAx]
  rfl

theorem divu_DVUMD (m : MC68000) (h : m.microword = DVUMD) :
    ExecuteDivu_body m = Control.next
      { m with
          cycles := (m.cycles + 2) % 4294967296,
          au := (m.pc + 2) % 4294967296,
          alub := m.alu,
          alu := ((m.alu <<< 1) % 65536 + ((m.alue >>> 15) &&& 1)) % 65536,
          alue := ((m.alue <<< 1) % 65536 + 1) % 65536,
          microword := DVUM0 } := by
  simp only [ExecuteDivu_body, h, AluOp_AND_eq, AluOp_SUB_eq, AluOp_SUBX, AluOp_SLAAx]
  rfl

theorem divu_DVUME (m : MC68000) (h : m.microword = DVUME) :
    ExecuteDivu_body m = Control.next
      { m with
          cycles := (m.cycles + 2) % 4294967296,
          alu := m.atl &&& 0xFFFF,
          flags := andFlags m.flags (m.atl &&& 0xFFFF),
          microword := DVUM5 } := by
  simp only [ExecuteDivu_body, h, AluOp_AND_eq, AluOp_SUB_eq, AluOp_SUBX, AluOp_SLAAx]
  rfl

theorem divu_DVUMF (m : MC68000) (h : m.microword = DVUMF) :
    ExecuteDivu_body m = Control.next
      { m with
          cycles := (m.cycles + 2) % 4294967296,
          au := (m.pc + 2) % 4294967296,
          alub := m.alu,
          rxdh := m.atl,
          alu := ((m.alu <<< 1) % 65536 + ((m.alue >>> 15) &&& 1)) % 65536,
          alue := ((m.alue <<< 1) % 65536 + 0) % 65536,
          microword := DVUM0 } := by
  simp only [ExecuteDivu_body, h, AluOp_AND_eq, AluOp_SUB_eq, AluOp_SUBX, AluOp_SLAAx]
  rfl

theorem divu_DVUM0 (m : MC68000) (h : m.microword = DVUM0) :
    ExecuteDivu_body m = Control.next
      { m with
          cycles := (m.cycles + 2) % 4294967296,
          rxdl := m.alue,
          alu := (m.alue + 65536 - m.alub) % 65536,
          flags := subFlags (m.alue) (m.alub),
          microword := A1 } := by
  simp only [ExecuteDivu_body, h, AluOp_AND_eq, AluOp_SUB_eq, AluOp_SUBX, AluOp_SLAAx]
  rfl

theorem divu_DVUM4 (m : MC68000) (h : m.microword = DVUM4) :
    ExecuteDivu_body m = Control.next
      { m with
          cycles := (m.cycles + 2) % 4294967296,
          microword := DVUMA } := by
  simp only [ExecuteDivu_body, h, AluOp_AND_eq, AluOp_SUB_eq, AluOp_SUBX, AluOp_SLAAx]
  rfl

theorem divu_DVUMA (m : MC68000) (h : m.microword = DVUMA) :
    ExecuteDivu_body m = Control.next
      { m with
          cycles := (m.cycles + 2) % 4294967296,
          microword := A1 } := by
  simp only [ExecuteDivu_body, h, AluOp_AND_eq, AluOp_SUB_eq, AluOp_SUBX, AluOp_SLAAx]
  rfl

theorem divs_DVS01 (m : MC68000) (h : m.microword = DVS01) :
    ExecuteDivs_body m = Control.next
      { m with
          cycles := (m.cycles + 2) % 4294967296,
          pc := m.au,
          alue := m.rxdl,
          alub := m.rydl,
          ath := m.rydl,
          alu := m.rydl &&& 0xFFFF,
          flags := andFlags m.flags (m.rydl &&& 0xFFFF),
          microword := DVS03 } := by
  simp only [ExecuteDivs_body, h, AluOp_AND_eq, AluOp_SUB_eq, AluOp_SUBX, AluOp_SLAAx]
  rfl

theorem divs_DVS03 (m : MC68000) (h : m.microword = DVS03) :
    ExecuteDivs_body m = Control.next
      { m with
          cycles := (m.cycles + 2) % 4294967296,
          alu := (0 + 65536 - m.alub) % 65536,
          flags := subFlags (0) (m.alub),
          microword := if m.flags &&& FLAG_Z ≠ 0 then TRAP0
              else if m.flags &&& FLAG_N ≠ 0 then DVS05 else DVS04 } := by
  simp only [ExecuteDivs_body, h, AluOp_AND_eq, AluOp_SUB_eq, AluOp_SUBX, AluOp_SLAAx]
  rfl

theorem divs_DVS04 (m : MC68000) (h : m.microword = DVS04) :
    ExecuteDivs_body m = Control.next
      { m with
          cycles := (m.cycles + 2) % 4294967296,
          au := 16,
          atl := m.rxdh,
          alu := m.rxdh &&& 0xFFFF,
          flags := andFlags m.flags (m.rxdh &&& 0xFFFF),
          microword := DVS06 } := by
  simp only [ExecuteDivs_body, h, AluOp_AND_eq, AluOp_SUB_eq, AluOp_SUBX, AluOp_SLAAx]
  rfl

theorem divs_DVS05 (m : MC68000) (h : m.microword = DVS05) :
    ExecuteDivs_body m = Control.next
      { m with
          cycles := (m.cycles + 2) % 4294967296,
          au := 16,
          atl := m.rxdh,
          alub := m.alu,
          alu := m.rxdh &&& 0xFFFF,
          flags := andFlags m.flags (m.rxdh &&& 0xFFFF),
          microword := DVS06 } := by
  simp only [ExecuteDivs_body, h, AluOp_AND_eq, AluOp_SUB_eq, AluOp_SUBX, AluOp_SLAAx]
  rfl

theorem divs_DVS06 (m : MC68000) (h : m.microword = DVS06) :
    ExecuteDivs_body m = Control.next
      { m with
          cycles := (m.cycles + 2) % 4294967296,
          alu := (0 + 65536 - m.rxdl) % 65536,
          flags := subFlags (0) (m.rxdl),
          microword := if m.flags &&& FLAG_N ≠ 0 then DVS10 else DVS07 } := by
  simp only [ExecuteDivs_body, h, AluOp_AND_eq, AluOp_SUB_eq, AluOp_SUBX, AluOp_SLAAx]
  rfl

theorem divs_DVS07 (m : MC68000) (h : m.microword = DVS07) :
    ExecuteDivs_body m = Control.next
      { m with
          cycles := (m.cycles + 2) % 4294967296,
          alu := (m.atl + 65536 - m.alub) % 65536,
          flags := subFlags (m.atl) (m.alub),
          microword := DVS08 } := by
  simp only [ExecuteDivs_body, h, AluOp_AND_eq, AluOp_SUB_eq, AluOp_SUBX, AluOp_SLAAx]
  rfl

theorem divs_DVS08 (m : MC68000) (h : m.microword = DVS08) :
    ExecuteDivs_body m = Control.next
      { m with
          cycles := (m.cycles + 2) % 4294967296,
          alu := m.atl &&& 0xFFFF,
          flags := andFlags m.flags (m.atl &&& 0xFFFF),
          microword := if m.flags &&& FLAG_C ≠ 0 then DVS09 else DVUMZ } := by
  simp only [ExecuteDivs_body, h, AluOp_AND_eq, AluOp_SUB_eq, AluOp_SUBX, AluOp_SLAAx]
  rfl

theorem divs_DVS10 (m : MC68000) (h : m.microword = DVS10) :
    ExecuteDivs_body m = Control.next
      { m with
          cycles := (m.cycles + 2) % 4294967296,
          alue := m.alu,
          alu := (0 + 131072 - m.rxdh - ((m.flags &&& FLAG_X) >>> 4)) % 65536,
          microword := DVS11 } := by
  simp only [ExecuteDivs_body, h, AluOp_AND_eq, AluOp_SUB_eq, AluOp_SUBX, AluOp_SLAAx]
  rfl

theorem divs_DVS11 (m : MC68000) (h : m.microword = DVS11) :
    ExecuteDivs_body m = Control.next
      { m with
          cycles := (m.cycles + 2) % 4294967296,
          atl := m.alu,
          alu := (m.alu + 65536 - m.alub) % 65536,
          flags := subFlags (m.alu) (m.alub),
          microword := DVS08 } := by
  simp only [ExecuteDivs_body, h, AluOp_AND_eq, AluOp_SUB_eq, AluOp_SUBX, AluOp_SLAAx]
  rfl

theorem divs_DVS09 (m : MC68000) (h : m.microword = DVS09) :
    ExecuteDivs_body m = Control.next
      { m with
          cycles := (m.cycles + 2) % 4294967296,
          au := (m.au + 4294967296 - 1) % 4294967296,
          alu := ((m.alu <<< 1) % 65536 + ((m.alue >>> 15) &&& 1)) % 65536,
          alue := ((m.alue <<< 1) % 65536 + 0) % 65536,
          microword := DVS0C } := by
  simp only [ExecuteDivs_body, h, AluOp_AND_eq, AluOp_SUB_eq, AluOp_SUBX, AluOp_SLAAx]
  rfl

theorem divs_DVS0A (m : MC68000) (h : m.microword = DVS0A) :
    ExecuteDivs_body m = Control.next
      { m with
          cycles := (m.cycles + 2) % 4294967296,
          au := (m.au + 4294967296 - 1) % 4294967296,
          alu := ((m.alu <<< 1) % 65536 + ((m.alue >>> 15) &&& 1)) % 65536,
          alue := ((m.alue <<< 1) % 65536 + 1) % 65536,
          microword := DVS0C } := by
  simp only [ExecuteDivs_body, h, AluOp_AND_eq, AluOp_SUB_eq, AluOp_SUBX, AluOp_SLAAx]
  rfl

theorem divs_DVS0C (m : MC68000) (h : m.microword = DVS0C) :
    ExecuteDivs_body m = Control.next
      { m with
          cycles := (m.cycles + 2) % 4294967296,
          atl := m.alu,
          alu := (m.alu + 65536 - m.alub) % 65536,
          flags := subFlags (m.alu) (m.alub),
          microword := if m.au ≠ 0 then DVS0D else DVS0E } := by
  simp only [ExecuteDivs_body, h, AluOp_AND_eq, AluOp_SUB_eq, AluOp_SUBX, AluOp_SLAAx]
  rfl

theorem divs_DVS0D (m : MC68000) (h : m.microword = DVS0D) :
    ExecuteDivs_body m = Control.next
      { m with
          cycles := (m.cycles + 2) % 4294967296,
          microword := if m.flags &&& FLAG_C ≠ 0 then DVS0F else DVS0A } := by
  simp only [ExecuteDivs_body, h, AluOp_AND_eq, AluOp_SUB_eq, AluOp_SUBX, AluOp_SLAAx]
  rfl

theorem divs_DVS0F (m : MC68000) (h : m.microword = DVS0F) :
    ExecuteDivs_body m = Control.next
      { m with
          cycles := (m.cycles + 2) % 4294967296,
          alu := m.atl &&& 0xFFFF,
          flags := andFlags m.flags (m.atl &&& 0xFFFF),
          microword := DVS09 } := by
  simp only [ExecuteDivs_body, h, AluOp_AND_eq, AluOp_SUB_eq, AluOp_SUBX, AluOp_SLAAx]
  rfl

theorem divs_DVS0E (m : MC68000) (h : m.microword = DVS0E) :
    ExecuteDivs_body m = Control.next
      { m with
          cycles := (m.cycles + 2) % 4294967296,
          microword := if m.flags &&& FLAG_C ≠ 0 then DVS12 else DVS13 } := by
  simp only [ExecuteDivs_body, h, AluOp_AND_eq, AluOp_SUB_eq, AluOp_SUBX, AluOp_SLAAx]
  rfl

theorem divs_DVS12 (m : MC68000) (h : m.microword = DVS12) :
    ExecuteDivs_body m = Control.next
      { m with
          cycles := (m.cycles + 2) % 4294967296,
          alu := ((m.alu <<< 1) % 65536 + ((m.alue >>> 15) &&& 1)) % 65536,
          alue := ((m.alue <<< 1) % 65536 + 0) % 65536,
          microword := DVS14 } := by
  simp only [ExecuteDivs_body, h, AluOp_AND_eq, AluOp_SUB_eq, AluOp_SUBX, AluOp_SLAAx]
  rfl

theorem divs_DVS13 (m : MC68000) (h : m.microword = DVS13) :
    ExecuteDivs_body m = Control.next
      { m with
          cycles := (m.cycles + 2) % 4294967296,
          atl := m.alu,
          alu := ((m.alu <<< 1) % 65536 + ((m.alue >>> 15) &&& 1)) % 65536,
          alue := ((m.alue <<< 1) % 65536 + 1) % 65536,
          microword := DVS14 } := by
  simp only [ExecuteDivs_body, h, AluOp_AND_eq, AluOp_SUB_eq, AluOp_SUBX, AluOp_SLAAx]
  rfl

theorem divs_DVS14 (m : MC68000) (h : m.microword = DVS14) :
    ExecuteDivs_body m = Control.next
      { m with
          cycles := (m.cycles + 2) % 4294967296,
          alu := m.ath &&& 0xFFFF,
          flags := andFlags m.flags (m.ath &&& 0xFFFF),
          microword := DVS15 } := by
  simp only [ExecuteDivs_body, h, AluOp_AND_eq, AluOp_SUB_eq, AluOp_SUBX, AluOp_SLAAx]
  rfl

theorem divs_DVS15 (m : MC68000) (h : m.microword = DVS15) :
    ExecuteDivs_body m = Control.next
      { m with
          cycles := (m.cycles + 2) % 4294967296,
          alub := m.alue,
          alu := m.rxdh &&& 0xFFFF,
          flags := andFlags m.flags (m.rxdh &&& 0xFFFF),
          microword := if m.flags &&& FLAG_N ≠ 0 then DVS1D else DVS16 } := by
  simp only [ExecuteDivs_body, h, AluOp_AND_eq, AluOp_SUB_eq, AluOp_SUBX, AluOp_SLAAx]
  rfl

theorem divs_DVS16 (m : MC68000) (h : m.microword = DVS16) :
    ExecuteDivs_body m = Control.next
      { m with
          cycles := (m.cycles + 2) % 4294967296,
          ath := m.atl,
          alu := m.alub &&& 0xFFFF,
          flags := andFlags m.flags (m.alub &&& 0xFFFF),
          microword := if m.flags &&& FLAG_N ≠ 0 then DVS1A else DVS17 } := by
  simp only [ExecuteDivs_body, h, AluOp_AND_eq, AluOp_SUB_eq, AluOp_SUBX, AluOp_SLAAx]
  rfl

theorem divs_DVS1D (m : MC68000) (h : m.microword = DVS1D) :
    ExecuteDivs_body m = Control.next
      { m with
          cycles := (m.cycles + 2) % 4294967296,
          ath := m.atl,
          alu := m.alub &&& 0xFFFF,
          flags := andFlags m.flags (m.alub &&& 0xFFFF),
          microword := if m.flags &&& FLAG_N ≠ 0 then DVS1E else DVS1F } := by
  simp only [ExecuteDivs_body, h, AluOp_AND_eq, AluOp_SUB_eq, AluOp_SUBX, AluOp_SLAAx]
  rfl

theorem divs_DVS17 (m : MC68000) (h : m.microword = DVS17) :
    ExecuteDivs_body m = Control.next
      { m with
          cycles := (m.cycles + 2) % 4294967296,
          atl := m.alu,
          alu := m.alub &&& 0xFFFF,
          flags := andFlags m.flags (m.alub &&& 0xFFFF),
          microword := if m.flags &&& FLAG_N ≠ 0 then DVUMA else LEAA2 } := by
  simp only [ExecuteDivs_body, h, AluOp_AND_eq, AluOp_SUB_eq, AluOp_SUBX, AluOp_SLAAx]
  rfl

theorem divs_DVS1A (m : MC68000) (h : m.microword = DVS1A) :
    ExecuteDivs_body m = Control.next
      { m with
          cycles := (m.cycles + 2) % 4294967296,
          alu := (0 + 65536 - m.alub) % 65536,
          flags := subFlags (0) (m.alub),
          microword := DVS1B } := by
  simp only [ExecuteDivs_body, h, AluOp_AND_eq, AluOp_SUB_eq, AluOp_SUBX, AluOp_SLAAx]
  rfl

theorem divs_DVS1B (m : MC68000) (h : m.microword = DVS1B) :
    ExecuteDivs_body m = Control.next
      { m with
          cycles := (m.cycles + 2) % 4294967296,
          alub := m.alu,
          atl := m.alu,
          alu := (0 + 65536 - m.ath) % 65536,
          flags := subFlags (0) (m.ath),
          microword := if m.flags &&& (FLAG_N ||| FLAG_Z) = 0 then DVUM4 else DVS1C } := by
  simp only [ExecuteDivs_body, h, AluOp_AND_eq, AluOp_SUB_eq, AluOp_SUBX, AluOp_SLAAx]
  rfl

theorem divs_DVS1C (m : MC68000) (h : m.microword = DVS1C) :
    ExecuteDivs_body m = Control.next
      { m with
          cycles := (m.cycles + 2) % 4294967296,
          ath := m.alu,
          alu := m.alub &&& 0xFFFF,
          flags := andFlags m.flags (m.alub &&& 0xFFFF),
          microword := LEAA2 } := by
  simp only [ExecuteDivs_body, h, AluOp_AND_eq, AluOp_SUB_eq, AluOp_SUBX, AluOp_SLAAx]
  rfl

theorem divs_DVS1F (m : MC68000) (h : m.microword = DVS1F) :
    ExecuteDivs_body m = Control.next
      { m with
          cycles := (m.cycles + 2) % 4294967296,
          alu := (0 + 65536 - m.alub) % 65536,
          flags := subFlags (0) (m.alub),
          microword := DVS20 } := by
  simp only [ExecuteDivs_body, h, AluOp_AND_eq, AluOp_SUB_eq, AluOp_SUBX, AluOp_SLAAx]
  rfl

theorem divs_DVS20 (m : MC68000) (h : m.microword = DVS20) :
    ExecuteDivs_body m = Control.next
      { m with
          cycles := (m.cycles + 2) % 4294967296,
          atl := m.alu,
          alub := m.alu,
          alu := m.alu &&& 0xFFFF,
          flags := andFlags m.flags (m.alu &&& 0xFFFF),
          microword := if m.flags &&& (FLAG_N ||| FLAG_Z) = 0 then DVUMA else LEAA2 } := by
  simp only [ExecuteDivs_body, h, AluOp_AND_eq, AluOp_SUB_eq, AluOp_SUBX, AluOp_SLAAx]
  rfl

theorem divs_DVS1E (m : MC68000) (h : m.microword = DVS1E) :
    ExecuteDivs_body m = Control.next
      { m with
          cycles := (m.cycles + 2) % 4294967296,
          alub := m.alu,
          atl := m.alu,
          alu := (0 + 65536 - m.ath) % 65536,
          flags := subFlags (0) (m.ath),
          microword := if m.flags &&& FLAG_N ≠ 0 then DVUM4 else DVS1C } := by
  simp only [ExecuteDivs_body, h, AluOp_AND_eq, AluOp_SUB_eq, AluOp_SUBX, AluOp_SLAAx]
  rfl

theorem divs_LEAA2 (m : MC68000) (h : m.microword = LEAA2) :
    ExecuteDivs_body m = Control.next
      { m with
          cycles := (m.cycles + 2) % 4294967296,
          rxdh := m.ath,
          rxdl := m.atl,
          microword := A1 } := by
  simp only [ExecuteDivs_body, h, AluOp_AND_eq, AluOp_SUB_eq, AluOp_SUBX, AluOp_SLAAx]
  rfl

theorem divs_DVUM4 (m : MC68000) (h : m.microword = DVUM4) :
    ExecuteDivs_body m = Control.next
      { m with
          cycles := (m.cycles + 2) % 4294967296,
          microword := DVUMA } := by
  simp only [ExecuteDivs_body, h, AluOp_AND_eq, AluOp_SUB_eq, AluOp_SUBX, AluOp_SLAAx]
  rfl

theorem divs_DVUMZ (m : MC68000) (h : m.microword = DVUMZ) :
    ExecuteDivs_body m = Control.next
      { m with
          cycles := (m.cycles + 2) % 4294967296,
          microword := DVUMA } := by
  simp only [ExecuteDivs_body, h, AluOp_AND_eq, AluOp_SUB_eq, AluOp_SUBX, AluOp_SLAAx]
  rfl

theorem divs_DVUMA (m : MC68000) (h : m.microword = DVUMA) :
    ExecuteDivs_body m = Control.next
      { m with
          cycles := (m.cycles + 2) % 4294967296,
          microword := A1 } := by
  simp only [ExecuteDivs_body, h, AluOp_AND_eq, AluOp_SUB_eq, AluOp_SUBX, AluOp_SLAAx]
  rfl

theorem divu_TRAP0 (m : MC68000) (h : m.microword = TRAP0) :
    ExecuteDivu_body m = Control.ret
      { m with cycles := ((m.cycles + 2) % 4294967296 + 4294967296 - 2) % 4294967296 } := by
  simp only [ExecuteDivu_body, h]
  rfl

theorem divu_A1 (m : MC68000) (h : m.microword = A1) :
    ExecuteDivu_body m = Control.ret
      { m with cycles := ((m.cycles + 2) % 4294967296 + 4294967296 - 2) % 4294967296 } := by
  simp only [ExecuteDivu_body, h]
  rfl

theorem divs_TRAP0 (m : MC68000) (h : m.microword = TRAP0) :
    ExecuteDivs_body m = Control.ret
      { m with cycles := ((m.cycles + 2) % 4294967296 + 4294967296 - 2) % 4294967296 } := by
  simp only [ExecuteDivs_body, h]
  rfl

theorem divs_A1 (m : MC68000) (h : m.microword = A1) :
    ExecuteDivs_body m = Control.ret
      { m with cycles := ((m.cycles + 2) % 4294967296 + 4294967296 - 2) % 4294967296 } := by
  simp only [ExecuteDivs_body, h]
  rfl

/-! ## The restoring-division loop computes quotient and remainder -/

theorem shiftSubN_succ (d : Nat) (n : Nat) (w : Work) :
    shiftSubN d (n + 1) w = shiftSub d (shiftSubN d n w) := by
  induction n generalizing w with
  | zero => rfl
  | succ n ih =>
    show shiftSubN d (n + 1) (shiftSub d w) = _
    rw [ih]
    rfl

theorem shiftSub_spec (d : Nat) (w : Work) (hd : d < 65536) (h : w.Ok d) :
    (shiftSub d w).Ok d ∧
      (shiftSub d w).alu * 131072 + 2 * (shiftSub d w).alue + (shiftSub d w).bit +
          131072 * (d * (shiftSub d w).bit) =
        2 * (w.alu * 131072 + 2 * w.alue + w.bit) + (shiftSub d w).bit := by
  obtain ⟨alu, alue, bit⟩ := w
  obtain ⟨h1, h2, h3⟩ := h
  simp only at h1 h2 h3
  unfold shiftSub Work.Ok
  simp only
  by_cases c1 : 32768 ≤ alu
  · simp only [c1, if_true]
    omega
  · simp only [c1, if_false]
    by_cases c2 : d ≤ (2 * alu + alue / 32768) % 65536
    · simp only [c2, if_true]
      omega
    · simp only [c2, if_false]
      omega

theorem shiftSubN_spec (d : Nat) (w : Work) (hd : d < 65536) (h : w.Ok d) (n : Nat) :
    (shiftSubN d n w).Ok d ∧ ∃ Q, Q < 2 ^ n ∧
      (shiftSubN d n w).alu * 131072 + 2 * (shiftSubN d n w).alue + (shiftSubN d n w).bit +
          131072 * (d * Q) =
        2 ^ n * (w.alu * 131072 + 2 * w.alue + w.bit) + Q ∧
      Q % 2 = (if n = 0 then 0 else (shiftSubN d n w).bit) := by
  induction n with
  | zero =>
    refine ⟨h, 0, by norm_num, ?_, rfl⟩
    simp [shiftSubN]
  | succ n ih =>
    obtain ⟨ok, Q, hQ, e, -⟩ := ih
    rw [shiftSubN_succ]
    obtain ⟨ok1, e1⟩ := shiftSub_spec d _ hd ok
    refine ⟨ok1, 2 * Q + (shiftSub d (shiftSubN d n w)).bit, ?_, ?_, ?_⟩
    · have := ok1.2.2
      rw [pow_succ]
      omega
    · have x1 : d * (2 * Q + (shiftSub d (shiftSubN d n w)).bit) =
          2 * (d * Q) + d * (shiftSub d (shiftSubN d n w)).bit := by ring
      have x2 : 2 ^ (n + 1) * (w.alu * 131072 + 2 * w.alue + w.bit) =
          2 * (2 ^ n * (w.alu * 131072 + 2 * w.alue + w.bit)) := by ring
      rw [x1, x2]
      omega
    · have := ok1.2.2
      simp only [Nat.add_one_ne_zero, if_false]
      omega

theorem shiftSubN_16 (d h l : Nat) (hd : d < 65536) (hh : h < d) (hl : l < 65536) :
    (shiftSubN d 16 ⟨h, l, 0⟩).alu = (h * 65536 + l) % d ∧
      (2 * (shiftSubN d 16 ⟨h, l, 0⟩).alue + (shiftSubN d 16 ⟨h, l, 0⟩).bit) % 65536 =
        (h * 65536 + l) / d := by
  obtain ⟨ok, Q, hQ, e, -⟩ := shiftSubN_spec d ⟨h, l, 0⟩ hd ⟨hh, hl, by norm_num⟩ 16
  obtain ⟨o1, o2, o3⟩ := ok
  simp only at e
  norm_num at hQ e
  generalize (shiftSubN d 16 ⟨h, l, 0⟩).alu = a at *
  generalize (shiftSubN d 16 ⟨h, l, 0⟩).alue = ae at *
  generalize (shiftSubN d 16 ⟨h, l, 0⟩).bit = b at *
  generalize hX : d * Q = X at *
  have e1 : 2 * ae + b = Q := by omega
  have e2 : a + X = h * 65536 + l := by omega
  have e3 : (h * 65536 + l) / d = Q ∧ (h * 65536 + l) % d = a := by
    rw [Nat.div_mod_unique (by omega)]
    constructor
    · rw [← e2, hX]
    · exact o1
  rw [e3.1, e3.2, e1]
  exact ⟨rfl, Nat.mod_eq_of_lt hQ⟩

/-! ## The loop and the reference timing functions -/

theorem and_80000000 (x : Nat) (hx : x < 4294967296) :
    x &&& 0x80000000 ≠ 0 ↔ 2147483648 ≤ x := by
  have h := and_two_pow_ne_zero x 31
  have e : (2 : Nat) ^ 31 = 0x80000000 := by norm_num
  rw [e] at h
  rw [h, Nat.testBit_to_div_mod]
  simp only [decide_eq_true_eq]
  norm_num
  omega

theorem divuCost_le (d : Nat) (w : Work) : divuCost d w ≤ 4 := by
  unfold divuCost
  split_ifs <;> omega

theorem divuPasses_le (d : Nat) (n : Nat) (w : Work) : divuPasses d n w ≤ 4 * n := by
  induction n generalizing w with
  | zero => simp [divuPasses]
  | succ n ih =>
    have := ih (shiftSub d w)
    have := divuCost_le d w
    simp only [divuPasses]
    omega

theorem LowRel_step (j L e b : Nat) (hj : j ≤ 14) (hb : b ≤ 1) (h : LowRel j L e) :
    L / 32768 = e / 32768 ∧ LowRel (j + 1) ((2 * L) % 65536) ((2 * e + b) % 65536) := by
  obtain ⟨h1, h2⟩ := h
  unfold LowRel
  interval_cases j <;> simp only [Nat.reducePow, Nat.reduceAdd] at h1 h2 ⊢ <;> omega

theorem divu_ref_step (d j : Nat) (w : Work) (D : Nat) (hd : d < 65536) (hj : j ≤ 14)
    (ok : w.Ok d) (hr : RefRel j w D) :
    (D &&& 0x80000000 ≠ 0 ↔ 32768 ≤ w.alu) ∧
    ((2 * D) % 4294967296 ≥ d * 65536 ↔ d ≤ (2 * w.alu + w.alue / 32768) % 65536) ∧
    (32768 ≤ w.alu ∨ d ≤ (2 * w.alu + w.alue / 32768) % 65536 →
      RefRel (j + 1) (shiftSub d w) (((2 * D) % 4294967296 + 4294967296 - d * 65536) % 4294967296)) ∧
    (¬ 32768 ≤ w.alu → ¬ d ≤ (2 * w.alu + w.alue / 32768) % 65536 →
      RefRel (j + 1) (shiftSub d w) ((2 * D) % 4294967296)) := by
  obtain ⟨alu, alue, bit⟩ := w
  obtain ⟨h1, h2, h3⟩ := ok
  obtain ⟨r1, r2, r3⟩ := hr
  simp only at h1 h2 h3 r2 r3
  obtain ⟨t, r4⟩ := LowRel_step j (D % 65536) alue bit hj h3 r3
  rw [and_80000000 D r1]
  have l1 : ((2 * D) % 4294967296 + 4294967296 - d * 65536) % 4294967296 % 65536 =
      (2 * (D % 65536)) % 65536 := by omega
  have l2 : (2 * D) % 4294967296 % 65536 = (2 * (D % 65536)) % 65536 := by omega
  unfold RefRel shiftSub
  simp only
  refine ⟨by omega, by omega, ?_, ?_⟩
  · intro hc
    by_cases c1 : 32768 ≤ alu
    · simp only [c1, if_true]
      rw [l1]
      exact ⟨by omega, by omega, r4⟩
    · have c2 : d ≤ (2 * alu + alue / 32768) % 65536 := hc.resolve_left c1
      simp only [c1, c2, if_true, if_false]
      rw [l1]
      exact ⟨by omega, by omega, r4⟩
  · intro c1 c2
    simp only [c1, c2, if_false]
    rw [l2]
    exact ⟨by omega, by omega, r4⟩

theorem divu_ref_loop (d : Nat) (hd : d < 65536) :
    ∀ (n j : Nat) (w : Work) (D c : Nat), j + n ≤ 15 → w.Ok d → RefRel j w D →
      c + 8 * n < 4294967296 →
      DivideUnsignedCycles_loop (d * 65536) n D c = c + 2 * divuPasses d n w := by
  intro n
  induction n with
  | zero =>
    intro j w D c _ _ _ _
    simp [DivideUnsignedCycles_loop, divuPasses]
  | succ n ih =>
    intro j w D c hj ok hr hc
    obtain ⟨s1, s2, s3, s4⟩ := divu_ref_step d j w D hd (by omega) ok hr
    have ok1 := (shiftSub_spec d w hd ok).1
    have e1 : (D <<< 1) % 4294967296 = (2 * D) % 4294967296 := by
      rw [Nat.shiftLeft_eq]
      omega
    simp only [DivideUnsignedCycles_loop, divuPasses, e1]
    by_cases c1 : 32768 ≤ w.alu
    · rw [if_pos (s1.mpr c1), ih (j + 1) _ _ _ (by omega) ok1 (s3 (Or.inl c1)) (by omega)]
      simp only [divuCost, c1, if_true]
      omega
    · rw [if_neg (fun hx => c1 (s1.mp hx))]
      by_cases c2 : d ≤ (2 * w.alu + w.alue / 32768) % 65536
      · rw [if_pos (s2.mpr c2), ih (j + 1) _ _ _ (by omega) ok1 (s3 (Or.inr c2)) (by omega)]
        simp only [divuCost, c1, c2, if_true, if_false]
        omega
      · rw [if_neg (fun hx => c2 (s2.mp hx)), ih (j + 1) _ _ _ (by omega) ok1 (s4 c1 c2) (by omega)]
        simp only [divuCost, c1, c2, if_false]
        omega

theorem DivideUnsignedCycles_normal (h l d : Nat) (hd : d < 65536) (hh : h < d)
    (hl : l < 65536) :
    DivideUnsignedCycles (h * 65536 + l) d =
      6 + 2 * divuPasses d 15 ⟨h, l, 0⟩ + 10 := by
  have hq : ¬ ((h * 65536 + l) / d ≥ 0x10000) := by
    rw [ge_iff_le, Nat.le_div_iff_mul_le (by omega), not_le]
    calc h * 65536 + l < (h + 1) * 65536 := by omega
      _ ≤ d * 65536 := Nat.mul_le_mul_right _ hh
      _ = 65536 * d := Nat.mul_comm _ _
  have ha : (d <<< 16) % 4294967296 = d * 65536 := by
    rw [Nat.shiftLeft_eq]
    omega
  have hp := divuPasses_le d 15 ⟨h, l, 0⟩
  unfold DivideUnsignedCycles
  simp only [hq, if_false, ha, show d ≠ 0 by omega]
  rw [divu_ref_loop d hd 15 0 ⟨h, l, 0⟩ (h * 65536 + l) _ (by omega)
    ⟨hh, hl, Nat.zero_le _⟩ ?_ (by norm_num)]
  · have hp := divuPasses_le d 15 ⟨h, l, 0⟩
    omega
  · refine ⟨by omega, ?_, ?_⟩
    · show (h * 65536 + l) / 65536 = h
      omega
    · simp only [LowRel, pow_zero, Nat.div_one, Nat.mod_one, and_true]
      omega

theorem divsCost_le (d : Nat) (w : Work) : divsCost d w ≤ 4 := by
  unfold divsCost
  split_ifs <;> omega

theorem divsPasses_le (d : Nat) (n : Nat) (w : Work) : divsPasses d n w ≤ 4 * n := by
  induction n generalizing w with
  | zero => simp [divsPasses]
  | succ n ih =>
    have := ih (shiftSub d w)
    have := divsCost_le d w
    simp only [divsPasses]
    omega

theorem divs_ref_loop (d : Nat) (hd : d ≤ 32768) :
    ∀ (n j : Nat) (w : Work) (D c : Nat), j + n ≤ 15 → w.Ok d → RefRel j w D →
      c + 8 * n < 4294967296 →
      DivideSignedCycles_loop (d * 65536) n D c = c + 2 * divsPasses d n w := by
  intro n
  induction n with
  | zero =>
    intro j w D c _ _ _ _
    simp [DivideSignedCycles_loop, divsPasses]
  | succ n ih =>
    intro j w D c hj ok hr hc
    obtain ⟨-, s2, s3, s4⟩ := divu_ref_step d j w D (by omega) (by omega) ok hr
    have ok1 := (shiftSub_spec d w (by omega) ok).1
    have c1 : ¬ 32768 ≤ w.alu := by
      have := ok.1
      omega
    have e1 : (D <<< 1) % 4294967296 = (2 * D) % 4294967296 := by
      rw [Nat.shiftLeft_eq]
      omega
    simp only [DivideSignedCycles_loop, divsPasses, e1]
    by_cases c2 : d ≤ (2 * w.alu + w.alue / 32768) % 65536
    · rw [if_pos (s2.mpr c2), ih (j + 1) _ _ _ (by omega) ok1 (s3 (Or.inr c2)) (by omega)]
      simp only [divsCost, c2, if_true]
      omega
    · rw [if_neg (fun hx => c2 (s2.mp hx)), ih (j + 1) _ _ _ (by omega) ok1 (s4 c1 c2) (by omega)]
      simp only [divsCost, c2, if_false]
      omega

/-! ## The unsigned engine -/

theorem slaax_alu (alu alue : Nat) (h : alue < 65536) :
    ((alu <<< 1) % 65536 + ((alue >>> 15) &&& 1)) % 65536 = (2 * alu + alue / 32768) % 65536 := by
  rw [Nat.shiftLeft_eq, Nat.shiftRight_eq_div_pow, Nat.and_one_is_mod]
  norm_num
  omega

theorem slaax_alue (alue b : Nat) :
    ((alue <<< 1) % 65536 + b) % 65536 = (2 * alue + b) % 65536 := by
  rw [Nat.shiftLeft_eq]
  omega

theorem divu_shift (m : MC68000) (b : Nat) (hb : b ≤ 1)
    (h : m.microword = (if b = 1 then DVUM6 else DVUM5)) (hw : m.WF) :
    ExecuteDivu_body m = Control.next
      { m with cycles := (m.cycles + 2) % 4294967296,
               au := (m.au + 4294967296 - 1) % 4294967296,
               alu := (2 * m.alu + m.alue / 32768) % 65536,
               alue := (2 * m.alue + b) % 65536,
               microword := if m.flags &&& FLAG_N ≠ 0 then DVUM7 else DVUM8 } := by
  have he : m.alue < 65536 := hw.2.2.2.2.2.1
  by_cases hb1 : b = 1
  · subst hb1
    rw [divu_DVUM6 m (by simpa using h), slaax_alu _ _ he, slaax_alue]
  · have hb0 : b = 0 := by omega
    subst hb0
    rw [divu_DVUM5 m (by simpa using h), slaax_alu _ _ he, slaax_alue]

theorem next_exists {body : MC68000 → Control} {m X : MC68000}
    (h : body m = Control.next X) : ∃ m1, body m = Control.next m1 ∧ m1 = X := ⟨X, h, rfl⟩

theorem divu_iter (d : Nat) (m : MC68000) (w : Work) (k : Nat) (hd : d < 65536)
    (hbit : w.bit ≤ 1) (h : DivuAt d m w (k + 2)) :
    ∃ m1, passes ExecuteDivu_body (divuCost d w) m = some m1 ∧
      DivuAt d m1 (shiftSub d w) (k + 1) ∧
      m1.cycles = (m.cycles + 2 * divuCost d w) % 4294967296 := by
  obtain ⟨walu, walue, wbit⟩ := w
  obtain ⟨hw, hmw, halu, halue, hau, halub, hry, hN⟩ := h
  simp only at hbit hmw halu halue
  obtain ⟨m1, hb1, e1⟩ := next_exists (divu_shift m wbit hbit hmw hw)
  obtain ⟨hw1, hw2, hw3, hw4, hw5, he, hw7, ha, hf, hau2, hw11, hw12, hc⟩ := hw
  have hau1 : (m.au + 4294967296 - 1) % 4294967296 = k + 1 := by omega
  subst halu halue halub
  by_cases c1 : 32768 ≤ m.alu
  · -- forced subtraction: DVUM5/6, DVUM7
    have hf1 : ¬ (m.flags &&& FLAG_N = 0) := by rw [hN]; omega
    simp only [ne_eq, hf1, not_false_eq_true, if_true] at e1
    obtain ⟨m2, hb2, e2⟩ := next_exists (divu_DVUM7 m1 (by rw [e1]))
    simp only [e1] at e2
    refine ⟨m2, ?_, ?_, ?_⟩
    · simp only [divuCost, c1, if_true, passes, hb1, hb2]
    · clear hb1 hb2 e1
      subst e2
      simp only [DivuAt, MC68000.WF, shiftSub, divuCost, c1, if_true, hau1, ne_eq,
        Nat.add_one_ne_zero, not_false_eq_true, subFlags_N0]
      and_intros <;> first | omega | exact subFlags_lt _ _ | rfl | exact Iff.rfl | decide
    · clear hb1 hb2 e1
      subst e2
      simp only [divuCost, c1, if_true]
      omega
  · have hf1 : m.flags &&& FLAG_N = 0 := by rw [hN]; omega
    simp only [ne_eq, hf1, not_true_eq_false, if_false] at e1
    obtain ⟨m2, hb2, e2⟩ := next_exists (divu_DVUM8 m1 (by rw [e1]))
    simp only [e1, hau1, ne_eq, Nat.add_one_ne_zero, not_false_eq_true, if_true] at e2
    obtain ⟨m3, hb3, e3⟩ := next_exists (divu_DVUMB m2 (by rw [e2]))
    have ha1 : (2 * m.alu + m.alue / 32768) % 65536 < 65536 := Nat.mod_lt _ (by norm_num)
    simp only [e2, ne_eq, subFlags_C0 _ _ ha1 hw7] at e3
    by_cases c2 : m.alub ≤ (2 * m.alu + m.alue / 32768) % 65536
    · -- subtraction kept: DVUM5/6, DVUM8, DVUMB
      simp only [c2, not_true_eq_false, if_false] at e3
      refine ⟨m3, ?_, ?_, ?_⟩
      · simp only [divuCost, c1, c2, if_true, if_false, passes, hb1, hb2, hb3]
      · clear hb1 hb2 hb3 e1 e2
        subst e3
        simp only [DivuAt, MC68000.WF, shiftSub, divuCost, c1, c2, if_true, if_false, hau1,
          subFlags_N0]
        and_intros <;> first | omega | exact subFlags_lt _ _ | rfl | exact Iff.rfl | decide
      · clear hb1 hb2 hb3 e1 e2
        subst e3
        simp only [divuCost, c1, c2, if_true, if_false]
        omega
    · -- subtraction undone: DVUM5/6, DVUM8, DVUMB, DVUME
      simp only [c2, not_false_eq_true, if_true] at e3
      obtain ⟨m4, hb4, e4⟩ := next_exists (divu_DVUME m3 (by rw [e3]))
      simp only [e3, and_FFFF _ ha1] at e4
      refine ⟨m4, ?_, ?_, ?_⟩
      · simp only [divuCost, c1, c2, if_true, if_false, passes, hb1, hb2, hb3, hb4]
      · clear hb1 hb2 hb3 hb4 e1 e2 e3
        subst e4
        simp only [DivuAt, MC68000.WF, shiftSub, divuCost, c1, c2, if_true, if_false, hau1,
          andFlags_N0 _ _ ha1]
        and_intros <;> first | omega | exact andFlags_lt _ _ | rfl | exact Iff.rfl | decide
      · clear hb1 hb2 hb3 hb4 e1 e2 e3
        subst e4
        simp only [divuCost, c1, c2, if_true, if_false]
        omega

theorem shiftSub_bit_le (d : Nat) (w : Work) : (shiftSub d w).bit ≤ 1 := by
  unfold shiftSub
  simp only
  split_ifs <;> simp

theorem divu_iters (d : Nat) (hd : d < 65536) :
    ∀ (n k : Nat) (m : MC68000) (w : Work), w.bit ≤ 1 → DivuAt d m w (k + n + 1) →
      ∃ m1, passes ExecuteDivu_body (divuPasses d n w) m = some m1 ∧
        DivuAt d m1 (shiftSubN d n w) (k + 1) ∧
        m1.cycles = (m.cycles + 2 * divuPasses d n w) % 4294967296 ∧
        (shiftSubN d n w).bit ≤ 1 := by
  intro n
  induction n with
  | zero =>
    intro k m w hb h
    refine ⟨m, rfl, h, ?_, hb⟩
    have := h.1.2.2.2.2.2.2.2.2.2.2.2.2
    simp only [divuPasses]
    omega
  | succ n ih =>
    intro k m w hb h
    obtain ⟨m1, p1, a1, c1⟩ := divu_iter d m w (k + n) hd hb h
    obtain ⟨m2, p2, a2, c2, b2⟩ := ih k m1 (shiftSub d w) (shiftSub_bit_le d w) a1
    refine ⟨m2, passes_trans _ _ _ _ _ _ p1 p2, a2, ?_, b2⟩
    rw [c2, c1]
    simp only [divuPasses]
    omega

theorem divu_last (d : Nat) (m : MC68000) (w : Work) (hd : d < 65536)
    (hbit : w.bit ≤ 1) (h : DivuAt d m w 1) :
    ∃ m1, passes ExecuteDivu_body 5 m = some m1 ∧ m1.microword = A1 ∧
      m1.rxdh = (shiftSub d w).alu ∧
      m1.rxdl = (2 * (shiftSub d w).alue + (shiftSub d w).bit) % 65536 ∧
      m1.rydl = m.rydl ∧
      m1.cycles = (m.cycles + 10) % 4294967296 := by
  obtain ⟨walu, walue, wbit⟩ := w
  obtain ⟨hw, hmw, halu, halue, hau, halub, hry, hN⟩ := h
  simp only at hbit hmw halu halue
  obtain ⟨m1, hb1, e1⟩ := next_exists (divu_shift m wbit hbit hmw hw)
  obtain ⟨hw1, hw2, hw3, hw4, hw5, he, hw7, ha, hf, hau2, hw11, hw12, hc⟩ := hw
  have hau1 : (m.au + 4294967296 - 1) % 4294967296 = 0 := by omega
  have ha1 : (2 * m.alu + m.alue / 32768) % 65536 < 65536 := Nat.mod_lt _ (by norm_num)
  subst halu halue halub
  by_cases c1 : 32768 ≤ m.alu
  · -- DVUM5/6, DVUM7, DVUM9, DVUMD, DVUM0
    have hf1 : ¬ (m.flags &&& FLAG_N = 0) := by rw [hN]; omega
    simp only [ne_eq, hf1, not_false_eq_true, if_true] at e1
    obtain ⟨m2, hb2, e2⟩ := next_exists (divu_DVUM7 m1 (by rw [e1]))
    simp only [e1, hau1, ne_eq, not_true_eq_false, if_false] at e2
    obtain ⟨m3, hb3, e3⟩ := next_exists (divu_DVUM9 m2 (by rw [e2]))
    simp only [e2] at e3
    obtain ⟨m4, hb4, e4⟩ := next_exists (divu_DVUMD m3 (by rw [e3]))
    simp only [e3, slaax_alue] at e4
    obtain ⟨m5, hb5, e5⟩ := next_exists (divu_DVUM0 m4 (by rw [e4]))
    simp only [e4] at e5
    refine ⟨m5, ?_, ?_⟩
    · simp only [passes, hb1, hb2, hb3, hb4, hb5]
    · clear hb1 hb2 hb3 hb4 hb5 e1 e2 e3 e4
      subst e5
      simp only [shiftSub, c1, if_true]
      and_intros <;> first | exact True.intro | omega
  · have hf1 : m.flags &&& FLAG_N = 0 := by rw [hN]; omega
    simp only [ne_eq, hf1, not_true_eq_false, if_false] at e1
    obtain ⟨m2, hb2, e2⟩ := next_exists (divu_DVUM8 m1 (by rw [e1]))
    simp only [e1, hau1, ne_eq, not_true_eq_false, if_false] at e2
    obtain ⟨m3, hb3, e3⟩ := next_exists (divu_DVUMC m2 (by rw [e2]))
    simp only [e2, ne_eq, subFlags_C0 _ _ ha1 hw7] at e3
    by_cases c2 : m.alub ≤ (2 * m.alu + m.alue / 32768) % 65536
    · -- DVUM5/6, DVUM8, DVUMC, DVUMD, DVUM0
      simp only [c2, not_true_eq_false, if_false] at e3
      obtain ⟨m4, hb4, e4⟩ := next_exists (divu_DVUMD m3 (by rw [e3]))
      simp only [e3, slaax_alue] at e4
      obtain ⟨m5, hb5, e5⟩ := next_exists (divu_DVUM0 m4 (by rw [e4]))
      simp only [e4] at e5
      refine ⟨m5, ?_, ?_⟩
      · simp only [passes, hb1, hb2, hb3, hb4, hb5]
      · clear hb1 hb2 hb3 hb4 hb5 e1 e2 e3 e4
        subst e5
        simp only [shiftSub, c1, c2, if_true, if_false]
        and_intros <;> first | exact True.intro | omega
    · -- DVUM5/6, DVUM8, DVUMC, DVUMF, DVUM0
      simp only [c2, not_false_eq_true, if_true] at e3
      obtain ⟨m4, hb4, e4⟩ := next_exists (divu_DVUMF m3 (by rw [e3]))
      simp only [e3, slaax_alue] at e4
      obtain ⟨m5, hb5, e5⟩ := next_exists (divu_DVUM0 m4 (by rw [e4]))
      simp only [e4] at e5
      refine ⟨m5, ?_, ?_⟩
      · simp only [passes, hb1, hb2, hb3, hb4, hb5]
      · clear hb1 hb2 hb3 hb4 hb5 e1 e2 e3 e4
        subst e5
        simp only [shiftSub, c1, c2, if_false]
        and_intros <;> first | exact True.intro | omega

theorem WF_init (m : MC68000) (l : Nat) (hl : l < 65536) (hw : m.WF) :
    ({ m with microword := l } : MC68000).WF := by
  obtain ⟨h1, h2⟩ := hw
  exact ⟨hl, h2⟩

theorem divu_prologue (m : MC68000) (hw : m.WF) (h : m.microword = DVUR1)
    (h0 : m.rydl ≠ 0) (hlt : m.rxdh < m.rydl) :
    ∃ m3, passes ExecuteDivu_body 3 m = some m3 ∧
      DivuAt m.rydl m3 ⟨m.rxdh, m.rxdl, 0⟩ 16 ∧
      m3.cycles = (m.cycles + 6) % 4294967296 ∧ m3.rydl = m.rydl := by
  obtain ⟨hw1, hw2, hw3, hw4, hw5, he, hw7, ha, hf, hau2, hw11, hw12, hc⟩ := hw
  obtain ⟨m1, hb1, e1⟩ := next_exists (divu_DVUR1 m h)
  simp only [and_FFFF _ hw4] at e1
  obtain ⟨m2, hb2, e2⟩ := next_exists (divu_DVUM2 m1 (by rw [e1]))
  simp only [e1, ne_eq, andFlags_Z0, h0, not_false_eq_true, not_true_eq_false, if_false] at e2
  obtain ⟨m3, hb3, e3⟩ := next_exists (divu_DVUM3 m2 (by rw [e2]))
  simp only [e2, ne_eq, subFlags_C0 _ _ hw2 hw4, not_le.mpr hlt, not_false_eq_true, if_true,
    and_FFFF _ hw2] at e3
  refine ⟨m3, ?_, ?_⟩
  · simp only [passes, hb1, hb2, hb3]
  · clear hb1 hb2 hb3 e1 e2
    subst e3
    simp only [DivuAt, MC68000.WF, andFlags_N0 _ _ hw2]
    and_intros <;>
      first | exact True.intro | omega | exact andFlags_lt _ _ | exact Iff.rfl | decide | rfl

theorem divu_trap_run (m : MC68000) (hw : m.WF) (h : m.microword = DVUR1)
    (h0 : m.rydl = 0) :
    ∃ m2, passes ExecuteDivu_body 2 m = some m2 ∧ m2.microword = TRAP0 ∧
      m2.rxdh = m.rxdh ∧ m2.rxdl = m.rxdl ∧ m2.rydl = m.rydl ∧
      m2.cycles = (m.cycles + 4) % 4294967296 := by
  obtain ⟨hw1, hw2, hw3, hw4, hw5, he, hw7, ha, hf, hau2, hw11, hw12, hc⟩ := hw
  obtain ⟨m1, hb1, e1⟩ := next_exists (divu_DVUR1 m h)
  simp only [and_FFFF _ hw4] at e1
  obtain ⟨m2, hb2, e2⟩ := next_exists (divu_DVUM2 m1 (by rw [e1]))
  simp only [e1, ne_eq, andFlags_Z0, h0, not_false_eq_true, not_true_eq_false, if_true] at e2
  refine ⟨m2, ?_, ?_⟩
  · simp only [passes, hb1, hb2]
  · clear hb1 hb2 e1
    subst e2
    simp only []
    and_intros <;> first | exact True.intro | omega

theorem divu_overflow_run (m : MC68000) (hw : m.WF) (h : m.microword = DVUR1)
    (h0 : m.rydl ≠ 0) (hge : m.rydl ≤ m.rxdh) :
    ∃ m5, passes ExecuteDivu_body 5 m = some m5 ∧ m5.microword = A1 ∧
      m5.rxdh = m.rxdh ∧ m5.rxdl = m.rxdl ∧ m5.rydl = m.rydl ∧
      m5.cycles = (m.cycles + 10) % 4294967296 := by
  obtain ⟨hw1, hw2, hw3, hw4, hw5, he, hw7, ha, hf, hau2, hw11, hw12, hc⟩ := hw
  obtain ⟨m1, hb1, e1⟩ := next_exists (divu_DVUR1 m h)
  simp only [and_FFFF _ hw4] at e1
  obtain ⟨m2, hb2, e2⟩ := next_exists (divu_DVUM2 m1 (by rw [e1]))
  simp only [e1, ne_eq, andFlags_Z0, h0, not_false_eq_true, not_true_eq_false, if_false] at e2
  obtain ⟨m3, hb3, e3⟩ := next_exists (divu_DVUM3 m2 (by rw [e2]))
  simp only [e2, ne_eq, subFlags_C0 _ _ hw2 hw4, hge, not_true_eq_false, if_false,
    and_FFFF _ hw2] at e3
  obtain ⟨m4, hb4, e4⟩ := next_exists (divu_DVUM4 m3 (by rw [e3]))
  simp only [e3] at e4
  obtain ⟨m5, hb5, e5⟩ := next_exists (divu_DVUMA m4 (by rw [e4]))
  simp only [e4] at e5
  refine ⟨m5, ?_, ?_⟩
  · simp only [passes, hb1, hb2, hb3, hb4, hb5]
  · clear hb1 hb2 hb3 hb4 hb5 e1 e2 e3 e4
    subst e5
    simp only []
    and_intros <;> first | exact True.intro | omega

/-- A run of `ExecuteDivu` that reaches `A1` or `TRAP0` after `n` passes returns on the
next pass, with the two cycles of that pass discounted. -/
theorem ExecuteDivu_of_passes (m m1 : MC68000) (n : Nat) (hn : n < 128)
    (hp : passes ExecuteDivu_body n (divuStart m) = some m1)
    (hm : m1.microword = A1 ∨ m1.microword = TRAP0) (hc : m1.cycles < 4294967296) :
    ExecuteDivu m = some m1 := by
  unfold ExecuteDivu
  obtain ⟨k, hk⟩ : ∃ k, 128 = n + (k + 1) := ⟨127 - n, by omega⟩
  rw [hk, whileTrue_of_passes _ n (k + 1) _ m1 hp]
  have e : ((m1.cycles + 2) % 4294967296 + 4294967296 - 2) % 4294967296 = m1.cycles := by
    omega
  rcases hm with hm | hm
  · rw [whileTrue_ret _ k m1 _ (divu_A1 m1 hm), e]
  · rw [whileTrue_ret _ k m1 _ (divu_TRAP0 m1 hm), e]

theorem ExecuteDivu_normal (m : MC68000) (hw : m.WF) (h0 : m.rydl ≠ 0)
    (hlt : m.rxdh < m.rydl) :
    ∃ r, ExecuteDivu m = some r ∧ r.microword = A1 ∧
      r.rxdh = (m.rxdh * 65536 + m.rxdl) % m.rydl ∧
      r.rxdl = (m.rxdh * 65536 + m.rxdl) / m.rydl ∧ r.rydl = m.rydl ∧
      r.cycles =
        (m.cycles + DivideUnsignedCycles (m.rxdh * 65536 + m.rxdl) m.rydl) % 4294967296 := by
  have hd : m.rydl < 65536 := hw.2.2.2.1
  have hl : m.rxdl < 65536 := hw.2.2.1
  have hc0 : m.cycles < 4294967296 := hw.2.2.2.2.2.2.2.2.2.2.2.2
  obtain ⟨m3, p3, a3, c3, y3⟩ :=
    divu_prologue { m with microword := DVUR1 } (WF_init m _ (by decide) hw) rfl h0 hlt
  simp only at a3 c3 y3
  obtain ⟨m4, p4, a4, c4, b4⟩ :=
    divu_iters m.rydl hd 15 0 m3 ⟨m.rxdh, m.rxdl, 0⟩ (Nat.zero_le _) a3
  have y4 : True := True.intro
  obtain ⟨m5, p5, w5, x5, q5, y5, c5⟩ := divu_last m.rydl m4 _ hd b4 a4
  have hall := passes_trans _ _ _ _ _ _ (passes_trans _ _ _ _ _ _ p3 p4) p5
  have hP := divuPasses_le m.rydl 15 ⟨m.rxdh, m.rxdl, 0⟩
  have hr := ExecuteDivu_of_passes m m5 _ (by omega) hall (Or.inl w5) (by omega)
  obtain ⟨r1, r2⟩ := shiftSubN_16 m.rydl m.rxdh m.rxdl hd hlt hl
  refine ⟨m5, hr, w5, ?_, ?_, ?_, ?_⟩
  · rw [x5, ← shiftSubN_succ, r1]
  · rw [q5, ← shiftSubN_succ, r2]
  · rw [y5, a4.2.2.2.2.2.2.1]
  · rw [c5, c4, c3, DivideUnsignedCycles_normal _ _ _ hd hlt hl]
    omega

/-! ## The signed engine -/

theorem divs_shift (m : MC68000) (b : Nat) (hb : b ≤ 1)
    (h : m.microword = (if b = 1 then DVS0A else DVS09)) (hw : m.WF) :
    ExecuteDivs_body m = Control.next
      { m with cycles := (m.cycles + 2) % 4294967296,
               au := (m.au + 4294967296 - 1) % 4294967296,
               alu := (2 * m.alu + m.alue / 32768) % 65536,
               alue := (2 * m.alue + b) % 65536,
               microword := DVS0C } := by
  have he : m.alue < 65536 := hw.2.2.2.2.2.1
  by_cases hb1 : b = 1
  · subst hb1
    rw [divs_DVS0A m (by simpa using h), slaax_alu _ _ he, slaax_alue]
  · have hb0 : b = 0 := by omega
    subst hb0
    rw [divs_DVS09 m (by simpa using h), slaax_alu _ _ he, slaax_alue]

theorem divs_iter (m0 : MC68000) (d : Nat) (m : MC68000) (w : Work) (k : Nat)
    (hd : d < 65536) (hbit : w.bit ≤ 1) (hpos : w.alu < 32768)
    (h : DivsAt m0 d m w (k + 2)) :
    ∃ m1, passes ExecuteDivs_body (divsCost d w) m = some m1 ∧
      DivsAt m0 d m1 (shiftSub d w) (k + 1) ∧
      m1.cycles = (m.cycles + 2 * divsCost d w) % 4294967296 := by
  obtain ⟨walu, walue, wbit⟩ := w
  obtain ⟨hw, hmw, halu, halue, hau, halub, hath, hxh, hxl, hry⟩ := h
  simp only at hbit hmw halu halue hpos
  obtain ⟨m1, hb1, e1⟩ := next_exists (divs_shift m wbit hbit hmw hw)
  obtain ⟨hw1, hw2, hw3, hw4, hw5, he, hw7, ha, hf, hau2, hw11, hw12, hc⟩ := hw
  have hau1 : (m.au + 4294967296 - 1) % 4294967296 = k + 1 := by omega
  have ha1 : (2 * m.alu + m.alue / 32768) % 65536 < 65536 := Nat.mod_lt _ (by norm_num)
  subst halu halue halub
  have c1 : ¬ 32768 ≤ m.alu := by omega
  obtain ⟨m2, hb2, e2⟩ := next_exists (divs_DVS0C m1 (by rw [e1]))
  simp only [e1, hau1, ne_eq, Nat.add_one_ne_zero, not_false_eq_true, if_true] at e2
  obtain ⟨m3, hb3, e3⟩ := next_exists (divs_DVS0D m2 (by rw [e2]))
  simp only [e2, ne_eq, subFlags_C0 _ _ ha1 hw7] at e3
  by_cases c2 : m.alub ≤ (2 * m.alu + m.alue / 32768) % 65536
  · -- subtraction kept: DVS09/A, DVS0C, DVS0D
    simp only [c2, not_true_eq_false, if_false] at e3
    refine ⟨m3, ?_, ?_, ?_⟩
    · simp only [divsCost, c2, if_true, passes, hb1, hb2, hb3]
    · clear hb1 hb2 hb3 e1 e2
      subst e3
      simp only [DivsAt, MC68000.WF, shiftSub, c1, c2, if_true, if_false, hau1]
      and_intros <;>
        first | exact True.intro | omega | exact subFlags_lt _ _ | decide
    · clear hb1 hb2 hb3 e1 e2
      subst e3
      simp only [divsCost, c2, if_true]
      omega
  · -- subtraction undone: DVS09/A, DVS0C, DVS0D, DVS0F
    simp only [c2, not_false_eq_true, if_true] at e3
    obtain ⟨m4, hb4, e4⟩ := next_exists (divs_DVS0F m3 (by rw [e3]))
    simp only [e3, and_FFFF _ ha1] at e4
    refine ⟨m4, ?_, ?_, ?_⟩
    · simp only [divsCost, c2, if_false, passes, hb1, hb2, hb3, hb4]
    · clear hb1 hb2 hb3 hb4 e1 e2 e3
      subst e4
      simp only [DivsAt, MC68000.WF, shiftSub, c1, c2, if_false, hau1]
      and_intros <;>
        first | exact True.intro | omega | exact andFlags_lt _ _ | decide
    · clear hb1 hb2 hb3 hb4 e1 e2 e3
      subst e4
      simp only [divsCost, c2, if_false]
      omega

theorem divs_iters (m0 : MC68000) (d : Nat) (hd : d ≤ 32768) :
    ∀ (n k : Nat) (m : MC68000) (w : Work), w.Ok d → DivsAt m0 d m w (k + n + 1) →
      ∃ m1, passes ExecuteDivs_body (divsPasses d n w) m = some m1 ∧
        DivsAt m0 d m1 (shiftSubN d n w) (k + 1) ∧
        m1.cycles = (m.cycles + 2 * divsPasses d n w) % 4294967296 ∧
        (shiftSubN d n w).Ok d := by
  intro n
  induction n with
  | zero =>
    intro k m w hb h
    refine ⟨m, rfl, h, ?_, hb⟩
    have := h.1.2.2.2.2.2.2.2.2.2.2.2.2
    simp only [divsPasses]
    omega
  | succ n ih =>
    intro k m w ok h
    obtain ⟨m1, p1, a1, c1⟩ :=
      divs_iter m0 d m w (k + n) (by omega) ok.2.2 (by have := ok.1; omega) h
    obtain ⟨m2, p2, a2, c2, b2⟩ :=
      ih k m1 (shiftSub d w) (shiftSub_spec d w (by omega) ok).1 a1
    refine ⟨m2, passes_trans _ _ _ _ _ _ p1 p2, a2, ?_, b2⟩
    rw [c2, c1]
    simp only [divsPasses]
    omega

theorem divs_last (m0 : MC68000) (d : Nat) (m : MC68000) (w : Work) (hd : d < 65536)
    (hbit : w.bit ≤ 1) (hpos : w.alu < 32768) (h : DivsAt m0 d m w 1) :
    ∃ m1, passes ExecuteDivs_body 4 m = some m1 ∧ m1.WF ∧ m1.microword = DVS14 ∧
      m1.atl = (shiftSub d w).alu ∧
      m1.alue = (2 * (shiftSub d w).alue + (shiftSub d w).bit) % 65536 ∧
      m1.ath = m0.rydl ∧ m1.rxdh = m0.rxdh ∧ m1.rxdl = m0.rxdl ∧ m1.rydl = m0.rydl ∧
      m1.cycles = (m.cycles + 8) % 4294967296 := by
  obtain ⟨walu, walue, wbit⟩ := w
  obtain ⟨hw, hmw, halu, halue, hau, halub, hath, hxh, hxl, hry⟩ := h
  simp only at hbit hmw halu halue hpos
  obtain ⟨m1, hb1, e1⟩ := next_exists (divs_shift m wbit hbit hmw hw)
  obtain ⟨hw1, hw2, hw3, hw4, hw5, he, hw7, ha, hf, hau2, hw11, hw12, hc⟩ := hw
  have hau1 : (m.au + 4294967296 - 1) % 4294967296 = 0 := by omega
  have ha1 : (2 * m.alu + m.alue / 32768) % 65536 < 65536 := Nat.mod_lt _ (by norm_num)
  subst halu halue halub
  have c1 : ¬ 32768 ≤ m.alu := by omega
  obtain ⟨m2, hb2, e2⟩ := next_exists (divs_DVS0C m1 (by rw [e1]))
  simp only [e1, hau1, ne_eq, not_true_eq_false, if_false] at e2
  obtain ⟨m3, hb3, e3⟩ := next_exists (divs_DVS0E m2 (by rw [e2]))
  simp only [e2, ne_eq, subFlags_C0 _ _ ha1 hw7] at e3
  by_cases c2 : m.alub ≤ (2 * m.alu + m.alue / 32768) % 65536
  · -- DVS09/A, DVS0C, DVS0E, DVS13
    simp only [c2, not_true_eq_false, if_false] at e3
    obtain ⟨m4, hb4, e4⟩ := next_exists (divs_DVS13 m3 (by rw [e3]))
    simp only [e3, slaax_alue] at e4
    refine ⟨m4, ?_, ?_⟩
    · simp only [passes, hb1, hb2, hb3, hb4]
    · clear hb1 hb2 hb3 hb4 e1 e2 e3
      subst e4
      simp only [MC68000.WF, shiftSub, c1, c2, if_true, if_false]
      and_intros <;>
        first | exact True.intro | omega | exact subFlags_lt _ _ | decide
  · -- DVS09/A, DVS0C, DVS0E, DVS12
    simp only [c2, not_false_eq_true, if_true] at e3
    obtain ⟨m4, hb4, e4⟩ := next_exists (divs_DVS12 m3 (by rw [e3]))
    simp only [e3, slaax_alue] at e4
    refine ⟨m4, ?_, ?_⟩
    · simp only [passes, hb1, hb2, hb3, hb4]
    · clear hb1 hb2 hb3 hb4 e1 e2 e3
      subst e4
      simp only [MC68000.WF, shiftSub, c1, c2, if_false]
      and_intros <;>
        first | exact True.intro | omega | exact subFlags_lt _ _ | decide

theorem divs_stageA (m : MC68000) (hw : m.WF) (h : m.microword = DVS01)
    (h0 : m.rydl ≠ 0) :
    ∃ m3, passes ExecuteDivs_body 3 m = some m3 ∧ m3.WF ∧ m3.microword = DVS06 ∧
      m3.alub = absDivisor m.rydl ∧ m3.au = 16 ∧ m3.atl = m.rxdh ∧ m3.alue = m.rxdl ∧
      m3.ath = m.rydl ∧ (m3.flags &&& FLAG_N = 0 ↔ m.rxdh < 32768) ∧
      m3.rxdh = m.rxdh ∧ m3.rxdl = m.rxdl ∧ m3.rydl = m.rydl ∧
      m3.cycles = (m.cycles + 6) % 4294967296 := by
  obtain ⟨hw1, hw2, hw3, hw4, hw5, he, hw7, ha, hf, hau2, hw11, hw12, hc⟩ := hw
  by_cases sd : 32768 ≤ m.rydl
  · have sd1 : ¬ m.rydl < 32768 := by omega
    obtain ⟨m1, hb1, e1⟩ := next_exists (divs_DVS01 m (by rw [h]))
    simp only [and_FFFF _ hw4] at e1
    obtain ⟨m2, hb2, e2⟩ := next_exists (divs_DVS03 m1 (by rw [e1]))
    simp only [e1, ne_eq, andFlags_Z0, andFlags_N0 _ _ hw4, h0, sd1, not_false_eq_true,
        not_true_eq_false, if_true, if_false] at e2
    obtain ⟨m3, hb3, e3⟩ := next_exists (divs_DVS05 m2 (by rw [e2]))
    simp only [e2, and_FFFF _ hw2] at e3
    refine ⟨m3, ?_, ?_⟩
    · simp only [passes, hb1, hb2, hb3]
    · clear hb1 hb2 hb3 e1 e2
      subst e3
      simp only [MC68000.WF, absDivisor, sd, if_true, andFlags_N0 _ _ hw2]
      and_intros <;>
        first | exact True.intro | omega | exact andFlags_lt _ _ | exact subFlags_lt _ _ | exact Iff.rfl | decide
  · have sd1 : m.rydl < 32768 := by omega
    obtain ⟨m1, hb1, e1⟩ := next_exists (divs_DVS01 m (by rw [h]))
    simp only [and_FFFF _ hw4] at e1
    obtain ⟨m2, hb2, e2⟩ := next_exists (divs_DVS03 m1 (by rw [e1]))
    simp only [e1, ne_eq, andFlags_Z0, andFlags_N0 _ _ hw4, h0, sd1, not_false_eq_true,
        not_true_eq_false, if_true, if_false] at e2
    obtain ⟨m3, hb3, e3⟩ := next_exists (divs_DVS04 m2 (by rw [e2]))
    simp only [e2, and_FFFF _ hw2] at e3
    refine ⟨m3, ?_, ?_⟩
    · simp only [passes, hb1, hb2, hb3]
    · clear hb1 hb2 hb3 e1 e2
      subst e3
      simp only [MC68000.WF, absDivisor, sd, if_false, andFlags_N0 _ _ hw2]
      and_intros <;>
        first | exact True.intro | omega | exact andFlags_lt _ _ | exact subFlags_lt _ _ | exact Iff.rfl | decide

theorem divs_stageB (m : MC68000) (hw : m.WF) (h : m.microword = DVS06)
    (hN : m.flags &&& FLAG_N = 0 ↔ m.rxdh < 32768) (hatl : m.atl = m.rxdh)
    (halue : m.alue = m.rxdl) :
    ∃ m1, passes ExecuteDivs_body (if 32768 ≤ m.rxdh then 4 else 3) m = some m1 ∧ m1.WF ∧
      m1.microword = (if absHi m.rxdh m.rxdl < m.alub then DVS09 else DVUMZ) ∧
      m1.alu = absHi m.rxdh m.rxdl ∧ m1.alue = absLo m.rxdh m.rxdl ∧
      m1.au = m.au ∧ m1.alub = m.alub ∧ m1.ath = m.ath ∧
      m1.rxdh = m.rxdh ∧ m1.rxdl = m.rxdl ∧ m1.rydl = m.rydl ∧
      m1.cycles = (m.cycles + 2 * (if 32768 ≤ m.rxdh then 4 else 3)) % 4294967296 := by
  obtain ⟨hw1, hw2, hw3, hw4, hw5, he, hw7, ha, hf, hau2, hw11, hw12, hc⟩ := hw
  by_cases sD : 32768 ≤ m.rxdh
  · have hf1 : ¬ (m.flags &&& FLAG_N = 0) := by rw [hN]; omega
    have hx : (131072 - m.rxdh - (if 0 < m.rxdl then 1 else 0)) % 65536 < 65536 :=
      Nat.mod_lt _ (by norm_num)
    simp only [sD, if_true, absHi, absLo]
    by_cases c : (131072 - m.rxdh - (if 0 < m.rxdl then 1 else 0)) % 65536 < m.alub
    · obtain ⟨m1, hb1, e1⟩ := next_exists (divs_DVS06 m (by rw [h]))
      simp only [ne_eq, hf1, not_false_eq_true, if_true] at e1
      obtain ⟨m2, hb2, e2⟩ := next_exists (divs_DVS10 m1 (by rw [e1]))
      simp only [e1, subFlags_Xbit 0 m.rxdl (by norm_num) hw3, Nat.zero_add] at e2
      obtain ⟨m3, hb3, e3⟩ := next_exists (divs_DVS11 m2 (by rw [e2]))
      simp only [e2] at e3
      obtain ⟨m4, hb4, e4⟩ := next_exists (divs_DVS08 m3 (by rw [e3]))
      simp only [e3, ne_eq, subFlags_C0 _ _ hx hw7, and_FFFF _ hx, not_le, c, not_true_eq_false,
          not_false_eq_true, if_true, if_false] at e4
      refine ⟨m4, ?_, ?_⟩
      · simp only [passes, hb1, hb2, hb3, hb4]
      · clear hb1 hb2 hb3 hb4 e1 e2 e3
        subst e4
        simp only [MC68000.WF, c, if_true, if_false, hatl, halue]
        and_intros <;>
          first | exact True.intro | omega | exact andFlags_lt _ _ | exact subFlags_lt _ _ | exact Iff.rfl | decide
    · obtain ⟨m1, hb1, e1⟩ := next_exists (divs_DVS06 m (by rw [h]))
      simp only [ne_eq, hf1, not_false_eq_true, if_true] at e1
      obtain ⟨m2, hb2, e2⟩ := next_exists (divs_DVS10 m1 (by rw [e1]))
      simp only [e1, subFlags_Xbit 0 m.rxdl (by norm_num) hw3, Nat.zero_add] at e2
      obtain ⟨m3, hb3, e3⟩ := next_exists (divs_DVS11 m2 (by rw [e2]))
      simp only [e2] at e3
      obtain ⟨m4, hb4, e4⟩ := next_exists (divs_DVS08 m3 (by rw [e3]))
      simp only [e3, ne_eq, subFlags_C0 _ _ hx hw7, and_FFFF _ hx, not_le, c, not_true_eq_false,
          not_false_eq_true, if_true, if_false] at e4
      refine ⟨m4, ?_, ?_⟩
      · simp only [passes, hb1, hb2, hb3, hb4]
      · clear hb1 hb2 hb3 hb4 e1 e2 e3
        subst e4
        simp only [MC68000.WF, c, if_true, if_false, hatl, halue]
        and_intros <;>
          first | exact True.intro | omega | exact andFlags_lt _ _ | exact subFlags_lt _ _ | exact Iff.rfl | decide
  · have hf1 : m.flags &&& FLAG_N = 0 := by rw [hN]; omega
    simp only [sD, if_false, absHi, absLo]
    by_cases c : m.rxdh < m.alub
    · obtain ⟨m1, hb1, e1⟩ := next_exists (divs_DVS06 m (by rw [h]))
      simp only [ne_eq, hf1, not_true_eq_false, if_false] at e1
      obtain ⟨m2, hb2, e2⟩ := next_exists (divs_DVS07 m1 (by rw [e1]))
      simp only [e1, hatl] at e2
      obtain ⟨m3, hb3, e3⟩ := next_exists (divs_DVS08 m2 (by rw [e2]))
      simp only [e2, ne_eq, hatl, subFlags_C0 _ _ hw2 hw7, and_FFFF _ hw2, not_le, c,
          not_true_eq_false, not_false_eq_true, if_true, if_false] at e3
      refine ⟨m3, ?_, ?_⟩
      · simp only [passes, hb1, hb2, hb3]
      · clear hb1 hb2 hb3 e1 e2
        subst e3
        simp only [MC68000.WF, c, if_true, if_false, hatl, halue]
        and_intros <;>
          first | exact True.intro | omega | exact andFlags_lt _ _ | exact subFlags_lt _ _ | exact Iff.rfl | decide
    · obtain ⟨m1, hb1, e1⟩ := next_exists (divs_DVS06 m (by rw [h]))
      simp only [ne_eq, hf1, not_true_eq_false, if_false] at e1
      obtain ⟨m2, hb2, e2⟩ := next_exists (divs_DVS07 m1 (by rw [e1]))
      simp only [e1, hatl] at e2
      obtain ⟨m3, hb3, e3⟩ := next_exists (divs_DVS08 m2 (by rw [e2]))
      simp only [e2, ne_eq, hatl, subFlags_C0 _ _ hw2 hw7, and_FFFF _ hw2, not_le, c,
          not_true_eq_false, not_false_eq_true, if_true, if_false] at e3
      refine ⟨m3, ?_, ?_⟩
      · simp only [passes, hb1, hb2, hb3]
      · clear hb1 hb2 hb3 e1 e2
        subst e3
        simp only [MC68000.WF, c, if_true, if_false, hatl, halue]
        and_intros <;>
          first | exact True.intro | omega | exact andFlags_lt _ _ | exact subFlags_lt _ _ | exact Iff.rfl | decide

theorem divs_early_exit (m : MC68000) (hw : m.WF) (h : m.microword = DVUMZ) :
    ∃ m2, passes ExecuteDivs_body 2 m = some m2 ∧ m2.microword = A1 ∧
      m2.rxdh = m.rxdh ∧ m2.rxdl = m.rxdl ∧ m2.rydl = m.rydl ∧
      m2.cycles = (m.cycles + 4) % 4294967296 := by
  obtain ⟨hw1, hw2, hw3, hw4, hw5, he, hw7, ha, hf, hau2, hw11, hw12, hc⟩ := hw
  obtain ⟨m1, hb1, e1⟩ := next_exists (divs_DVUMZ m (by rw [h]))
  obtain ⟨m2, hb2, e2⟩ := next_exists (divs_DVUMA m1 (by rw [e1]))
  simp only [e1] at e2
  refine ⟨m2, ?_, ?_⟩
  · simp only [passes, hb1, hb2]
  · clear hb1 hb2 e1
    subst e2
    simp only []
    and_intros <;> first | exact True.intro | omega

theorem divs_epilogue (m : MC68000) (hw : m.WF) (h : m.microword = DVS14)
    (hath : m.ath = m.rydl) :
    ∃ m1, passes ExecuteDivs_body (divsFixPasses m.rxdh m.rydl) m = some m1 ∧
      m1.microword = A1 ∧ m1.rydl = m.rydl ∧
      m1.cycles = (m.cycles + 2 * divsFixPasses m.rxdh m.rydl) % 4294967296 ∧
      m1.rxdh = (if divsOverflow m.rxdh m.rydl m.alue then m.rxdh else divsRem m.rxdh m.atl) ∧
      m1.rxdl =
        (if divsOverflow m.rxdh m.rydl m.alue then m.rxdl
         else divsQuot m.rxdh m.rydl m.alue) := by
  obtain ⟨hw1, hw2, hw3, hw4, hw5, he, hw7, ha, hf, hau2, hw11, hw12, hc⟩ := hw
  have hq : (0 + 65536 - m.alue) % 65536 < 65536 := Nat.mod_lt _ (by norm_num)
  by_cases sd : 32768 ≤ m.rydl <;> by_cases sD : 32768 ≤ m.rxdh
  · by_cases c : 32768 ≤ m.alue
    · obtain ⟨m1, hb1, e1⟩ := next_exists (divs_DVS14 m (by rw [h]))
      simp only [hath, and_FFFF _ hw4] at e1
      obtain ⟨m2, hb2, e2⟩ := next_exists (divs_DVS15 m1 (by rw [e1]))
      simp only [e1, andFlags_N0 _ _ hw4, and_FFFF _ hw2, sd, ne_eq, not_le, not_lt, not_not,
          not_true_eq_false, not_false_eq_true, if_true, if_false, true_and, and_true, false_and,
          and_false] at e2
      obtain ⟨m3, hb3, e3⟩ := next_exists (divs_DVS1D m2 (by rw [e2]))
      simp only [e2, andFlags_N0 _ _ hw2, and_FFFF _ he, sD, ne_eq, not_le, not_lt, not_not,
          not_true_eq_false, not_false_eq_true, if_true, if_false, true_and, and_true, false_and,
          and_false] at e3
      obtain ⟨m4, hb4, e4⟩ := next_exists (divs_DVS1E m3 (by rw [e3]))
      simp only [e3, andFlags_N0 _ _ he, c, ne_eq, not_le, not_lt, not_not, not_true_eq_false,
          not_false_eq_true, if_true, if_false, true_and, and_true, false_and, and_false] at e4
      obtain ⟨m5, hb5, e5⟩ := next_exists (divs_DVUM4 m4 (by rw [e4]))
      simp only [e4] at e5
      obtain ⟨m6, hb6, e6⟩ := next_exists (divs_DVUMA m5 (by rw [e5]))
      simp only [e5] at e6
      refine ⟨m6, ?_, ?_⟩
      · simp only [divsFixPasses, sd, sD, if_true, if_false, Nat.reduceAdd, passes, hb1, hb2, hb3,
          hb4, hb5, hb6]
      · clear hb1 hb2 hb3 hb4 hb5 hb6 e1 e2 e3 e4 e5
        subst e6
        simp only [divsFixPasses, divsOverflow, divsQuot, divsRem, sd, sD, c, iff_true, iff_false,
            true_iff, false_iff, iff_self, ne_eq, not_le, not_lt, not_not, not_true_eq_false,
            not_false_eq_true, if_true, if_false, true_and, and_true, false_and, and_false]
        and_intros <;>
          first | exact True.intro | omega | exact andFlags_lt _ _ | exact subFlags_lt _ _ | exact Iff.rfl | decide
    · obtain ⟨m1, hb1, e1⟩ := next_exists (divs_DVS14 m (by rw [h]))
      simp only [hath, and_FFFF _ hw4] at e1
      obtain ⟨m2, hb2, e2⟩ := next_exists (divs_DVS15 m1 (by rw [e1]))
      simp only [e1, andFlags_N0 _ _ hw4, and_FFFF _ hw2, sd, ne_eq, not_le, not_lt, not_not,
          not_true_eq_false, not_false_eq_true, if_true, if_false, true_and, and_true, false_and,
          and_false] at e2
      obtain ⟨m3, hb3, e3⟩ := next_exists (divs_DVS1D m2 (by rw [e2]))
      simp only [e2, andFlags_N0 _ _ hw2, and_FFFF _ he, sD, ne_eq, not_le, not_lt, not_not,
          not_true_eq_false, not_false_eq_true, if_true, if_false, true_and, and_true, false_and,
          and_false] at e3
      obtain ⟨m4, hb4, e4⟩ := next_exists (divs_DVS1E m3 (by rw [e3]))
      simp only [e3, andFlags_N0 _ _ he, c, ne_eq, not_le, not_lt, not_not, not_true_eq_false,
          not_false_eq_true, if_true, if_false, true_and, and_true, false_and, and_false] at e4
      obtain ⟨m5, hb5, e5⟩ := next_exists (divs_DVS1C m4 (by rw [e4]))
      simp only [e4, and_FFFF _ he] at e5
      obtain ⟨m6, hb6, e6⟩ := next_exists (divs_LEAA2 m5 (by rw [e5]))
      simp only [e5] at e6
      refine ⟨m6, ?_, ?_⟩
      · simp only [divsFixPasses, sd, sD, if_true, if_false, Nat.reduceAdd, passes, hb1, hb2, hb3,
          hb4, hb5, hb6]
      · clear hb1 hb2 hb3 hb4 hb5 hb6 e1 e2 e3 e4 e5
        subst e6
        simp only [divsFixPasses, divsOverflow, divsQuot, divsRem, sd, sD, c, iff_true, iff_false,
            true_iff, false_iff, iff_self, ne_eq, not_le, not_lt, not_not, not_true_eq_false,
            not_false_eq_true, if_true, if_false, true_and, and_true, false_and, and_false]
        and_intros <;>
          first | exact True.intro | omega | exact andFlags_lt _ _ | exact subFlags_lt _ _ | exact Iff.rfl | decide
  · by_cases c : 32768 < m.alue
    · have c2 : (0 + 65536 - m.alue) % 65536 < 32768 ∧ (0 + 65536 - m.alue) % 65536 ≠ 0 := by omega
      obtain ⟨m1, hb1, e1⟩ := next_exists (divs_DVS14 m (by rw [h]))
      simp only [hath, and_FFFF _ hw4] at e1
      obtain ⟨m2, hb2, e2⟩ := next_exists (divs_DVS15 m1 (by rw [e1]))
      simp only [e1, andFlags_N0 _ _ hw4, and_FFFF _ hw2, sd, ne_eq, not_le, not_lt, not_not,
          not_true_eq_false, not_false_eq_true, if_true, if_false, true_and, and_true, false_and,
          and_false] at e2
      obtain ⟨m3, hb3, e3⟩ := next_exists (divs_DVS1D m2 (by rw [e2]))
      simp only [e2, andFlags_N0 _ _ hw2, and_FFFF _ he, sD, ne_eq, not_le, not_lt, not_not,
          not_true_eq_false, not_false_eq_true, if_true, if_false, true_and, and_true, false_and,
          and_false] at e3
      obtain ⟨m4, hb4, e4⟩ := next_exists (divs_DVS1F m3 (by rw [e3]))
      simp only [e3] at e4
      obtain ⟨m5, hb5, e5⟩ := next_exists (divs_DVS20 m4 (by rw [e4]))
      simp only [e4, subFlags_NZ0, and_FFFF _ hq, c2, ne_eq, not_le, not_lt, not_not,
          not_true_eq_false, not_false_eq_true, if_true, if_false, true_and, and_true, false_and,
          and_false] at e5
      obtain ⟨m6, hb6, e6⟩ := next_exists (divs_DVUMA m5 (by rw [e5]))
      simp only [e5] at e6
      refine ⟨m6, ?_, ?_⟩
      · simp only [divsFixPasses, sd, sD, if_true, if_false, Nat.reduceAdd, passes, hb1, hb2, hb3,
          hb4, hb5, hb6]
      · clear hb1 hb2 hb3 hb4 hb5 hb6 e1 e2 e3 e4 e5
        subst e6
        simp only [divsFixPasses, divsOverflow, divsQuot, divsRem, sd, sD, c, iff_true, iff_false,
            true_iff, false_iff, iff_self, ne_eq, not_le, not_lt, not_not, not_true_eq_false,
            not_false_eq_true, if_true, if_false, true_and, and_true, false_and, and_false]
        and_intros <;>
          first | exact True.intro | omega | exact andFlags_lt _ _ | exact subFlags_lt _ _ | exact Iff.rfl | decide
    · have c2 : ¬ ((0 + 65536 - m.alue) % 65536 < 32768 ∧ (0 + 65536 - m.alue) % 65536 ≠ 0) := by omega
      obtain ⟨m1, hb1, e1⟩ := next_exists (divs_DVS14 m (by rw [h]))
      simp only [hath, and_FFFF _ hw4] at e1
      obtain ⟨m2, hb2, e2⟩ := next_exists (divs_DVS15 m1 (by rw [e1]))
      simp only [e1, andFlags_N0 _ _ hw4, and_FFFF _ hw2, sd, ne_eq, not_le, not_lt, not_not,
          not_true_eq_false, not_false_eq_true, if_true, if_false, true_and, and_true, false_and,
          and_false] at e2
      obtain ⟨m3, hb3, e3⟩ := next_exists (divs_DVS1D m2 (by rw [e2]))
      simp only [e2, andFlags_N0 _ _ hw2, and_FFFF _ he, sD, ne_eq, not_le, not_lt, not_not,
          not_true_eq_false, not_false_eq_true, if_true, if_false, true_and, and_true, false_and,
          and_false] at e3
      obtain ⟨m4, hb4, e4⟩ := next_exists (divs_DVS1F m3 (by rw [e3]))
      simp only [e3] at e4
      obtain ⟨m5, hb5, e5⟩ := next_exists (divs_DVS20 m4 (by rw [e4]))
      simp only [e4, subFlags_NZ0, and_FFFF _ hq, c2, ne_eq, not_le, not_lt, not_not,
          not_true_eq_false, not_false_eq_true, if_true, if_false, true_and, and_true, false_and,
          and_false] at e5
      obtain ⟨m6, hb6, e6⟩ := next_exists (divs_LEAA2 m5 (by rw [e5]))
      simp only [e5] at e6
      refine ⟨m6, ?_, ?_⟩
      · simp only [divsFixPasses, sd, sD, if_true, if_false, Nat.reduceAdd, passes, hb1, hb2, hb3,
          hb4, hb5, hb6]
      · clear hb1 hb2 hb3 hb4 hb5 hb6 e1 e2 e3 e4 e5
        subst e6
        simp only [divsFixPasses, divsOverflow, divsQuot, divsRem, sd, sD, c, iff_true, iff_false,
            true_iff, false_iff, iff_self, ne_eq, not_le, not_lt, not_not, not_true_eq_false,
            not_false_eq_true, if_true, if_false, true_and, and_true, false_and, and_false]
        and_intros <;>
          first | exact True.intro | omega | exact andFlags_lt _ _ | exact subFlags_lt _ _ | exact Iff.rfl | decide
  · by_cases c : 32768 < m.alue
    · have c2 : (0 + 65536 - m.alue) % 65536 < 32768 ∧ (0 + 65536 - m.alue) % 65536 ≠ 0 := by omega
      obtain ⟨m1, hb1, e1⟩ := next_exists (divs_DVS14 m (by rw [h]))
      simp only [hath, and_FFFF _ hw4] at e1
      obtain ⟨m2, hb2, e2⟩ := next_exists (divs_DVS15 m1 (by rw [e1]))
      simp only [e1, andFlags_N0 _ _ hw4, and_FFFF _ hw2, sd, ne_eq, not_le, not_lt, not_not,
          not_true_eq_false, not_false_eq_true, if_true, if_false, true_and, and_true, false_and,
          and_false] at e2
      obtain ⟨m3, hb3, e3⟩ := next_exists (divs_DVS16 m2 (by rw [e2]))
      simp only [e2, andFlags_N0 _ _ hw2, and_FFFF _ he, sD, ne_eq, not_le, not_lt, not_not,
          not_true_eq_false, not_false_eq_true, if_true, if_false, true_and, and_true, false_and,
          and_false] at e3
      obtain ⟨m4, hb4, e4⟩ := next_exists (divs_DVS1A m3 (by rw [e3]))
      simp only [e3] at e4
      obtain ⟨m5, hb5, e5⟩ := next_exists (divs_DVS1B m4 (by rw [e4]))
      simp only [e4, subFlags_NZ0, c2, ne_eq, not_le, not_lt, not_not, not_true_eq_false,
          not_false_eq_true, if_true, if_false, true_and, and_true, false_and, and_false] at e5
      obtain ⟨m6, hb6, e6⟩ := next_exists (divs_DVUM4 m5 (by rw [e5]))
      simp only [e5] at e6
      obtain ⟨m7, hb7, e7⟩ := next_exists (divs_DVUMA m6 (by rw [e6]))
      simp only [e6] at e7
      refine ⟨m7, ?_, ?_⟩
      · simp only [divsFixPasses, sd, sD, if_true, if_false, Nat.reduceAdd, passes, hb1, hb2, hb3,
          hb4, hb5, hb6, hb7]
      · clear hb1 hb2 hb3 hb4 hb5 hb6 hb7 e1 e2 e3 e4 e5 e6
        subst e7
        simp only [divsFixPasses, divsOverflow, divsQuot, divsRem, sd, sD, c, iff_true, iff_false,
            true_iff, false_iff, iff_self, ne_eq, not_le, not_lt, not_not, not_true_eq_false,
            not_false_eq_true, if_true, if_false, true_and, and_true, false_and, and_false]
        and_intros <;>
          first | exact True.intro | omega | exact andFlags_lt _ _ | exact subFlags_lt _ _ | exact Iff.rfl | decide
    · have c2 : ¬ ((0 + 65536 - m.alue) % 65536 < 32768 ∧ (0 + 65536 - m.alue) % 65536 ≠ 0) := by omega
      obtain ⟨m1, hb1, e1⟩ := next_exists (divs_DVS14 m (by rw [h]))
      simp only [hath, and_FFFF _ hw4] at e1
      obtain ⟨m2, hb2, e2⟩ := next_exists (divs_DVS15 m1 (by rw [e1]))
      simp only [e1, andFlags_N0 _ _ hw4, and_FFFF _ hw2, sd, ne_eq, not_le, not_lt, not_not,
          not_true_eq_false, not_false_eq_true, if_true, if_false, true_and, and_true, false_and,
          and_false] at e2
      obtain ⟨m3, hb3, e3⟩ := next_exists (divs_DVS16 m2 (by rw [e2]))
      simp only [e2, andFlags_N0 _ _ hw2, and_FFFF _ he, sD, ne_eq, not_le, not_lt, not_not,
          not_true_eq_false, not_false_eq_true, if_true, if_false, true_and, and_true, false_and,
          and_false] at e3
      obtain ⟨m4, hb4, e4⟩ := next_exists (divs_DVS1A m3 (by rw [e3]))
      simp only [e3] at e4
      obtain ⟨m5, hb5, e5⟩ := next_exists (divs_DVS1B m4 (by rw [e4]))
      simp only [e4, subFlags_NZ0, c2, ne_eq, not_le, not_lt, not_not, not_true_eq_false,
          not_false_eq_true, if_true, if_false, true_and, and_true, false_and, and_false] at e5
      obtain ⟨m6, hb6, e6⟩ := next_exists (divs_DVS1C m5 (by rw [e5]))
      simp only [e5, and_FFFF _ hq] at e6
      obtain ⟨m7, hb7, e7⟩ := next_exists (divs_LEAA2 m6 (by rw [e6]))
      simp only [e6] at e7
      refine ⟨m7, ?_, ?_⟩
      · simp only [divsFixPasses, sd, sD, if_true, if_false, Nat.reduceAdd, passes, hb1, hb2, hb3,
          hb4, hb5, hb6, hb7]
      · clear hb1 hb2 hb3 hb4 hb5 hb6 hb7 e1 e2 e3 e4 e5 e6
        subst e7
        simp only [divsFixPasses, divsOverflow, divsQuot, divsRem, sd, sD, c, iff_true, iff_false,
            true_iff, false_iff, iff_self, ne_eq, not_le, not_lt, not_not, not_true_eq_false,
            not_false_eq_true, if_true, if_false, true_and, and_true, false_and, and_false]
        and_intros <;>
          first | exact True.intro | omega | exact andFlags_lt _ _ | exact subFlags_lt _ _ | exact Iff.rfl | decide
  · by_cases c : 32768 ≤ m.alue
    · obtain ⟨m1, hb1, e1⟩ := next_exists (divs_DVS14 m (by rw [h]))
      simp only [hath, and_FFFF _ hw4] at e1
      obtain ⟨m2, hb2, e2⟩ := next_exists (divs_DVS15 m1 (by rw [e1]))
      simp only [e1, andFlags_N0 _ _ hw4, and_FFFF _ hw2, sd, ne_eq, not_le, not_lt, not_not,
          not_true_eq_false, not_false_eq_true, if_true, if_false, true_and, and_true, false_and,
          and_false] at e2
      obtain ⟨m3, hb3, e3⟩ := next_exists (divs_DVS16 m2 (by rw [e2]))
      simp only [e2, andFlags_N0 _ _ hw2, and_FFFF _ he, sD, ne_eq, not_le, not_lt, not_not,
          not_true_eq_false, not_false_eq_true, if_true, if_false, true_and, and_true, false_and,
          and_false] at e3
      obtain ⟨m4, hb4, e4⟩ := next_exists (divs_DVS17 m3 (by rw [e3]))
      simp only [e3, andFlags_N0 _ _ he, and_FFFF _ he, c, ne_eq, not_le, not_lt, not_not,
          not_true_eq_false, not_false_eq_true, if_true, if_false, true_and, and_true, false_and,
          and_false] at e4
      obtain ⟨m5, hb5, e5⟩ := next_exists (divs_DVUMA m4 (by rw [e4]))
      simp only [e4] at e5
      refine ⟨m5, ?_, ?_⟩
      · simp only [divsFixPasses, sd, sD, if_true, if_false, Nat.reduceAdd, passes, hb1, hb2, hb3,
          hb4, hb5]
      · clear hb1 hb2 hb3 hb4 hb5 e1 e2 e3 e4
        subst e5
        simp only [divsFixPasses, divsOverflow, divsQuot, divsRem, sd, sD, c, iff_true, iff_false,
            true_iff, false_iff, iff_self, ne_eq, not_le, not_lt, not_not, not_true_eq_false,
            not_false_eq_true, if_true, if_false, true_and, and_true, false_and, and_false]
        and_intros <;>
          first | exact True.intro | omega | exact andFlags_lt _ _ | exact subFlags_lt _ _ | exact Iff.rfl | decide
    · obtain ⟨m1, hb1, e1⟩ := next_exists (divs_DVS14 m (by rw [h]))
      simp only [hath, and_FFFF _ hw4] at e1
      obtain ⟨m2, hb2, e2⟩ := next_exists (divs_DVS15 m1 (by rw [e1]))
      simp only [e1, andFlags_N0 _ _ hw4, and_FFFF _ hw2, sd, ne_eq, not_le, not_lt, not_not,
          not_true_eq_false, not_false_eq_true, if_true, if_false, true_and, and_true, false_and,
          and_false] at e2
      obtain ⟨m3, hb3, e3⟩ := next_exists (divs_DVS16 m2 (by rw [e2]))
      simp only [e2, andFlags_N0 _ _ hw2, and_FFFF _ he, sD, ne_eq, not_le, not_lt, not_not,
          not_true_eq_false, not_false_eq_true, if_true, if_false, true_and, and_true, false_and,
          and_false] at e3
      obtain ⟨m4, hb4, e4⟩ := next_exists (divs_DVS17 m3 (by rw [e3]))
      simp only [e3, andFlags_N0 _ _ he, and_FFFF _ he, c, ne_eq, not_le, not_lt, not_not,
          not_true_eq_false, not_false_eq_true, if_true, if_false, true_and, and_true, false_and,
          and_false] at e4
      obtain ⟨m5, hb5, e5⟩ := next_exists (divs_LEAA2 m4 (by rw [e4]))
      simp only [e4] at e5
      refine ⟨m5, ?_, ?_⟩
      · simp only [divsFixPasses, sd, sD, if_true, if_false, Nat.reduceAdd, passes, hb1, hb2, hb3,
          hb4, hb5]
      · clear hb1 hb2 hb3 hb4 hb5 e1 e2 e3 e4
        subst e5
        simp only [divsFixPasses, divsOverflow, divsQuot, divsRem, sd, sD, c, iff_true, iff_false,
            true_iff, false_iff, iff_self, ne_eq, not_le, not_lt, not_not, not_true_eq_false,
            not_false_eq_true, if_true, if_false, true_and, and_true, false_and, and_false]
        and_intros <;>
          first | exact True.intro | omega | exact andFlags_lt _ _ | exact subFlags_lt _ _ | exact Iff.rfl | decide

/-- A run of `ExecuteDivs` that reaches `A1` or `TRAP0` after `n` passes returns on the
next pass, with the two cycles of that pass discounted. -/
theorem ExecuteDivs_of_passes (m m1 : MC68000) (n : Nat) (hn : n < 128)
    (hp : passes ExecuteDivs_body n (divsStart m) = some m1)
    (hm : m1.microword = A1 ∨ m1.microword = TRAP0) (hc : m1.cycles < 4294967296) :
    ExecuteDivs m = some m1 := by
  unfold ExecuteDivs
  obtain ⟨k, hk⟩ : ∃ k, 128 = n + (k + 1) := ⟨127 - n, by omega⟩
  rw [hk, whileTrue_of_passes _ n (k + 1) _ m1 hp]
  have e : ((m1.cycles + 2) % 4294967296 + 4294967296 - 2) % 4294967296 = m1.cycles := by
    omega
  rcases hm with hm | hm
  · rw [whileTrue_ret _ k m1 _ (divs_A1 m1 hm), e]
  · rw [whileTrue_ret _ k m1 _ (divs_TRAP0 m1 hm), e]

theorem absDivisor_bounds (rydl : Nat) (h : rydl < 65536) (h0 : rydl ≠ 0) :
    0 < absDivisor rydl ∧ absDivisor rydl ≤ 32768 := by
  unfold absDivisor
  split_ifs <;> omega

theorem absLo_lt (rxdh rxdl : Nat) (h : rxdl < 65536) : absLo rxdh rxdl < 65536 := by
  unfold absLo
  split_ifs <;> omega

theorem divs_prologue (m : MC68000) (hw : m.WF) (h : m.microword = DVS01)
    (h0 : m.rydl ≠ 0) :
    ∃ m1, passes ExecuteDivs_body (3 + (if 32768 ≤ m.rxdh then 4 else 3)) m = some m1 ∧
      m1.WF ∧
      m1.microword =
        (if absHi m.rxdh m.rxdl < absDivisor m.rydl then DVS09 else DVUMZ) ∧
      m1.alu = absHi m.rxdh m.rxdl ∧ m1.alue = absLo m.rxdh m.rxdl ∧
      m1.au = 16 ∧ m1.alub = absDivisor m.rydl ∧ m1.ath = m.rydl ∧
      m1.rxdh = m.rxdh ∧ m1.rxdl = m.rxdl ∧ m1.rydl = m.rydl ∧
      m1.cycles =
        (m.cycles + 2 * (3 + (if 32768 ≤ m.rxdh then 4 else 3))) % 4294967296 := by
  obtain ⟨m3, p3, w3, l3, b3, u3, t3, e3, a3, n3, xh3, xl3, y3, c3⟩ := divs_stageA m hw h h0
  obtain ⟨m4, p4, w4, l4, a4, e4, u4, b4, t4, xh4, xl4, y4, c4⟩ :=
    divs_stageB m3 w3 l3 (by rw [xh3]; exact n3) (by rw [t3, xh3]) (by rw [e3, xl3])
  rw [xh3] at p4 c4
  rw [xh3, xl3] at l4 a4 e4
  refine ⟨m4, passes_trans _ _ _ _ _ _ p3 p4, w4, ?_, a4, e4, by rw [u4, u3],
    by rw [b4, b3], by rw [t4, a3], by rw [xh4, xh3], by rw [xl4, xl3], by rw [y4, y3], ?_⟩
  · rw [l4, b3]
  · rw [c4, c3]
    have := hw.2.2.2.2.2.2.2.2.2.2.2.2
    split_ifs <;> omega

theorem ExecuteDivs_trap (m : MC68000) (hw : m.WF) (h0 : m.rydl = 0) :
    ∃ r, ExecuteDivs m = some r ∧ r.microword = TRAP0 ∧ r.rxdh = m.rxdh ∧
      r.rxdl = m.rxdl ∧ r.rydl = m.rydl ∧ r.cycles = (m.cycles + 4) % 4294967296 := by
  obtain ⟨hw1, hw2, hw3, hw4, hw5, he, hw7, ha, hf, hau2, hw11, hw12, hc⟩ := hw
  obtain ⟨m1, hb1, e1⟩ :=
    next_exists (divs_DVS01 { m with microword := DVS01 } rfl)
  simp only [and_FFFF _ hw4] at e1
  obtain ⟨m2, hb2, e2⟩ := next_exists (divs_DVS03 m1 (by rw [e1]))
  simp only [e1, ne_eq, andFlags_Z0, h0, not_false_eq_true, not_true_eq_false, if_true] at e2
  have hp : passes ExecuteDivs_body 2 { m with microword := DVS01 } = some m2 := by
    simp only [passes, hb1, hb2]
  have hr := ExecuteDivs_of_passes m m2 2 (by norm_num) hp (Or.inr (by rw [e2]))
    (by rw [e2]; exact Nat.mod_lt _ (by norm_num))
  refine ⟨m2, hr, ?_⟩
  clear hb1 hb2 e1 hp hr
  subst e2
  simp only []
  and_intros <;> first | exact True.intro | omega

theorem ExecuteDivs_early (m : MC68000) (hw : m.WF) (h0 : m.rydl ≠ 0)
    (hov : absDivisor m.rydl ≤ absHi m.rxdh m.rxdl) :
    ∃ r, ExecuteDivs m = some r ∧ r.microword = A1 ∧ r.rxdh = m.rxdh ∧
      r.rxdl = m.rxdl ∧ r.rydl = m.rydl ∧
      r.cycles =
        (m.cycles + 4 + (if 32768 ≤ m.rxdh then 10 else 8) + 4) % 4294967296 := by
  have hc0 : m.cycles < 4294967296 := hw.2.2.2.2.2.2.2.2.2.2.2.2
  obtain ⟨m1, p1, w1, l1, -, -, -, -, -, xh1, xl1, y1, c1⟩ :=
    divs_prologue { m with microword := DVS01 } (WF_init m _ (by decide) hw) rfl h0
  simp only at p1 l1 xh1 xl1 y1 c1
  rw [if_neg (by omega)] at l1
  obtain ⟨m2, p2, l2, xh2, xl2, y2, c2⟩ := divs_early_exit m1 w1 l1
  have hp := passes_trans _ _ _ _ _ _ p1 p2
  have hr := ExecuteDivs_of_passes m m2 _ (by split_ifs <;> omega) hp (Or.inl l2)
    (by rw [c2]; exact Nat.mod_lt _ (by norm_num))
  refine ⟨m2, hr, l2, by rw [xh2, xh1], by rw [xl2, xl1], by rw [y2, y1], ?_⟩
  rw [c2, c1]
  split_ifs <;> omega

theorem ExecuteDivs_main (m : MC68000) (hw : m.WF) (h0 : m.rydl ≠ 0)
    (hlt : absHi m.rxdh m.rxdl < absDivisor m.rydl) :
    ∃ r, ExecuteDivs m = some r ∧ r.microword = A1 ∧ r.rydl = m.rydl ∧
      r.cycles =
        (m.cycles + 2 * (3 + (if 32768 ≤ m.rxdh then 4 else 3) +
          divsPasses (absDivisor m.rydl) 15 ⟨absHi m.rxdh m.rxdl, absLo m.rxdh m.rxdl, 0⟩ +
          4 + divsFixPasses m.rxdh m.rydl)) % 4294967296 ∧
      r.rxdh =
        (if divsOverflow m.rxdh m.rydl
            ((absHi m.rxdh m.rxdl * 65536 + absLo m.rxdh m.rxdl) / absDivisor m.rydl)
         then m.rxdh
         else divsRem m.rxdh
            ((absHi m.rxdh m.rxdl * 65536 + absLo m.rxdh m.rxdl) % absDivisor m.rydl)) ∧
      r.rxdl =
        (if divsOverflow m.rxdh m.rydl
            ((absHi m.rxdh m.rxdl * 65536 + absLo m.rxdh m.rxdl) / absDivisor m.rydl)
         then m.rxdl
         else divsQuot m.rxdh m.rydl
            ((absHi m.rxdh m.rxdl * 65536 + absLo m.rxdh m.rxdl) / absDivisor m.rydl)) := by
  have hc0 : m.cycles < 4294967296 := hw.2.2.2.2.2.2.2.2.2.2.2.2
  have hd := absDivisor_bounds m.rydl hw.2.2.2.1 h0
  have hlo := absLo_lt m.rxdh m.rxdl hw.2.2.1
  obtain ⟨m1, p1, w1, l1, a1, e1, u1, b1, t1, xh1, xl1, y1, c1⟩ :=
    divs_prologue { m with microword := DVS01 } (WF_init m _ (by decide) hw) rfl h0
  simp only at p1 l1 a1 e1 t1 xh1 xl1 y1 c1
  rw [if_pos hlt] at l1
  have ok0 : Work.Ok (absDivisor m.rydl) ⟨absHi m.rxdh m.rxdl, absLo m.rxdh m.rxdl, 0⟩ :=
    ⟨hlt, hlo, Nat.zero_le _⟩
  have at1 : DivsAt m (absDivisor m.rydl) m1
      ⟨absHi m.rxdh m.rxdl, absLo m.rxdh m.rxdl, 0⟩ (0 + 15 + 1) :=
    ⟨w1, l1, a1, e1, u1, b1, t1, xh1, xl1, y1⟩
  obtain ⟨m2, p2, at2, c2, ok2⟩ := divs_iters m (absDivisor m.rydl) hd.2 15 0 m1 _ ok0 at1
  obtain ⟨m3, p3, w3, l3, r3, q3, t3, xh3, xl3, y3, c3⟩ :=
    divs_last m (absDivisor m.rydl) m2 _ (by omega) ok2.2.2 (by have := ok2.1; omega) at2
  obtain ⟨m4, p4, l4, y4, c4, xh4, xl4⟩ := divs_epilogue m3 w3 l3 (by rw [t3, y3])
  obtain ⟨r1, r2⟩ := shiftSubN_16 (absDivisor m.rydl) (absHi m.rxdh m.rxdl)
    (absLo m.rxdh m.rxdl) (by omega) hlt hlo
  rw [← shiftSubN_succ, r1] at r3
  rw [← shiftSubN_succ, r2] at q3
  rw [xh3, y3] at p4 c4 xh4 xl4
  rw [q3] at xh4 xl4
  rw [r3] at xh4
  rw [xl3] at xl4
  have hp := passes_trans _ _ _ _ _ _ (passes_trans _ _ _ _ _ _
    (passes_trans _ _ _ _ _ _ p1 p2) p3) p4
  have hP := divsPasses_le (absDivisor m.rydl) 15
    ⟨absHi m.rxdh m.rxdl, absLo m.rxdh m.rxdl, 0⟩
  have hF : divsFixPasses m.rxdh m.rydl ≤ 7 := by
    unfold divsFixPasses
    split_ifs <;> omega
  have hr := ExecuteDivs_of_passes m m4 _ (by split_ifs <;> omega) hp (Or.inl l4)
    (by rw [c4]; exact Nat.mod_lt _ (by norm_num))
  refine ⟨m4, hr, l4, by rw [y4, y3], ?_, xh4, xl4⟩
  rw [c4, c3, c2, c1]
  split_ifs <;> omega

/-! ## From the engines to the operands as numbers -/

theorem quot_lt_iff (h l d : Nat) (hl : l < 65536) (hd : 0 < d) :
    (h * 65536 + l) / d < 65536 ↔ h < d := by
  rw [Nat.div_lt_iff_lt_mul hd]
  constructor
  · intro hx
    by_contra hc
    have : 65536 * d ≤ 65536 * h := Nat.mul_le_mul_left _ (by omega)
    omega
  · intro hx
    have : 65536 * (h + 1) ≤ 65536 * d := Nat.mul_le_mul_left _ hx
    omega

theorem DivideUnsignedCycles_overflow (h l d : Nat) (hl : l < 65536) (hd : d ≠ 0)
    (hge : d ≤ h) : DivideUnsignedCycles (h * 65536 + l) d = 10 := by
  have hq : (h * 65536 + l) / d ≥ 0x10000 := by
    have := (quot_lt_iff h l d hl (by omega)).not.mpr (by omega)
    omega
  unfold DivideUnsignedCycles
  simp only [hd, if_false, hq, if_true]

theorem natAbs_sub_of_le (a b : Nat) (h : a ≤ b) : ((a : Int) - (b : Int)).natAbs = b - a := by
  have e : (a : Int) - (b : Int) = -((b - a : Nat) : Int) := by omega
  rw [e, Int.natAbs_neg, Int.natAbs_ofNat]

theorem toInt32_natAbs (x : Nat) (hx : x < 4294967296) :
    (toInt32 x).natAbs = (if 2147483648 ≤ x then 4294967296 - x else x) ∧
      (toInt32 x < 0 ↔ 2147483648 ≤ x) := by
  unfold toInt32
  by_cases c : 2147483648 ≤ x
  · simp only [c, if_true, iff_true]
    exact ⟨natAbs_sub_of_le x 4294967296 (by omega), by omega⟩
  · simp only [c, if_false, iff_false]
    exact ⟨Int.natAbs_ofNat x, by omega⟩

theorem toInt16_natAbs (x : Nat) (hx : x < 65536) :
    (toInt16 x).natAbs = (if 32768 ≤ x then 65536 - x else x) ∧
      (toInt16 x < 0 ↔ 32768 ≤ x) := by
  unfold toInt16
  by_cases c : 32768 ≤ x
  · simp only [c, if_true, iff_true]
    exact ⟨natAbs_sub_of_le x 65536 (by omega), by omega⟩
  · simp only [c, if_false, iff_false]
    exact ⟨Int.natAbs_ofNat x, by omega⟩

theorem signedDividend_natAbs (m : MC68000) (hw : m.WF) :
    (signedDividend m).natAbs = absHi m.rxdh m.rxdl * 65536 + absLo m.rxdh m.rxdl ∧
      (signedDividend m < 0 ↔ 32768 ≤ m.rxdh) := by
  obtain ⟨hw1, hw2, hw3, hw4, -⟩ := hw
  obtain ⟨e1, e2⟩ := toInt32_natAbs (dividend m) (by unfold dividend; omega)
  unfold signedDividend
  rw [e1, e2]
  unfold dividend absHi absLo
  by_cases c : 32768 ≤ m.rxdh
  · have c' : 2147483648 ≤ m.rxdh * 65536 + m.rxdl := by omega
    simp only [c, c', if_true, and_true]
    by_cases z : 0 < m.rxdl
    · simp only [z, if_true]
      omega
    · simp only [z, if_false]
      omega
  · have c' : ¬ 2147483648 ≤ m.rxdh * 65536 + m.rxdl := by omega
    simp only [c, c', if_false, and_true]

theorem signedDivisor_natAbs (m : MC68000) (hw : m.WF) :
    (signedDivisor m).natAbs = absDivisor m.rydl ∧
      (signedDivisor m < 0 ↔ 32768 ≤ m.rydl) := by
  obtain ⟨e1, e2⟩ := toInt16_natAbs m.rydl hw.2.2.2.1
  unfold signedDivisor absDivisor
  exact ⟨e1, e2⟩

/-! ## Control invariants and termination -/

theorem whileTrue_of_rank (body : MC68000 → Control) (Inv : MC68000 → Prop)
    (rank : MC68000 → Nat)
    (hstep : ∀ m m1, Inv m → body m = Control.next m1 → Inv m1 ∧ rank m1 < rank m) :
    ∀ (k : Nat) (m : MC68000), Inv m → rank m ≤ k →
      ∃ r, ∀ fuel, k + 1 ≤ fuel → whileTrue body fuel m = some r := by
  intro k
  induction k with
  | zero =>
    intro m hi hr
    cases hb : body m with
    | next m1 =>
      have := (hstep m m1 hi hb).2
      omega
    | ret r =>
      refine ⟨r, ?_⟩
      intro fuel hf
      obtain ⟨f, rfl⟩ : ∃ f, fuel = f + 1 := ⟨fuel - 1, by omega⟩
      exact whileTrue_ret body f m r hb
  | succ k ih =>
    intro m hi hr
    cases hb : body m with
    | next m1 =>
      obtain ⟨i1, r1⟩ := hstep m m1 hi hb
      obtain ⟨r, hr2⟩ := ih m1 i1 (by omega)
      refine ⟨r, ?_⟩
      intro fuel hf
      obtain ⟨f, rfl⟩ : ∃ f, fuel = f + 1 := ⟨fuel - 1, by omega⟩
      simp only [whileTrue, hb]
      exact hr2 f (by omega)
    | ret r =>
      refine ⟨r, ?_⟩
      intro fuel hf
      obtain ⟨f, rfl⟩ : ∃ f, fuel = f + 1 := ⟨fuel - 1, by omega⟩
      exact whileTrue_ret body f m r hb

theorem passes_inv (body : MC68000 → Control) (Inv : MC68000 → Prop)
    (hstep : ∀ m m1, Inv m → body m = Control.next m1 → Inv m1) :
    ∀ (n : Nat) (m m1 : MC68000), Inv m → passes body n m = some m1 → Inv m1 := by
  intro n
  induction n with
  | zero =>
    intro m m1 hi hp
    simp only [passes, Option.some.injEq] at hp
    rw [← hp]
    exact hi
  | succ n ih =>
    intro m m1 hi hp
    simp only [passes] at hp
    cases hb : body m with
    | next m2 =>
      rw [hb] at hp
      exact ih m2 m1 (hstep m m2 hi hb) hp
    | ret m2 =>
      rw [hb] at hp
      cases hp

theorem DivuCtl_step (m m1 : MC68000) (hi : DivuCtl m)
    (hb : ExecuteDivu_body m = Control.next m1) :
    DivuCtl m1 ∧ divuRank m1 < divuRank m := by
  obtain ⟨h2, h3, h4, h5⟩ := hi
  simp only [ExecuteDivu_cases, List.mem_cons, List.mem_singleton, List.not_mem_nil, or_false] at h2
  rcases h2 with h | h | h | h | h | h | h | h | h | h | h | h | h | h | h | h | h | h
  · rw [divu_DVUR1 m h] at hb
    cases hb
    simp [h] at h3 h4 h5
    simp [DivuCtl, divuRank, ExecuteDivu_cases, h] <;> omega
  · rw [divu_DVUM2 m h] at hb
    cases hb
    simp [h] at h3 h4 h5
    by_cases hc0 : m.flags &&& FLAG_Z = 0 <;>
      simp [DivuCtl, divuRank, ExecuteDivu_cases, h, hc0] <;> omega
  · rw [divu_DVUM3 m h] at hb
    cases hb
    simp [h] at h3 h4 h5
    by_cases hc0 : m.flags &&& FLAG_C = 0 <;>
      simp [DivuCtl, divuRank, ExecuteDivu_cases, h, hc0] <;> omega
  · rw [divu_DVUM5 m h] at hb
    cases hb
    simp [h] at h3 h4 h5
    by_cases hc0 : m.flags &&& FLAG_N = 0 <;>
      simp [DivuCtl, divuRank, ExecuteDivu_cases, h, hc0] <;> omega
  · rw [divu_DVUM6 m h] at hb
    cases hb
    simp [h] at h3 h4 h5
    by_cases hc0 : m.flags &&& FLAG_N = 0 <;>
      simp [DivuCtl, divuRank, ExecuteDivu_cases, h, hc0] <;> omega
  · rw [divu_DVUM7 m h] at hb
    cases hb
    simp [h] at h3 h4 h5
    by_cases hc0 : m.au = 0 <;>
      simp [DivuCtl, divuRank, ExecuteDivu_cases, h, hc0] <;> omega
  · rw [divu_DVUM8 m h] at hb
    cases hb
    simp [h] at h3 h4 h5
    by_cases hc0 : m.au = 0 <;>
      simp [DivuCtl, divuRank, ExecuteDivu_cases, h, hc0] <;> omega
  · rw [divu_DVUM9 m h] at hb
    cases hb
    simp [h] at h3 h4 h5
    simp [DivuCtl, divuRank, ExecuteDivu_cases, h] <;> omega
  · rw [divu_DVUMB m h] at hb
    cases hb
    simp [h] at h3 h4 h5
    by_cases hc0 : m.flags &&& FLAG_C = 0 <;>
      simp [DivuCtl, divuRank, ExecuteDivu_cases, h, hc0] <;> omega
  · rw [divu_DVUMC m h] at hb
    cases hb
    simp [h] at h3 h4 h5
    by_cases hc0 : m.flags &&& FLAG_C = 0 <;>
      simp [DivuCtl, divuRank, ExecuteDivu_cases, h, hc0] <;> omega
  · rw [divu_DVUMD m h] at hb
    cases hb
    simp [h] at h3 h4 h5
    simp [DivuCtl, divuRank, ExecuteDivu_cases, h] <;> omega
  · rw [divu_DVUME m h] at hb
    cases hb
    simp [h] at h3 h4 h5
    simp [DivuCtl, divuRank, ExecuteDivu_cases, h] <;> omega
  · rw [divu_DVUMF m h] at hb
    cases hb
    simp [h] at h3 h4 h5
    simp [DivuCtl, divuRank, ExecuteDivu_cases, h] <;> omega
  · rw [divu_DVUM0 m h] at hb
    cases hb
    simp [h] at h3 h4 h5
    simp [DivuCtl, divuRank, ExecuteDivu_cases, h] <;> omega
  · rw [divu_DVUM4 m h] at hb
    cases hb
    simp [h] at h3 h4 h5
    simp [DivuCtl, divuRank, ExecuteDivu_cases, h] <;> omega
  · rw [divu_DVUMA m h] at hb
    cases hb
    simp [h] at h3 h4 h5
    simp [DivuCtl, divuRank, ExecuteDivu_cases, h] <;> omega
  · rw [divu_TRAP0 m h] at hb
    cases hb
  · rw [divu_A1 m h] at hb
    cases hb

theorem DivsCtl_step (m m1 : MC68000) (hi : DivsCtl m)
    (hb : ExecuteDivs_body m = Control.next m1) :
    DivsCtl m1 ∧ divsRank m1 < divsRank m := by
  obtain ⟨h2, h3, h4, h5, h6⟩ := hi
  simp only [ExecuteDivs_cases, List.mem_cons, List.mem_singleton, List.not_mem_nil, or_false] at h2
  rcases h2 with h | h | h | h | h | h | h | h | h | h | h | h | h | h | h | h | h | h | h | h | h | h | h | h | h | h | h | h | h | h | h | h | h | h
  · rw [divs_DVS01 m h] at hb
    cases hb
    simp [h] at h3 h4 h5 h6
    simp [DivsCtl, divsRank, ExecuteDivs_cases, h] <;> omega
  · rw [divs_DVS03 m h] at hb
    cases hb
    simp [h] at h3 h4 h5 h6
    by_cases hc0 : m.flags &&& FLAG_Z = 0 <;> by_cases hc1 : m.flags &&& FLAG_N = 0 <;>
      simp [DivsCtl, divsRank, ExecuteDivs_cases, h, hc0, hc1] <;> omega
  · rw [divs_DVS04 m h] at hb
    cases hb
    simp [h] at h3 h4 h5 h6
    simp [DivsCtl, divsRank, ExecuteDivs_cases, h] <;> omega
  · rw [divs_DVS05 m h] at hb
    cases hb
    simp [h] at h3 h4 h5 h6
    simp [DivsCtl, divsRank, ExecuteDivs_cases, h] <;> omega
  · rw [divs_DVS06 m h] at hb
    cases hb
    simp [h] at h3 h4 h5 h6
    by_cases hc0 : m.flags &&& FLAG_N = 0 <;>
      simp [DivsCtl, divsRank, ExecuteDivs_cases, h, hc0] <;> omega
  · rw [divs_DVS07 m h] at hb
    cases hb
    simp [h] at h3 h4 h5 h6
    simp [DivsCtl, divsRank, ExecuteDivs_cases, h] <;> omega
  · rw [divs_DVS08 m h] at hb
    cases hb
    simp [h] at h3 h4 h5 h6
    by_cases hc0 : m.flags &&& FLAG_C = 0 <;>
      simp [DivsCtl, divsRank, ExecuteDivs_cases, h, hc0] <;> omega
  · rw [divs_DVS10 m h] at hb
    cases hb
    simp [h] at h3 h4 h5 h6
    simp [DivsCtl, divsRank, ExecuteDivs_cases, h] <;> omega
  · rw [divs_DVS11 m h] at hb
    cases hb
    simp [h] at h3 h4 h5 h6
    simp [DivsCtl, divsRank, ExecuteDivs_cases, h] <;> omega
  · rw [divs_DVS09 m h] at hb
    cases hb
    simp [h] at h3 h4 h5 h6
    simp [DivsCtl, divsRank, ExecuteDivs_cases, h] <;> omega
  · rw [divs_DVS0A m h] at hb
    cases hb
    simp [h] at h3 h4 h5 h6
    simp [DivsCtl, divsRank, ExecuteDivs_cases, h] <;> omega
  · rw [divs_DVS0C m h] at hb
    cases hb
    simp [h] at h3 h4 h5 h6
    by_cases hc0 : m.au = 0 <;>
      simp [DivsCtl, divsRank, ExecuteDivs_cases, h, hc0] <;> omega
  · rw [divs_DVS0D m h] at hb
    cases hb
    simp [h] at h3 h4 h5 h6
    by_cases hc0 : m.flags &&& FLAG_C = 0 <;>
      simp [DivsCtl, divsRank, ExecuteDivs_cases, h, hc0] <;> omega
  · rw [divs_DVS0F m h] at hb
    cases hb
    simp [h] at h3 h4 h5 h6
    simp [DivsCtl, divsRank, ExecuteDivs_cases, h] <;> omega
  · rw [divs_DVS0E m h] at hb
    cases hb
    simp [h] at h3 h4 h5 h6
    by_cases hc0 : m.flags &&& FLAG_C = 0 <;>
      simp [DivsCtl, divsRank, ExecuteDivs_cases, h, hc0] <;> omega
  · rw [divs_DVS12 m h] at hb
    cases hb
    simp [h] at h3 h4 h5 h6
    simp [DivsCtl, divsRank, ExecuteDivs_cases, h] <;> omega
  · rw [divs_DVS13 m h] at hb
    cases hb
    simp [h] at h3 h4 h5 h6
    simp [DivsCtl, divsRank, ExecuteDivs_cases, h] <;> omega
  · rw [divs_DVS14 m h] at hb
    cases hb
    simp [h] at h3 h4 h5 h6
    simp [DivsCtl, divsRank, ExecuteDivs_cases, h] <;> omega
  · rw [divs_DVS15 m h] at hb
    cases hb
    simp [h] at h3 h4 h5 h6
    by_cases hc0 : m.flags &&& FLAG_N = 0 <;>
      simp [DivsCtl, divsRank, ExecuteDivs_cases, h, hc0] <;> omega
  · rw [divs_DVS16 m h] at hb
    cases hb
    simp [h] at h3 h4 h5 h6
    by_cases hc0 : m.flags &&& FLAG_N = 0 <;>
      simp [DivsCtl, divsRank, ExecuteDivs_cases, h, hc0] <;> omega
  · rw [divs_DVS1D m h] at hb
    cases hb
    simp [h] at h3 h4 h5 h6
    by_cases hc0 : m.flags &&& FLAG_N = 0 <;>
      simp [DivsCtl, divsRank, ExecuteDivs_cases, h, hc0] <;> omega
  · rw [divs_DVS17 m h] at hb
    cases hb
    simp [h] at h3 h4 h5 h6
    by_cases hc0 : m.flags &&& FLAG_N = 0 <;>
      simp [DivsCtl, divsRank, ExecuteDivs_cases, h, hc0] <;> omega
  · rw [divs_DVS1A m h] at hb
    cases hb
    simp [h] at h3 h4 h5 h6
    simp [DivsCtl, divsRank, ExecuteDivs_cases, h] <;> omega
  · rw [divs_DVS1B m h] at hb
    cases hb
    simp [h] at h3 h4 h5 h6
    by_cases hc0 : m.flags &&& (FLAG_N ||| FLAG_Z) = 0 <;>
      simp [DivsCtl, divsRank, ExecuteDivs_cases, h, hc0] <;> omega
  · rw [divs_DVS1C m h] at hb
    cases hb
    simp [h] at h3 h4 h5 h6
    simp [DivsCtl, divsRank, ExecuteDivs_cases, h] <;> omega
  · rw [divs_DVS1F m h] at hb
    cases hb
    simp [h] at h3 h4 h5 h6
    simp [DivsCtl, divsRank, ExecuteDivs_cases, h] <;> omega
  · rw [divs_DVS20 m h] at hb
    cases hb
    simp [h] at h3 h4 h5 h6
    by_cases hc0 : m.flags &&& (FLAG_N ||| FLAG_Z) = 0 <;>
      simp [DivsCtl, divsRank, ExecuteDivs_cases, h, hc0] <;> omega
  · rw [divs_DVS1E m h] at hb
    cases hb
    simp [h] at h3 h4 h5 h6
    by_cases hc0 : m.flags &&& FLAG_N = 0 <;>
      simp [DivsCtl, divsRank, ExecuteDivs_cases, h, hc0] <;> omega
  · rw [divs_LEAA2 m h] at hb
    cases hb
    simp [h] at h3 h4 h5 h6
    simp [DivsCtl, divsRank, ExecuteDivs_cases, h] <;> omega
  · rw [divs_DVUM4 m h] at hb
    cases hb
    simp [h] at h3 h4 h5 h6
    simp [DivsCtl, divsRank, ExecuteDivs_cases, h] <;> omega
  · rw [divs_DVUMZ m h] at hb
    cases hb
    simp [h] at h3 h4 h5 h6
    simp [DivsCtl, divsRank, ExecuteDivs_cases, h] <;> omega
  · rw [divs_DVUMA m h] at hb
    cases hb
    simp [h] at h3 h4 h5 h6
    simp [DivsCtl, divsRank, ExecuteDivs_cases, h] <;> omega
  · rw [divs_TRAP0 m h] at hb
    cases hb
  · rw [divs_A1 m h] at hb
    cases hb

theorem SignBit32_eq (v : Nat) (hv : v < 4294967296) :
    SignBit32 v = decide (2147483648 ≤ v) := by
  unfold SignBit32
  have e : (1 <<< 31 : Nat) = 0x80000000 := rfl
  rw [e]
  exact decide_eq_decide.mpr (and_80000000 v hv)

theorem SignBit16_eq (v : Nat) (hv : v < 65536) : SignBit16 v = decide (32768 ≤ v) := by
  unfold SignBit16
  have e : (1 <<< 15 : Nat) = 0x8000 := rfl
  rw [e]
  exact decide_eq_decide.mpr (and_8000 v hv)

theorem AbsoluteValue16_eq (v : Nat) (hv : v < 65536) :
    AbsoluteValue16 v = absDivisor v := by
  unfold AbsoluteValue16 absDivisor
  rw [SignBit16_eq v hv]
  by_cases c : 32768 ≤ v
  · simp only [c, decide_True, if_true]
    omega
  · simp only [c, decide_False, if_false, Bool.false_eq_true]

theorem AbsoluteValue32_eq (h l : Nat) (hh : h < 65536) (hl : l < 65536) :
    AbsoluteValue32 (h * 65536 + l) = absHi h l * 65536 + absLo h l := by
  unfold AbsoluteValue32 absHi absLo
  rw [SignBit32_eq _ (by omega)]
  by_cases c : 32768 ≤ h
  · have c' : 2147483648 ≤ h * 65536 + l := by omega
    simp only [c, c', decide_True, if_true]
    by_cases z : 0 < l
    · simp only [z, if_true]
      omega
    · simp only [z, if_false]
      omega
  · have c' : ¬ 2147483648 ≤ h * 65536 + l := by omega
    simp only [c, c', decide_False, if_false, Bool.false_eq_true]

theorem absHi_lt (h l : Nat) (hh : h < 65536) : absHi h l < 65536 := by
  unfold absHi
  split_ifs <;> omega

theorem DivideSignedCycles_early (h l d : Nat) (hh : h < 65536) (hl : l < 65536)
    (hd : d < 65536) (h0 : d ≠ 0) (hov : absDivisor d ≤ absHi h l) :
    DivideSignedCycles (h * 65536 + l) d = 4 + (if 32768 ≤ h then 10 else 8) + 4 := by
  have hb := absDivisor_bounds d hd h0
  have hq : (absHi h l * 65536 + absLo h l) / absDivisor d ≥ 0x10000 := by
    have := (quot_lt_iff (absHi h l) (absLo h l) (absDivisor d) (absLo_lt h l hl) hb.1).not.mpr
      (by omega)
    omega
  unfold DivideSignedCycles
  rw [AbsoluteValue32_eq h l hh hl, AbsoluteValue16_eq d hd, SignBit32_eq _ (by omega)]
  simp only [h0, if_false, hq, if_true]
  by_cases c : 32768 ≤ h
  · have c' : 2147483648 ≤ h * 65536 + l := by omega
    simp only [c, c', decide_True, if_true]
  · have c' : ¬ 2147483648 ≤ h * 65536 + l := by omega
    simp only [c, c', decide_False, if_false, Bool.false_eq_true]

theorem DivideSignedCycles_main (h l d : Nat) (hh : h < 65536) (hl : l < 65536)
    (hd : d < 65536) (h0 : d ≠ 0) (hlt : absHi h l < absDivisor d) :
    DivideSignedCycles (h * 65536 + l) d =
      2 * (3 + (if 32768 ≤ h then 4 else 3) +
        divsPasses (absDivisor d) 15 ⟨absHi h l, absLo h l, 0⟩ + 4 + divsFixPasses h d) := by
  have hb := absDivisor_bounds d hd h0
  have hlo := absLo_lt h l hl
  have hq : ¬ ((absHi h l * 65536 + absLo h l) / absDivisor d ≥ 0x10000) := by
    have := (quot_lt_iff (absHi h l) (absLo h l) (absDivisor d) hlo hb.1).mpr hlt
    omega
  have ha : (absDivisor d <<< 16) % 4294967296 = absDivisor d * 65536 := by
    rw [Nat.shiftLeft_eq]
    omega
  have hP := divsPasses_le (absDivisor d) 15 ⟨absHi h l, absLo h l, 0⟩
  have hrel : RefRel 0 ⟨absHi h l, absLo h l, 0⟩ (absHi h l * 65536 + absLo h l) := by
    refine ⟨by omega, ?_, ?_⟩
    · show (absHi h l * 65536 + absLo h l) / 65536 = absHi h l
      omega
    · simp only [LowRel, pow_zero, Nat.div_one, Nat.mod_one, and_true]
      omega
  have hok : Work.Ok (absDivisor d) ⟨absHi h l, absLo h l, 0⟩ := ⟨hlt, hlo, Nat.zero_le _⟩
  unfold DivideSignedCycles
  rw [AbsoluteValue32_eq h l hh hl, AbsoluteValue16_eq d hd, SignBit32_eq _ (by omega),
    SignBit16_eq d hd]
  simp only [h0, if_false, hq, ha]
  unfold divsFixPasses
  by_cases c : 32768 ≤ h
  · have c' : 2147483648 ≤ h * 65536 + l := by omega
    simp only [c, c', decide_True, if_true]
    rw [divs_ref_loop _ hb.2 15 0 _ _ _ (by omega) hok hrel (by norm_num)]
    by_cases s : 32768 ≤ d
    · simp only [s, decide_True, if_true]
      omega
    · simp only [s, decide_False, if_false, Bool.false_eq_true]
      omega
  · have c' : ¬ 2147483648 ≤ h * 65536 + l := by omega
    simp only [c, c', decide_False, if_false, Bool.false_eq_true]
    rw [divs_ref_loop _ hb.2 15 0 _ _ _ (by omega) hok hrel (by norm_num)]
    by_cases s : 32768 ≤ d
    · simp only [s, decide_True, if_true]
      omega
    · simp only [s, decide_False, if_false, Bool.false_eq_true]
      omega

/-! ## The results -/

theorem ExecuteDivu_trap (m : MC68000) (hw : m.WF) (h0 : m.rydl = 0) :
    ∃ r, ExecuteDivu m = some r ∧ r.microword = TRAP0 ∧ r.rxdh = m.rxdh ∧
      r.rxdl = m.rxdl ∧ r.rydl = m.rydl ∧ r.cycles = (m.cycles + 4) % 4294967296 := by
  obtain ⟨m2, p2, l2, xh2, xl2, y2, c2⟩ :=
    divu_trap_run { m with microword := DVUR1 } (WF_init m _ (by decide) hw) rfl h0
  exact ⟨m2, ExecuteDivu_of_passes m m2 2 (by norm_num) p2 (Or.inr l2)
    (by rw [c2]; exact Nat.mod_lt _ (by norm_num)), l2, xh2, xl2, y2, c2⟩

theorem ExecuteDivu_overflow (m : MC68000) (hw : m.WF) (h0 : m.rydl ≠ 0)
    (hge : m.rydl ≤ m.rxdh) :
    ∃ r, ExecuteDivu m = some r ∧ r.microword = A1 ∧ r.rxdh = m.rxdh ∧
      r.rxdl = m.rxdl ∧ r.rydl = m.rydl ∧ r.cycles = (m.cycles + 10) % 4294967296 := by
  obtain ⟨m2, p2, l2, xh2, xl2, y2, c2⟩ :=
    divu_overflow_run { m with microword := DVUR1 } (WF_init m _ (by decide) hw) rfl h0 hge
  exact ⟨m2, ExecuteDivu_of_passes m m2 5 (by norm_num) p2 (Or.inl l2)
    (by rw [c2]; exact Nat.mod_lt _ (by norm_num)), l2, xh2, xl2, y2, c2⟩

theorem cyclesSpent_of_eq (m r : MC68000) (x : Nat) (hm : m.cycles < 4294967296)
    (hx : x < 4294967296) (h : r.cycles = (m.cycles + x) % 4294967296) :
    cyclesSpent m r = x := by
  unfold cyclesSpent
  omega

/-- Claim C1. Unsigned quotient and remainder: for 16-bit `rxdh`, `rxdl`, `rydl` with
`rydl ≠ 0` and `dividend / rydl < 0x10000`, whatever the other fields hold,
`ExecuteDivu` returns with `rxdl = dividend / rydl` and `rxdh = dividend mod rydl`. -/
theorem ExecuteDivu_quotient_remainder (m : MC68000) (hw : m.WF) (h0 : m.rydl ≠ 0)
    (hq : dividend m / m.rydl < 0x10000) :
    ∃ r, ExecuteDivu m = some r ∧ r.rxdl = dividend m / m.rydl ∧
      r.rxdh = dividend m % m.rydl := by
  have hlt : m.rxdh < m.rydl :=
    (quot_lt_iff m.rxdh m.rxdl m.rydl hw.2.2.1 (by omega)).mp hq
  obtain ⟨r, hr, -, xh, xl, -, -⟩ := ExecuteDivu_normal m hw h0 hlt
  exact ⟨r, hr, xl, xh⟩

theorem ExecuteDivu_quotient_remainder_witness :
    (testInput 9911 605).WF ∧ (testInput 9911 605).rydl ≠ 0 ∧
      dividend (testInput 9911 605) / (testInput 9911 605).rydl < 0x10000 ∧
      ∃ r, ExecuteDivu (testInput 9911 605) = some r ∧ r.rxdl = 16 ∧ r.rxdh = 231 :=
  ⟨by decide, by decide, by decide,
    ExecuteDivu_quotient_remainder (testInput 9911 605) (by decide) (by decide) (by decide)⟩

theorem absQuotient_eq (m : MC68000) (hw : m.WF) :
    absQuotient m =
        (absHi m.rxdh m.rxdl * 65536 + absLo m.rxdh m.rxdl) / absDivisor m.rydl ∧
      absRemainder m =
        (absHi m.rxdh m.rxdl * 65536 + absLo m.rxdh m.rxdl) % absDivisor m.rydl ∧
      (sameSign m ↔ (32768 ≤ m.rxdh ↔ 32768 ≤ m.rydl)) := by
  obtain ⟨e1, s1⟩ := signedDividend_natAbs m hw
  obtain ⟨e2, s2⟩ := signedDivisor_natAbs m hw
  unfold absQuotient absRemainder sameSign
  rw [e1, e2, s1, s2]
  exact ⟨rfl, rfl, Iff.rfl⟩

theorem ofInt16_natCast (q : Nat) (hq : q < 65536) : ofInt16 (q : Int) = q := by
  unfold ofInt16
  omega

theorem ofInt16_neg_natCast (q : Nat) (hq : q ≤ 65536) :
    ofInt16 (-(q : Int)) = (65536 - q) % 65536 := by
  unfold ofInt16
  omega

/-- Claim C2. Signed quotient and remainder: with `q = |D| / |d|`, `r = |D| mod |d|`,
`Q = q` when `D` and `d` have the same sign bit and `-q` otherwise, `R = -r` when `D`
is negative and `r` otherwise, if `rydl ≠ 0` and `-32768 ≤ Q ≤ 32767` then `ExecuteDivs`
returns with `rxdl` and `rxdh` the 16-bit two's-complement patterns of `Q` and `R`. -/
theorem ExecuteDivs_quotient_remainder (m : MC68000) (hw : m.WF) (h0 : m.rydl ≠ 0)
    (hlo : -32768 ≤ signedQuotient m) (hhi : signedQuotient m ≤ 32767) :
    ∃ r, ExecuteDivs m = some r ∧ r.rxdl = ofInt16 (signedQuotient m) ∧
      r.rxdh = ofInt16 (signedRemainder m) := by
  obtain ⟨eq, er, es⟩ := absQuotient_eq m hw
  obtain ⟨-, sD⟩ := signedDividend_natAbs m hw
  have hb := absDivisor_bounds m.rydl hw.2.2.2.1 h0
  have hlo' := absLo_lt m.rxdh m.rxdl hw.2.2.1
  have hrem : absRemainder m < absDivisor m.rydl := by
    rw [er]
    exact Nat.mod_lt _ hb.1
  -- the quotient magnitude is small enough
  have hq : (sameSign m ∧ absQuotient m ≤ 32767) ∨ (¬ sameSign m ∧ absQuotient m ≤ 32768) := by
    unfold signedQuotient at hlo hhi
    by_cases c : sameSign m
    · rw [if_pos c] at hhi
      exact Or.inl ⟨c, by omega⟩
    · rw [if_neg c] at hlo
      exact Or.inr ⟨c, by omega⟩
  have hq' : absQuotient m < 65536 := by
    rcases hq with h | h <;> omega
  have hlt : absHi m.rxdh m.rxdl < absDivisor m.rydl := by
    rw [eq] at hq'
    exact (quot_lt_iff _ _ _ hlo' hb.1).mp hq'
  obtain ⟨r, hr, -, -, -, xh, xl⟩ := ExecuteDivs_main m hw h0 hlt
  rw [← eq] at xh xl
  rw [← er] at xh
  have hno : ¬ divsOverflow m.rxdh m.rydl (absQuotient m) := by
    unfold divsOverflow
    rcases hq with ⟨c, h⟩ | ⟨c, h⟩
    · rw [if_pos (es.mp c)]
      omega
    · rw [if_neg (fun x => c (es.mpr x))]
      omega
  rw [if_neg hno] at xh xl
  refine ⟨r, hr, ?_, ?_⟩
  · rw [xl]
    unfold divsQuot signedQuotient
    rcases hq with ⟨c, h⟩ | ⟨c, h⟩
    · rw [if_pos (es.mp c), if_pos c, ofInt16_natCast _ hq']
    · rw [if_neg (fun x => c (es.mpr x)), if_neg c, ofInt16_neg_natCast _ (by omega)]
  · rw [xh]
    unfold divsRem signedRemainder
    by_cases c : 32768 ≤ m.rxdh
    · rw [if_pos c, if_pos (sD.mpr c), ofInt16_neg_natCast _ (by omega)]
    · rw [if_neg c, if_neg (fun x => c (sD.mp x)), ofInt16_natCast _ (by omega)]

theorem ExecuteDivs_quotient_remainder_witness :
    (testInput 4294967267 5).WF ∧ (testInput 4294967267 5).rydl ≠ 0 ∧
      -32768 ≤ signedQuotient (testInput 4294967267 5) ∧
      signedQuotient (testInput 4294967267 5) ≤ 32767 ∧
      ∃ r, ExecuteDivs (testInput 4294967267 5) = some r ∧ r.rxdl = 0xFFFB ∧
        r.rxdh = 0xFFFC :=
  ⟨by decide, by decide, by decide, by decide,
    ExecuteDivs_quotient_remainder (testInput 4294967267 5) (by decide) (by decide)
      (by decide) (by decide)⟩

/-- Claim C3. Signed overflow leaves the dividend untouched: if `rydl ≠ 0` and the signed
quotient does not fit in 16 bits (`|D| / |d| ≥ 0x10000`, or equal signs and
`|D| / |d| ≥ 0x8000`, or opposite signs and `|D| / |d| > 0x8000`), `ExecuteDivs` returns
with `rxdh` and `rxdl` as on entry and with `microword = A1`. -/
theorem ExecuteDivs_overflow_unchanged (m : MC68000) (hw : m.WF) (h0 : m.rydl ≠ 0)
    (hov : 0x10000 ≤ absQuotient m ∨ (sameSign m ∧ 0x8000 ≤ absQuotient m) ∨
      (¬ sameSign m ∧ 0x8000 < absQuotient m)) :
    ∃ r, ExecuteDivs m = some r ∧ r.rxdh = m.rxdh ∧ r.rxdl = m.rxdl ∧
      r.microword = A1 := by
  obtain ⟨eq, er, es⟩ := absQuotient_eq m hw
  have hb := absDivisor_bounds m.rydl hw.2.2.2.1 h0
  have hlo' := absLo_lt m.rxdh m.rxdl hw.2.2.1
  by_cases hlt : absHi m.rxdh m.rxdl < absDivisor m.rydl
  · obtain ⟨r, hr, l, -, -, xh, xl⟩ := ExecuteDivs_main m hw h0 hlt
    rw [← eq] at xh xl
    have hq' : absQuotient m < 65536 := by
      rw [eq]
      exact (quot_lt_iff _ _ _ hlo' hb.1).mpr hlt
    have hyes : divsOverflow m.rxdh m.rydl (absQuotient m) := by
      unfold divsOverflow
      rcases hov with h | ⟨c, h⟩ | ⟨c, h⟩
      · omega
      · rw [if_pos (es.mp c)]
        exact h
      · rw [if_neg (fun x => c (es.mpr x))]
        exact h
    rw [if_pos hyes] at xh xl
    exact ⟨r, hr, xh, xl, l⟩
  · obtain ⟨r, hr, l, xh, xl, -, -⟩ := ExecuteDivs_early m hw h0 (by omega)
    exact ⟨r, hr, xh, xl, l⟩

theorem ExecuteDivs_overflow_unchanged_witness :
    (testInput 0x00008000 1).WF ∧ (testInput 0x00008000 1).rydl ≠ 0 ∧
      (0x10000 ≤ absQuotient (testInput 0x00008000 1) ∨
        (sameSign (testInput 0x00008000 1) ∧ 0x8000 ≤ absQuotient (testInput 0x00008000 1)) ∨
        (¬ sameSign (testInput 0x00008000 1) ∧
          0x8000 < absQuotient (testInput 0x00008000 1))) ∧
      ∃ r, ExecuteDivs (testInput 0x00008000 1) = some r ∧ r.rxdh = 0 ∧ r.rxdl = 0x8000 ∧
        r.microword = A1 :=
  ⟨by decide, by decide, by decide,
    ExecuteDivs_overflow_unchanged (testInput 0x00008000 1) (by decide) (by decide)
      (by decide)⟩

/-- Claim C4. Division by zero: for `ExecuteDivu` and for `ExecuteDivs`, from every register
file with `rydl = 0` the call returns with `microword = TRAP0`, with `rxdh` and `rxdl`
as on entry, and with `cycles` increased by exactly 4 modulo `2^32`. -/
theorem division_by_zero (m : MC68000) (hw : m.WF) (h0 : m.rydl = 0) :
    (∃ r, ExecuteDivu m = some r ∧ r.microword = TRAP0 ∧ r.rxdh = m.rxdh ∧
      r.rxdl = m.rxdl ∧ r.cycles = (m.cycles + 4) % 4294967296) ∧
    (∃ r, ExecuteDivs m = some r ∧ r.microword = TRAP0 ∧ r.rxdh = m.rxdh ∧
      r.rxdl = m.rxdl ∧ r.cycles = (m.cycles + 4) % 4294967296) := by
  obtain ⟨r1, h1, l1, xh1, xl1, -, c1⟩ := ExecuteDivu_trap m hw h0
  obtain ⟨r2, h2, l2, xh2, xl2, -, c2⟩ := ExecuteDivs_trap m hw h0
  exact ⟨⟨r1, h1, l1, xh1, xl1, c1⟩, ⟨r2, h2, l2, xh2, xl2, c2⟩⟩

theorem division_by_zero_witness :
    (testInput 0x12345678 0).WF ∧ (testInput 0x12345678 0).rydl = 0 ∧
      (∃ r, ExecuteDivu (testInput 0x12345678 0) = some r ∧ r.microword = TRAP0 ∧
        r.rxdh = 0x1234 ∧ r.rxdl = 0x5678 ∧ r.cycles = 4) ∧
      (∃ r, ExecuteDivs (testInput 0x12345678 0) = some r ∧ r.microword = TRAP0 ∧
        r.rxdh = 0x1234 ∧ r.rxdl = 0x5678 ∧ r.cycles = 4) :=
  ⟨by decide, by decide, division_by_zero (testInput 0x12345678 0) (by decide) (by decide)⟩

/-- Claim C5. Unsigned overflow: for `rydl ≠ 0`, `dividend / rydl ≥ 0x10000` holds exactly
when `rxdh ≥ rydl`, and in that case `ExecuteDivu` returns with `rxdh` and `rxdl` as on
entry and with the 32-bit cycle counter increased by exactly 10 (so `cycles` itself is the
old value plus 10 unless the counter wraps). -/
theorem ExecuteDivu_overflow_unchanged (m : MC68000) (hw : m.WF) (h0 : m.rydl ≠ 0)
    (hq : 0x10000 ≤ dividend m / m.rydl) :
    (0x10000 ≤ dividend m / m.rydl ↔ m.rydl ≤ m.rxdh) ∧
    ∃ r, ExecuteDivu m = some r ∧ r.rxdh = m.rxdh ∧ r.rxdl = m.rxdl ∧
      cyclesSpent m r = 10 ∧ (m.cycles + 10 < 4294967296 → r.cycles = m.cycles + 10) := by
  have hiff : 0x10000 ≤ dividend m / m.rydl ↔ m.rydl ≤ m.rxdh := by
    have := quot_lt_iff m.rxdh m.rxdl m.rydl hw.2.2.1 (by omega)
    unfold dividend
    omega
  have hc0 : m.cycles < 4294967296 := hw.2.2.2.2.2.2.2.2.2.2.2.2
  obtain ⟨r, hr, -, xh, xl, -, c⟩ := ExecuteDivu_overflow m hw h0 (hiff.mp hq)
  refine ⟨hiff, r, hr, xh, xl, cyclesSpent_of_eq m r 10 hc0 (by norm_num) c, ?_⟩
  intro hlt
  rw [c]
  exact Nat.mod_eq_of_lt hlt

theorem ExecuteDivu_overflow_unchanged_witness :
    (testInput 0x00020000 1).WF ∧ (testInput 0x00020000 1).rydl ≠ 0 ∧
      0x10000 ≤ dividend (testInput 0x00020000 1) / (testInput 0x00020000 1).rydl ∧
      (0x10000 ≤ dividend (testInput 0x00020000 1) / (testInput 0x00020000 1).rydl ↔
        (testInput 0x00020000 1).rydl ≤ (testInput 0x00020000 1).rxdh) ∧
      ∃ r, ExecuteDivu (testInput 0x00020000 1) = some r ∧ r.rxdh = 2 ∧ r.rxdl = 0 ∧
        cyclesSpent (testInput 0x00020000 1) r = 10 ∧
        ((testInput 0x00020000 1).cycles + 10 < 4294967296 →
          r.cycles = (testInput 0x00020000 1).cycles + 10) :=
  ⟨by decide, by decide, by decide,
    ExecuteDivu_overflow_unchanged (testInput 0x00020000 1) (by decide) (by decide)
      (by decide)⟩

/-- Every run of `ExecuteDivu` returns, with `rydl` unchanged, at `TRAP0` exactly when
the divisor is zero and at `A1` otherwise. -/
theorem ExecuteDivu_returns (m : MC68000) (hw : m.WF) :
    ∃ r, ExecuteDivu m = some r ∧ r.rydl = m.rydl ∧
      (r.microword = TRAP0 ∨ r.microword = A1) ∧ (r.microword = TRAP0 ↔ m.rydl = 0) := by
  by_cases h0 : m.rydl = 0
  · obtain ⟨r, hr, l, -, -, y, -⟩ := ExecuteDivu_trap m hw h0
    exact ⟨r, hr, y, Or.inl l, by simp [l, h0]⟩
  · by_cases hge : m.rydl ≤ m.rxdh
    · obtain ⟨r, hr, l, -, -, y, -⟩ := ExecuteDivu_overflow m hw h0 hge
      exact ⟨r, hr, y, Or.inr l, by simp [l, h0]⟩
    · obtain ⟨r, hr, l, -, -, y, -⟩ := ExecuteDivu_normal m hw h0 (by omega)
      exact ⟨r, hr, y, Or.inr l, by simp [l, h0]⟩

/-- Every run of `ExecuteDivs` returns, with `rydl` unchanged, at `TRAP0` exactly when
the divisor is zero and at `A1` otherwise. -/
theorem ExecuteDivs_returns (m : MC68000) (hw : m.WF) :
    ∃ r, ExecuteDivs m = some r ∧ r.rydl = m.rydl ∧
      (r.microword = TRAP0 ∨ r.microword = A1) ∧ (r.microword = TRAP0 ↔ m.rydl = 0) := by
  by_cases h0 : m.rydl = 0
  · obtain ⟨r, hr, l, -, -, y, -⟩ := ExecuteDivs_trap m hw h0
    exact ⟨r, hr, y, Or.inl l, by simp [l, h0]⟩
  · by_cases hge : absDivisor m.rydl ≤ absHi m.rxdh m.rxdl
    · obtain ⟨r, hr, l, -, -, y, -⟩ := ExecuteDivs_early m hw h0 hge
      exact ⟨r, hr, y, Or.inr l, by simp [l, h0]⟩
    · obtain ⟨r, hr, l, y, -⟩ := ExecuteDivs_main m hw h0 (by omega)
      exact ⟨r, hr, y, Or.inr l, by simp [l, h0]⟩

/-- Claim C6. The divisor register is read-only: from every register file, `ExecuteDivu`
and `ExecuteDivs` return with `rydl` equal to its value on entry. -/
theorem divisor_unchanged (m : MC68000) (hw : m.WF) :
    (∃ r, ExecuteDivu m = some r ∧ r.rydl = m.rydl) ∧
    (∃ r, ExecuteDivs m = some r ∧ r.rydl = m.rydl) := by
  obtain ⟨r1, h1, y1, -⟩ := ExecuteDivu_returns m hw
  obtain ⟨r2, h2, y2, -⟩ := ExecuteDivs_returns m hw
  exact ⟨⟨r1, h1, y1⟩, ⟨r2, h2, y2⟩⟩

theorem divisor_unchanged_witness :
    (testInput 0xA5A5CCDD 0xA6A6).WF ∧
      (∃ r, ExecuteDivu (testInput 0xA5A5CCDD 0xA6A6) = some r ∧ r.rydl = 0xA6A6) ∧
      (∃ r, ExecuteDivs (testInput 0xA5A5CCDD 0xA6A6) = some r ∧ r.rydl = 0xA6A6) :=
  ⟨by decide, divisor_unchanged (testInput 0xA5A5CCDD 0xA6A6) (by decide)⟩

theorem DivideUnsignedCycles_le (h l d : Nat) (hl : l < 65536)
    (hd : d < 65536) (h0 : d ≠ 0) :
    (d ≤ h → DivideUnsignedCycles (h * 65536 + l) d = 10) ∧
    (h < d → DivideUnsignedCycles (h * 65536 + l) d =
      6 + 2 * divuPasses d 15 ⟨h, l, 0⟩ + 10) ∧
    DivideUnsignedCycles (h * 65536 + l) d ≤ 136 := by
  have hP := divuPasses_le d 15 ⟨h, l, 0⟩
  by_cases c : d ≤ h
  · have e := DivideUnsignedCycles_overflow h l d hl h0 c
    exact ⟨fun _ => e, fun x => by omega, by omega⟩
  · have e := DivideUnsignedCycles_normal h l d hd (by omega) hl
    exact ⟨fun x => by omega, fun _ => e, by omega⟩

/-- Claim C7. Unsigned cycle count: for `rydl ≠ 0` the increase of `cycles` caused by
`ExecuteDivu` equals the test-suite's reference timing `DivideUnsignedCycles(dividend,
rydl)`. -/
theorem ExecuteDivu_cycles (m : MC68000) (hw : m.WF) (h0 : m.rydl ≠ 0) :
    ∃ r, ExecuteDivu m = some r ∧
      cyclesSpent m r = DivideUnsignedCycles (dividend m) m.rydl := by
  have hc0 : m.cycles < 4294967296 := hw.2.2.2.2.2.2.2.2.2.2.2.2
  obtain ⟨e1, -, e3⟩ := DivideUnsignedCycles_le m.rxdh m.rxdl m.rydl hw.2.2.1
    hw.2.2.2.1 h0
  unfold dividend
  by_cases hge : m.rydl ≤ m.rxdh
  · obtain ⟨r, hr, -, -, -, -, c⟩ := ExecuteDivu_overflow m hw h0 hge
    rw [← e1 hge] at c
    exact ⟨r, hr, cyclesSpent_of_eq m r _ hc0 (by omega) c⟩
  · obtain ⟨r, hr, -, -, -, -, c⟩ := ExecuteDivu_normal m hw h0 (by omega)
    exact ⟨r, hr, cyclesSpent_of_eq m r _ hc0 (by omega) c⟩

theorem ExecuteDivu_cycles_witness :
    (testInput 0x043210FF 0x5A5B).WF ∧ (testInput 0x043210FF 0x5A5B).rydl ≠ 0 ∧
      ∃ r, ExecuteDivu (testInput 0x043210FF 0x5A5B) = some r ∧
        cyclesSpent (testInput 0x043210FF 0x5A5B) r =
          DivideUnsignedCycles (dividend (testInput 0x043210FF 0x5A5B))
            (testInput 0x043210FF 0x5A5B).rydl :=
  ⟨by decide, by decide,
    ExecuteDivu_cycles (testInput 0x043210FF 0x5A5B) (by decide) (by decide)⟩

/-- Claim C8. Signed cycle count: for `rydl ≠ 0` the increase of `cycles` caused by
`ExecuteDivs` equals the test-suite's reference timing `DivideSignedCycles(D, rydl)`,
whether the run ends in early overflow, in writeback or in late overflow. -/
theorem ExecuteDivs_cycles (m : MC68000) (hw : m.WF) (h0 : m.rydl ≠ 0) :
    ∃ r, ExecuteDivs m = some r ∧
      cyclesSpent m r = DivideSignedCycles (dividend m) m.rydl := by
  have hc0 : m.cycles < 4294967296 := hw.2.2.2.2.2.2.2.2.2.2.2.2
  unfold dividend
  by_cases hge : absDivisor m.rydl ≤ absHi m.rxdh m.rxdl
  · obtain ⟨r, hr, -, -, -, -, c⟩ := ExecuteDivs_early m hw h0 hge
    have e := DivideSignedCycles_early m.rxdh m.rxdl m.rydl hw.2.1 hw.2.2.1 hw.2.2.2.1 h0 hge
    rw [e]
    refine ⟨r, hr, cyclesSpent_of_eq m r _ hc0 (by split_ifs <;> omega) ?_⟩
    rw [c]
    congr 1
    omega
  · obtain ⟨r, hr, -, -, c, -⟩ := ExecuteDivs_main m hw h0 (by omega)
    have e := DivideSignedCycles_main m.rxdh m.rxdl m.rydl hw.2.1 hw.2.2.1 hw.2.2.2.1 h0
      (by omega)
    rw [e]
    have hP := divsPasses_le (absDivisor m.rydl) 15
      ⟨absHi m.rxdh m.rxdl, absLo m.rxdh m.rxdl, 0⟩
    have hF : divsFixPasses m.rxdh m.rydl ≤ 7 := by
      unfold divsFixPasses
      split_ifs <;> omega
    exact ⟨r, hr, cyclesSpent_of_eq m r _ hc0 (by split_ifs <;> omega) c⟩

theorem ExecuteDivs_cycles_witness :
    (testInput 4294967267 5).WF ∧ (testInput 4294967267 5).rydl ≠ 0 ∧
      ∃ r, ExecuteDivs (testInput 4294967267 5) = some r ∧
        cyclesSpent (testInput 4294967267 5) r =
          DivideSignedCycles (dividend (testInput 4294967267 5))
            (testInput 4294967267 5).rydl :=
  ⟨by decide, by decide,
    ExecuteDivs_cycles (testInput 4294967267 5) (by decide) (by decide)⟩

theorem DivuCtl_start (m : MC68000) : DivuCtl (divuStart m) := by
  simp [DivuCtl, divuStart, ExecuteDivu_cases]

theorem DivsCtl_start (m : MC68000) : DivsCtl (divsStart m) := by
  simp [DivsCtl, divsStart, ExecuteDivs_cases]

theorem DivuCtl_reach (m s : MC68000) (n : Nat)
    (h : passes ExecuteDivu_body n (divuStart m) = some s) : DivuCtl s :=
  passes_inv ExecuteDivu_body DivuCtl (fun a b hi hb => (DivuCtl_step a b hi hb).1) n _ s
    (DivuCtl_start m) h

theorem DivsCtl_reach (m s : MC68000) (n : Nat)
    (h : passes ExecuteDivs_body n (divsStart m) = some s) : DivsCtl s :=
  passes_inv ExecuteDivs_body DivsCtl (fun a b hi hb => (DivsCtl_step a b hi hb).1) n _ s
    (DivsCtl_start m) h

theorem DivuCounter_of_ctl (s : MC68000) (hi : DivuCtl s) : DivuCounter s := by
  obtain ⟨-, h3, h4, h5⟩ := hi
  refine ⟨?_, ?_, ?_, ?_⟩
  · intro h
    refine ⟨_, divu_DVUM3 s h, rfl, ?_⟩
    simp only
    split_ifs <;> simp
  · intro h
    obtain ⟨b1, b2⟩ := h3 h
    refine ⟨b1, b2, ?_⟩
    rcases h with h | h
    · refine ⟨_, divu_DVUM5 s h, ?_, ?_⟩
      · simp only
        omega
      · simp only
        split_ifs <;> simp
    · refine ⟨_, divu_DVUM6 s h, ?_, ?_⟩
      · simp only
        omega
      · simp only
        split_ifs <;> simp
  · intro h
    rcases h with h | h
    · refine ⟨_, divu_DVUM7 s h, rfl, ?_, ?_⟩
      · intro hne
        simp [hne]
      · intro he
        simp [he]
    · refine ⟨_, divu_DVUM8 s h, rfl, ?_, ?_⟩
      · intro hne
        simp [hne]
      · intro he
        simp [he]
  · intro h
    rcases h with h | h
    · refine ⟨_, divu_DVUMB s h, rfl, ?_⟩
      simp only
      split_ifs <;> simp
    · refine ⟨_, divu_DVUME s h, rfl, ?_⟩
      simp

theorem DivsCounter_of_ctl (s : MC68000) (hi : DivsCtl s) : DivsCounter s := by
  obtain ⟨-, h3, h4, h5, h6⟩ := hi
  refine ⟨?_, ?_, ?_, ?_, ?_⟩
  · intro h
    rcases h with h | h
    · exact ⟨_, divs_DVS04 s h, rfl, rfl⟩
    · exact ⟨_, divs_DVS05 s h, rfl, rfl⟩
  · intro h
    have hau := h6 h
    refine ⟨hau, ?_⟩
    rcases h with h | h | h | h | h
    · exact ⟨_, divs_DVS06 s h, hau⟩
    · exact ⟨_, divs_DVS07 s h, hau⟩
    · exact ⟨_, divs_DVS08 s h, hau⟩
    · exact ⟨_, divs_DVS10 s h, hau⟩
    · exact ⟨_, divs_DVS11 s h, hau⟩
  · intro h
    obtain ⟨b1, b2⟩ := h3 h
    refine ⟨b1, b2, ?_⟩
    rcases h with h | h
    · refine ⟨_, divs_DVS09 s h, ?_, rfl⟩
      simp only
      omega
    · refine ⟨_, divs_DVS0A s h, ?_, rfl⟩
      simp only
      omega
  · intro h
    refine ⟨_, divs_DVS0C s h, rfl, ?_, ?_⟩
    · intro hne
      simp [hne]
    · intro he
      simp [he]
  · intro h
    rcases h with h | h
    · refine ⟨_, divs_DVS0D s h, rfl, ?_⟩
      simp only
      split_ifs <;> simp
    · refine ⟨_, divs_DVS0F s h, rfl, ?_⟩
      simp

/-- Claim C9. Terminal labels and exhaustive dispatch: from every register file, every
microword value dispatched inside `ExecuteDivu` (resp. `ExecuteDivs`) is one of the labels
with an explicit `case` in that function's `switch`; on return `microword` is `TRAP0` or
`A1`, and it is `TRAP0` if and only if `rydl = 0`. -/
theorem dispatch_exhaustive (m : MC68000) (hw : m.WF) :
    ((∀ n s, passes ExecuteDivu_body n (divuStart m) = some s →
        s.microword ∈ ExecuteDivu_cases) ∧
      ∃ r, ExecuteDivu m = some r ∧ (r.microword = TRAP0 ∨ r.microword = A1) ∧
        (r.microword = TRAP0 ↔ m.rydl = 0)) ∧
    ((∀ n s, passes ExecuteDivs_body n (divsStart m) = some s →
        s.microword ∈ ExecuteDivs_cases) ∧
      ∃ r, ExecuteDivs m = some r ∧ (r.microword = TRAP0 ∨ r.microword = A1) ∧
        (r.microword = TRAP0 ↔ m.rydl = 0)) := by
  obtain ⟨r1, e1, -, t1, z1⟩ := ExecuteDivu_returns m hw
  obtain ⟨r2, e2, -, t2, z2⟩ := ExecuteDivs_returns m hw
  exact ⟨⟨fun n s h => (DivuCtl_reach m s n h).1, r1, e1, t1, z1⟩,
    ⟨fun n s h => (DivsCtl_reach m s n h).1, r2, e2, t2, z2⟩⟩

theorem dispatch_exhaustive_witness :
    (testInput 0x5A5A0008 0x5A5B).WF ∧
    ((∀ n s, passes ExecuteDivu_body n (divuStart (testInput 0x5A5A0008 0x5A5B)) = some s →
        s.microword ∈ ExecuteDivu_cases) ∧
      ∃ r, ExecuteDivu (testInput 0x5A5A0008 0x5A5B) = some r ∧
        (r.microword = TRAP0 ∨ r.microword = A1) ∧
        (r.microword = TRAP0 ↔ (testInput 0x5A5A0008 0x5A5B).rydl = 0)) ∧
    ((∀ n s, passes ExecuteDivs_body n (divsStart (testInput 0x5A5A0008 0x5A5B)) = some s →
        s.microword ∈ ExecuteDivs_cases) ∧
      ∃ r, ExecuteDivs (testInput 0x5A5A0008 0x5A5B) = some r ∧
        (r.microword = TRAP0 ∨ r.microword = A1) ∧
        (r.microword = TRAP0 ↔ (testInput 0x5A5A0008 0x5A5B).rydl = 0)) :=
  ⟨by decide, dispatch_exhaustive (testInput 0x5A5A0008 0x5A5B) (by decide)⟩

/-- Claim C10. Termination: from every initial register file, whatever `microword`,
`flags`, `au`, `alu`, `alue`, `alub`, `ath`, `atl` and `pc` hold, the `while (true)` loop
of `ExecuteDivu` returns within 69 passes and that of `ExecuteDivs` within 79 passes;
and at every register file the loops dispatch, the loop counter `au` behaves as
`DivuCounter` and `DivsCounter` say: it is set to 16 before the main loop, every shift
state decrements it by 1, and the loop is left when it has reached 0. -/
theorem loops_terminate (m : MC68000) :
    ((∃ r, ∀ fuel, 69 ≤ fuel → whileTrue ExecuteDivu_body fuel (divuStart m) = some r) ∧
      ∀ n s, passes ExecuteDivu_body n (divuStart m) = some s → DivuCounter s) ∧
    ((∃ r, ∀ fuel, 79 ≤ fuel → whileTrue ExecuteDivs_body fuel (divsStart m) = some r) ∧
      ∀ n s, passes ExecuteDivs_body n (divsStart m) = some s → DivsCounter s) := by
  refine ⟨⟨?_, fun n s h => DivuCounter_of_ctl s (DivuCtl_reach m s n h)⟩,
    ⟨?_, fun n s h => DivsCounter_of_ctl s (DivsCtl_reach m s n h)⟩⟩
  · exact whileTrue_of_rank ExecuteDivu_body DivuCtl divuRank DivuCtl_step 68 (divuStart m)
      (DivuCtl_start m) (by simp [divuRank, divuStart])
  · exact whileTrue_of_rank ExecuteDivs_body DivsCtl divsRank DivsCtl_step 78 (divsStart m)
      (DivsCtl_start m) (by simp [divsRank, divsStart])

/-! ## The inputs of the test-suite, evaluated -/

set_option maxRecDepth 100000 in
theorem ExecuteDivu_examples :
    observe ExecuteDivu 29 5 = some (4, 5, 5, 134) ∧
    observe ExecuteDivu 9911 605 = some (231, 16, 605, 134) ∧
    observe ExecuteDivu 0x00020000 1 = some (2, 0, 1, 10) :=
  ⟨rfl, rfl, rfl⟩

set_option maxRecDepth 100000 in
theorem ExecuteDivs_examples :
    observe ExecuteDivs 4294967267 5 = some (0xFFFC, 0xFFFB, 5, 154) ∧
    observe ExecuteDivs 0x00008000 1 = some (0, 0x8000, 1, 148) ∧
    observe ExecuteDivs 0xFFFF0001 1 = some (0xFFFF, 1, 1, 126) ∧
    observe ExecuteDivs 0x40008000 0x8000 = some (0x4000, 0x8000, 0x8000, 150) ∧
    observe ExecuteDivs 0x80000001 0x8000 = some (0x8000, 1, 0x8000, 124) ∧
    observe ExecuteDivs 0x5A5A0000 0x5959 = some (0x5A5A, 0, 0x5959, 16) ∧
    observe ExecuteDivs 0x80030000 1 = some (0x8003, 0, 1, 18) :=
  ⟨rfl, rfl, rfl, rfl, rfl, rfl, rfl⟩

/-! ## Contracts of the ALU primitives -/

theorem andFlags_V0 (f a : Nat) : andFlags f a &&& FLAG_V = 0 := by
  unfold andFlags
  rcases and_FLAG_X f with hx | hx <;> rw [hx] <;> split_ifs <;> decide

theorem andFlags_le (f a : Nat) :
    andFlags f a &&& (FLAG_X ||| FLAG_N ||| FLAG_Z ||| FLAG_V ||| FLAG_C) = andFlags f a := by
  unfold andFlags
  rcases and_FLAG_X f with hx | hx <;> rw [hx] <;> split_ifs <;> decide

theorem flags5_only (p1 p2 p3 p4 p5 : Prop) [Decidable p1] [Decidable p2] [Decidable p3]
    [Decidable p4] [Decidable p5] :
    let f := ((((0 ||| (if p1 then FLAG_X else 0)) ||| (if p2 then FLAG_N else 0)) |||
      (if p3 then FLAG_Z else 0)) ||| (if p4 then FLAG_V else 0)) |||
      (if p5 then FLAG_C else 0)
    f &&& (FLAG_X ||| FLAG_N ||| FLAG_Z ||| FLAG_V ||| FLAG_C) = f := by
  by_cases h1 : p1 <;> by_cases h2 : p2 <;> by_cases h3 : p3 <;> by_cases h4 : p4 <;>
    by_cases h5 : p5 <;>
    simp only [h1, h2, h3, h4, h5, if_true, if_false] <;> decide

theorem subFlags_only (d s : Nat) :
    subFlags d s &&& (FLAG_X ||| FLAG_N ||| FLAG_Z ||| FLAG_V ||| FLAG_C) = subFlags d s := by
  unfold subFlags
  exact flags5_only _ _ _ _ _

theorem subFlags_X0 (d s : Nat) (hd : d < 65536) (hs : s < 65536) :
    subFlags d s &&& FLAG_X = 0 ↔ s ≤ d := by
  unfold subFlags
  rw [(flags5 _ _ _ _ _).1, testBit15_sub d s hd hs, not_lt]

theorem testBit15_ovf (d s : Nat) (hd : d < 65536) (hs : s < 65536) :
    ((d ^^^ s) &&& (d ^^^ ((d + 65536 - s) % 65536))) &&& 0x8000 ≠ 0 ↔
      ¬ (-32768 ≤ toInt16 d - toInt16 s ∧ toInt16 d - toInt16 s ≤ 32767) := by
  have hr : (d + 65536 - s) % 65536 < 65536 := Nat.mod_lt _ (by norm_num)
  have h := and_two_pow_ne_zero ((d ^^^ s) &&& (d ^^^ ((d + 65536 - s) % 65536))) 15
  have e : (2 : Nat) ^ 15 = 0x8000 := by norm_num
  rw [e] at h
  rw [h]
  simp only [Nat.testBit_xor, Nat.testBit_and, testBit15 d hd, testBit15 s hs,
    testBit15 _ hr, toInt16]
  by_cases c1 : 32768 ≤ d <;> by_cases c2 : 32768 ≤ s <;>
    by_cases c3 : 32768 ≤ (d + 65536 - s) % 65536 <;> simp [c1, c2, c3] <;> omega

theorem subFlags_V0 (d s : Nat) (hd : d < 65536) (hs : s < 65536) :
    subFlags d s &&& FLAG_V = 0 ↔
      (-32768 ≤ toInt16 d - toInt16 s ∧ toInt16 d - toInt16 s ≤ 32767) := by
  unfold subFlags
  rw [(flags5 _ _ _ _ _).2.2.2.1, testBit15_ovf d s hd hs, not_not]

theorem sub_mod_int (d s : Nat) (hs : s < 65536) :
    (((d + 65536 - s) % 65536 : Nat) : Int) = ((d : Int) - (s : Int)) % 65536 := by
  omega

/-- Claim C11. Contract of `AluOp_SUB`: for 16-bit `dst`, `src` and any register file
(so any prior flags), the call returns the flags found on entry, sets `alu` to
`(dst - src) mod 2^16`, and leaves a flags register in which C is set iff `dst < src`
(borrow-out), X is set iff C is, V is set iff the difference of the operands read as
two's-complement numbers lies outside `-32768..32767`, N is set iff bit 15 of the result
is, Z is set iff the result is 0, and no bit other than these five is set. -/
theorem AluOp_SUB_contract (m : MC68000) (dst src : Nat) (hd : dst < 65536)
    (hs : src < 65536) :
    (AluOp_SUB m dst src).2 = m.flags ∧
    ((AluOp_SUB m dst src).1.alu : Int) = ((dst : Int) - (src : Int)) % 65536 ∧
    ((AluOp_SUB m dst src).1.flags &&& FLAG_C ≠ 0 ↔ dst < src) ∧
    ((AluOp_SUB m dst src).1.flags &&& FLAG_X ≠ 0 ↔
      (AluOp_SUB m dst src).1.flags &&& FLAG_C ≠ 0) ∧
    ((AluOp_SUB m dst src).1.flags &&& FLAG_V ≠ 0 ↔
      ¬ (-32768 ≤ toInt16 dst - toInt16 src ∧ toInt16 dst - toInt16 src ≤ 32767)) ∧
    ((AluOp_SUB m dst src).1.flags &&& FLAG_N ≠ 0 ↔
      (AluOp_SUB m dst src).1.alu.testBit 15 = true) ∧
    ((AluOp_SUB m dst src).1.flags &&& FLAG_Z ≠ 0 ↔ (AluOp_SUB m dst src).1.alu = 0) ∧
    (AluOp_SUB m dst src).1.flags &&& (FLAG_X ||| FLAG_N ||| FLAG_Z ||| FLAG_V ||| FLAG_C) =
      (AluOp_SUB m dst src).1.flags := by
  rw [AluOp_SUB_eq]
  have hr : (dst + 65536 - src) % 65536 < 65536 := Nat.mod_lt _ (by norm_num)
  refine ⟨rfl, sub_mod_int dst src hs, ?_, ?_, ?_, ?_, ?_, subFlags_only dst src⟩
  · rw [Ne, subFlags_C0 dst src hd hs, not_le]
  · rw [Ne, Ne, subFlags_C0 dst src hd hs, subFlags_X0 dst src hd hs]
  · rw [Ne, subFlags_V0 dst src hd hs]
  · rw [Ne, subFlags_N0, testBit15 _ hr, decide_eq_true_iff, not_lt]
  · rw [Ne, subFlags_Z0, not_not]

theorem AluOp_SUB_contract_witness :
    (0x8000 : Nat) < 65536 ∧ (1 : Nat) < 65536 ∧
    ((AluOp_SUB (testInput 0 0) 0x8000 1).2 = (testInput 0 0).flags ∧
    ((AluOp_SUB (testInput 0 0) 0x8000 1).1.alu : Int) =
      (((0x8000 : Nat) : Int) - ((1 : Nat) : Int)) % 65536 ∧
    ((AluOp_SUB (testInput 0 0) 0x8000 1).1.flags &&& FLAG_C ≠ 0 ↔ 0x8000 < 1) ∧
    ((AluOp_SUB (testInput 0 0) 0x8000 1).1.flags &&& FLAG_X ≠ 0 ↔
      (AluOp_SUB (testInput 0 0) 0x8000 1).1.flags &&& FLAG_C ≠ 0) ∧
    ((AluOp_SUB (testInput 0 0) 0x8000 1).1.flags &&& FLAG_V ≠ 0 ↔
      ¬ (-32768 ≤ toInt16 0x8000 - toInt16 1 ∧ toInt16 0x8000 - toInt16 1 ≤ 32767)) ∧
    ((AluOp_SUB (testInput 0 0) 0x8000 1).1.flags &&& FLAG_N ≠ 0 ↔
      (AluOp_SUB (testInput 0 0) 0x8000 1).1.alu.testBit 15 = true) ∧
    ((AluOp_SUB (testInput 0 0) 0x8000 1).1.flags &&& FLAG_Z ≠ 0 ↔
      (AluOp_SUB (testInput 0 0) 0x8000 1).1.alu = 0) ∧
    (AluOp_SUB (testInput 0 0) 0x8000 1).1.flags &&&
        (FLAG_X ||| FLAG_N ||| FLAG_Z ||| FLAG_V ||| FLAG_C) =
      (AluOp_SUB (testInput 0 0) 0x8000 1).1.flags) :=
  ⟨by decide, by decide, AluOp_SUB_contract (testInput 0 0) 0x8000 1 (by decide) (by decide)⟩

/-- Claim C12. Contract of `AluOp_AND`: for 16-bit `dst`, `src` and any register file
(so any prior flags), the call returns the flags found on entry, sets `alu` to
`dst & src`, and leaves a flags register whose X bit is the X bit found on entry, whose
N bit is set iff bit 15 of the result is, whose Z bit is set iff the result is 0, and
whose V and C bits are clear. -/
theorem AluOp_AND_contract (m : MC68000) (dst src : Nat) (hd : dst < 65536)
    (_hs : src < 65536) :
    (AluOp_AND m dst src).2 = m.flags ∧
    (AluOp_AND m dst src).1.alu = dst &&& src ∧
    (AluOp_AND m dst src).1.flags &&& FLAG_X = m.flags &&& FLAG_X ∧
    ((AluOp_AND m dst src).1.flags &&& FLAG_N ≠ 0 ↔ (dst &&& src).testBit 15 = true) ∧
    ((AluOp_AND m dst src).1.flags &&& FLAG_Z ≠ 0 ↔ dst &&& src = 0) ∧
    (AluOp_AND m dst src).1.flags &&& FLAG_V = 0 ∧
    (AluOp_AND m dst src).1.flags &&& FLAG_C = 0 := by
  rw [AluOp_AND_eq]
  have hr : dst &&& src < 65536 := lt_of_le_of_lt Nat.and_le_left hd
  refine ⟨rfl, rfl, andFlags_X _ _, ?_, ?_, andFlags_V0 _ _, andFlags_C0 _ _⟩
  · rw [Ne, andFlags_N0 _ _ hr, testBit15 _ hr, decide_eq_true_iff, not_lt]
  · rw [Ne, andFlags_Z0, not_not]

theorem AluOp_AND_contract_witness :
    (0xF0F0 : Nat) < 65536 ∧ (0xFFFF : Nat) < 65536 ∧
    ((AluOp_AND (testInput 0 0) 0xF0F0 0xFFFF).2 = (testInput 0 0).flags ∧
    (AluOp_AND (testInput 0 0) 0xF0F0 0xFFFF).1.alu = 0xF0F0 &&& 0xFFFF ∧
    (AluOp_AND (testInput 0 0) 0xF0F0 0xFFFF).1.flags &&& FLAG_X =
      (testInput 0 0).flags &&& FLAG_X ∧
    ((AluOp_AND (testInput 0 0) 0xF0F0 0xFFFF).1.flags &&& FLAG_N ≠ 0 ↔
      (0xF0F0 &&& 0xFFFF).testBit 15 = true) ∧
    ((AluOp_AND (testInput 0 0) 0xF0F0 0xFFFF).1.flags &&& FLAG_Z ≠ 0 ↔
      0xF0F0 &&& 0xFFFF = 0) ∧
    (AluOp_AND (testInput 0 0) 0xF0F0 0xFFFF).1.flags &&& FLAG_V = 0 ∧
    (AluOp_AND (testInput 0 0) 0xF0F0 0xFFFF).1.flags &&& FLAG_C = 0) :=
  ⟨by decide, by decide,
    AluOp_AND_contract (testInput 0 0) 0xF0F0 0xFFFF (by decide) (by decide)⟩

theorem slaax_pair (alu alue b : Nat) (hb : b ≤ 1) :
    (2 * alu + alue / 32768) % 65536 * 65536 + (2 * alue + b) % 65536 =
      (2 * (alu * 65536 + alue) + b) % 4294967296 := by
  omega

/-- Claim C13. Contract of `AluOp_SLAAx`: for 16-bit `alu`, `alue` and an inject bit
`b` in `{0, 1}`, after the call the pair `alu:alue` holds
`(2 * (old alu:alue) + b) mod 2^32`, both halves are 16-bit values, bit 0 of `alu` is the
bit that left the top of `alue`, bit 0 of `alue` is `b`, the flags register is unchanged,
and the value returned is the flags register. -/
theorem AluOp_SLAAx_contract (m : MC68000) (b : Nat) (_ha : m.alu < 65536)
    (he : m.alue < 65536) (hb : b ≤ 1) :
    (AluOp_SLAAx m b).1.alu * 65536 + (AluOp_SLAAx m b).1.alue =
      (2 * (m.alu * 65536 + m.alue) + b) % 4294967296 ∧
    (AluOp_SLAAx m b).1.alu < 65536 ∧ (AluOp_SLAAx m b).1.alue < 65536 ∧
    (AluOp_SLAAx m b).1.alu % 2 = m.alue / 32768 ∧
    (AluOp_SLAAx m b).1.alue % 2 = b ∧
    (AluOp_SLAAx m b).1.flags = m.flags ∧
    (AluOp_SLAAx m b).2 = (AluOp_SLAAx m b).1.flags := by
  have e1 : (AluOp_SLAAx m b).1.alu = (2 * m.alu + m.alue / 32768) % 65536 :=
    slaax_alu m.alu m.alue he
  have e2 : (AluOp_SLAAx m b).1.alue = (2 * m.alue + b) % 65536 := slaax_alue m.alue b
  rw [e1, e2]
  refine ⟨slaax_pair m.alu m.alue b hb, Nat.mod_lt _ (by norm_num),
    Nat.mod_lt _ (by norm_num), ?_, ?_, rfl, rfl⟩
  · omega
  · omega

theorem AluOp_SLAAx_contract_witness :
    ({ testInput 0 0 with alu := 0xC001, alue := 0x8002, flags := 0x1F } : MC68000).alu
      < 65536 ∧
    ({ testInput 0 0 with alu := 0xC001, alue := 0x8002, flags := 0x1F } : MC68000).alue
      < 65536 ∧
    (1 : Nat) ≤ 1 ∧
    ((AluOp_SLAAx { testInput 0 0 with alu := 0xC001, alue := 0x8002, flags := 0x1F } 1).1.alu
        * 65536 +
      (AluOp_SLAAx { testInput 0 0 with alu := 0xC001, alue := 0x8002, flags := 0x1F } 1).1.alue
      = (2 * (({ testInput 0 0 with alu := 0xC001, alue := 0x8002, flags := 0x1F } : MC68000).alu
          * 65536 +
        ({ testInput 0 0 with alu := 0xC001, alue := 0x8002, flags := 0x1F } : MC68000).alue)
          + 1) % 4294967296 ∧
    (AluOp_SLAAx { testInput 0 0 with alu := 0xC001, alue := 0x8002, flags := 0x1F } 1).1.alu
      < 65536 ∧
    (AluOp_SLAAx { testInput 0 0 with alu := 0xC001, alue := 0x8002, flags := 0x1F } 1).1.alue
      < 65536 ∧
    (AluOp_SLAAx { testInput 0 0 with alu := 0xC001, alue := 0x8002, flags := 0x1F } 1).1.alu
      % 2 =
      ({ testInput 0 0 with alu := 0xC001, alue := 0x8002, flags := 0x1F } : MC68000).alue
        / 32768 ∧
    (AluOp_SLAAx { testInput 0 0 with alu := 0xC001, alue := 0x8002, flags := 0x1F } 1).1.alue
      % 2 = 1 ∧
    (AluOp_SLAAx { testInput 0 0 with alu := 0xC001, alue := 0x8002, flags := 0x1F } 1).1.flags
      = ({ testInput 0 0 with alu := 0xC001, alue := 0x8002, flags := 0x1F } : MC68000).flags ∧
    (AluOp_SLAAx { testInput 0 0 with alu := 0xC001, alue := 0x8002, flags := 0x1F } 1).2
      = (AluOp_SLAAx { testInput 0 0 with alu := 0xC001, alue := 0x8002, flags := 0x1F } 1).1.flags) :=
  ⟨by decide, by decide, by decide,
    AluOp_SLAAx_contract { testInput 0 0 with alu := 0xC001, alue := 0x8002, flags := 0x1F } 1
      (by decide) (by decide) (by decide)⟩

theorem subx_mod_int (d s x : Nat) (hs : s < 65536) (hx : x ≤ 1) :
    (((d + 131072 - s - x) % 65536 : Nat) : Int) =
      ((d : Int) - (s : Int) - (x : Int)) % 65536 := by
  omega

theorem flagX_bit (f : Nat) : (f &&& FLAG_X) >>> 4 = if f &&& FLAG_X ≠ 0 then 1 else 0 := by
  rcases and_FLAG_X f with h | h <;> rw [h] <;> decide

/-- Claim C14. Contract of `AluOp_SUBX`: for 16-bit `dst`, `src` and any register file
(so any flags), the call sets `alu` to `(dst - src - x) mod 2^16`, where `x` is 1 when
`FLAG_X` is set in the flags and 0 otherwise, leaves the flags register as it found it,
and returns it. -/
theorem AluOp_SUBX_contract (m : MC68000) (dst src : Nat) (_hd : dst < 65536)
    (hs : src < 65536) :
    ((AluOp_SUBX m dst src).1.alu : Int) =
      ((dst : Int) - (src : Int) - (if m.flags &&& FLAG_X ≠ 0 then 1 else 0)) % 65536 ∧
    (AluOp_SUBX m dst src).1.alu < 65536 ∧
    (AluOp_SUBX m dst src).1.flags = m.flags ∧
    (AluOp_SUBX m dst src).2 = m.flags := by
  have e : (AluOp_SUBX m dst src).1.alu =
      (dst + 131072 - src - (if m.flags &&& FLAG_X ≠ 0 then 1 else 0)) % 65536 := by
    rw [← flagX_bit]
    rfl
  rw [e]
  refine ⟨?_, Nat.mod_lt _ (by norm_num), rfl, rfl⟩
  by_cases c : m.flags &&& FLAG_X ≠ 0
  · rw [if_pos c, if_pos c]
    exact subx_mod_int dst src 1 hs (le_refl 1)
  · rw [if_neg c, if_neg c]
    exact subx_mod_int dst src 0 hs (by decide)

theorem AluOp_SUBX_contract_witness :
    (0 : Nat) < 65536 ∧ (0x8003 : Nat) < 65536 ∧
    (((AluOp_SUBX { testInput 0 0 with flags := 0x11 } 0 0x8003).1.alu : Int) =
      (((0 : Nat) : Int) - ((0x8003 : Nat) : Int) -
        (if ({ testInput 0 0 with flags := 0x11 } : MC68000).flags &&& FLAG_X ≠ 0
          then 1 else 0)) % 65536 ∧
    (AluOp_SUBX { testInput 0 0 with flags := 0x11 } 0 0x8003).1.alu < 65536 ∧
    (AluOp_SUBX { testInput 0 0 with flags := 0x11 } 0 0x8003).1.flags =
      ({ testInput 0 0 with flags := 0x11 } : MC68000).flags ∧
    (AluOp_SUBX { testInput 0 0 with flags := 0x11 } 0 0x8003).2 =
      ({ testInput 0 0 with flags := 0x11 } : MC68000).flags) :=
  ⟨by decide, by decide,
    AluOp_SUBX_contract { testInput 0 0 with flags := 0x11 } 0 0x8003 (by decide) (by decide)⟩

/-! ## The unsigned normal-path total in the words of the specification -/

theorem specDivuLoop_eq (d : Nat) (hd : d < 65536) :
    ∀ (n j : Nat) (w : Work) (D : Nat), j + n ≤ 15 → w.Ok d → RefRel j w D →
      specDivuLoop d n D = 2 * divuPasses d n w := by
  intro n
  induction n with
  | zero =>
    intro j w D _ _ _
    simp [specDivuLoop, divuPasses]
  | succ n ih =>
    intro j w D hj ok hr
    obtain ⟨s1, s2, s3, s4⟩ := divu_ref_step d j w D hd (by omega) ok hr
    have ok1 := (shiftSub_spec d w hd ok).1
    have t1 : 2147483648 ≤ D ↔ 32768 ≤ w.alu := by
      rw [← s1, and_80000000 D hr.1]
    simp only [specDivuLoop, divuPasses, specDivuExtra, specDivuShift]
    by_cases c1 : 32768 ≤ w.alu
    · have c1' := t1.mpr c1
      simp only [c1', true_or, if_true]
      rw [ih (j + 1) _ _ (by omega) ok1 (s3 (Or.inl c1))]
      simp only [divuCost, c1, if_true]
      omega
    · have c1' : ¬ 2147483648 ≤ D := fun hx => c1 (t1.mp hx)
      by_cases c2 : d ≤ (2 * w.alu + w.alue / 32768) % 65536
      · have c2' : d * 65536 ≤ (2 * D) % 4294967296 := s2.mpr c2
        simp only [c1', c2', or_true, if_true, if_false]
        rw [ih (j + 1) _ _ (by omega) ok1 (s3 (Or.inr c2))]
        simp only [divuCost, c1, c2, if_true, if_false]
        omega
      · have c2' : ¬ d * 65536 ≤ (2 * D) % 4294967296 := fun hx => c2 (s2.mp hx)
        simp only [c1', c2', or_false, if_false]
        rw [ih (j + 1) _ _ (by omega) ok1 (s4 c1 c2)]
        simp only [divuCost, c1, c2, if_false]
        omega

theorem specDivuLoop_start (h l d : Nat) (hd : d < 65536) (hh : h < d) (hl : l < 65536) :
    specDivuLoop d 15 (h * 65536 + l) = 2 * divuPasses d 15 ⟨h, l, 0⟩ := by
  refine specDivuLoop_eq d hd 15 0 ⟨h, l, 0⟩ (h * 65536 + l) (by omega)
    ⟨hh, hl, Nat.zero_le _⟩ ⟨by omega, ?_, ?_⟩
  · show (h * 65536 + l) / 65536 = h
    omega
  · simp only [LowRel, pow_zero, Nat.div_one, Nat.mod_one, and_true]
    omega

theorem specDivuLoop_le (d : Nat) : ∀ (n w : Nat), specDivuLoop d n w ≤ 8 * n := by
  intro n
  induction n with
  | zero =>
    intro w
    simp [specDivuLoop]
  | succ n ih =>
    intro w
    have := ih (specDivuShift d w)
    simp only [specDivuLoop, specDivuExtra]
    split_ifs <;> omega

/-- Claim C15, as the specification states it, fails on the first scenario of the
specification: dividing 29 by 5 takes 134 cycles, where the formula
`6 + (sum of 4 + extra over 15 iterations) + 8` gives 132. -/
theorem specDivuTotal_counterexample :
    (testInput 29 5).WF ∧ (testInput 29 5).rydl ≠ 0 ∧
    dividend (testInput 29 5) / (testInput 29 5).rydl < 0x10000 ∧
    ∃ r, ExecuteDivu (testInput 29 5) = some r ∧
      cyclesSpent (testInput 29 5) r = 134 ∧
      specDivuTotal (dividend (testInput 29 5)) (testInput 29 5).rydl = 132 ∧
      cyclesSpent (testInput 29 5) r ≠
        specDivuTotal (dividend (testInput 29 5)) (testInput 29 5).rydl := by
  refine ⟨by decide, by decide, by decide, ?_⟩
  obtain ⟨r, hr, -, -, -, -, hc⟩ :=
    ExecuteDivu_normal (testInput 29 5) (by decide) (by decide) (by decide)
  have e1 : DivideUnsignedCycles ((testInput 29 5).rxdh * 65536 + (testInput 29 5).rxdl)
      (testInput 29 5).rydl = 134 := by decide
  have e2 : specDivuTotal (dividend (testInput 29 5)) (testInput 29 5).rydl = 132 := by decide
  rw [e1] at hc
  have e3 := cyclesSpent_of_eq (testInput 29 5) r 134 (by decide) (by decide) hc
  exact ⟨r, hr, e3, e2, by rw [e3, e2]; decide⟩

/-- Claim C15, amended. Unsigned normal-path total: for every input with `rydl ≠ 0` and
`dividend / rydl < 0x10000`, `ExecuteDivu` returns and the increase of `cycles` equals
`6 + (sum over the 15 main-loop iterations of 4 + extra_i) + 10`, where `extra_i` is 0
when the bit shifted out of the top was set, 2 when the subtraction is taken on a `>=`
comparison, and 4 when the subtraction is not taken. -/
theorem ExecuteDivu_total (m : MC68000) (hw : m.WF) (h0 : m.rydl ≠ 0)
    (hq : dividend m / m.rydl < 0x10000) :
    ∃ r, ExecuteDivu m = some r ∧
      cyclesSpent m r = 6 + specDivuLoop m.rydl 15 (dividend m) + 10 := by
  have hd : m.rydl < 65536 := hw.2.2.2.1
  have hl : m.rxdl < 65536 := hw.2.2.1
  have hlt : m.rxdh < m.rydl := (quot_lt_iff m.rxdh m.rxdl m.rydl hl (by omega)).mp hq
  obtain ⟨r, hr, -, -, -, -, hc⟩ := ExecuteDivu_normal m hw h0 hlt
  rw [DivideUnsignedCycles_normal m.rxdh m.rxdl m.rydl hd hlt hl,
    ← specDivuLoop_start m.rxdh m.rxdl m.rydl hd hlt hl] at hc
  have hb := specDivuLoop_le m.rydl 15 (m.rxdh * 65536 + m.rxdl)
  have hD : dividend m = m.rxdh * 65536 + m.rxdl := rfl
  rw [hD]
  exact ⟨r, hr, cyclesSpent_of_eq m r _ hw.2.2.2.2.2.2.2.2.2.2.2.2 (by omega) hc⟩

theorem ExecuteDivu_total_witness :
    (testInput 29 5).WF ∧ (testInput 29 5).rydl ≠ 0 ∧
    dividend (testInput 29 5) / (testInput 29 5).rydl < 0x10000 ∧
    ∃ r, ExecuteDivu (testInput 29 5) = some r ∧
      cyclesSpent (testInput 29 5) r =
        6 + specDivuLoop (testInput 29 5).rydl 15 (dividend (testInput 29 5)) + 10 :=
  ⟨by decide, by decide, by decide,
    ExecuteDivu_total (testInput 29 5) (by decide) (by decide) (by decide)⟩

/-! ## The cost of one iteration of the signed main loop -/

theorem divs_iteration (s : MC68000) (hw : s.WF)
    (hs : s.microword = DVS09 ∨ s.microword = DVS0A) (h2 : 2 ≤ s.au) :
    ∃ s1 s2 s3, ExecuteDivs_body s = Control.next s1 ∧ s1.microword = DVS0C ∧
      ExecuteDivs_body s1 = Control.next s2 ∧ s2.microword = DVS0D ∧
      ExecuteDivs_body s2 = Control.next s3 ∧
      (s.alub ≤ (2 * s.alu + s.alue / 32768) % 65536 →
        s3.microword = DVS0A ∧ s3.au + 1 = s.au ∧
        s3.alu = (2 * s.alu + s.alue / 32768) % 65536 - s.alub ∧
        s3.cycles = (s.cycles + 6) % 4294967296) ∧
      ((2 * s.alu + s.alue / 32768) % 65536 < s.alub →
        s3.microword = DVS0F ∧
        ∃ s4, ExecuteDivs_body s3 = Control.next s4 ∧ s4.microword = DVS09 ∧
          s4.au + 1 = s.au ∧ s4.alu = (2 * s.alu + s.alue / 32768) % 65536 ∧
          s4.cycles = (s.cycles + 8) % 4294967296) := by
  have hb : ∃ b, b ≤ 1 ∧ s.microword = (if b = 1 then DVS0A else DVS09) := by
    rcases hs with h | h
    · exact ⟨0, by omega, by rw [h]; rfl⟩
    · exact ⟨1, by omega, by rw [h]; rfl⟩
  obtain ⟨b, hb1, hmw⟩ := hb
  obtain ⟨m1, hb1, e1⟩ := next_exists (divs_shift s b hb1 hmw hw)
  obtain ⟨hw1, hw2, hw3, hw4, hw5, he, hw7, ha, hf, hau2, hw11, hw12, hc⟩ := hw
  have hau1 : (s.au + 4294967296 - 1) % 4294967296 ≠ 0 := by omega
  have ha1 : (2 * s.alu + s.alue / 32768) % 65536 < 65536 := Nat.mod_lt _ (by norm_num)
  obtain ⟨m2, hb2, e2⟩ := next_exists (divs_DVS0C m1 (by rw [e1]))
  simp only [e1, hau1, ne_eq, not_false_eq_true, if_true] at e2
  obtain ⟨m3, hb3, e3⟩ := next_exists (divs_DVS0D m2 (by rw [e2]))
  simp only [e2, ne_eq, subFlags_C0 _ _ ha1 hw7] at e3
  refine ⟨m1, m2, m3, hb1, by rw [e1], hb2, by rw [e2], hb3, ?_, ?_⟩
  · intro c2
    simp only [c2, not_true_eq_false, if_false] at e3
    clear hb1 hb2 hb3 e1 e2
    subst e3
    refine ⟨rfl, ?_, ?_, ?_⟩
    · show (s.au + 4294967296 - 1) % 4294967296 + 1 = s.au
      omega
    · show ((2 * s.alu + s.alue / 32768) % 65536 + 65536 - s.alub) % 65536 = _
      omega
    · show (((s.cycles + 2) % 4294967296 + 2) % 4294967296 + 2) % 4294967296 = _
      omega
  · intro c2
    have c2' : ¬ s.alub ≤ (2 * s.alu + s.alue / 32768) % 65536 := by omega
    simp only [c2', not_false_eq_true, if_true] at e3
    obtain ⟨m4, hb4, e4⟩ := next_exists (divs_DVS0F m3 (by rw [e3]))
    simp only [e3, and_FFFF _ ha1] at e4
    refine ⟨by rw [e3], m4, hb4, by rw [e4], ?_, by rw [e4], ?_⟩
    · rw [e4]
      show (s.au + 4294967296 - 1) % 4294967296 + 1 = s.au
      omega
    · rw [e4]
      show ((((s.cycles + 2) % 4294967296 + 2) % 4294967296 + 2) % 4294967296 + 2)
        % 4294967296 = _
      omega

theorem cyclesSpent_of_cycles (m r : MC68000) (x : Nat) (hm : m.WF)
    (hx : x < 4294967296) (h : r.cycles = (m.cycles + x) % 4294967296) :
    cyclesSpent m r = x :=
  cyclesSpent_of_eq m r x hm.2.2.2.2.2.2.2.2.2.2.2.2 hx h

theorem divs_loop_head (m : MC68000) (hw : m.WF) (h0 : m.rydl ≠ 0)
    (hq : absQuotient m < 0x10000) (i : Nat) (hi : i < 15) :
    ∃ n s, passes ExecuteDivs_body n (divsStart m) = some s ∧ s.WF ∧
      (s.microword = DVS09 ∨ s.microword = DVS0A) ∧ s.au = 16 - i := by
  have hd := absDivisor_bounds m.rydl hw.2.2.2.1 h0
  have hlo := absLo_lt m.rxdh m.rxdl hw.2.2.1
  have hlt : absHi m.rxdh m.rxdl < absDivisor m.rydl := by
    rw [(absQuotient_eq m hw).1] at hq
    exact (quot_lt_iff _ _ _ hlo hd.1).mp hq
  obtain ⟨m1, p1, w1, l1, a1, e1, u1, b1, t1, xh1, xl1, y1, -⟩ :=
    divs_prologue { m with microword := DVS01 } (WF_init m _ (by decide) hw) rfl h0
  simp only at p1 l1 a1 e1 t1 xh1 xl1 y1
  rw [if_pos hlt] at l1
  have ok0 : Work.Ok (absDivisor m.rydl) ⟨absHi m.rxdh m.rxdl, absLo m.rxdh m.rxdl, 0⟩ :=
    ⟨hlt, hlo, Nat.zero_le _⟩
  have e16 : 16 = (15 - i) + i + 1 := by omega
  have at1 : DivsAt m (absDivisor m.rydl) m1
      ⟨absHi m.rxdh m.rxdl, absLo m.rxdh m.rxdl, 0⟩ ((15 - i) + i + 1) :=
    ⟨w1, l1, a1, e1, by rw [u1]; exact e16, b1, t1, xh1, xl1, y1⟩
  obtain ⟨m2, p2, at2, -, -⟩ := divs_iters m (absDivisor m.rydl) hd.2 i (15 - i) m1 _ ok0 at1
  refine ⟨_, m2, passes_trans _ _ _ _ _ _ p1 p2, at2.1, ?_, ?_⟩
  · rw [at2.2.1]
    split_ifs
    · exact Or.inr rfl
    · exact Or.inl rfl
  · rw [at2.2.2.2.2.1]
    omega

/-- Claim C16, amended. Signed main-loop iteration cost: on every run of `ExecuteDivs`
that enters the main loop (`rydl ≠ 0`, `|D| / |d| < 0x10000`), each of the 15 main-loop
iterations (`i = 0 .. 14`) starts at a shift state (DVS09 or DVS0A, with the loop counter
`au = 16 - i`), runs through DVS0C and DVS0D, and costs 6 cycles (3 states) when the
subtraction of the divisor is kept (the next shift state is DVS0A), plus one extra state
(2 cycles, 8 in all) exactly on the iterations that DO need a restore (the subtraction
borrows; the extra state is DVS0F, which puts the shifted value back). -/
theorem ExecuteDivs_iteration_cost (m : MC68000) (hw : m.WF) (h0 : m.rydl ≠ 0)
    (hq : absQuotient m < 0x10000) (i : Nat) (hi : i < 15) :
    ∃ n s s1 s2 s3, passes ExecuteDivs_body n (divsStart m) = some s ∧
      (s.microword = DVS09 ∨ s.microword = DVS0A) ∧ s.au = 16 - i ∧
      passes ExecuteDivs_body 1 s = some s1 ∧ s1.microword = DVS0C ∧
      passes ExecuteDivs_body 2 s = some s2 ∧ s2.microword = DVS0D ∧
      passes ExecuteDivs_body 3 s = some s3 ∧
      (s.alub ≤ (2 * s.alu + s.alue / 32768) % 65536 →
        s3.microword = DVS0A ∧ s3.au = 15 - i ∧
        s3.alu = (2 * s.alu + s.alue / 32768) % 65536 - s.alub ∧
        cyclesSpent s s3 = 6) ∧
      ((2 * s.alu + s.alue / 32768) % 65536 < s.alub →
        s3.microword = DVS0F ∧
        ∃ s4, passes ExecuteDivs_body 4 s = some s4 ∧ s4.microword = DVS09 ∧
          s4.au = 15 - i ∧ s4.alu = (2 * s.alu + s.alue / 32768) % 65536 ∧
          cyclesSpent s s4 = 8) := by
  obtain ⟨n, s, hp, hws, hs, hau⟩ := divs_loop_head m hw h0 hq i hi
  obtain ⟨s1, s2, s3, b1, l1, b2, l2, b3, hk, hr⟩ := divs_iteration s hws hs (by omega)
  refine ⟨n, s, s1, s2, s3, hp, hs, hau, ?_, l1, ?_, l2, ?_, ?_, ?_⟩
  · simp only [passes, b1]
  · simp only [passes, b1, b2]
  · simp only [passes, b1, b2, b3]
  · intro c
    obtain ⟨k1, k2, k3, k4⟩ := hk c
    clear hr hk
    exact ⟨k1, by omega, k3, cyclesSpent_of_cycles s s3 6 hws (by norm_num) k4⟩
  · intro c
    obtain ⟨k1, s4, b4, k2, k3, k4, k5⟩ := hr c
    clear hr hk
    refine ⟨k1, s4, ?_, k2, by omega, k4, cyclesSpent_of_cycles s s4 8 hws (by norm_num) k5⟩
    simp only [passes, b1, b2, b3, b4]

set_option maxRecDepth 100000 in
/-- Claim C16, as the specification states it, fails on the run for dividend 0 and
divisor 1: the first main-loop iteration starts at pass 6 (DVS09, `au = 16`), its
subtraction borrows, so the iteration needs a restore, and it takes the extra state
DVS0F and 8 cycles, where the specification gives 6 cycles to an iteration that needs
a restore. -/
theorem specDivsIterCycles_counterexample :
    ∃ s s3 s4, passes ExecuteDivs_body 6 (divsStart (testInput 0 1)) = some s ∧
      s.microword = DVS09 ∧ s.au = 16 ∧
      (2 * s.alu + s.alue / 32768) % 65536 < s.alub ∧
      passes ExecuteDivs_body 3 s = some s3 ∧ s3.microword = DVS0F ∧
      passes ExecuteDivs_body 4 s = some s4 ∧ s4.microword = DVS09 ∧ s4.au = 15 ∧
      cyclesSpent s s4 = 8 ∧
      specDivsIterCycles (decide ((2 * s.alu + s.alue / 32768) % 65536 < s.alub)) = 6 ∧
      cyclesSpent s s4 ≠
        specDivsIterCycles (decide ((2 * s.alu + s.alue / 32768) % 65536 < s.alub)) :=
  ⟨_, _, _, rfl, rfl, rfl, by decide, rfl, rfl, rfl, rfl, rfl, rfl, by decide, by decide⟩

theorem ExecuteDivs_iteration_cost_witness :
    (testInput 0 1).WF ∧ (testInput 0 1).rydl ≠ 0 ∧ absQuotient (testInput 0 1) < 0x10000 ∧
    (0 : Nat) < 15 ∧
    ∃ n s s1 s2 s3, passes ExecuteDivs_body n (divsStart (testInput 0 1)) = some s ∧
      (s.microword = DVS09 ∨ s.microword = DVS0A) ∧ s.au = 16 - 0 ∧
      passes ExecuteDivs_body 1 s = some s1 ∧ s1.microword = DVS0C ∧
      passes ExecuteDivs_body 2 s = some s2 ∧ s2.microword = DVS0D ∧
      passes ExecuteDivs_body 3 s = some s3 ∧
      (s.alub ≤ (2 * s.alu + s.alue / 32768) % 65536 →
        s3.microword = DVS0A ∧ s3.au = 15 - 0 ∧
        s3.alu = (2 * s.alu + s.alue / 32768) % 65536 - s.alub ∧
        cyclesSpent s s3 = 6) ∧
      ((2 * s.alu + s.alue / 32768) % 65536 < s.alub →
        s3.microword = DVS0F ∧
        ∃ s4, passes ExecuteDivs_body 4 s = some s4 ∧ s4.microword = DVS09 ∧
          s4.au = 15 - 0 ∧ s4.alu = (2 * s.alu + s.alue / 32768) % 65536 ∧
          cyclesSpent s s4 = 8) :=
  ⟨by decide, by decide, by decide, by decide,
    ExecuteDivs_iteration_cost (testInput 0 1) (by decide) (by decide) (by decide) 0
      (by decide)⟩

/-! ## Runs: positions, ranks and cycles -/

theorem passes_split (body : MC68000 → Control) :
    ∀ (a b : Nat) (m t : MC68000), passes body (a + b) m = some t →
      ∃ s, passes body a m = some s ∧ passes body b s = some t := by
  intro a
  induction a with
  | zero =>
    intro b m t h
    exact ⟨m, rfl, by simpa using h⟩
  | succ a ih =>
    intro b m t h
    have e : a + 1 + b = (a + b) + 1 := by omega
    rw [e] at h
    simp only [passes] at h ⊢
    cases hb : body m with
    | next m2 =>
      rw [hb] at h
      exact ih b m2 t h
    | ret m2 =>
      rw [hb] at h
      cases h

theorem passes_sub (body : MC68000 → Control) (a b : Nat) (m s t : MC68000) (hab : a ≤ b)
    (ha : passes body a m = some s) (hb : passes body b m = some t) :
    passes body (b - a) s = some t := by
  have e : b = a + (b - a) := by omega
  rw [e] at hb
  obtain ⟨s1, h1, h2⟩ := passes_split body a (b - a) m t hb
  rw [ha] at h1
  cases h1
  exact h2

theorem passes_succ_none (body : MC68000 → Control) (m r r1 : MC68000) (k : Nat)
    (hr : body m = Control.ret r1) : passes body (k + 1) m = some r → False := by
  intro h
  simp only [passes, hr] at h
  cases h

theorem passes_le_of_ret (body : MC68000 → Control) (P N : Nat) (m r r1 t : MC68000)
    (hP : passes body P m = some r) (hr : body r = Control.ret r1)
    (hN : passes body N m = some t) : N ≤ P := by
  by_contra hc
  have h := passes_sub body P N m r t (by omega) hP hN
  obtain ⟨k, hk⟩ : ∃ k, N - P = k + 1 := ⟨N - P - 1, by omega⟩
  rw [hk] at h
  exact passes_succ_none body r t r1 k hr h

theorem divs_next_cycles (m m1 : MC68000) (hi : DivsCtl m)
    (hb : ExecuteDivs_body m = Control.next m1) :
    m1.cycles = (m.cycles + 2) % 4294967296 := by
  have h2 := hi.1
  simp only [ExecuteDivs_cases, List.mem_cons, List.mem_singleton, List.not_mem_nil,
    or_false] at h2
  rcases h2 with
    h | h | h | h | h | h | h | h | h | h | h | h | h | h | h | h | h | h | h | h |
    h | h | h | h | h | h | h | h | h | h | h | h | h | h
  · rw [divs_DVS01 m h] at hb
    cases hb
    rfl
  · rw [divs_DVS03 m h] at hb
    cases hb
    rfl
  · rw [divs_DVS04 m h] at hb
    cases hb
    rfl
  · rw [divs_DVS05 m h] at hb
    cases hb
    rfl
  · rw [divs_DVS06 m h] at hb
    cases hb
    rfl
  · rw [divs_DVS07 m h] at hb
    cases hb
    rfl
  · rw [divs_DVS08 m h] at hb
    cases hb
    rfl
  · rw [divs_DVS10 m h] at hb
    cases hb
    rfl
  · rw [divs_DVS11 m h] at hb
    cases hb
    rfl
  · rw [divs_DVS09 m h] at hb
    cases hb
    rfl
  · rw [divs_DVS0A m h] at hb
    cases hb
    rfl
  · rw [divs_DVS0C m h] at hb
    cases hb
    rfl
  · rw [divs_DVS0D m h] at hb
    cases hb
    rfl
  · rw [divs_DVS0F m h] at hb
    cases hb
    rfl
  · rw [divs_DVS0E m h] at hb
    cases hb
    rfl
  · rw [divs_DVS12 m h] at hb
    cases hb
    rfl
  · rw [divs_DVS13 m h] at hb
    cases hb
    rfl
  · rw [divs_DVS14 m h] at hb
    cases hb
    rfl
  · rw [divs_DVS15 m h] at hb
    cases hb
    rfl
  · rw [divs_DVS16 m h] at hb
    cases hb
    rfl
  · rw [divs_DVS1D m h] at hb
    cases hb
    rfl
  · rw [divs_DVS17 m h] at hb
    cases hb
    rfl
  · rw [divs_DVS1A m h] at hb
    cases hb
    rfl
  · rw [divs_DVS1B m h] at hb
    cases hb
    rfl
  · rw [divs_DVS1C m h] at hb
    cases hb
    rfl
  · rw [divs_DVS1F m h] at hb
    cases hb
    rfl
  · rw [divs_DVS20 m h] at hb
    cases hb
    rfl
  · rw [divs_DVS1E m h] at hb
    cases hb
    rfl
  · rw [divs_LEAA2 m h] at hb
    cases hb
    rfl
  · rw [divs_DVUM4 m h] at hb
    cases hb
    rfl
  · rw [divs_DVUMZ m h] at hb
    cases hb
    rfl
  · rw [divs_DVUMA m h] at hb
    cases hb
    rfl
  · rw [divs_TRAP0 m h] at hb
    cases hb
  · rw [divs_A1 m h] at hb
    cases hb

theorem divu_next_cycles (m m1 : MC68000) (hi : DivuCtl m)
    (hb : ExecuteDivu_body m = Control.next m1) :
    m1.cycles = (m.cycles + 2) % 4294967296 := by
  have h2 := hi.1
  simp only [ExecuteDivu_cases, List.mem_cons, List.mem_singleton, List.not_mem_nil,
    or_false] at h2
  rcases h2 with
    h | h | h | h | h | h | h | h | h | h | h | h | h | h | h | h | h | h
  · rw [divu_DVUR1 m h] at hb
    cases hb
    rfl
  · rw [divu_DVUM2 m h] at hb
    cases hb
    rfl
  · rw [divu_DVUM3 m h] at hb
    cases hb
    rfl
  · rw [divu_DVUM5 m h] at hb
    cases hb
    rfl
  · rw [divu_DVUM6 m h] at hb
    cases hb
    rfl
  · rw [divu_DVUM7 m h] at hb
    cases hb
    rfl
  · rw [divu_DVUM8 m h] at hb
    cases hb
    rfl
  · rw [divu_DVUM9 m h] at hb
    cases hb
    rfl
  · rw [divu_DVUMB m h] at hb
    cases hb
    rfl
  · rw [divu_DVUMC m h] at hb
    cases hb
    rfl
  · rw [divu_DVUMD m h] at hb
    cases hb
    rfl
  · rw [divu_DVUME m h] at hb
    cases hb
    rfl
  · rw [divu_DVUMF m h] at hb
    cases hb
    rfl
  · rw [divu_DVUM0 m h] at hb
    cases hb
    rfl
  · rw [divu_DVUM4 m h] at hb
    cases hb
    rfl
  · rw [divu_DVUMA m h] at hb
    cases hb
    rfl
  · rw [divu_TRAP0 m h] at hb
    cases hb
  · rw [divu_A1 m h] at hb
    cases hb

theorem divs_passes_rank :
    ∀ (k : Nat) (s t : MC68000), DivsCtl s → passes ExecuteDivs_body k s = some t →
      DivsCtl t ∧ divsRank t + k ≤ divsRank s := by
  intro k
  induction k with
  | zero =>
    intro s t hi h
    simp only [passes, Option.some.injEq] at h
    subst h
    exact ⟨hi, by omega⟩
  | succ k ih =>
    intro s t hi h
    simp only [passes] at h
    cases hb : ExecuteDivs_body s with
    | next s1 =>
      rw [hb] at h
      obtain ⟨i1, r1⟩ := DivsCtl_step s s1 hi hb
      obtain ⟨i2, r2⟩ := ih s1 t i1 h
      exact ⟨i2, by omega⟩
    | ret s1 =>
      rw [hb] at h
      cases h

theorem divs_passes_cycles :
    ∀ (k : Nat) (s t : MC68000), DivsCtl s → s.cycles < 4294967296 →
      passes ExecuteDivs_body k s = some t →
      t.cycles = (s.cycles + 2 * k) % 4294967296 := by
  intro k
  induction k with
  | zero =>
    intro s t hi hc h
    simp only [passes, Option.some.injEq] at h
    subst h
    omega
  | succ k ih =>
    intro s t hi hc h
    simp only [passes] at h
    cases hb : ExecuteDivs_body s with
    | next s1 =>
      rw [hb] at h
      have c1 := divs_next_cycles s s1 hi hb
      have c2 := ih s1 t (DivsCtl_step s s1 hi hb).1 (by omega) h
      rw [c2, c1]
      omega
    | ret s1 =>
      rw [hb] at h
      cases h

theorem divs_rank_inj (m s t : MC68000) (a b : Nat)
    (ha : passes ExecuteDivs_body a (divsStart m) = some s)
    (hb : passes ExecuteDivs_body b (divsStart m) = some t)
    (hr : divsRank s = divsRank t) : a = b ∧ s = t := by
  have key : ∀ (a b : Nat) (s t : MC68000),
      passes ExecuteDivs_body a (divsStart m) = some s →
      passes ExecuteDivs_body b (divsStart m) = some t → divsRank s = divsRank t →
      a ≤ b → a = b ∧ s = t := by
    intro a b s t ha hb hr hab
    have h := passes_sub ExecuteDivs_body a b _ s t hab ha hb
    have hk := (divs_passes_rank (b - a) s t (DivsCtl_reach m s a ha) h).2
    have e : b - a = 0 := by omega
    rw [e] at h
    simp only [passes, Option.some.injEq] at h
    exact ⟨by omega, h⟩
  by_cases hab : a ≤ b
  · exact key a b s t ha hb hr hab
  · obtain ⟨e1, e2⟩ := key b a t s hb ha hr.symm (by omega)
    exact ⟨e1.symm, e2.symm⟩

theorem divs_before_final (m r r1 t : MC68000) (P N : Nat)
    (hP : passes ExecuteDivs_body P (divsStart m) = some r)
    (hr : ExecuteDivs_body r = Control.ret r1)
    (hN : passes ExecuteDivs_body N (divsStart m) = some t)
    (ht : divsRank t = 1) (hne : t.microword ≠ r.microword) : N + 1 = P := by
  have hle := passes_le_of_ret ExecuteDivs_body P N _ r r1 t hP hr hN
  have h := passes_sub ExecuteDivs_body N P _ t r hle hN hP
  have hk := (divs_passes_rank (P - N) t r (DivsCtl_reach m t N hN) h).2
  have hneq : N ≠ P := by
    intro e
    subst e
    rw [hN] at hP
    cases hP
    exact hne rfl
  omega

/-! ## The signed engine: register files at known positions of a run -/

theorem divs_entry_DVS08 (m : MC68000) (hw : m.WF) (h : m.microword = DVS06)
    (hN : m.flags &&& FLAG_N = 0 ↔ m.rxdh < 32768) (hatl : m.atl = m.rxdh)
    (halue : m.alue = m.rxdl) :
    ∃ s, passes ExecuteDivs_body (if 32768 ≤ m.rxdh then 3 else 2) m = some s ∧ s.WF ∧
      s.microword = DVS08 ∧ s.atl = absHi m.rxdh m.rxdl ∧ s.alue = absLo m.rxdh m.rxdl ∧
      s.alub = m.alub ∧ s.rxdh = m.rxdh ∧ s.rxdl = m.rxdl ∧ s.rydl = m.rydl := by
  obtain ⟨hw1, hw2, hw3, hw4, hw5, he, hw7, ha, hf, hau2, hw11, hw12, hc⟩ := hw
  by_cases sD : 32768 ≤ m.rxdh
  · have hf1 : ¬ (m.flags &&& FLAG_N = 0) := by rw [hN]; omega
    have hx : (131072 - m.rxdh - (if 0 < m.rxdl then 1 else 0)) % 65536 < 65536 :=
      Nat.mod_lt _ (by norm_num)
    simp only [sD, if_true, absHi, absLo]
    obtain ⟨m1, hb1, e1⟩ := next_exists (divs_DVS06 m (by rw [h]))
    simp only [ne_eq, hf1, not_false_eq_true, if_true] at e1
    obtain ⟨m2, hb2, e2⟩ := next_exists (divs_DVS10 m1 (by rw [e1]))
    simp only [e1, subFlags_Xbit 0 m.rxdl (by norm_num) hw3, Nat.zero_add] at e2
    obtain ⟨m3, hb3, e3⟩ := next_exists (divs_DVS11 m2 (by rw [e2]))
    simp only [e2] at e3
    refine ⟨m3, ?_, ?_⟩
    · simp only [passes, hb1, hb2, hb3]
    · clear hb1 hb2 hb3 e1 e2
      subst e3
      simp only [MC68000.WF, if_true, if_false, hatl, halue]
      and_intros <;>
        first | exact True.intro | omega | exact andFlags_lt _ _ | exact subFlags_lt _ _ | exact Iff.rfl | decide
  · have hf1 : m.flags &&& FLAG_N = 0 := by rw [hN]; omega
    simp only [sD, if_false, absHi, absLo]
    obtain ⟨m1, hb1, e1⟩ := next_exists (divs_DVS06 m (by rw [h]))
    simp only [ne_eq, hf1, not_true_eq_false, if_false] at e1
    obtain ⟨m2, hb2, e2⟩ := next_exists (divs_DVS07 m1 (by rw [e1]))
    simp only [e1, hatl] at e2
    refine ⟨m2, ?_, ?_⟩
    · simp only [passes, hb1, hb2]
    · clear hb1 hb2 e1
      subst e2
      simp only [MC68000.WF, if_true, if_false, hatl, halue]
      and_intros <;>
        first | exact True.intro | omega | exact andFlags_lt _ _ | exact subFlags_lt _ _ | exact Iff.rfl | decide

theorem divs_to_DVS08 (m : MC68000) (hw : m.WF) (h0 : m.rydl ≠ 0) :
    ∃ s, passes ExecuteDivs_body (3 + (if 32768 ≤ m.rxdh then 3 else 2)) (divsStart m) =
        some s ∧ s.WF ∧
      s.microword = DVS08 ∧ s.alub = absDivisor m.rydl ∧ s.atl = absHi m.rxdh m.rxdl ∧
      s.alue = absLo m.rxdh m.rxdl ∧ s.rxdh = m.rxdh ∧ s.rxdl = m.rxdl ∧
      s.rydl = m.rydl := by
  obtain ⟨m3, p3, w3, l3, b3, u3, t3, e3, a3, n3, xh3, xl3, y3, c3⟩ :=
    divs_stageA { m with microword := DVS01 } (WF_init m _ (by decide) hw) rfl h0
  simp only at p3 b3 t3 e3 a3 n3 xh3 xl3 y3
  obtain ⟨s, p4, w4, l4, t4, e4, b4, xh4, xl4, y4⟩ :=
    divs_entry_DVS08 m3 w3 l3 (by rw [xh3]; exact n3) (by rw [t3, xh3]) (by rw [e3, xl3])
  rw [xh3] at p4
  rw [xh3, xl3] at t4 e4
  exact ⟨s, passes_trans _ _ _ _ _ _ p3 p4, w4, l4, by rw [b4, b3], t4, e4,
    by rw [xh4, xh3], by rw [xl4, xl3], by rw [y4, y3]⟩

theorem divs_trap_passes (m : MC68000) (hw : m.WF) (h0 : m.rydl = 0) :
    ∃ s1 r, passes ExecuteDivs_body 1 (divsStart m) = some s1 ∧ s1.microword = DVS03 ∧
      passes ExecuteDivs_body 2 (divsStart m) = some r ∧ r.microword = TRAP0 := by
  obtain ⟨hw1, hw2, hw3, hw4, hw5, he, hw7, ha, hf, hau2, hw11, hw12, hc⟩ := hw
  obtain ⟨m1, hb1, e1⟩ :=
    next_exists (divs_DVS01 { m with microword := DVS01 } rfl)
  simp only [and_FFFF _ hw4] at e1
  obtain ⟨m2, hb2, e2⟩ := next_exists (divs_DVS03 m1 (by rw [e1]))
  simp only [e1, ne_eq, andFlags_Z0, h0, not_false_eq_true, not_true_eq_false, if_true] at e2
  refine ⟨m1, m2, ?_, by rw [e1], ?_, by rw [e2]⟩
  · show passes ExecuteDivs_body 1 { m with microword := DVS01 } = some m1
    simp only [passes, hb1]
  · show passes ExecuteDivs_body 2 { m with microword := DVS01 } = some m2
    simp only [passes, hb1, hb2]

theorem divs_early_passes (m : MC68000) (hw : m.WF) (h0 : m.rydl ≠ 0)
    (hov : absDivisor m.rydl ≤ absHi m.rxdh m.rxdl) :
    ∃ z a r,
      passes ExecuteDivs_body (3 + (if 32768 ≤ m.rxdh then 4 else 3)) (divsStart m) =
        some z ∧ z.microword = DVUMZ ∧
      passes ExecuteDivs_body (3 + (if 32768 ≤ m.rxdh then 4 else 3) + 1) (divsStart m) =
        some a ∧ a.microword = DVUMA ∧
      passes ExecuteDivs_body (3 + (if 32768 ≤ m.rxdh then 4 else 3) + 2) (divsStart m) =
        some r ∧ r.microword = A1 := by
  obtain ⟨m1, p1, w1, l1, -⟩ :=
    divs_prologue { m with microword := DVS01 } (WF_init m _ (by decide) hw) rfl h0
  simp only at p1 l1
  rw [if_neg (by omega)] at l1
  obtain ⟨m2, hb2, e2⟩ := next_exists (divs_DVUMZ m1 l1)
  obtain ⟨m3, hb3, e3⟩ := next_exists (divs_DVUMA m2 (by rw [e2]))
  refine ⟨m1, m2, m3, p1, l1, ?_, by rw [e2], ?_, by rw [e3]⟩
  · exact passes_trans _ _ _ _ _ _ p1 (passes_one _ _ _ hb2)
  · refine passes_trans _ _ 2 _ _ _ p1 ?_
    simp only [passes, hb2, hb3]

theorem divs_main_passes (m : MC68000) (hw : m.WF) (h0 : m.rydl ≠ 0)
    (hlt : absHi m.rxdh m.rxdl < absDivisor m.rydl) :
    ∃ n s15 r, passes ExecuteDivs_body n (divsStart m) = some s15 ∧ s15.WF ∧
      s15.microword = DVS15 ∧
      passes ExecuteDivs_body
        (n + (if 32768 ≤ m.rydl then 4 else if 32768 ≤ m.rxdh then 5 else 3) + 1)
        (divsStart m) = some r ∧ r.microword = A1 := by
  have hd := absDivisor_bounds m.rydl hw.2.2.2.1 h0
  have hlo := absLo_lt m.rxdh m.rxdl hw.2.2.1
  obtain ⟨m1, p1, w1, l1, a1, e1, u1, b1, t1, xh1, xl1, y1, -⟩ :=
    divs_prologue { m with microword := DVS01 } (WF_init m _ (by decide) hw) rfl h0
  simp only at p1 l1 a1 e1 t1 xh1 xl1 y1
  rw [if_pos hlt] at l1
  have ok0 : Work.Ok (absDivisor m.rydl) ⟨absHi m.rxdh m.rxdl, absLo m.rxdh m.rxdl, 0⟩ :=
    ⟨hlt, hlo, Nat.zero_le _⟩
  have at1 : DivsAt m (absDivisor m.rydl) m1
      ⟨absHi m.rxdh m.rxdl, absLo m.rxdh m.rxdl, 0⟩ (0 + 15 + 1) :=
    ⟨w1, l1, a1, e1, u1, b1, t1, xh1, xl1, y1⟩
  obtain ⟨m2, p2, at2, -, ok2⟩ := divs_iters m (absDivisor m.rydl) hd.2 15 0 m1 _ ok0 at1
  obtain ⟨m3, p3, w3, l3, -, -, t3, xh3, xl3, y3, -⟩ :=
    divs_last m (absDivisor m.rydl) m2 _ (by omega) ok2.2.2 (by have := ok2.1; omega) at2
  obtain ⟨m4, p4, l4, -⟩ := divs_epilogue m3 w3 l3 (by rw [t3, y3])
  rw [xh3, y3] at p4
  have hp3 := passes_trans _ _ _ _ _ _ (passes_trans _ _ _ _ _ _ p1 p2) p3
  obtain ⟨s15, hb, e15⟩ := next_exists (divs_DVS14 m3 l3)
  have hw15 : s15.WF := by
    obtain ⟨hw1, hw2, hw3, hw4, hw5, he, hw7, ha, hf, hau2, hw11, hw12, hc⟩ := w3
    rw [e15]
    simp only [MC68000.WF]
    and_intros <;>
      first | exact True.intro | omega | exact andFlags_lt _ _ | exact Nat.mod_lt _ (by norm_num) | exact lt_of_le_of_lt Nat.and_le_left (by assumption) | decide
  refine ⟨_, s15, m4, passes_trans _ _ _ _ _ _ hp3 (passes_one _ _ _ hb), hw15,
    by rw [e15], ?_, l4⟩
  have hp4 := passes_trans _ _ _ _ _ _ hp3 p4
  have e : ∀ x k : Nat, x + 1 + k + 1 = x + (1 + k + 1) := by
    intro x k
    omega
  rw [e]
  exact hp4

/-! ## The cost of the sign fix-up -/

theorem divsRank_DVS15 (s : MC68000) (h : s.microword = DVS15) : divsRank s = 6 := by
  simp [divsRank, h]

theorem divsRank_LEAA2 (s : MC68000) (h : s.microword = LEAA2) : divsRank s = 1 := by
  simp [divsRank, h]

theorem divs_fixup_between (m : MC68000) (hw : m.WF) (n N : Nat) (s t : MC68000)
    (hs : passes ExecuteDivs_body n (divsStart m) = some s) (hs15 : s.microword = DVS15)
    (ht : passes ExecuteDivs_body N (divsStart m) = some t) (htL : t.microword = LEAA2) :
    N = n + (if 32768 ≤ m.rydl then 4 else if 32768 ≤ m.rxdh then 5 else 3) ∧
    t.cycles =
      (s.cycles + 2 * (if 32768 ≤ m.rydl then 4 else if 32768 ≤ m.rxdh then 5 else 3))
        % 4294967296 ∧
    s.cycles < 4294967296 := by
  have rt := divsRank_LEAA2 t htL
  by_cases h0 : m.rydl = 0
  · exfalso
    obtain ⟨s1, r, p1, l1, p2, l2⟩ := divs_trap_passes m hw h0
    have e := divs_before_final m r _ t 2 N p2 (divs_TRAP0 r l2) ht rt (by rw [htL, l2]; decide)
    have e1 : N = 1 := by omega
    subst e1
    rw [p1] at ht
    cases ht
    rw [l1] at htL
    cases htL
  · by_cases hlt : absHi m.rxdh m.rxdl < absDivisor m.rydl
    · obtain ⟨n15, s15, r, p15, w15, l15, pr, lr⟩ := divs_main_passes m hw h0 hlt
      have e := divs_before_final m r _ t _ N pr (divs_A1 r lr) ht rt (by rw [htL, lr]; decide)
      obtain ⟨e1, e2⟩ := divs_rank_inj m s s15 n n15 hs p15
        (by rw [divsRank_DVS15 s hs15, divsRank_DVS15 s15 l15])
      subst e1 e2
      have eN : N = n + (if 32768 ≤ m.rydl then 4 else if 32768 ≤ m.rxdh then 5 else 3) := by
        omega
      have hc : s.cycles < 4294967296 := w15.2.2.2.2.2.2.2.2.2.2.2.2
      refine ⟨eN, ?_, hc⟩
      have hsub := passes_sub ExecuteDivs_body n N _ s t (by omega) hs ht
      have hcy := divs_passes_cycles (N - n) s t (DivsCtl_reach m s n hs) hc hsub
      rw [hcy]
      have e3 : N - n = (if 32768 ≤ m.rydl then 4 else if 32768 ≤ m.rxdh then 5 else 3) := by
        omega
      rw [e3]
    · exfalso
      obtain ⟨z, a, r, pz, lz, pa, la, pr, lr⟩ := divs_early_passes m hw h0 (by omega)
      have e := divs_before_final m r _ t _ N pr (divs_A1 r lr) ht rt (by rw [htL, lr]; decide)
      have e1 : N = 3 + (if 32768 ≤ m.rxdh then 4 else 3) + 1 := by omega
      subst e1
      rw [pa] at ht
      cases ht
      rw [la] at htL
      cases htL

/-- Claim C17, amended. Sign fix-up cost per quadrant: on every run of `ExecuteDivs` that
reaches the writeback state LEAA2, the cycles consumed by the sign fix-up states (from
the register file about to dispatch DVS15, the first state that branches on an operand
sign, to the register file about to dispatch LEAA2) are 6 for positive divisor with
positive dividend, 10 for positive divisor with negative dividend (DVS15, DVS16, DVS1A,
DVS1B, DVS1C), 8 for negative divisor with negative dividend, and 8 for negative divisor
with positive dividend. -/
theorem ExecuteDivs_fixup_cost (m : MC68000) (hw : m.WF) (n N : Nat) (s t : MC68000)
    (hs : passes ExecuteDivs_body n (divsStart m) = some s) (hs15 : s.microword = DVS15)
    (ht : passes ExecuteDivs_body N (divsStart m) = some t) (htL : t.microword = LEAA2) :
    cyclesSpent s t =
      (if signedDivisor m < 0 then 8 else if signedDividend m < 0 then 10 else 6) := by
  obtain ⟨-, hc, hb⟩ := divs_fixup_between m hw n N s t hs hs15 ht htL
  have sd := (signedDivisor_natAbs m hw).2
  have sD := (signedDividend_natAbs m hw).2
  by_cases c1 : 32768 ≤ m.rydl
  · rw [if_pos c1] at hc
    rw [if_pos (sd.mpr c1)]
    exact cyclesSpent_of_eq s t 8 hb (by norm_num) hc
  · rw [if_neg c1] at hc
    rw [if_neg (fun x => c1 (sd.mp x))]
    by_cases c2 : 32768 ≤ m.rxdh
    · rw [if_pos c2] at hc
      rw [if_pos (sD.mpr c2)]
      exact cyclesSpent_of_eq s t 10 hb (by norm_num) hc
    · rw [if_neg c2] at hc
      rw [if_neg (fun x => c2 (sD.mp x))]
      exact cyclesSpent_of_eq s t 6 hb (by norm_num) hc

set_option maxRecDepth 100000 in
/-- Claim C17, as the specification states it, fails on the fifth scenario of the
specification (dividend -29, divisor 5: positive divisor, negative dividend): the run
dispatches DVS15 at pass 71 and LEAA2 at pass 76, and the five states in between
(DVS15, DVS16, DVS1A, DVS1B, DVS1C) consume 10 cycles, where the specification says 8. -/
theorem specDivsFixupCycles_counterexample :
    ∃ s t, passes ExecuteDivs_body 71 (divsStart (testInput 4294967267 5)) = some s ∧
      s.microword = DVS15 ∧
      passes ExecuteDivs_body 76 (divsStart (testInput 4294967267 5)) = some t ∧
      t.microword = LEAA2 ∧
      cyclesSpent s t = 10 ∧
      specDivsFixupCycles (decide (signedDivisor (testInput 4294967267 5) < 0))
        (decide (signedDividend (testInput 4294967267 5) < 0)) = 8 ∧
      cyclesSpent s t ≠
        specDivsFixupCycles (decide (signedDivisor (testInput 4294967267 5) < 0))
          (decide (signedDividend (testInput 4294967267 5) < 0)) :=
  ⟨_, _, rfl, rfl, rfl, rfl, rfl, by decide, by decide⟩

set_option maxRecDepth 100000 in
theorem ExecuteDivs_fixup_cost_witness :
    ∃ s t, (testInput 4294967267 5).WF ∧
      passes ExecuteDivs_body 71 (divsStart (testInput 4294967267 5)) = some s ∧
      s.microword = DVS15 ∧
      passes ExecuteDivs_body 76 (divsStart (testInput 4294967267 5)) = some t ∧
      t.microword = LEAA2 ∧
      cyclesSpent s t =
        (if signedDivisor (testInput 4294967267 5) < 0 then 8
         else if signedDividend (testInput 4294967267 5) < 0 then 10 else 6) :=
  ⟨_, _, by decide, rfl, rfl, rfl, rfl,
    ExecuteDivs_fixup_cost (testInput 4294967267 5) (by decide) 71 76 _ _ rfl rfl rfl rfl⟩

/-! ## The division-by-zero test of the unsigned engine -/

theorem divu_zero_test (m : MC68000) (hw : m.WF) :
    ∃ s1 s2, passes ExecuteDivu_body 1 (divuStart m) = some s1 ∧ s1.microword = DVUM2 ∧
      (s1.flags &&& FLAG_Z ≠ 0 ↔ m.rydl = 0) ∧
      passes ExecuteDivu_body 2 (divuStart m) = some s2 ∧
      s2.microword = (if m.rydl = 0 then TRAP0 else DVUM3) := by
  obtain ⟨hw1, hw2, hw3, hw4, hw5, he, hw7, ha, hf, hau2, hw11, hw12, hc⟩ := hw
  obtain ⟨m1, hb1, e1⟩ :=
    next_exists (divu_DVUR1 { m with microword := DVUR1 } rfl)
  simp only [and_FFFF _ hw4] at e1
  obtain ⟨m2, hb2, e2⟩ := next_exists (divu_DVUM2 m1 (by rw [e1]))
  simp only [e1, ne_eq, andFlags_Z0, not_not] at e2
  refine ⟨m1, m2, ?_, by rw [e1], ?_, ?_, by rw [e2]⟩
  · show passes ExecuteDivu_body 1 { m with microword := DVUR1 } = some m1
    simp only [passes, hb1]
  · rw [e1]
    simp only [ne_eq, andFlags_Z0, not_not]
  · show passes ExecuteDivu_body 2 { m with microword := DVUR1 } = some m2
    simp only [passes, hb1, hb2]

theorem ExecuteDivu_trap_iff (m : MC68000) (hw : m.WF) :
    (∃ r, ExecuteDivu m = some r ∧ r.microword = TRAP0) ↔ m.rydl = 0 := by
  obtain ⟨r, hr, -, -, hz⟩ := ExecuteDivu_returns m hw
  constructor
  · rintro ⟨r1, e1, t1⟩
    rw [hr] at e1
    cases e1
    exact hz.mp t1
  · intro h0
    exact ⟨r, hr, hz.mpr h0⟩

/-- Claim C18, as stated, fails: there are no two initial register files with the same
`rydl` and different `rxdh` such that one run of `ExecuteDivu` ends at TRAP0 and the
other does not. -/
theorem zero_test_upper_half_counterexample :
    ¬ ∃ m1 m2 : MC68000, m1.WF ∧ m2.WF ∧ m1.rydl = m2.rydl ∧ m1.rxdh ≠ m2.rxdh ∧
      (∃ r, ExecuteDivu m1 = some r ∧ r.microword = TRAP0) ∧
      ¬ (∃ r, ExecuteDivu m2 = some r ∧ r.microword = TRAP0) := by
  rintro ⟨m1, m2, w1, w2, he, -, t1, t2⟩
  apply t2
  rw [ExecuteDivu_trap_iff m2 w2, ← he, ← ExecuteDivu_trap_iff m1 w1]
  exact t1

/-- Claim C18, amended. Unsigned division-by-zero test: in `ExecuteDivu` the decision to
take the division-by-zero exit (TRAP0) is made by testing the divisor alone. The flags
DVUM2 branches on are those `AluOp_AND(rydl, 0xFFFF)` left in DVUR1 (Z set iff
`rydl = 0`), not those of the subtraction `AluOp_SUB(rxdh, alub)` DVUM2 issues itself;
the second pass ends at TRAP0 when `rydl = 0` and at DVUM3 otherwise; a run ends at
TRAP0 iff `rydl = 0`; so two initial register files with the same `rydl`, whatever their
`rxdh`, either both end at TRAP0 or both do not. -/
theorem ExecuteDivu_zero_test (m1 m2 : MC68000) (h1 : m1.WF) (h2 : m2.WF)
    (he : m1.rydl = m2.rydl) :
    (∃ s1 s2, passes ExecuteDivu_body 1 (divuStart m1) = some s1 ∧
      s1.microword = DVUM2 ∧ (s1.flags &&& FLAG_Z ≠ 0 ↔ m1.rydl = 0) ∧
      passes ExecuteDivu_body 2 (divuStart m1) = some s2 ∧
      s2.microword = (if m1.rydl = 0 then TRAP0 else DVUM3)) ∧
    ((∃ r, ExecuteDivu m1 = some r ∧ r.microword = TRAP0) ↔ m1.rydl = 0) ∧
    ((∃ r, ExecuteDivu m1 = some r ∧ r.microword = TRAP0) ↔
      (∃ r, ExecuteDivu m2 = some r ∧ r.microword = TRAP0)) := by
  refine ⟨divu_zero_test m1 h1, ExecuteDivu_trap_iff m1 h1, ?_⟩
  rw [ExecuteDivu_trap_iff m1 h1, ExecuteDivu_trap_iff m2 h2, he]

theorem ExecuteDivu_zero_test_witness :
    (testInput 0x00020000 1).WF ∧ (testInput 29 1).WF ∧
    (testInput 0x00020000 1).rydl = (testInput 29 1).rydl ∧
    (testInput 0x00020000 1).rxdh ≠ (testInput 29 1).rxdh ∧
    ((∃ s1 s2, passes ExecuteDivu_body 1 (divuStart (testInput 0x00020000 1)) = some s1 ∧
      s1.microword = DVUM2 ∧
      (s1.flags &&& FLAG_Z ≠ 0 ↔ (testInput 0x00020000 1).rydl = 0) ∧
      passes ExecuteDivu_body 2 (divuStart (testInput 0x00020000 1)) = some s2 ∧
      s2.microword = (if (testInput 0x00020000 1).rydl = 0 then TRAP0 else DVUM3)) ∧
    ((∃ r, ExecuteDivu (testInput 0x00020000 1) = some r ∧ r.microword = TRAP0) ↔
      (testInput 0x00020000 1).rydl = 0) ∧
    ((∃ r, ExecuteDivu (testInput 0x00020000 1) = some r ∧ r.microword = TRAP0) ↔
      (∃ r, ExecuteDivu (testInput 29 1) = some r ∧ r.microword = TRAP0))) :=
  ⟨by decide, by decide, by decide, by decide,
    ExecuteDivu_zero_test (testInput 0x00020000 1) (testInput 29 1) (by decide)
      (by decide) (by decide)⟩

/-! ## Absolutization and early overflow in the signed engine -/

theorem divsRank_DVS08 (s : MC68000) (h : s.microword = DVS08) : divsRank s = 72 := by
  simp [divsRank, h]

theorem negate_pair (m : MC68000) (hl : m.rxdl < 65536) (hh : m.rxdh < 65536) :
    (AluOp_SUBX (AluOp_SUB m 0 m.rxdl).1 0 m.rxdh).1.alu * 65536 +
        (AluOp_SUB m 0 m.rxdl).1.alu =
      (4294967296 - (m.rxdh * 65536 + m.rxdl)) % 4294967296 := by
  have e1 : (AluOp_SUB m 0 m.rxdl).1.alu = (0 + 65536 - m.rxdl) % 65536 := rfl
  have e2 : (AluOp_SUBX (AluOp_SUB m 0 m.rxdl).1 0 m.rxdh).1.alu =
      (0 + 131072 - m.rxdh - ((subFlags 0 m.rxdl &&& FLAG_X) >>> 4)) % 65536 := rfl
  rw [e1, e2, subFlags_Xbit 0 m.rxdl (by norm_num) hl]
  split_ifs <;> omega

/-- Claim C19. Signed absolutization: for every dividend `D` and divisor `d ≠ 0`, the run
of `ExecuteDivs` reaches state DVS08, and whenever it is about to dispatch DVS08, `alub`
holds `|d|` as an unsigned 16-bit value (0x8000 for `d = -32768`) and the pair
`atl:alue` holds `|D|` as an unsigned 32-bit value (0x80000000 for `D = -2^31`);
and `AluOp_SUB(0, rxdl)` followed by `AluOp_SUBX(0, rxdh)` leaves in the two results the
32-bit two's-complement negation of `rxdh:rxdl`. -/
theorem ExecuteDivs_absolutization (m : MC68000) (hw : m.WF) (h0 : m.rydl ≠ 0) :
    (∃ n s, passes ExecuteDivs_body n (divsStart m) = some s ∧ s.microword = DVS08) ∧
    (∀ n s, passes ExecuteDivs_body n (divsStart m) = some s → s.microword = DVS08 →
      s.alub = (signedDivisor m).natAbs ∧ s.alub < 65536 ∧ s.atl < 65536 ∧
      s.alue < 65536 ∧ s.atl * 65536 + s.alue = (signedDividend m).natAbs) ∧
    (m.rydl = 0x8000 → (signedDivisor m).natAbs = 0x8000) ∧
    (dividend m = 0x80000000 → (signedDividend m).natAbs = 0x80000000) ∧
    (AluOp_SUBX (AluOp_SUB m 0 m.rxdl).1 0 m.rxdh).1.alu * 65536 +
        (AluOp_SUB m 0 m.rxdl).1.alu =
      (4294967296 - dividend m) % 4294967296 := by
  obtain ⟨s8, p8, w8, l8, b8, t8, e8, -⟩ := divs_to_DVS08 m hw h0
  have hD := (signedDividend_natAbs m hw).1
  have hd := (signedDivisor_natAbs m hw).1
  refine ⟨⟨_, s8, p8, l8⟩, ?_, ?_, ?_, negate_pair m hw.2.2.1 hw.2.1⟩
  · intro n s hs hl
    obtain ⟨-, e⟩ := divs_rank_inj m s s8 n _ hs p8
      (by rw [divsRank_DVS08 s hl, divsRank_DVS08 s8 l8])
    subst e
    refine ⟨by rw [b8, hd], w8.2.2.2.2.2.2.1, w8.2.2.2.2.2.2.2.2.2.2.2.1, w8.2.2.2.2.2.1, ?_⟩
    rw [t8, e8, hD]
  · intro h
    rw [hd]
    unfold absDivisor
    rw [h]
    rfl
  · intro h
    unfold signedDividend toInt32
    rw [h]
    rfl

theorem ExecuteDivs_absolutization_witness :
    (testInput 0x80000000 0x8000).WF ∧ (testInput 0x80000000 0x8000).rydl ≠ 0 ∧
    ((∃ n s, passes ExecuteDivs_body n (divsStart (testInput 0x80000000 0x8000)) = some s ∧
        s.microword = DVS08) ∧
    (∀ n s, passes ExecuteDivs_body n (divsStart (testInput 0x80000000 0x8000)) = some s →
      s.microword = DVS08 →
      s.alub = (signedDivisor (testInput 0x80000000 0x8000)).natAbs ∧ s.alub < 65536 ∧
      s.atl < 65536 ∧ s.alue < 65536 ∧
      s.atl * 65536 + s.alue = (signedDividend (testInput 0x80000000 0x8000)).natAbs) ∧
    ((testInput 0x80000000 0x8000).rydl = 0x8000 →
      (signedDivisor (testInput 0x80000000 0x8000)).natAbs = 0x8000) ∧
    (dividend (testInput 0x80000000 0x8000) = 0x80000000 →
      (signedDividend (testInput 0x80000000 0x8000)).natAbs = 0x80000000) ∧
    (AluOp_SUBX (AluOp_SUB (testInput 0x80000000 0x8000) 0
          (testInput 0x80000000 0x8000).rxdl).1 0
          (testInput 0x80000000 0x8000).rxdh).1.alu * 65536 +
        (AluOp_SUB (testInput 0x80000000 0x8000) 0
          (testInput 0x80000000 0x8000).rxdl).1.alu =
      (4294967296 - dividend (testInput 0x80000000 0x8000)) % 4294967296) :=
  ⟨by decide, by decide,
    ExecuteDivs_absolutization (testInput 0x80000000 0x8000) (by decide) (by decide)⟩

theorem divs_rank_ge_72 (s : MC68000) (hi : DivsCtl s) (hr : 72 ≤ divsRank s) :
    s.microword ∈ [DVS01, DVS03, DVS04, DVS05, DVS06, DVS07, DVS10, DVS11, DVS08] := by
  obtain ⟨h2, h3, h4, h5, h6⟩ := hi
  simp only [ExecuteDivs_cases, List.mem_cons, List.mem_singleton, List.not_mem_nil,
    or_false] at h2
  rcases h2 with
    h | h | h | h | h | h | h | h | h | h | h | h | h | h | h | h | h | h | h | h | h |
    h | h | h | h | h | h | h | h | h | h | h | h | h <;>
  first
  | (simp [h]; done)
  | (exfalso
     simp [h] at h3 h4 h5 h6
     simp [divsRank, h] at hr <;> omega)

theorem quot_ge_iff (a b : Nat) (hb : 0 < b) : 0x10000 ≤ a / b ↔ b ≤ a / 65536 := by
  rw [Nat.le_div_iff_mul_le hb, Nat.le_div_iff_mul_le (by norm_num)]
  constructor <;> intro h <;> omega

/-- Claim C20. Signed early overflow: for every `D` and `d ≠ 0` with
`|D| / |d| ≥ 0x10000`, or equivalently with the high half of `|D|` at least `|d|` (each
of the two conditions implies the other), `ExecuteDivs` never enters the main loop (every
register file it dispatches is at one of the states DVS01 .. DVS11, DVUMZ, DVUMA, A1; in
particular never at DVS09), returns with `rxdh` and `rxdl` unchanged, and increases
`cycles` by exactly 16 when `D` is non-negative and exactly 18 when `D` is negative. -/
theorem ExecuteDivs_early_overflow (m : MC68000) (hw : m.WF) (h0 : m.rydl ≠ 0)
    (hov : 0x10000 ≤ absQuotient m ∨
      (signedDivisor m).natAbs ≤ (signedDividend m).natAbs / 65536) :
    (0x10000 ≤ absQuotient m ∧
      (signedDivisor m).natAbs ≤ (signedDividend m).natAbs / 65536) ∧
    (∀ n s, passes ExecuteDivs_body n (divsStart m) = some s →
      s.microword ∈ [DVS01, DVS03, DVS04, DVS05, DVS06, DVS07, DVS10, DVS11, DVS08,
        DVUMZ, DVUMA, A1] ∧ s.microword ≠ DVS09) ∧
    ∃ r, ExecuteDivs m = some r ∧ r.rxdh = m.rxdh ∧ r.rxdl = m.rxdl ∧
      cyclesSpent m r = (if signedDividend m < 0 then 18 else 16) := by
  obtain ⟨hD, sD⟩ := signedDividend_natAbs m hw
  obtain ⟨hd, -⟩ := signedDivisor_natAbs m hw
  have hb := absDivisor_bounds m.rydl hw.2.2.2.1 h0
  have hlo := absLo_lt m.rxdh m.rxdl hw.2.2.1
  have hiff := quot_ge_iff (signedDividend m).natAbs (signedDivisor m).natAbs
    (by rw [hd]; exact hb.1)
  have hboth : 0x10000 ≤ absQuotient m ∧
      (signedDivisor m).natAbs ≤ (signedDividend m).natAbs / 65536 := by
    rcases hov with h | h
    · exact ⟨h, hiff.mp h⟩
    · exact ⟨hiff.mpr h, h⟩
  have hge : absDivisor m.rydl ≤ absHi m.rxdh m.rxdl := by
    have h := hboth.2
    rw [hd, hD] at h
    omega
  refine ⟨hboth, ?_, ?_⟩
  · intro n s hs
    have key : s.microword ∈ [DVS01, DVS03, DVS04, DVS05, DVS06, DVS07, DVS10, DVS11,
        DVS08, DVUMZ, DVUMA, A1] := by
      obtain ⟨s8, p8, -, l8, -⟩ := divs_to_DVS08 m hw h0
      obtain ⟨z, a, r, pz, lz, pa, la, pr, lr⟩ := divs_early_passes m hw h0 hge
      have hle := passes_le_of_ret ExecuteDivs_body _ n _ r _ s pr (divs_A1 r lr) hs
      by_cases c8 : n ≤ 3 + (if 32768 ≤ m.rxdh then 3 else 2)
      · have hsub := passes_sub ExecuteDivs_body n _ _ s s8 c8 hs p8
        have hk := (divs_passes_rank _ s s8 (DivsCtl_reach m s n hs) hsub).2
        rw [divsRank_DVS08 s8 l8] at hk
        have hm := divs_rank_ge_72 s (DivsCtl_reach m s n hs) (by omega)
        simp only [List.mem_cons, List.mem_singleton, List.not_mem_nil, or_false] at hm ⊢
        rcases hm with h | h | h | h | h | h | h | h | h <;> simp [h]
      · have hn : n = 3 + (if 32768 ≤ m.rxdh then 4 else 3) ∨
            n = 3 + (if 32768 ≤ m.rxdh then 4 else 3) + 1 ∨
            n = 3 + (if 32768 ≤ m.rxdh then 4 else 3) + 2 := by
          split_ifs at c8 hle ⊢ <;> omega
        rcases hn with e | e | e
        · rw [e, pz] at hs
          cases hs
          simp [lz]
        · rw [e, pa] at hs
          cases hs
          simp [la]
        · rw [e, pr] at hs
          cases hs
          simp [lr]
    refine ⟨key, ?_⟩
    intro h9
    rw [h9] at key
    simp at key
  · obtain ⟨r, hr, -, xh, xl, -, hc⟩ := ExecuteDivs_early m hw h0 hge
    refine ⟨r, hr, xh, xl, ?_⟩
    have hc0 : m.cycles < 4294967296 := hw.2.2.2.2.2.2.2.2.2.2.2.2
    by_cases c : 32768 ≤ m.rxdh
    · rw [if_pos c] at hc
      rw [if_pos (sD.mpr c)]
      exact cyclesSpent_of_eq m r 18 hc0 (by norm_num) (by rw [hc])
    · rw [if_neg c] at hc
      rw [if_neg (fun x => c (sD.mp x))]
      exact cyclesSpent_of_eq m r 16 hc0 (by norm_num) (by rw [hc])

theorem ExecuteDivs_early_overflow_witness :
    (testInput 0x5A5A0000 0x5959).WF ∧ (testInput 0x5A5A0000 0x5959).rydl ≠ 0 ∧
    0x10000 ≤ absQuotient (testInput 0x5A5A0000 0x5959) ∧
    (∃ r, ExecuteDivs (testInput 0x5A5A0000 0x5959) = some r ∧
      r.rxdh = (testInput 0x5A5A0000 0x5959).rxdh ∧ r.rxdl = (testInput 0x5A5A0000 0x5959).rxdl ∧
      cyclesSpent (testInput 0x5A5A0000 0x5959) r =
        (if signedDividend (testInput 0x5A5A0000 0x5959) < 0 then 18 else 16)) ∧
    (if signedDividend (testInput 0x5A5A0000 0x5959) < 0 then 18 else 16) = 16 ∧
    (testInput 0x80030000 1).WF ∧ (testInput 0x80030000 1).rydl ≠ 0 ∧
    0x10000 ≤ absQuotient (testInput 0x80030000 1) ∧
    (∃ r, ExecuteDivs (testInput 0x80030000 1) = some r ∧
      r.rxdh = (testInput 0x80030000 1).rxdh ∧ r.rxdl = (testInput 0x80030000 1).rxdl ∧
      cyclesSpent (testInput 0x80030000 1) r =
        (if signedDividend (testInput 0x80030000 1) < 0 then 18 else 16)) ∧
    (if signedDividend (testInput 0x80030000 1) < 0 then 18 else 16) = 18 :=
  ⟨by decide, by decide, by decide,
    (ExecuteDivs_early_overflow (testInput 0x5A5A0000 0x5959) (by decide) (by decide)
      (Or.inl (by decide))).2.2,
    by decide, by decide, by decide, by decide,
    (ExecuteDivs_early_overflow (testInput 0x80030000 1) (by decide) (by decide)
      (Or.inl (by decide))).2.2,
    by decide⟩

/-! ## Cycle parity -/

theorem whileTrue_some (body : MC68000 → Control) :
    ∀ (fuel : Nat) (m r : MC68000), whileTrue body fuel m = some r →
      ∃ n a, n < fuel ∧ passes body n m = some a ∧ body a = Control.ret r := by
  intro fuel
  induction fuel with
  | zero =>
    intro m r h
    simp [whileTrue] at h
  | succ fuel ih =>
    intro m r h
    simp only [whileTrue] at h
    cases hb : body m with
    | next m1 =>
      rw [hb] at h
      obtain ⟨n, a, hn, hp, hr⟩ := ih m1 r h
      refine ⟨n + 1, a, by omega, ?_, hr⟩
      simp only [passes, hb]
      exact hp
    | ret m1 =>
      rw [hb] at h
      simp only [Option.some.injEq] at h
      subst h
      exact ⟨0, m, by omega, rfl, hb⟩

theorem divs_ret (a r : MC68000) (hi : DivsCtl a)
    (hb : ExecuteDivs_body a = Control.ret r) :
    r = { a with cycles := ((a.cycles + 2) % 4294967296 + 4294967296 - 2) % 4294967296 } ∧
      (a.microword = TRAP0 ∨ a.microword = A1) := by
  have h2 := hi.1
  simp only [ExecuteDivs_cases, List.mem_cons, List.mem_singleton, List.not_mem_nil,
    or_false] at h2
  rcases h2 with
    h | h | h | h | h | h | h | h | h | h | h | h | h | h | h | h | h | h | h | h |
    h | h | h | h | h | h | h | h | h | h | h | h | h | h
  · rw [divs_DVS01 a h] at hb
    cases hb
  · rw [divs_DVS03 a h] at hb
    cases hb
  · rw [divs_DVS04 a h] at hb
    cases hb
  · rw [divs_DVS05 a h] at hb
    cases hb
  · rw [divs_DVS06 a h] at hb
    cases hb
  · rw [divs_DVS07 a h] at hb
    cases hb
  · rw [divs_DVS08 a h] at hb
    cases hb
  · rw [divs_DVS10 a h] at hb
    cases hb
  · rw [divs_DVS11 a h] at hb
    cases hb
  · rw [divs_DVS09 a h] at hb
    cases hb
  · rw [divs_DVS0A a h] at hb
    cases hb
  · rw [divs_DVS0C a h] at hb
    cases hb
  · rw [divs_DVS0D a h] at hb
    cases hb
  · rw [divs_DVS0F a h] at hb
    cases hb
  · rw [divs_DVS0E a h] at hb
    cases hb
  · rw [divs_DVS12 a h] at hb
    cases hb
  · rw [divs_DVS13 a h] at hb
    cases hb
  · rw [divs_DVS14 a h] at hb
    cases hb
  · rw [divs_DVS15 a h] at hb
    cases hb
  · rw [divs_DVS16 a h] at hb
    cases hb
  · rw [divs_DVS1D a h] at hb
    cases hb
  · rw [divs_DVS17 a h] at hb
    cases hb
  · rw [divs_DVS1A a h] at hb
    cases hb
  · rw [divs_DVS1B a h] at hb
    cases hb
  · rw [divs_DVS1C a h] at hb
    cases hb
  · rw [divs_DVS1F a h] at hb
    cases hb
  · rw [divs_DVS20 a h] at hb
    cases hb
  · rw [divs_DVS1E a h] at hb
    cases hb
  · rw [divs_LEAA2 a h] at hb
    cases hb
  · rw [divs_DVUM4 a h] at hb
    cases hb
  · rw [divs_DVUMZ a h] at hb
    cases hb
  · rw [divs_DVUMA a h] at hb
    cases hb
  · rw [divs_TRAP0 a h] at hb
    cases hb
    exact ⟨rfl, Or.inl h⟩
  · rw [divs_A1 a h] at hb
    cases hb
    exact ⟨rfl, Or.inr h⟩

theorem divu_ret (a r : MC68000) (hi : DivuCtl a)
    (hb : ExecuteDivu_body a = Control.ret r) :
    r = { a with cycles := ((a.cycles + 2) % 4294967296 + 4294967296 - 2) % 4294967296 } ∧
      (a.microword = TRAP0 ∨ a.microword = A1) := by
  have h2 := hi.1
  simp only [ExecuteDivu_cases, List.mem_cons, List.mem_singleton, List.not_mem_nil,
    or_false] at h2
  rcases h2 with
    h | h | h | h | h | h | h | h | h | h | h | h | h | h | h | h | h | h
  · rw [divu_DVUR1 a h] at hb
    cases hb
  · rw [divu_DVUM2 a h] at hb
    cases hb
  · rw [divu_DVUM3 a h] at hb
    cases hb
  · rw [divu_DVUM5 a h] at hb
    cases hb
  · rw [divu_DVUM6 a h] at hb
    cases hb
  · rw [divu_DVUM7 a h] at hb
    cases hb
  · rw [divu_DVUM8 a h] at hb
    cases hb
  · rw [divu_DVUM9 a h] at hb
    cases hb
  · rw [divu_DVUMB a h] at hb
    cases hb
  · rw [divu_DVUMC a h] at hb
    cases hb
  · rw [divu_DVUMD a h] at hb
    cases hb
  · rw [divu_DVUME a h] at hb
    cases hb
  · rw [divu_DVUMF a h] at hb
    cases hb
  · rw [divu_DVUM0 a h] at hb
    cases hb
  · rw [divu_DVUM4 a h] at hb
    cases hb
  · rw [divu_DVUMA a h] at hb
    cases hb
  · rw [divu_TRAP0 a h] at hb
    cases hb
    exact ⟨rfl, Or.inl h⟩
  · rw [divu_A1 a h] at hb
    cases hb
    exact ⟨rfl, Or.inr h⟩

theorem divu_passes_cycles :
    ∀ (k : Nat) (s t : MC68000), DivuCtl s → s.cycles < 4294967296 →
      passes ExecuteDivu_body k s = some t →
      t.cycles = (s.cycles + 2 * k) % 4294967296 := by
  intro k
  induction k with
  | zero =>
    intro s t hi hc h
    simp only [passes, Option.some.injEq] at h
    subst h
    omega
  | succ k ih =>
    intro s t hi hc h
    simp only [passes] at h
    cases hb : ExecuteDivu_body s with
    | next s1 =>
      rw [hb] at h
      have c1 := divu_next_cycles s s1 hi hb
      have c2 := ih s1 t (DivuCtl_step s s1 hi hb).1 (by omega) h
      rw [c2, c1]
      omega
    | ret s1 =>
      rw [hb] at h
      cases h

theorem cyclesSpent_even (m s : MC68000) (k : Nat)
    (h : s.cycles = (m.cycles + 2 * k) % 4294967296) :
    cyclesSpent m s % 2 = 0 ∧ (m.cycles % 2 = 0 → s.cycles % 2 = 0) := by
  unfold cyclesSpent
  omega

theorem divu_return (m r : MC68000) (hw : m.WF) (h : ExecuteDivu m = some r) :
    ∃ n a, n < 128 ∧ passes ExecuteDivu_body n (divuStart m) = some a ∧
      a.cycles = (m.cycles + 2 * n) % 4294967296 ∧ r = a ∧
      (a.microword = TRAP0 ∨ a.microword = A1) := by
  obtain ⟨n, a, hn, hp, hb⟩ := whileTrue_some ExecuteDivu_body 128 (divuStart m) r h
  have hc := divu_passes_cycles n _ a (DivuCtl_start m) hw.2.2.2.2.2.2.2.2.2.2.2.2 hp
  obtain ⟨e, hm⟩ := divu_ret a r (DivuCtl_reach m a n hp) hb
  have hlt : a.cycles < 4294967296 := by
    rw [hc]
    exact Nat.mod_lt _ (by norm_num)
  have e2 : ((a.cycles + 2) % 4294967296 + 4294967296 - 2) % 4294967296 = a.cycles := by
    omega
  rw [e2] at e
  exact ⟨n, a, hn, hp, hc, e, hm⟩

theorem divs_return (m r : MC68000) (hw : m.WF) (h : ExecuteDivs m = some r) :
    ∃ n a, n < 128 ∧ passes ExecuteDivs_body n (divsStart m) = some a ∧
      a.cycles = (m.cycles + 2 * n) % 4294967296 ∧ r = a ∧
      (a.microword = TRAP0 ∨ a.microword = A1) := by
  obtain ⟨n, a, hn, hp, hb⟩ := whileTrue_some ExecuteDivs_body 128 (divsStart m) r h
  have hc := divs_passes_cycles n _ a (DivsCtl_start m) hw.2.2.2.2.2.2.2.2.2.2.2.2 hp
  obtain ⟨e, hm⟩ := divs_ret a r (DivsCtl_reach m a n hp) hb
  have hlt : a.cycles < 4294967296 := by
    rw [hc]
    exact Nat.mod_lt _ (by norm_num)
  have e2 : ((a.cycles + 2) % 4294967296 + 4294967296 - 2) % 4294967296 = a.cycles := by
    omega
  rw [e2] at e
  exact ⟨n, a, hn, hp, hc, e, hm⟩

/-- Claim C21. Cycle parity: `cycles` only ever advances in units of 2. For every initial
register file and for both engines, the register file about to be dispatched after `n`
passes has `cycles = (cycles on entry + 2 * n) mod 2^32`, so the increase of the 32-bit
counter since entry is even and, if `cycles` is even on entry, it is even there; and
the engine returns, with an even increase of `cycles`, and with `cycles` even if it was
even on entry. -/
theorem cycles_parity (m : MC68000) (hw : m.WF) :
    ((∀ n s, passes ExecuteDivu_body n (divuStart m) = some s →
        s.cycles = (m.cycles + 2 * n) % 4294967296 ∧ cyclesSpent m s % 2 = 0 ∧
        (m.cycles % 2 = 0 → s.cycles % 2 = 0)) ∧
      ∃ r, ExecuteDivu m = some r ∧ cyclesSpent m r % 2 = 0 ∧
        (m.cycles % 2 = 0 → r.cycles % 2 = 0)) ∧
    ((∀ n s, passes ExecuteDivs_body n (divsStart m) = some s →
        s.cycles = (m.cycles + 2 * n) % 4294967296 ∧ cyclesSpent m s % 2 = 0 ∧
        (m.cycles % 2 = 0 → s.cycles % 2 = 0)) ∧
      ∃ r, ExecuteDivs m = some r ∧ cyclesSpent m r % 2 = 0 ∧
        (m.cycles % 2 = 0 → r.cycles % 2 = 0)) := by
  have hc0 : m.cycles < 4294967296 := hw.2.2.2.2.2.2.2.2.2.2.2.2
  refine ⟨⟨?_, ?_⟩, ⟨?_, ?_⟩⟩
  · intro n s hp
    have hc := divu_passes_cycles n _ s (DivuCtl_start m) hc0 hp
    exact ⟨hc, cyclesSpent_even m s n hc⟩
  · obtain ⟨r, hr, -⟩ := ExecuteDivu_returns m hw
    obtain ⟨n, a, -, -, hc, e, -⟩ := divu_return m r hw hr
    subst e
    exact ⟨r, hr, cyclesSpent_even m r n hc⟩
  · intro n s hp
    have hc := divs_passes_cycles n _ s (DivsCtl_start m) hc0 hp
    exact ⟨hc, cyclesSpent_even m s n hc⟩
  · obtain ⟨r, hr, -⟩ := ExecuteDivs_returns m hw
    obtain ⟨n, a, -, -, hc, e, -⟩ := divs_return m r hw hr
    subst e
    exact ⟨r, hr, cyclesSpent_even m r n hc⟩

theorem cycles_parity_witness :
    (scratchInput 29 5).WF ∧
    ((∀ n s, passes ExecuteDivu_body n (divuStart (scratchInput 29 5)) = some s →
        s.cycles = ((scratchInput 29 5).cycles + 2 * n) % 4294967296 ∧
        cyclesSpent (scratchInput 29 5) s % 2 = 0 ∧
        ((scratchInput 29 5).cycles % 2 = 0 → s.cycles % 2 = 0)) ∧
      ∃ r, ExecuteDivu (scratchInput 29 5) = some r ∧ cyclesSpent (scratchInput 29 5) r % 2 = 0 ∧
        ((scratchInput 29 5).cycles % 2 = 0 → r.cycles % 2 = 0)) ∧
    ((∀ n s, passes ExecuteDivs_body n (divsStart (scratchInput 29 5)) = some s →
        s.cycles = ((scratchInput 29 5).cycles + 2 * n) % 4294967296 ∧
        cyclesSpent (scratchInput 29 5) s % 2 = 0 ∧
        ((scratchInput 29 5).cycles % 2 = 0 → s.cycles % 2 = 0)) ∧
      ∃ r, ExecuteDivs (scratchInput 29 5) = some r ∧ cyclesSpent (scratchInput 29 5) r % 2 = 0 ∧
        ((scratchInput 29 5).cycles % 2 = 0 → r.cycles % 2 = 0)) :=
  ⟨by decide, cycles_parity (scratchInput 29 5) (by decide)⟩

/-! ## Independence of the scratch registers -/

theorem ExecuteDivu_outcome (m : MC68000) (hw : m.WF) :
    ∃ r x, ExecuteDivu m = some r ∧ cyclesSpent m r = x ∧
      (m.rydl = 0 → r.microword = TRAP0 ∧ r.rxdh = m.rxdh ∧ r.rxdl = m.rxdl ∧ x = 4) ∧
      (m.rydl ≠ 0 → m.rydl ≤ m.rxdh →
        r.microword = A1 ∧ r.rxdh = m.rxdh ∧ r.rxdl = m.rxdl ∧ x = 10) ∧
      (m.rydl ≠ 0 → m.rxdh < m.rydl →
        r.microword = A1 ∧ r.rxdh = (m.rxdh * 65536 + m.rxdl) % m.rydl ∧
        r.rxdl = (m.rxdh * 65536 + m.rxdl) / m.rydl ∧
        x = DivideUnsignedCycles (m.rxdh * 65536 + m.rxdl) m.rydl) ∧
      r.rydl = m.rydl := by
  have hc0 : m.cycles < 4294967296 := hw.2.2.2.2.2.2.2.2.2.2.2.2
  by_cases h0 : m.rydl = 0
  · obtain ⟨r, hr, l, xh, xl, y, c⟩ := ExecuteDivu_trap m hw h0
    exact ⟨r, _, hr, cyclesSpent_of_eq m r 4 hc0 (by norm_num) c,
      fun _ => ⟨l, xh, xl, rfl⟩, fun h => absurd h0 h, fun h => absurd h0 h, y⟩
  · by_cases hge : m.rydl ≤ m.rxdh
    · obtain ⟨r, hr, l, xh, xl, y, c⟩ := ExecuteDivu_overflow m hw h0 hge
      exact ⟨r, _, hr, cyclesSpent_of_eq m r 10 hc0 (by norm_num) c,
        fun h => absurd h h0, fun _ _ => ⟨l, xh, xl, rfl⟩, fun _ h => by omega, y⟩
    · obtain ⟨r, hr, l, xh, xl, y, c⟩ := ExecuteDivu_normal m hw h0 (by omega)
      have e3 := (DivideUnsignedCycles_le m.rxdh m.rxdl m.rydl hw.2.2.1 hw.2.2.2.1 h0).2.2
      exact ⟨r, _, hr, cyclesSpent_of_eq m r _ hc0 (by omega) c,
        fun h => absurd h h0, fun _ h => absurd h hge, fun _ _ => ⟨l, xh, xl, rfl⟩, y⟩

theorem ExecuteDivu_independent (m1 m2 : MC68000) (h1 : m1.WF) (h2 : m2.WF)
    (eh : m1.rxdh = m2.rxdh) (el : m1.rxdl = m2.rxdl) (ey : m1.rydl = m2.rydl) :
    ∃ r1 r2, ExecuteDivu m1 = some r1 ∧ ExecuteDivu m2 = some r2 ∧
      r1.rxdh = r2.rxdh ∧ r1.rxdl = r2.rxdl ∧ r1.rydl = r2.rydl ∧
      r1.microword = r2.microword ∧ cyclesSpent m1 r1 = cyclesSpent m2 r2 := by
  obtain ⟨r1, x1, e1, c1, t1, o1, n1, y1⟩ := ExecuteDivu_outcome m1 h1
  obtain ⟨r2, x2, e2, c2, t2, o2, n2, y2⟩ := ExecuteDivu_outcome m2 h2
  rw [← eh, ← el, ← ey] at t2 o2 n2
  rw [← ey] at y2
  refine ⟨r1, r2, e1, e2, ?_⟩
  rw [c1, c2, y1, y2]
  by_cases h0 : m1.rydl = 0
  · obtain ⟨a1, a2, a3, a4⟩ := t1 h0
    obtain ⟨b1, b2, b3, b4⟩ := t2 h0
    rw [a1, a2, a3, a4, b1, b2, b3, b4]
    exact ⟨rfl, rfl, rfl, rfl, rfl⟩
  · by_cases hge : m1.rydl ≤ m1.rxdh
    · obtain ⟨a1, a2, a3, a4⟩ := o1 h0 hge
      obtain ⟨b1, b2, b3, b4⟩ := o2 h0 hge
      rw [a1, a2, a3, a4, b1, b2, b3, b4]
      exact ⟨rfl, rfl, rfl, rfl, rfl⟩
    · obtain ⟨a1, a2, a3, a4⟩ := n1 h0 (by omega)
      obtain ⟨b1, b2, b3, b4⟩ := n2 h0 (by omega)
      rw [a1, a2, a3, a4, b1, b2, b3, b4]
      exact ⟨rfl, rfl, rfl, rfl, rfl⟩

theorem ExecuteDivs_independent (m1 m2 : MC68000) (h1 : m1.WF) (h2 : m2.WF)
    (eh : m1.rxdh = m2.rxdh) (el : m1.rxdl = m2.rxdl) (ey : m1.rydl = m2.rydl) :
    ∃ r1 r2, ExecuteDivs m1 = some r1 ∧ ExecuteDivs m2 = some r2 ∧
      r1.rxdh = r2.rxdh ∧ r1.rxdl = r2.rxdl ∧ r1.rydl = r2.rydl ∧
      r1.microword = r2.microword ∧ cyclesSpent m1 r1 = cyclesSpent m2 r2 := by
  have hc1 : m1.cycles < 4294967296 := h1.2.2.2.2.2.2.2.2.2.2.2.2
  have hc2 : m2.cycles < 4294967296 := h2.2.2.2.2.2.2.2.2.2.2.2.2
  by_cases h0 : m1.rydl = 0
  · obtain ⟨r1, e1, l1, xh1, xl1, y1, c1⟩ := ExecuteDivs_trap m1 h1 h0
    obtain ⟨r2, e2, l2, xh2, xl2, y2, c2⟩ := ExecuteDivs_trap m2 h2 (by rw [← ey]; exact h0)
    refine ⟨r1, r2, e1, e2, by rw [xh1, xh2, eh], by rw [xl1, xl2, el], by rw [y1, y2, ey],
      by rw [l1, l2], ?_⟩
    rw [cyclesSpent_of_eq m1 r1 4 hc1 (by norm_num) c1,
      cyclesSpent_of_eq m2 r2 4 hc2 (by norm_num) c2]
  · have h0' : m2.rydl ≠ 0 := by rw [← ey]; exact h0
    by_cases hlt : absHi m1.rxdh m1.rxdl < absDivisor m1.rydl
    · obtain ⟨r1, e1, l1, y1, c1, xh1, xl1⟩ := ExecuteDivs_main m1 h1 h0 hlt
      obtain ⟨r2, e2, l2, y2, c2, xh2, xl2⟩ := ExecuteDivs_main m2 h2 h0'
        (by rw [← eh, ← el, ← ey]; exact hlt)
      rw [← eh, ← el, ← ey] at c2 xh2 xl2
      have hP := divsPasses_le (absDivisor m1.rydl) 15
        ⟨absHi m1.rxdh m1.rxdl, absLo m1.rxdh m1.rxdl, 0⟩
      have hF : divsFixPasses m1.rxdh m1.rydl ≤ 7 := by
        unfold divsFixPasses
        split_ifs <;> omega
      refine ⟨r1, r2, e1, e2, by rw [xh1, xh2], by rw [xl1, xl2], by rw [y1, y2, ey],
        by rw [l1, l2], ?_⟩
      rw [cyclesSpent_of_eq m1 r1 _ hc1 (by split_ifs <;> omega) c1,
        cyclesSpent_of_eq m2 r2 _ hc2 (by split_ifs <;> omega) c2]
    · obtain ⟨r1, e1, l1, xh1, xl1, y1, c1⟩ := ExecuteDivs_early m1 h1 h0 (by omega)
      obtain ⟨r2, e2, l2, xh2, xl2, y2, c2⟩ := ExecuteDivs_early m2 h2 h0'
        (by rw [← eh, ← el, ← ey]; omega)
      rw [← eh] at c2
      have e4 : ∀ c : Nat, c + 4 + (if 32768 ≤ m1.rxdh then 10 else 8) + 4 =
          c + (if 32768 ≤ m1.rxdh then 18 else 16) := by
        intro c
        split_ifs <;> omega
      rw [e4] at c1 c2
      refine ⟨r1, r2, e1, e2, by rw [xh1, xh2, eh], by rw [xl1, xl2, el], by rw [y1, y2, ey],
        by rw [l1, l2], ?_⟩
      rw [cyclesSpent_of_eq m1 r1 _ hc1 (by split_ifs <;> omega) c1,
        cyclesSpent_of_eq m2 r2 _ hc2 (by split_ifs <;> omega) c2]

/-- Claim C22. Results do not depend on scratch state: for each engine and any two
initial register files that agree on `rxdh`, `rxdl` and `rydl`, whatever their
`microword`, `flags`, `alu`, `alue`, `alub`, `au`, `pc`, `ath`, `atl` (and `cycles`) hold,
both runs return, with the same `rxdh`, `rxdl`, `rydl` and `microword` and with the same
increase of `cycles`. -/
theorem results_independent_of_scratch (m1 m2 : MC68000) (h1 : m1.WF) (h2 : m2.WF)
    (eh : m1.rxdh = m2.rxdh) (el : m1.rxdl = m2.rxdl) (ey : m1.rydl = m2.rydl) :
    (∃ r1 r2, ExecuteDivu m1 = some r1 ∧ ExecuteDivu m2 = some r2 ∧
      r1.rxdh = r2.rxdh ∧ r1.rxdl = r2.rxdl ∧ r1.rydl = r2.rydl ∧
      r1.microword = r2.microword ∧ cyclesSpent m1 r1 = cyclesSpent m2 r2) ∧
    (∃ r1 r2, ExecuteDivs m1 = some r1 ∧ ExecuteDivs m2 = some r2 ∧
      r1.rxdh = r2.rxdh ∧ r1.rxdl = r2.rxdl ∧ r1.rydl = r2.rydl ∧
      r1.microword = r2.microword ∧ cyclesSpent m1 r1 = cyclesSpent m2 r2) :=
  ⟨ExecuteDivu_independent m1 m2 h1 h2 eh el ey,
    ExecuteDivs_independent m1 m2 h1 h2 eh el ey⟩

theorem results_independent_of_scratch_witness :
    (testInput 4294967267 5).WF ∧ (scratchInput 4294967267 5).WF ∧
    (testInput 4294967267 5).rxdh = (scratchInput 4294967267 5).rxdh ∧
    (testInput 4294967267 5).rxdl = (scratchInput 4294967267 5).rxdl ∧
    (testInput 4294967267 5).rydl = (scratchInput 4294967267 5).rydl ∧
    (∃ r1 r2, ExecuteDivu (testInput 4294967267 5) = some r1 ∧
      ExecuteDivu (scratchInput 4294967267 5) = some r2 ∧
      r1.rxdh = r2.rxdh ∧ r1.rxdl = r2.rxdl ∧ r1.rydl = r2.rydl ∧
      r1.microword = r2.microword ∧
      cyclesSpent (testInput 4294967267 5) r1 = cyclesSpent (scratchInput 4294967267 5) r2) ∧
    (∃ r1 r2, ExecuteDivs (testInput 4294967267 5) = some r1 ∧
      ExecuteDivs (scratchInput 4294967267 5) = some r2 ∧
      r1.rxdh = r2.rxdh ∧ r1.rxdl = r2.rxdl ∧ r1.rydl = r2.rydl ∧
      r1.microword = r2.microword ∧
      cyclesSpent (testInput 4294967267 5) r1 = cyclesSpent (scratchInput 4294967267 5) r2) :=
  ⟨by decide, by decide, by decide, by decide, by decide,
    results_independent_of_scratch (testInput 4294967267 5) (scratchInput 4294967267 5)
      (by decide) (by decide) (by decide) (by decide) (by decide)⟩

/-! ## Well-formedness along a run -/

theorem divs_WF_step (m m1 : MC68000) (hw : m.WF) (hi : DivsCtl m)
    (hb : ExecuteDivs_body m = Control.next m1) : m1.WF := by
  have h2 := hi.1
  obtain ⟨hw1, hw2, hw3, hw4, hw5, he, hw7, ha, hf, hau2, hw11, hw12, hc⟩ := hw
  simp only [ExecuteDivs_cases, List.mem_cons, List.mem_singleton, List.not_mem_nil,
    or_false] at h2
  rcases h2 with
    h | h | h | h | h | h | h | h | h | h | h | h | h | h | h | h | h | h | h | h |
    h | h | h | h | h | h | h | h | h | h | h | h | h | h
  · rw [divs_DVS01 m h] at hb
    cases hb
    simp only [MC68000.WF]
    and_intros <;>
      first | omega | exact andFlags_lt _ _ | exact subFlags_lt _ _ | exact Nat.mod_lt _ (by norm_num) | exact lt_of_le_of_lt Nat.and_le_left (by assumption) | (split_ifs <;> decide) | decide
  · rw [divs_DVS03 m h] at hb
    cases hb
    simp only [MC68000.WF]
    and_intros <;>
      first | omega | exact andFlags_lt _ _ | exact subFlags_lt _ _ | exact Nat.mod_lt _ (by norm_num) | exact lt_of_le_of_lt Nat.and_le_left (by assumption) | (split_ifs <;> decide) | decide
  · rw [divs_DVS04 m h] at hb
    cases hb
    simp only [MC68000.WF]
    and_intros <;>
      first | omega | exact andFlags_lt _ _ | exact subFlags_lt _ _ | exact Nat.mod_lt _ (by norm_num) | exact lt_of_le_of_lt Nat.and_le_left (by assumption) | (split_ifs <;> decide) | decide
  · rw [divs_DVS05 m h] at hb
    cases hb
    simp only [MC68000.WF]
    and_intros <;>
      first | omega | exact andFlags_lt _ _ | exact subFlags_lt _ _ | exact Nat.mod_lt _ (by norm_num) | exact lt_of_le_of_lt Nat.and_le_left (by assumption) | (split_ifs <;> decide) | decide
  · rw [divs_DVS06 m h] at hb
    cases hb
    simp only [MC68000.WF]
    and_intros <;>
      first | omega | exact andFlags_lt _ _ | exact subFlags_lt _ _ | exact Nat.mod_lt _ (by norm_num) | exact lt_of_le_of_lt Nat.and_le_left (by assumption) | (split_ifs <;> decide) | decide
  · rw [divs_DVS07 m h] at hb
    cases hb
    simp only [MC68000.WF]
    and_intros <;>
      first | omega | exact andFlags_lt _ _ | exact subFlags_lt _ _ | exact Nat.mod_lt _ (by norm_num) | exact lt_of_le_of_lt Nat.and_le_left (by assumption) | (split_ifs <;> decide) | decide
  · rw [divs_DVS08 m h] at hb
    cases hb
    simp only [MC68000.WF]
    and_intros <;>
      first | omega | exact andFlags_lt _ _ | exact subFlags_lt _ _ | exact Nat.mod_lt _ (by norm_num) | exact lt_of_le_of_lt Nat.and_le_left (by assumption) | (split_ifs <;> decide) | decide
  · rw [divs_DVS10 m h] at hb
    cases hb
    simp only [MC68000.WF]
    and_intros <;>
      first | omega | exact andFlags_lt _ _ | exact subFlags_lt _ _ | exact Nat.mod_lt _ (by norm_num) | exact lt_of_le_of_lt Nat.and_le_left (by assumption) | (split_ifs <;> decide) | decide
  · rw [divs_DVS11 m h] at hb
    cases hb
    simp only [MC68000.WF]
    and_intros <;>
      first | omega | exact andFlags_lt _ _ | exact subFlags_lt _ _ | exact Nat.mod_lt _ (by norm_num) | exact lt_of_le_of_lt Nat.and_le_left (by assumption) | (split_ifs <;> decide) | decide
  · rw [divs_DVS09 m h] at hb
    cases hb
    simp only [MC68000.WF]
    and_intros <;>
      first | omega | exact andFlags_lt _ _ | exact subFlags_lt _ _ | exact Nat.mod_lt _ (by norm_num) | exact lt_of_le_of_lt Nat.and_le_left (by assumption) | (split_ifs <;> decide) | decide
  · rw [divs_DVS0A m h] at hb
    cases hb
    simp only [MC68000.WF]
    and_intros <;>
      first | omega | exact andFlags_lt _ _ | exact subFlags_lt _ _ | exact Nat.mod_lt _ (by norm_num) | exact lt_of_le_of_lt Nat.and_le_left (by assumption) | (split_ifs <;> decide) | decide
  · rw [divs_DVS0C m h] at hb
    cases hb
    simp only [MC68000.WF]
    and_intros <;>
      first | omega | exact andFlags_lt _ _ | exact subFlags_lt _ _ | exact Nat.mod_lt _ (by norm_num) | exact lt_of_le_of_lt Nat.and_le_left (by assumption) | (split_ifs <;> decide) | decide
  · rw [divs_DVS0D m h] at hb
    cases hb
    simp only [MC68000.WF]
    and_intros <;>
      first | omega | exact andFlags_lt _ _ | exact subFlags_lt _ _ | exact Nat.mod_lt _ (by norm_num) | exact lt_of_le_of_lt Nat.and_le_left (by assumption) | (split_ifs <;> decide) | decide
  · rw [divs_DVS0F m h] at hb
    cases hb
    simp only [MC68000.WF]
    and_intros <;>
      first | omega | exact andFlags_lt _ _ | exact subFlags_lt _ _ | exact Nat.mod_lt _ (by norm_num) | exact lt_of_le_of_lt Nat.and_le_left (by assumption) | (split_ifs <;> decide) | decide
  · rw [divs_DVS0E m h] at hb
    cases hb
    simp only [MC68000.WF]
    and_intros <;>
      first | omega | exact andFlags_lt _ _ | exact subFlags_lt _ _ | exact Nat.mod_lt _ (by norm_num) | exact lt_of_le_of_lt Nat.and_le_left (by assumption) | (split_ifs <;> decide) | decide
  · rw [divs_DVS12 m h] at hb
    cases hb
    simp only [MC68000.WF]
    and_intros <;>
      first | omega | exact andFlags_lt _ _ | exact subFlags_lt _ _ | exact Nat.mod_lt _ (by norm_num) | exact lt_of_le_of_lt Nat.and_le_left (by assumption) | (split_ifs <;> decide) | decide
  · rw [divs_DVS13 m h] at hb
    cases hb
    simp only [MC68000.WF]
    and_intros <;>
      first | omega | exact andFlags_lt _ _ | exact subFlags_lt _ _ | exact Nat.mod_lt _ (by norm_num) | exact lt_of_le_of_lt Nat.and_le_left (by assumption) | (split_ifs <;> decide) | decide
  · rw [divs_DVS14 m h] at hb
    cases hb
    simp only [MC68000.WF]
    and_intros <;>
      first | omega | exact andFlags_lt _ _ | exact subFlags_lt _ _ | exact Nat.mod_lt _ (by norm_num) | exact lt_of_le_of_lt Nat.and_le_left (by assumption) | (split_ifs <;> decide) | decide
  · rw [divs_DVS15 m h] at hb
    cases hb
    simp only [MC68000.WF]
    and_intros <;>
      first | omega | exact andFlags_lt _ _ | exact subFlags_lt _ _ | exact Nat.mod_lt _ (by norm_num) | exact lt_of_le_of_lt Nat.and_le_left (by assumption) | (split_ifs <;> decide) | decide
  · rw [divs_DVS16 m h] at hb
    cases hb
    simp only [MC68000.WF]
    and_intros <;>
      first | omega | exact andFlags_lt _ _ | exact subFlags_lt _ _ | exact Nat.mod_lt _ (by norm_num) | exact lt_of_le_of_lt Nat.and_le_left (by assumption) | (split_ifs <;> decide) | decide
  · rw [divs_DVS1D m h] at hb
    cases hb
    simp only [MC68000.WF]
    and_intros <;>
      first | omega | exact andFlags_lt _ _ | exact subFlags_lt _ _ | exact Nat.mod_lt _ (by norm_num) | exact lt_of_le_of_lt Nat.and_le_left (by assumption) | (split_ifs <;> decide) | decide
  · rw [divs_DVS17 m h] at hb
    cases hb
    simp only [MC68000.WF]
    and_intros <;>
      first | omega | exact andFlags_lt _ _ | exact subFlags_lt _ _ | exact Nat.mod_lt _ (by norm_num) | exact lt_of_le_of_lt Nat.and_le_left (by assumption) | (split_ifs <;> decide) | decide
  · rw [divs_DVS1A m h] at hb
    cases hb
    simp only [MC68000.WF]
    and_intros <;>
      first | omega | exact andFlags_lt _ _ | exact subFlags_lt _ _ | exact Nat.mod_lt _ (by norm_num) | exact lt_of_le_of_lt Nat.and_le_left (by assumption) | (split_ifs <;> decide) | decide
  · rw [divs_DVS1B m h] at hb
    cases hb
    simp only [MC68000.WF]
    and_intros <;>
      first | omega | exact andFlags_lt _ _ | exact subFlags_lt _ _ | exact Nat.mod_lt _ (by norm_num) | exact lt_of_le_of_lt Nat.and_le_left (by assumption) | (split_ifs <;> decide) | decide
  · rw [divs_DVS1C m h] at hb
    cases hb
    simp only [MC68000.WF]
    and_intros <;>
      first | omega | exact andFlags_lt _ _ | exact subFlags_lt _ _ | exact Nat.mod_lt _ (by norm_num) | exact lt_of_le_of_lt Nat.and_le_left (by assumption) | (split_ifs <;> decide) | decide
  · rw [divs_DVS1F m h] at hb
    cases hb
    simp only [MC68000.WF]
    and_intros <;>
      first | omega | exact andFlags_lt _ _ | exact subFlags_lt _ _ | exact Nat.mod_lt _ (by norm_num) | exact lt_of_le_of_lt Nat.and_le_left (by assumption) | (split_ifs <;> decide) | decide
  · rw [divs_DVS20 m h] at hb
    cases hb
    simp only [MC68000.WF]
    and_intros <;>
      first | omega | exact andFlags_lt _ _ | exact subFlags_lt _ _ | exact Nat.mod_lt _ (by norm_num) | exact lt_of_le_of_lt Nat.and_le_left (by assumption) | (split_ifs <;> decide) | decide
  · rw [divs_DVS1E m h] at hb
    cases hb
    simp only [MC68000.WF]
    and_intros <;>
      first | omega | exact andFlags_lt _ _ | exact subFlags_lt _ _ | exact Nat.mod_lt _ (by norm_num) | exact lt_of_le_of_lt Nat.and_le_left (by assumption) | (split_ifs <;> decide) | decide
  · rw [divs_LEAA2 m h] at hb
    cases hb
    simp only [MC68000.WF]
    and_intros <;>
      first | omega | exact andFlags_lt _ _ | exact subFlags_lt _ _ | exact Nat.mod_lt _ (by norm_num) | exact lt_of_le_of_lt Nat.and_le_left (by assumption) | (split_ifs <;> decide) | decide
  · rw [divs_DVUM4 m h] at hb
    cases hb
    simp only [MC68000.WF]
    and_intros <;>
      first | omega | exact andFlags_lt _ _ | exact subFlags_lt _ _ | exact Nat.mod_lt _ (by norm_num) | exact lt_of_le_of_lt Nat.and_le_left (by assumption) | (split_ifs <;> decide) | decide
  · rw [divs_DVUMZ m h] at hb
    cases hb
    simp only [MC68000.WF]
    and_intros <;>
      first | omega | exact andFlags_lt _ _ | exact subFlags_lt _ _ | exact Nat.mod_lt _ (by norm_num) | exact lt_of_le_of_lt Nat.and_le_left (by assumption) | (split_ifs <;> decide) | decide
  · rw [divs_DVUMA m h] at hb
    cases hb
    simp only [MC68000.WF]
    and_intros <;>
      first | omega | exact andFlags_lt _ _ | exact subFlags_lt _ _ | exact Nat.mod_lt _ (by norm_num) | exact lt_of_le_of_lt Nat.and_le_left (by assumption) | (split_ifs <;> decide) | decide
  · rw [divs_TRAP0 m h] at hb
    cases hb
  · rw [divs_A1 m h] at hb
    cases hb

theorem divu_WF_step (m m1 : MC68000) (hw : m.WF) (hi : DivuCtl m)
    (hb : ExecuteDivu_body m = Control.next m1) : m1.WF := by
  have h2 := hi.1
  obtain ⟨hw1, hw2, hw3, hw4, hw5, he, hw7, ha, hf, hau2, hw11, hw12, hc⟩ := hw
  simp only [ExecuteDivu_cases, List.mem_cons, List.mem_singleton, List.not_mem_nil,
    or_false] at h2
  rcases h2 with
    h | h | h | h | h | h | h | h | h | h | h | h | h | h | h | h | h | h
  · rw [divu_DVUR1 m h] at hb
    cases hb
    simp only [MC68000.WF]
    and_intros <;>
      first | omega | exact andFlags_lt _ _ | exact subFlags_lt _ _ | exact Nat.mod_lt _ (by norm_num) | exact lt_of_le_of_lt Nat.and_le_left (by assumption) | (split_ifs <;> decide) | decide
  · rw [divu_DVUM2 m h] at hb
    cases hb
    simp only [MC68000.WF]
    and_intros <;>
      first | omega | exact andFlags_lt _ _ | exact subFlags_lt _ _ | exact Nat.mod_lt _ (by norm_num) | exact lt_of_le_of_lt Nat.and_le_left (by assumption) | (split_ifs <;> decide) | decide
  · rw [divu_DVUM3 m h] at hb
    cases hb
    simp only [MC68000.WF]
    and_intros <;>
      first | omega | exact andFlags_lt _ _ | exact subFlags_lt _ _ | exact Nat.mod_lt _ (by norm_num) | exact lt_of_le_of_lt Nat.and_le_left (by assumption) | (split_ifs <;> decide) | decide
  · rw [divu_DVUM5 m h] at hb
    cases hb
    simp only [MC68000.WF]
    and_intros <;>
      first | omega | exact andFlags_lt _ _ | exact subFlags_lt _ _ | exact Nat.mod_lt _ (by norm_num) | exact lt_of_le_of_lt Nat.and_le_left (by assumption) | (split_ifs <;> decide) | decide
  · rw [divu_DVUM6 m h] at hb
    cases hb
    simp only [MC68000.WF]
    and_intros <;>
      first | omega | exact andFlags_lt _ _ | exact subFlags_lt _ _ | exact Nat.mod_lt _ (by norm_num) | exact lt_of_le_of_lt Nat.and_le_left (by assumption) | (split_ifs <;> decide) | decide
  · rw [divu_DVUM7 m h] at hb
    cases hb
    simp only [MC68000.WF]
    and_intros <;>
      first | omega | exact andFlags_lt _ _ | exact subFlags_lt _ _ | exact Nat.mod_lt _ (by norm_num) | exact lt_of_le_of_lt Nat.and_le_left (by assumption) | (split_ifs <;> decide) | decide
  · rw [divu_DVUM8 m h] at hb
    cases hb
    simp only [MC68000.WF]
    and_intros <;>
      first | omega | exact andFlags_lt _ _ | exact subFlags_lt _ _ | exact Nat.mod_lt _ (by norm_num) | exact lt_of_le_of_lt Nat.and_le_left (by assumption) | (split_ifs <;> decide) | decide
  · rw [divu_DVUM9 m h] at hb
    cases hb
    simp only [MC68000.WF]
    and_intros <;>
      first | omega | exact andFlags_lt _ _ | exact subFlags_lt _ _ | exact Nat.mod_lt _ (by norm_num) | exact lt_of_le_of_lt Nat.and_le_left (by assumption) | (split_ifs <;> decide) | decide
  · rw [divu_DVUMB m h] at hb
    cases hb
    simp only [MC68000.WF]
    and_intros <;>
      first | omega | exact andFlags_lt _ _ | exact subFlags_lt _ _ | exact Nat.mod_lt _ (by norm_num) | exact lt_of_le_of_lt Nat.and_le_left (by assumption) | (split_ifs <;> decide) | decide
  · rw [divu_DVUMC m h] at hb
    cases hb
    simp only [MC68000.WF]
    and_intros <;>
      first | omega | exact andFlags_lt _ _ | exact subFlags_lt _ _ | exact Nat.mod_lt _ (by norm_num) | exact lt_of_le_of_lt Nat.and_le_left (by assumption) | (split_ifs <;> decide) | decide
  · rw [divu_DVUMD m h] at hb
    cases hb
    simp only [MC68000.WF]
    and_intros <;>
      first | omega | exact andFlags_lt _ _ | exact subFlags_lt _ _ | exact Nat.mod_lt _ (by norm_num) | exact lt_of_le_of_lt Nat.and_le_left (by assumption) | (split_ifs <;> decide) | decide
  · rw [divu_DVUME m h] at hb
    cases hb
    simp only [MC68000.WF]
    and_intros <;>
      first | omega | exact andFlags_lt _ _ | exact subFlags_lt _ _ | exact Nat.mod_lt _ (by norm_num) | exact lt_of_le_of_lt Nat.and_le_left (by assumption) | (split_ifs <;> decide) | decide
  · rw [divu_DVUMF m h] at hb
    cases hb
    simp only [MC68000.WF]
    and_intros <;>
      first | omega | exact andFlags_lt _ _ | exact subFlags_lt _ _ | exact Nat.mod_lt _ (by norm_num) | exact lt_of_le_of_lt Nat.and_le_left (by assumption) | (split_ifs <;> decide) | decide
  · rw [divu_DVUM0 m h] at hb
    cases hb
    simp only [MC68000.WF]
    and_intros <;>
      first | omega | exact andFlags_lt _ _ | exact subFlags_lt _ _ | exact Nat.mod_lt _ (by norm_num) | exact lt_of_le_of_lt Nat.and_le_left (by assumption) | (split_ifs <;> decide) | decide
  · rw [divu_DVUM4 m h] at hb
    cases hb
    simp only [MC68000.WF]
    and_intros <;>
      first | omega | exact andFlags_lt _ _ | exact subFlags_lt _ _ | exact Nat.mod_lt _ (by norm_num) | exact lt_of_le_of_lt Nat.and_le_left (by assumption) | (split_ifs <;> decide) | decide
  · rw [divu_DVUMA m h] at hb
    cases hb
    simp only [MC68000.WF]
    and_intros <;>
      first | omega | exact andFlags_lt _ _ | exact subFlags_lt _ _ | exact Nat.mod_lt _ (by norm_num) | exact lt_of_le_of_lt Nat.and_le_left (by assumption) | (split_ifs <;> decide) | decide
  · rw [divu_TRAP0 m h] at hb
    cases hb
  · rw [divu_A1 m h] at hb
    cases hb

theorem divs_passes_WF :
    ∀ (k : Nat) (s t : MC68000), s.WF → DivsCtl s → passes ExecuteDivs_body k s = some t →
      t.WF := by
  intro k
  induction k with
  | zero =>
    intro s t hw _ h
    simp only [passes, Option.some.injEq] at h
    subst h
    exact hw
  | succ k ih =>
    intro s t hw hi h
    simp only [passes] at h
    cases hb : ExecuteDivs_body s with
    | next s1 =>
      rw [hb] at h
      exact ih s1 t (divs_WF_step s s1 hw hi hb) (DivsCtl_step s s1 hi hb).1 h
    | ret s1 =>
      rw [hb] at h
      cases h

theorem divu_passes_WF :
    ∀ (k : Nat) (s t : MC68000), s.WF → DivuCtl s → passes ExecuteDivu_body k s = some t →
      t.WF := by
  intro k
  induction k with
  | zero =>
    intro s t hw _ h
    simp only [passes, Option.some.injEq] at h
    subst h
    exact hw
  | succ k ih =>
    intro s t hw hi h
    simp only [passes] at h
    cases hb : ExecuteDivu_body s with
    | next s1 =>
      rw [hb] at h
      exact ih s1 t (divu_WF_step s s1 hw hi hb) (DivuCtl_step s s1 hi hb).1 h
    | ret s1 =>
      rw [hb] at h
      cases h

/-! ## The flags of a completed division -/

theorem finalFlags_and (f q : Nat) (hq : q < 65536) : finalFlags (andFlags f q) q := by
  refine ⟨?_, ?_, andFlags_V0 _ _, andFlags_C0 _ _⟩
  · rw [Ne, andFlags_N0 _ _ hq, testBit15 _ hq, decide_eq_true_iff, not_lt]
  · rw [Ne, andFlags_Z0, not_not]

theorem finalFlags_sub (q : Nat) (hq : q < 65536) : finalFlags (subFlags q 0) q := by
  have e : (q + 65536 - 0) % 65536 = q := by omega
  refine ⟨?_, ?_, ?_, ?_⟩
  · rw [Ne, subFlags_N0, e, testBit15 _ hq, decide_eq_true_iff, not_lt]
  · rw [Ne, subFlags_Z0, e, not_not]
  · rw [subFlags_V0 q 0 hq (by norm_num)]
    unfold toInt16
    split_ifs <;> omega
  · rw [subFlags_C0 q 0 hq (by norm_num)]
    omega

theorem DivsFinal_step (s s1 : MC68000) (hw : s.WF) (hc : DivsCtl s) (hi : DivsFinal s)
    (hb : ExecuteDivs_body s = Control.next s1) : DivsFinal s1 := by
  have h2 := hc.1
  obtain ⟨hw1, hw2, hw3, hw4, hw5, he, hw7, ha, hf, hau2, hw11, hw12, hcy⟩ := hw
  simp only [ExecuteDivs_cases, List.mem_cons, List.mem_singleton, List.not_mem_nil,
    or_false] at h2
  rcases h2 with
    h | h | h | h | h | h | h | h | h | h | h | h | h | h | h | h | h | h | h | h |
    h | h | h | h | h | h | h | h | h | h | h | h | h | h
  · rw [divs_DVS01 s h] at hb
    cases hb
    refine ⟨fun hx => ?_, fun hx => ?_, fun hx => ?_⟩ <;> simp only [] at hx <;>
      exact absurd hx (by decide)
  · rw [divs_DVS03 s h] at hb
    cases hb
    refine ⟨fun hx => ?_, fun hx => ?_, fun hx => ?_⟩ <;> simp only [] at hx <;>
      split_ifs at hx <;> exact absurd hx (by decide)
  · rw [divs_DVS04 s h] at hb
    cases hb
    refine ⟨fun hx => ?_, fun hx => ?_, fun hx => ?_⟩ <;> simp only [] at hx <;>
      exact absurd hx (by decide)
  · rw [divs_DVS05 s h] at hb
    cases hb
    refine ⟨fun hx => ?_, fun hx => ?_, fun hx => ?_⟩ <;> simp only [] at hx <;>
      exact absurd hx (by decide)
  · rw [divs_DVS06 s h] at hb
    cases hb
    refine ⟨fun hx => ?_, fun hx => ?_, fun hx => ?_⟩ <;> simp only [] at hx <;>
      split_ifs at hx <;> exact absurd hx (by decide)
  · rw [divs_DVS07 s h] at hb
    cases hb
    refine ⟨fun hx => ?_, fun hx => ?_, fun hx => ?_⟩ <;> simp only [] at hx <;>
      exact absurd hx (by decide)
  · rw [divs_DVS08 s h] at hb
    cases hb
    refine ⟨fun hx => ?_, fun hx => ?_, fun hx => ?_⟩ <;> simp only [] at hx <;>
      split_ifs at hx <;> exact absurd hx (by decide)
  · rw [divs_DVS10 s h] at hb
    cases hb
    refine ⟨fun hx => ?_, fun hx => ?_, fun hx => ?_⟩ <;> simp only [] at hx <;>
      exact absurd hx (by decide)
  · rw [divs_DVS11 s h] at hb
    cases hb
    refine ⟨fun hx => ?_, fun hx => ?_, fun hx => ?_⟩ <;> simp only [] at hx <;>
      exact absurd hx (by decide)
  · rw [divs_DVS09 s h] at hb
    cases hb
    refine ⟨fun hx => ?_, fun hx => ?_, fun hx => ?_⟩ <;> simp only [] at hx <;>
      exact absurd hx (by decide)
  · rw [divs_DVS0A s h] at hb
    cases hb
    refine ⟨fun hx => ?_, fun hx => ?_, fun hx => ?_⟩ <;> simp only [] at hx <;>
      exact absurd hx (by decide)
  · rw [divs_DVS0C s h] at hb
    cases hb
    refine ⟨fun hx => ?_, fun hx => ?_, fun hx => ?_⟩ <;> simp only [] at hx <;>
      split_ifs at hx <;> exact absurd hx (by decide)
  · rw [divs_DVS0D s h] at hb
    cases hb
    refine ⟨fun hx => ?_, fun hx => ?_, fun hx => ?_⟩ <;> simp only [] at hx <;>
      split_ifs at hx <;> exact absurd hx (by decide)
  · rw [divs_DVS0F s h] at hb
    cases hb
    refine ⟨fun hx => ?_, fun hx => ?_, fun hx => ?_⟩ <;> simp only [] at hx <;>
      exact absurd hx (by decide)
  · rw [divs_DVS0E s h] at hb
    cases hb
    refine ⟨fun hx => ?_, fun hx => ?_, fun hx => ?_⟩ <;> simp only [] at hx <;>
      split_ifs at hx <;> exact absurd hx (by decide)
  · rw [divs_DVS12 s h] at hb
    cases hb
    refine ⟨fun hx => ?_, fun hx => ?_, fun hx => ?_⟩ <;> simp only [] at hx <;>
      exact absurd hx (by decide)
  · rw [divs_DVS13 s h] at hb
    cases hb
    refine ⟨fun hx => ?_, fun hx => ?_, fun hx => ?_⟩ <;> simp only [] at hx <;>
      exact absurd hx (by decide)
  · rw [divs_DVS14 s h] at hb
    cases hb
    refine ⟨fun hx => ?_, fun hx => ?_, fun hx => ?_⟩ <;> simp only [] at hx <;>
      exact absurd hx (by decide)
  · rw [divs_DVS15 s h] at hb
    cases hb
    refine ⟨fun hx => ?_, fun hx => ?_, fun hx => ?_⟩ <;> simp only [] at hx <;>
      split_ifs at hx <;> exact absurd hx (by decide)
  · rw [divs_DVS16 s h] at hb
    cases hb
    refine ⟨fun hx => ?_, fun hx => ?_, fun hx => ?_⟩
    · show s.alub &&& 0xFFFF = s.alub
      exact and_FFFF _ hw7
    · simp only [] at hx
      split_ifs at hx <;> exact absurd hx (by decide)
    · simp only [] at hx
      split_ifs at hx <;> exact absurd hx (by decide)
  · rw [divs_DVS1D s h] at hb
    cases hb
    refine ⟨fun hx => ?_, fun hx => ?_, fun hx => ?_⟩ <;> simp only [] at hx <;>
      split_ifs at hx <;> exact absurd hx (by decide)
  · rw [divs_DVS17 s h] at hb
    cases hb
    refine ⟨fun hx => ?_, fun hx => ?_, fun hx => ?_⟩
    · simp only [] at hx
      split_ifs at hx <;> exact absurd hx (by decide)
    · simp only [] at hx
      split_ifs at hx <;> exact absurd hx (by decide)
    · show finalFlags (andFlags s.flags (s.alub &&& 0xFFFF)) s.alu
      rw [and_FFFF _ hw7, hi.1 h]
      exact finalFlags_and _ _ hw7
  · rw [divs_DVS1A s h] at hb
    cases hb
    refine ⟨fun hx => ?_, fun hx => ?_, fun hx => ?_⟩ <;> simp only [] at hx <;>
      exact absurd hx (by decide)
  · rw [divs_DVS1B s h] at hb
    cases hb
    refine ⟨fun hx => ?_, fun hx => ?_, fun hx => ?_⟩
    · simp only [] at hx
      split_ifs at hx <;> exact absurd hx (by decide)
    · rfl
    · simp only [] at hx
      split_ifs at hx <;> exact absurd hx (by decide)
  · rw [divs_DVS1C s h] at hb
    cases hb
    refine ⟨fun hx => ?_, fun hx => ?_, fun hx => ?_⟩
    · simp only [] at hx
      exact absurd hx (by decide)
    · simp only [] at hx
      exact absurd hx (by decide)
    · show finalFlags (andFlags s.flags (s.alub &&& 0xFFFF)) s.atl
      rw [and_FFFF _ hw7, hi.2.1 h]
      exact finalFlags_and _ _ hw7
  · rw [divs_DVS1F s h] at hb
    cases hb
    refine ⟨fun hx => ?_, fun hx => ?_, fun hx => ?_⟩ <;> simp only [] at hx <;>
      exact absurd hx (by decide)
  · rw [divs_DVS20 s h] at hb
    cases hb
    refine ⟨fun hx => ?_, fun hx => ?_, fun hx => ?_⟩
    · simp only [] at hx
      split_ifs at hx <;> exact absurd hx (by decide)
    · simp only [] at hx
      split_ifs at hx <;> exact absurd hx (by decide)
    · show finalFlags (andFlags s.flags (s.alu &&& 0xFFFF)) s.alu
      rw [and_FFFF _ ha]
      exact finalFlags_and _ _ ha
  · rw [divs_DVS1E s h] at hb
    cases hb
    refine ⟨fun hx => ?_, fun hx => ?_, fun hx => ?_⟩
    · simp only [] at hx
      split_ifs at hx <;> exact absurd hx (by decide)
    · rfl
    · simp only [] at hx
      split_ifs at hx <;> exact absurd hx (by decide)
  · rw [divs_LEAA2 s h] at hb
    cases hb
    refine ⟨fun hx => ?_, fun hx => ?_, fun hx => ?_⟩ <;> simp only [] at hx <;>
      exact absurd hx (by decide)
  · rw [divs_DVUM4 s h] at hb
    cases hb
    refine ⟨fun hx => ?_, fun hx => ?_, fun hx => ?_⟩ <;> simp only [] at hx <;>
      exact absurd hx (by decide)
  · rw [divs_DVUMZ s h] at hb
    cases hb
    refine ⟨fun hx => ?_, fun hx => ?_, fun hx => ?_⟩ <;> simp only [] at hx <;>
      exact absurd hx (by decide)
  · rw [divs_DVUMA s h] at hb
    cases hb
    refine ⟨fun hx => ?_, fun hx => ?_, fun hx => ?_⟩ <;> simp only [] at hx <;>
      exact absurd hx (by decide)
  · rw [divs_TRAP0 s h] at hb
    cases hb
  · rw [divs_A1 s h] at hb
    cases hb

theorem DivuTail_step (s s1 : MC68000) (hw : s.WF) (hi : DivuTail s)
    (hb : ExecuteDivu_body s = Control.next s1) : DivuTail s1 := by
  obtain ⟨h2, i2, i3, i4⟩ := hi
  obtain ⟨hw1, hw2, hw3, hw4, hw5, he, hw7, ha, hf, hau2, hw11, hw12, hcy⟩ := hw
  simp only [List.mem_cons, List.mem_singleton, List.not_mem_nil, or_false] at h2
  rcases h2 with
    h | h | h | h | h | h | h | h | h | h | h | h
  · rw [divu_DVUM5 s h] at hb
    cases hb
    refine ⟨?_, fun hx => ?_, fun hx => ?_, fun hx => ?_⟩
    · simp only []
      split_ifs <;> decide
    · rcases hx with hx | hx <;> simp only [] at hx <;> split_ifs at hx <;>
        exact absurd hx (by decide)
    · simp only [] at hx
      split_ifs at hx <;> exact absurd hx (by decide)
    · simp only [] at hx
      split_ifs at hx <;> exact absurd hx (by decide)
  · rw [divu_DVUM6 s h] at hb
    cases hb
    refine ⟨?_, fun hx => ?_, fun hx => ?_, fun hx => ?_⟩
    · simp only []
      split_ifs <;> decide
    · rcases hx with hx | hx <;> simp only [] at hx <;> split_ifs at hx <;>
        exact absurd hx (by decide)
    · simp only [] at hx
      split_ifs at hx <;> exact absurd hx (by decide)
    · simp only [] at hx
      split_ifs at hx <;> exact absurd hx (by decide)
  · rw [divu_DVUM7 s h] at hb
    cases hb
    refine ⟨?_, fun hx => ?_, fun hx => ?_, fun hx => ?_⟩
    · simp only []
      split_ifs <;> decide
    · rcases hx with hx | hx <;> simp only [] at hx <;> split_ifs at hx <;>
        exact absurd hx (by decide)
    · simp only [] at hx
      split_ifs at hx <;> exact absurd hx (by decide)
    · simp only [] at hx
      split_ifs at hx <;> exact absurd hx (by decide)
  · rw [divu_DVUM8 s h] at hb
    cases hb
    refine ⟨?_, fun hx => ?_, fun hx => ?_, fun hx => ?_⟩
    · simp only []
      split_ifs <;> decide
    · rcases hx with hx | hx <;> simp only [] at hx <;> split_ifs at hx <;>
        exact absurd hx (by decide)
    · simp only [] at hx
      split_ifs at hx <;> exact absurd hx (by decide)
    · simp only [] at hx
      split_ifs at hx <;> exact absurd hx (by decide)
  · rw [divu_DVUM9 s h] at hb
    cases hb
    refine ⟨?_, fun hx => ?_, fun hx => ?_, fun hx => ?_⟩
    · simp only []
      decide
    · exact Nat.and_zero _
    · simp only [] at hx
      exact absurd hx (by decide)
    · simp only [] at hx
      exact absurd hx (by decide)
  · rw [divu_DVUMB s h] at hb
    cases hb
    refine ⟨?_, fun hx => ?_, fun hx => ?_, fun hx => ?_⟩
    · simp only []
      split_ifs <;> decide
    · rcases hx with hx | hx <;> simp only [] at hx <;> split_ifs at hx <;>
        exact absurd hx (by decide)
    · simp only [] at hx
      split_ifs at hx <;> exact absurd hx (by decide)
    · simp only [] at hx
      split_ifs at hx <;> exact absurd hx (by decide)
  · rw [divu_DVUMC s h] at hb
    cases hb
    refine ⟨?_, fun hx => ?_, fun hx => ?_, fun hx => ?_⟩
    · simp only []
      split_ifs <;> decide
    · exact Nat.and_zero _
    · simp only [] at hx
      split_ifs at hx <;> exact absurd hx (by decide)
    · simp only [] at hx
      split_ifs at hx <;> exact absurd hx (by decide)
  · rw [divu_DVUMD s h] at hb
    cases hb
    refine ⟨?_, fun hx => ?_, fun hx => ?_, fun hx => ?_⟩
    · simp only []
      decide
    · rcases hx with hx | hx <;> simp only [] at hx <;> exact absurd hx (by decide)
    · exact i2 (Or.inl h)
    · simp only [] at hx
      exact absurd hx (by decide)
  · rw [divu_DVUME s h] at hb
    cases hb
    refine ⟨?_, fun hx => ?_, fun hx => ?_, fun hx => ?_⟩
    · simp only []
      decide
    · rcases hx with hx | hx <;> simp only [] at hx <;> exact absurd hx (by decide)
    · simp only [] at hx
      exact absurd hx (by decide)
    · simp only [] at hx
      exact absurd hx (by decide)
  · rw [divu_DVUMF s h] at hb
    cases hb
    refine ⟨?_, fun hx => ?_, fun hx => ?_, fun hx => ?_⟩
    · simp only []
      decide
    · rcases hx with hx | hx <;> simp only [] at hx <;> exact absurd hx (by decide)
    · exact i2 (Or.inr h)
    · simp only [] at hx
      exact absurd hx (by decide)
  · rw [divu_DVUM0 s h] at hb
    cases hb
    refine ⟨?_, fun hx => ?_, fun hx => ?_, fun hx => ?_⟩
    · simp only []
      decide
    · rcases hx with hx | hx <;> simp only [] at hx <;> exact absurd hx (by decide)
    · simp only [] at hx
      exact absurd hx (by decide)
    · show finalFlags (subFlags s.alue s.alub) s.alue
      rw [i3 h]
      exact finalFlags_sub _ he
  · rw [divu_A1 s h] at hb
    cases hb

theorem divs_final_reach (m : MC68000) (hw : m.WF) (n : Nat) (s : MC68000)
    (hs : passes ExecuteDivs_body n (divsStart m) = some s) : s.WF ∧ DivsFinal s := by
  have h := passes_inv ExecuteDivs_body (fun x => x.WF ∧ DivsCtl x ∧ DivsFinal x)
    (fun a b hi hb => ⟨divs_WF_step a b hi.1 hi.2.1 hb, (DivsCtl_step a b hi.2.1 hb).1,
      DivsFinal_step a b hi.1 hi.2.1 hi.2.2 hb⟩) n (divsStart m) s
    ⟨WF_init m _ (by decide) hw, DivsCtl_start m, ?_⟩ hs
  · exact ⟨h.1, h.2.2⟩
  · refine ⟨fun hx => ?_, fun hx => ?_, fun hx => ?_⟩ <;>
      exact absurd (show DVS01 = _ from hx) (by decide)

theorem divsRank_start (m : MC68000) : divsRank (divsStart m) = 78 := by
  simp [divsRank, divsStart]

theorem ExecuteDivs_writeback_flags (m : MC68000) (hw : m.WF) (N : Nat) (t : MC68000)
    (ht : passes ExecuteDivs_body N (divsStart m) = some t) (hl : t.microword = LEAA2) :
    ∃ r, ExecuteDivs m = some r ∧ r.rxdl = t.atl ∧ r.rxdh = t.ath ∧
      finalFlags r.flags r.rxdl := by
  obtain ⟨hwt, -, -, hf⟩ := divs_final_reach m hw N t ht
  have hr := (divs_passes_rank N _ t (DivsCtl_start m) ht).2
  rw [divsRank_start] at hr
  obtain ⟨a, hb, e⟩ := next_exists (divs_LEAA2 t hl)
  have hp : passes ExecuteDivs_body (N + 1) (divsStart m) = some a :=
    passes_trans _ _ _ _ _ _ ht (passes_one _ _ _ hb)
  have hx := ExecuteDivs_of_passes m a (N + 1) (by omega) hp (Or.inl (by rw [e]))
    (by rw [e]; exact Nat.mod_lt _ (by norm_num))
  refine ⟨a, hx, by rw [e], by rw [e], ?_⟩
  rw [e]
  exact hf hl

theorem ExecuteDivu_normal_flags (m : MC68000) (hw : m.WF) (h0 : m.rydl ≠ 0)
    (hlt : m.rxdh < m.rydl) :
    ∃ r, ExecuteDivu m = some r ∧ r.rxdl = (m.rxdh * 65536 + m.rxdl) / m.rydl ∧
      finalFlags r.flags r.rxdl := by
  obtain ⟨r, hr, l, -, xl, -, -⟩ := ExecuteDivu_normal m hw h0 hlt
  obtain ⟨n, a, -, pa, -, e, -⟩ := divu_return m r hw hr
  subst e
  obtain ⟨m3, p3, at3, -, -⟩ :=
    divu_prologue { m with microword := DVUR1 } (WF_init m _ (by decide) hw) rfl h0 hlt
  have p3' : passes ExecuteDivu_body 3 (divuStart m) = some m3 := p3
  have hle := passes_le_of_ret ExecuteDivu_body n 3 _ r _ m3 pa (divu_A1 r l) p3'
  have hsub := passes_sub ExecuteDivu_body 3 n _ m3 r hle p3' pa
  have t3 : DivuTail m3 := by
    have hm : m3.microword = DVUM5 := by
      rw [at3.2.1]
      rfl
    refine ⟨by rw [hm]; decide, fun hx => ?_, fun hx => ?_, fun hx => ?_⟩
    · rw [hm] at hx
      rcases hx with hx | hx <;> exact absurd hx (by decide)
    · rw [hm] at hx
      exact absurd hx (by decide)
    · rw [hm] at hx
      exact absurd hx (by decide)
  have h := passes_inv ExecuteDivu_body (fun x => x.WF ∧ DivuCtl x ∧ DivuTail x)
    (fun a b hi hb => ⟨divu_WF_step a b hi.1 hi.2.1 hb, (DivuCtl_step a b hi.2.1 hb).1,
      DivuTail_step a b hi.1 hi.2.2 hb⟩) (n - 3) m3 r
    ⟨at3.1, DivuCtl_reach m m3 3 p3', t3⟩ hsub
  exact ⟨r, hr, xl, h.2.2.2.2.2 l⟩

/-- Claim C23. Final flags on a completed division: whenever `ExecuteDivu` ends on its
normal path (`rydl ≠ 0` and `rxdh < rydl`), and whenever a run of `ExecuteDivs` dispatches
the writeback state LEAA2, the engine returns and the flags register on return has N equal
to bit 15 of the final `rxdl` (the quotient), Z set iff the final `rxdl` is 0, and V and C
both clear. -/
theorem final_flags (m : MC68000) (hw : m.WF) :
    (m.rydl ≠ 0 → m.rxdh < m.rydl →
      ∃ r, ExecuteDivu m = some r ∧ r.rxdl = dividend m / m.rydl ∧
        (r.flags &&& FLAG_N ≠ 0 ↔ r.rxdl.testBit 15 = true) ∧
        (r.flags &&& FLAG_Z ≠ 0 ↔ r.rxdl = 0) ∧
        r.flags &&& FLAG_V = 0 ∧ r.flags &&& FLAG_C = 0) ∧
    (∀ N t, passes ExecuteDivs_body N (divsStart m) = some t → t.microword = LEAA2 →
      ∃ r, ExecuteDivs m = some r ∧ r.rxdl = t.atl ∧ r.rxdh = t.ath ∧
        (r.flags &&& FLAG_N ≠ 0 ↔ r.rxdl.testBit 15 = true) ∧
        (r.flags &&& FLAG_Z ≠ 0 ↔ r.rxdl = 0) ∧
        r.flags &&& FLAG_V = 0 ∧ r.flags &&& FLAG_C = 0) := by
  constructor
  · intro h0 hlt
    obtain ⟨r, hr, xl, hf⟩ := ExecuteDivu_normal_flags m hw h0 hlt
    exact ⟨r, hr, xl, hf⟩
  · intro N t ht hl
    obtain ⟨r, hr, xl, xh, hf⟩ := ExecuteDivs_writeback_flags m hw N t ht hl
    exact ⟨r, hr, xl, xh, hf⟩

set_option maxRecDepth 100000 in
theorem final_flags_witness :
    (testInput 4294967267 5).WF ∧
    (∃ t, passes ExecuteDivs_body 76 (divsStart (testInput 4294967267 5)) = some t ∧
      t.microword = LEAA2 ∧
      ∃ r, ExecuteDivs (testInput 4294967267 5) = some r ∧ r.rxdl = t.atl ∧
        r.rxdh = t.ath ∧
        (r.flags &&& FLAG_N ≠ 0 ↔ r.rxdl.testBit 15 = true) ∧
        (r.flags &&& FLAG_Z ≠ 0 ↔ r.rxdl = 0) ∧
        r.flags &&& FLAG_V = 0 ∧ r.flags &&& FLAG_C = 0) ∧
    (testInput 0xFFFF 1).rydl ≠ 0 ∧ (testInput 0xFFFF 1).rxdh < (testInput 0xFFFF 1).rydl ∧
    (∃ r, ExecuteDivu (testInput 0xFFFF 1) = some r ∧
      r.rxdl = dividend (testInput 0xFFFF 1) / (testInput 0xFFFF 1).rydl ∧
      (r.flags &&& FLAG_N ≠ 0 ↔ r.rxdl.testBit 15 = true) ∧
      (r.flags &&& FLAG_Z ≠ 0 ↔ r.rxdl = 0) ∧
      r.flags &&& FLAG_V = 0 ∧ r.flags &&& FLAG_C = 0) :=
  ⟨by decide,
    ⟨_, rfl, rfl,
      (final_flags (testInput 4294967267 5) (by decide)).2 76 _ rfl rfl⟩,
    by decide, by decide,
    (final_flags (testInput 0xFFFF 1) (by decide)).1 (by decide) (by decide)⟩

/-! ## The invariant of the signed main loop -/

theorem divsRank_shift (s : MC68000) (h : s.microword = DVS09 ∨ s.microword = DVS0A) :
    divsRank s = 4 * s.au + 7 := by
  rcases h with h | h <;> simp [divsRank, h]

theorem divs_head (m : MC68000) (hw : m.WF) (h0 : m.rydl ≠ 0)
    (hlt : absHi m.rxdh m.rxdl < absDivisor m.rydl) (i : Nat) (hi : i ≤ 15) :
    ∃ n s w, passes ExecuteDivs_body n (divsStart m) = some s ∧
      DivsAt m (absDivisor m.rydl) s w (16 - i) ∧ w.Ok (absDivisor m.rydl) := by
  have hd := absDivisor_bounds m.rydl hw.2.2.2.1 h0
  have hlo := absLo_lt m.rxdh m.rxdl hw.2.2.1
  obtain ⟨m1, p1, w1, l1, a1, e1, u1, b1, t1, xh1, xl1, y1, -⟩ :=
    divs_prologue { m with microword := DVS01 } (WF_init m _ (by decide) hw) rfl h0
  simp only at p1 l1 a1 e1 t1 xh1 xl1 y1
  rw [if_pos hlt] at l1
  have ok0 : Work.Ok (absDivisor m.rydl) ⟨absHi m.rxdh m.rxdl, absLo m.rxdh m.rxdl, 0⟩ :=
    ⟨hlt, hlo, Nat.zero_le _⟩
  have e16 : 16 = (15 - i) + i + 1 := by omega
  have at1 : DivsAt m (absDivisor m.rydl) m1
      ⟨absHi m.rxdh m.rxdl, absLo m.rxdh m.rxdl, 0⟩ ((15 - i) + i + 1) :=
    ⟨w1, l1, a1, e1, by rw [u1]; exact e16, b1, t1, xh1, xl1, y1⟩
  obtain ⟨m2, p2, at2, -, ok2⟩ :=
    divs_iters m (absDivisor m.rydl) hd.2 i (15 - i) m1 _ ok0 at1
  have e : 15 - i + 1 = 16 - i := by omega
  rw [e] at at2
  exact ⟨_, m2, _, passes_trans _ _ _ _ _ _ p1 p2, at2, ok2⟩

theorem divs_trap_states (m : MC68000) (hw : m.WF) (h0 : m.rydl = 0) (n : Nat)
    (s : MC68000) (hs : passes ExecuteDivs_body n (divsStart m) = some s) :
    s.microword ∈ [DVS01, DVS03, TRAP0] := by
  obtain ⟨s1, r, p1, l1, p2, l2⟩ := divs_trap_passes m hw h0
  have hle := passes_le_of_ret ExecuteDivs_body 2 n _ r _ s p2 (divs_TRAP0 r l2) hs
  have hn : n = 0 ∨ n = 1 ∨ n = 2 := by omega
  rcases hn with e | e | e
  · subst e
    simp only [passes, Option.some.injEq] at hs
    subst hs
    simp [divsStart]
  · subst e
    rw [p1] at hs
    cases hs
    simp [l1]
  · subst e
    rw [p2] at hs
    cases hs
    simp [l2]

theorem divs_early_states (m : MC68000) (hw : m.WF) (h0 : m.rydl ≠ 0)
    (hge : absDivisor m.rydl ≤ absHi m.rxdh m.rxdl) (n : Nat) (s : MC68000)
    (hs : passes ExecuteDivs_body n (divsStart m) = some s) :
    s.microword ∈ [DVS01, DVS03, DVS04, DVS05, DVS06, DVS07, DVS10, DVS11, DVS08,
      DVUMZ, DVUMA, A1] := by
  obtain ⟨s8, p8, -, l8, -⟩ := divs_to_DVS08 m hw h0
  obtain ⟨z, a, r, pz, lz, pa, la, pr, lr⟩ := divs_early_passes m hw h0 hge
  have hle := passes_le_of_ret ExecuteDivs_body _ n _ r _ s pr (divs_A1 r lr) hs
  by_cases c8 : n ≤ 3 + (if 32768 ≤ m.rxdh then 3 else 2)
  · have hsub := passes_sub ExecuteDivs_body n _ _ s s8 c8 hs p8
    have hk := (divs_passes_rank _ s s8 (DivsCtl_reach m s n hs) hsub).2
    rw [divsRank_DVS08 s8 l8] at hk
    have hm := divs_rank_ge_72 s (DivsCtl_reach m s n hs) (by omega)
    simp only [List.mem_cons, List.mem_singleton, List.not_mem_nil, or_false] at hm ⊢
    rcases hm with h | h | h | h | h | h | h | h | h <;> simp [h]
  · have hn : n = 3 + (if 32768 ≤ m.rxdh then 4 else 3) ∨
        n = 3 + (if 32768 ≤ m.rxdh then 4 else 3) + 1 ∨
        n = 3 + (if 32768 ≤ m.rxdh then 4 else 3) + 2 := by
      split_ifs at c8 hle ⊢ <;> omega
    rcases hn with e | e | e
    · rw [e, pz] at hs
      cases hs
      simp [lz]
    · rw [e, pa] at hs
      cases hs
      simp [la]
    · rw [e, pr] at hs
      cases hs
      simp [lr]

theorem divs_shift_state (m : MC68000) (hw : m.WF) (n : Nat) (s : MC68000)
    (hs : passes ExecuteDivs_body n (divsStart m) = some s)
    (hmw : s.microword = DVS09 ∨ s.microword = DVS0A) :
    s.WF ∧ 1 ≤ s.alub ∧ s.alub ≤ 0x8000 ∧ s.alu < s.alub ∧ 1 ≤ s.au ∧ s.au ≤ 16 := by
  by_cases h0 : m.rydl = 0
  · exfalso
    have h := divs_trap_states m hw h0 n s hs
    rcases hmw with e | e <;> rw [e] at h <;> simp at h
  · by_cases hlt : absHi m.rxdh m.rxdl < absDivisor m.rydl
    · have hctl := DivsCtl_reach m s n hs
      obtain ⟨ha1, ha2⟩ := hctl.2.1 hmw
      obtain ⟨n1, h, w, ph, ah, ok⟩ := divs_head m hw h0 hlt (16 - s.au) (by omega)
      have hb := absDivisor_bounds m.rydl hw.2.2.2.1 h0
      have hmwh : h.microword = DVS09 ∨ h.microword = DVS0A := by
        rw [ah.2.1]
        split_ifs
        · exact Or.inr rfl
        · exact Or.inl rfl
      have hau : h.au = s.au := by
        rw [ah.2.2.2.2.1]
        omega
      obtain ⟨-, e⟩ := divs_rank_inj m s h n n1 hs ph
        (by rw [divsRank_shift s hmw, divsRank_shift h hmwh, hau])
      subst e
      refine ⟨ah.1, ?_, ?_, ?_, ha1, ha2⟩
      · rw [ah.2.2.2.2.2.1]
        exact hb.1
      · rw [ah.2.2.2.2.2.1]
        exact hb.2
      · rw [ah.2.2.2.2.2.1, ah.2.2.1]
        exact ok.1
    · exfalso
      have h := divs_early_states m hw h0 (by omega) n s hs
      rcases hmw with e | e <;> rw [e] at h <;> simp at h

/-- Claim C24. Signed main-loop invariant: in `ExecuteDivs`, every register file of a run
that is about to dispatch a shift state (DVS09 or DVS0A) has `alub` in `1..0x8000` and
`alu < alub` as unsigned values, so bit 15 of `alu` is clear and `AluOp_SLAAx` does not
shift a set bit out of the top of `alu`: the new `alu` is `2 * alu + (top bit of alue)`
without wrap-around. -/
theorem ExecuteDivs_shift_invariant (m : MC68000) (hw : m.WF) (n : Nat) (s : MC68000)
    (hs : passes ExecuteDivs_body n (divsStart m) = some s)
    (hmw : s.microword = DVS09 ∨ s.microword = DVS0A) :
    1 ≤ s.alub ∧ s.alub ≤ 0x8000 ∧ s.alu < s.alub ∧ s.alu.testBit 15 = false ∧
    (s.alu <<< 1) / 65536 = 0 ∧
    ∀ b, (AluOp_SLAAx s b).1.alu = 2 * s.alu + s.alue / 32768 := by
  obtain ⟨hws, h1, h2, h3, -, -⟩ := divs_shift_state m hw n s hs hmw
  have ha : s.alu < 65536 := hws.2.2.2.2.2.2.2.1
  have he : s.alue < 65536 := hws.2.2.2.2.2.1
  refine ⟨h1, h2, h3, ?_, ?_, ?_⟩
  · rw [testBit15 s.alu ha]
    simp only [decide_eq_false_iff_not, not_le]
    omega
  · rw [Nat.shiftLeft_eq]
    omega
  · intro b
    have e : (AluOp_SLAAx s b).1.alu =
        ((s.alu <<< 1) % 65536 + ((s.alue >>> 15) &&& 1)) % 65536 := rfl
    rw [e, slaax_alu s.alu s.alue he]
    omega

set_option maxRecDepth 100000 in
theorem ExecuteDivs_shift_invariant_witness :
    (scratchInput 0x7FFF0000 0x8000).WF ∧
    ∃ s, passes ExecuteDivs_body 15 (divsStart (scratchInput 0x7FFF0000 0x8000)) = some s ∧
      (s.microword = DVS09 ∨ s.microword = DVS0A) ∧
      1 ≤ s.alub ∧ s.alub ≤ 0x8000 ∧ s.alu < s.alub ∧ s.alu.testBit 15 = false ∧
      (s.alu <<< 1) / 65536 = 0 ∧
      ∀ b, (AluOp_SLAAx s b).1.alu = 2 * s.alu + s.alue / 32768 :=
  ⟨by decide, _, rfl, Or.inr rfl,
    ExecuteDivs_shift_invariant (scratchInput 0x7FFF0000 0x8000) (by decide) 15 _ rfl
      (Or.inr rfl)⟩

/-! ## Bounds on the cycle counts -/

theorem divuCost_ge (d : Nat) (w : Work) : 2 ≤ divuCost d w := by
  unfold divuCost
  split_ifs <;> omega

theorem divuPasses_ge (d : Nat) (n : Nat) (w : Work) : 2 * n ≤ divuPasses d n w := by
  induction n generalizing w with
  | zero => simp [divuPasses]
  | succ n ih =>
    have := ih (shiftSub d w)
    have := divuCost_ge d w
    simp only [divuPasses]
    omega

theorem divsCost_ge (d : Nat) (w : Work) : 3 ≤ divsCost d w := by
  unfold divsCost
  split_ifs <;> omega

theorem divsPasses_ge (d : Nat) (n : Nat) (w : Work) : 3 * n ≤ divsPasses d n w := by
  induction n generalizing w with
  | zero => simp [divsPasses]
  | succ n ih =>
    have := ih (shiftSub d w)
    have := divsCost_ge d w
    simp only [divsPasses]
    omega

/-- Claim C25. Unsigned timing bounds: for every input with `rydl ≠ 0` and `rxdh < rydl`
(normal path), `ExecuteDivu` returns and the increase of `cycles` it causes is at least 76
and at most 136. -/
theorem ExecuteDivu_cycles_bounds (m : MC68000) (hw : m.WF) (h0 : m.rydl ≠ 0)
    (hlt : m.rxdh < m.rydl) :
    ∃ r, ExecuteDivu m = some r ∧ 76 ≤ cyclesSpent m r ∧ cyclesSpent m r ≤ 136 := by
  have hd : m.rydl < 65536 := hw.2.2.2.1
  have hl : m.rxdl < 65536 := hw.2.2.1
  obtain ⟨r, hr, -, -, -, -, hc⟩ := ExecuteDivu_normal m hw h0 hlt
  rw [DivideUnsignedCycles_normal m.rxdh m.rxdl m.rydl hd hlt hl] at hc
  have h1 := divuPasses_le m.rydl 15 ⟨m.rxdh, m.rxdl, 0⟩
  have h2 := divuPasses_ge m.rydl 15 ⟨m.rxdh, m.rxdl, 0⟩
  have e := cyclesSpent_of_eq m r _ hw.2.2.2.2.2.2.2.2.2.2.2.2 (by omega) hc
  refine ⟨r, hr, ?_, ?_⟩ <;> rw [e] <;> omega

theorem ExecuteDivu_cycles_bounds_witness :
    (testInput 29 5).WF ∧ (testInput 29 5).rydl ≠ 0 ∧
    (testInput 29 5).rxdh < (testInput 29 5).rydl ∧
    ∃ r, ExecuteDivu (testInput 29 5) = some r ∧ 76 ≤ cyclesSpent (testInput 29 5) r ∧
      cyclesSpent (testInput 29 5) r ≤ 136 :=
  ⟨by decide, by decide, by decide,
    ExecuteDivu_cycles_bounds (testInput 29 5) (by decide) (by decide) (by decide)⟩

/-- Claim C26. Signed timing bounds: for every input with `rydl ≠ 0` that passes the
early overflow test (`|D| / |d| < 0x10000`), `ExecuteDivs` returns and the increase of
`cycles` it causes is at least 120 and at most 156, whether the run ends in writeback or
in late overflow. -/
theorem ExecuteDivs_cycles_bounds (m : MC68000) (hw : m.WF) (h0 : m.rydl ≠ 0)
    (hq : absQuotient m < 0x10000) :
    ∃ r, ExecuteDivs m = some r ∧ 120 ≤ cyclesSpent m r ∧ cyclesSpent m r ≤ 156 := by
  have hb := absDivisor_bounds m.rydl hw.2.2.2.1 h0
  have hlo := absLo_lt m.rxdh m.rxdl hw.2.2.1
  have hlt : absHi m.rxdh m.rxdl < absDivisor m.rydl := by
    rw [(absQuotient_eq m hw).1] at hq
    exact (quot_lt_iff _ _ _ hlo hb.1).mp hq
  obtain ⟨r, hr, -, -, hc, -, -⟩ := ExecuteDivs_main m hw h0 hlt
  have h1 := divsPasses_le (absDivisor m.rydl) 15 ⟨absHi m.rxdh m.rxdl, absLo m.rxdh m.rxdl, 0⟩
  have h2 := divsPasses_ge (absDivisor m.rydl) 15 ⟨absHi m.rxdh m.rxdl, absLo m.rxdh m.rxdl, 0⟩
  have h3 : 5 ≤ divsFixPasses m.rxdh m.rydl ∧ divsFixPasses m.rxdh m.rydl ≤ 7 ∧
      (divsFixPasses m.rxdh m.rydl = 7 → 32768 ≤ m.rxdh) := by
    unfold divsFixPasses
    split_ifs <;> omega
  have e := cyclesSpent_of_eq m r _ hw.2.2.2.2.2.2.2.2.2.2.2.2
    (by split_ifs <;> omega) hc
  refine ⟨r, hr, ?_, ?_⟩ <;> rw [e] <;> split_ifs <;> omega

theorem ExecuteDivs_cycles_bounds_witness :
    (testInput 0x00008000 1).WF ∧ (testInput 0x00008000 1).rydl ≠ 0 ∧
    absQuotient (testInput 0x00008000 1) < 0x10000 ∧
    ∃ r, ExecuteDivs (testInput 0x00008000 1) = some r ∧
      120 ≤ cyclesSpent (testInput 0x00008000 1) r ∧
      cyclesSpent (testInput 0x00008000 1) r ≤ 156 :=
  ⟨by decide, by decide, by decide,
    ExecuteDivs_cycles_bounds (testInput 0x00008000 1) (by decide) (by decide) (by decide)⟩

/-! ## The two engines compared -/

/-- Claim C27. The two engines agree on non-negative operands: for every `rxdh`, `rxdl`,
`rydl` with bit 15 of `rxdh` clear, `1 ≤ rydl ≤ 0x7FFF` and `dividend / rydl ≤ 0x7FFF`,
`ExecuteDivs` and `ExecuteDivu` started from the same register file both return, with the
same `rxdh` (the remainder `dividend mod rydl`) and the same `rxdl` (the quotient
`dividend / rydl`). -/
theorem engines_agree (m : MC68000) (hw : m.WF) (hD : m.rxdh < 32768) (h1 : 1 ≤ m.rydl)
    (h2 : m.rydl ≤ 0x7FFF) (hq : dividend m / m.rydl ≤ 0x7FFF) :
    ∃ ru rs, ExecuteDivu m = some ru ∧ ExecuteDivs m = some rs ∧
      rs.rxdh = ru.rxdh ∧ rs.rxdl = ru.rxdl ∧
      ru.rxdl = dividend m / m.rydl ∧ ru.rxdh = dividend m % m.rydl := by
  have hl : m.rxdl < 65536 := hw.2.2.1
  have hD' : ¬ 32768 ≤ m.rxdh := by omega
  have hd' : ¬ 32768 ≤ m.rydl := by omega
  have eH : absHi m.rxdh m.rxdl = m.rxdh := by
    unfold absHi
    rw [if_neg hD']
  have eL : absLo m.rxdh m.rxdl = m.rxdl := by
    unfold absLo
    rw [if_neg hD']
  have eD : absDivisor m.rydl = m.rydl := by
    unfold absDivisor
    rw [if_neg hd']
  have hlt : m.rxdh < m.rydl :=
    (quot_lt_iff m.rxdh m.rxdl m.rydl hl (by omega)).mp
      (by unfold dividend at hq; omega)
  obtain ⟨ru, hu, -, uh, ul, -, -⟩ := ExecuteDivu_normal m hw (by omega) hlt
  obtain ⟨rs, hs, -, -, -, sh, sl⟩ := ExecuteDivs_main m hw (by omega)
    (by rw [eH, eD]; exact hlt)
  rw [eH, eL, eD] at sh sl
  have hno : ¬ divsOverflow m.rxdh m.rydl ((m.rxdh * 65536 + m.rxdl) / m.rydl) := by
    unfold divsOverflow
    rw [if_pos (by constructor <;> intro h <;> omega)]
    unfold dividend at hq
    omega
  rw [if_neg hno] at sh sl
  refine ⟨ru, rs, hu, hs, ?_, ?_, ul, uh⟩
  · rw [sh, uh]
    unfold divsRem
    rw [if_neg hD']
  · rw [sl, ul]
    unfold divsQuot
    rw [if_pos (by constructor <;> intro h <;> omega)]

theorem engines_agree_witness :
    (testInput 9911 605).WF ∧ (testInput 9911 605).rxdh < 32768 ∧
    1 ≤ (testInput 9911 605).rydl ∧ (testInput 9911 605).rydl ≤ 0x7FFF ∧
    dividend (testInput 9911 605) / (testInput 9911 605).rydl ≤ 0x7FFF ∧
    ∃ ru rs, ExecuteDivu (testInput 9911 605) = some ru ∧
      ExecuteDivs (testInput 9911 605) = some rs ∧
      rs.rxdh = ru.rxdh ∧ rs.rxdl = ru.rxdl ∧
      ru.rxdl = dividend (testInput 9911 605) / (testInput 9911 605).rydl ∧
      ru.rxdh = dividend (testInput 9911 605) % (testInput 9911 605).rydl :=
  ⟨by decide, by decide, by decide, by decide, by decide,
    engines_agree (testInput 9911 605) (by decide) (by decide) (by decide) (by decide)
      (by decide)⟩

end M68k
